import Mathlib

/-!
# Mailbox lifecycle core of neomutt (`mx.c`): a shallow embedding

The definitions below follow `src/mx.c` function by function.  C structures
become Lean structures, pointers to message headers become values that carry
their own address (`Header.addr`), the `hdrs` array is a list of slots that
may hold `NULL` (`none`), and every call that leaves the file (system calls,
prompts, backend operations) is answered by an oracle in `Env` that sees the
trace of events so far and is recorded in that trace.
-/

namespace Neomutt


/-! ## Mailbox kinds -/

/-- Modelled from the spec: the header `mx.h` is not among the sources; the
mailbox kinds form a closed enumeration of positive tags, distinct from `0`
(not a mailbox) and `-1` (error).  The numbering is that of the `enum` in
`mx.h`. -/
def MUTT_MBOX : Int := 1
/-- MMDF flat file kind. -/
def MUTT_MMDF : Int := 2
/-- MH directory kind. -/
def MUTT_MH : Int := 3
/-- Maildir directory kind. -/
def MUTT_MAILDIR : Int := 4
/-- NNTP newsgroup kind. -/
def MUTT_NNTP : Int := 5
/-- IMAP folder kind. -/
def MUTT_IMAP : Int := 6
/-- Notmuch virtual folder kind. -/
def MUTT_NOTMUCH : Int := 7
/-- POP kind. -/
def MUTT_POP : Int := 8
/-- Compressed mailbox kind. -/
def MUTT_COMPRESSED : Int := 9

/-! ## Data model -/

/-- The part of `struct Body` the core looks at: content-location metadata. -/
structure Body where
  offset : Int
  length : Int
  hdr_offset : Int
deriving DecidableEq, Repr

/-- The part of `struct Envelope` used for index maintenance. -/
structure Envelope where
  message_id : Option String
  real_subj : Option String
  supersedes : Option String
  x_label : Option String
deriving DecidableEq, Repr

/-- One message record (`struct Header`).  `addr` is the address of the C
object: `hdrs` stores pointers, and moving a pointer keeps the address. -/
structure Header where
  addr : Nat
  msgno : Int
  virtual : Int
  deleted : Bool
  read : Bool
  old : Bool
  flagged : Bool
  replied : Bool
  tagged : Bool
  purge : Bool
  changed : Bool
  active : Bool
  quasi_deleted : Bool
  superseded : Bool
  received : Int
  article_num : Nat
  content : Body
  env : Envelope
deriving DecidableEq, Repr

/-- A hash index of the session: keys with non-owning references (addresses)
to records. -/
abbrev Hash := List (String × Nat)

/-- The boolean options (`option(OPT...)`) the core consults. -/
structure Options where
  OPTMAILDIRTRASH : Bool
  OPTKEEPFLAGGED : Bool
  OPTMARKOLD : Bool
  OPTSAVEEMPTY : Bool
  OPTCHECKMBOXSIZE : Bool
  OPTNOCURSES : Bool
  OPTCONFIRMAPPEND : Bool
  OPTSCORE : Bool
  OPTFORCEREFRESH : Bool
  OPTSORTSUBTHREADS : Bool
  OPTNEEDRESCORE : Bool
deriving DecidableEq, Repr

/-- The mailbox session (`struct Context`).  `hdrs` and `v2r` are the two
arrays of capacity `hdrmax`; `mx_ops` names the operations table the session
dispatches through (`none` is the `NULL` pointer); `data` is the backend
private pointer (for NNTP the group data). -/
structure Context where
  path : Option String
  realpath : Option String
  magic : Int
  mx_ops : Option Int
  hdrs : List (Option Header)
  v2r : List Int
  hdrmax : Nat
  msgcount : Nat
  vcount : Nat
  vsize : Int
  size : Int
  tagged : Int
  new : Int
  unread : Int
  deleted : Int
  flagged : Int
  changed : Bool
  readonly : Bool
  dontwrite : Bool
  append : Bool
  quiet : Bool
  closing : Bool
  peekonly : Bool
  collapsed : Bool
  mtime : Int
  atime : Int
  msgnotreadyet : Int
  pattern : Option String
  limit_pattern : Bool
  subj_hash : Option Hash
  id_hash : Option Hash
  label_hash : Option Hash
  last_tag : Option Nat
  data : Option Nat
  fp : Bool
  rights : List Bool
deriving DecidableEq, Repr

/-! ## `mx_update_tables` -/

/-- Size contribution of a message: `length + offset - hdr_offset`. -/
def Body.span (b : Body) : Int := b.length + b.offset - b.hdr_offset

/-- The condition of the `if` in the loop of `mx_update_tables`. -/
def update_tables_keep (opts : Options) (magic : Int) (committing : Bool) (h : Header) : Bool :=
  !h.quasi_deleted &&
    ((committing && (!h.deleted || (magic == MUTT_MAILDIR && opts.OPTMAILDIRTRASH))) ||
      (!committing && h.active))

/-- `hash_delete (table, key, data, NULL)`: drop the entries under `key` that
refer to the record at address `data`. -/
def hash_delete (table : Hash) (key : String) (data : Nat) : Hash :=
  table.filter (fun e => !(e.1 == key && e.2 == data))

/-- Modelled from the spec: `mutt_label_hash_remove` is not among the sources;
it removes the label-index entries of the record. -/
def mutt_label_hash_remove (label_hash : Option Hash) (h : Header) : Option Hash :=
  match label_hash, h.env.x_label with
  | some t, some l => some (hash_delete t l h.addr)
  | lh, _ => lh

/-- First part of the `then` branch, once the pointer sits in slot `j`:
`msgno = j` and, for a record in view, the fresh `virtual` index, the `v2r`
entry and the visible size. -/
def update_tables_view (j : Nat) (h : Header) (ctx : Context) : Header × Context :=
  let h1 := { h with msgno := (j : Int) }
  if h1.virtual != -1 then
    ({ h1 with virtual := (ctx.vcount : Int) },
     { ctx with v2r := ctx.v2r.set ctx.vcount (j : Int),
                vcount := ctx.vcount + 1,
                vsize := ctx.vsize + h1.content.span })
  else (h1, ctx)

/-- Second part of the `then` branch: `if (committing) changed = false; else
if (changed) ctx->changed = true`. -/
def update_tables_changed (committing : Bool) (h : Header) (ctx : Context) : Header × Context :=
  if committing then ({ h with changed := false }, ctx)
  else if h.changed then (h, { ctx with changed := true })
  else (h, ctx)

/-- Third part of the `then` branch: the counters. -/
def update_tables_count (opts : Options) (committing : Bool) (h : Header) (ctx : Context) :
    Context :=
  let c4 :=
    if !committing || (ctx.magic == MUTT_MAILDIR && opts.OPTMAILDIRTRASH) then
      if h.deleted then { ctx with deleted := ctx.deleted + 1 } else ctx
    else ctx
  let c5 := if h.tagged then { c4 with tagged := c4.tagged + 1 } else c4
  let c6 := if h.flagged then { c5 with flagged := c5.flagged + 1 } else c5
  if !h.read then
    let c := { c6 with unread := c6.unread + 1 }
    if !h.old then { c with new := c.new + 1 } else c
  else c6

/-- The `then` branch of the loop body once the pointer sits in slot `j`:
renumber, re-admit into the view, and count. -/
def update_tables_kept (opts : Options) (committing : Bool) (j : Nat) (h : Header)
    (ctx : Context) : Header × Context :=
  let r1 := update_tables_view j h ctx
  let r2 := update_tables_changed committing r1.1 r1.2
  (r2.1, update_tables_count opts committing r2.1 r2.2)

/-- The `else` branch of the loop body, up to the release of the record:
on-disk size, hash indices, label index and `last_tag`. -/
def update_tables_dropped (h : Header) (ctx : Context) : Context :=
  let c1 :=
    if ctx.magic == MUTT_MH || ctx.magic == MUTT_MAILDIR then
      { ctx with size := ctx.size - h.content.span }
    else ctx
  let c2 :=
    match c1.subj_hash, h.env.real_subj with
    | some t, some s => { c1 with subj_hash := some (hash_delete t s h.addr) }
    | _, _ => c1
  let c3 :=
    match c2.id_hash, h.env.message_id with
    | some t, some m => { c2 with id_hash := some (hash_delete t m h.addr) }
    | _, _ => c2
  let c4 := { c3 with label_hash := mutt_label_hash_remove c3.label_hash h }
  if c4.last_tag == some h.addr then { c4 with last_tag := none } else c4

/-- The `for (i = 0, j = 0; i < ctx->msgcount; i++)` loop of
`mx_update_tables`, with `n` iterations left.  The array `hdrs` is threaded
next to the rest of the session and stored back by `mx_update_tables`.
Reading an empty or missing slot (a `NULL` dereference) and writing past the
end of `v2r` give `none`. -/
def update_tables_loop (opts : Options) (committing : Bool) :
    Nat → Nat → Nat → List (Option Header) → Context →
      Option (Nat × List (Option Header) × Context)
  | 0, _, j, hdrs, ctx => some (j, hdrs, ctx)
  | n + 1, i, j, hdrs, ctx =>
    match hdrs.get? i with
    | some (some h) =>
      if update_tables_keep opts ctx.magic committing h then
        let hdrs1 := if i != j then (hdrs.set j (some h)).set i none else hdrs
        if h.virtual != -1 && decide (ctx.v2r.length ≤ ctx.vcount) then none
        else
          let r := update_tables_kept opts committing j h ctx
          update_tables_loop opts committing n (i + 1) (j + 1) (hdrs1.set j (some r.1)) r.2
      else
        update_tables_loop opts committing n (i + 1) j (hdrs.set i none)
          (update_tables_dropped h ctx)
    | _ => none

/-- `mx_update_tables (ctx, committing)`: update a Context structure's
internal tables. -/
def mx_update_tables (opts : Options) (ctx : Context) (committing : Bool) : Option Context :=
  let c0 := { ctx with vcount := 0, vsize := 0, tagged := 0, deleted := 0, new := 0,
                       unread := 0, changed := false, flagged := 0 }
  match update_tables_loop opts committing c0.msgcount 0 0 c0.hdrs c0 with
  | none => none
  | some (j, hdrs, c1) => some { c1 with hdrs := hdrs, msgcount := j }

/-! ### Functional reading of the loop -/

/-- The records in storage order, `hdrs[0..msgcount)`, skipping empty slots. -/
def Context.records (ctx : Context) : List Header :=
  (ctx.hdrs.take ctx.msgcount).filterMap id

/-- The allocation invariant of a session: the first `msgcount` slots of
`hdrs` hold records, and `v2r` has room for `msgcount` entries. -/
def Context.WF (ctx : Context) : Prop :=
  ctx.hdrs.take ctx.msgcount = ctx.records.map some ∧
  ctx.records.length = ctx.msgcount ∧ ctx.msgcount ≤ ctx.v2r.length

instance (ctx : Context) : Decidable ctx.WF := by
  unfold Context.WF; infer_instance

/-- The loop seen on the list of records still to visit: the records kept
(renumbered) and the session after the visit. -/
def update_tables_run (opts : Options) (committing : Bool) :
    List Header → Nat → Context → Option (List Header × Context)
  | [], _, ctx => some ([], ctx)
  | h :: rest, j, ctx =>
    if update_tables_keep opts ctx.magic committing h then
      if h.virtual != -1 && decide (ctx.v2r.length ≤ ctx.vcount) then none
      else
        let r := update_tables_kept opts committing j h ctx
        match update_tables_run opts committing rest (j + 1) r.2 with
        | none => none
        | some (out, c) => some (r.1 :: out, c)
    else update_tables_run opts committing rest j (update_tables_dropped h ctx)

/-- The numbering the pass gives to the kept records `K`, starting at storage
index `j` and visible index `vc`. -/
def renumber (committing : Bool) : Nat → Nat → List Header → List Header
  | _, _, [] => []
  | j, vc, h :: t =>
    { h with msgno := (j : Int),
             virtual := if h.virtual != -1 then (vc : Int) else h.virtual,
             changed := if committing then false else h.changed } ::
      renumber committing (j + 1) (vc + (if h.virtual != -1 then 1 else 0)) t

/-- The writes the pass makes into `v2r` for the kept records `K`. -/
def v2r_fill : List Int → Nat → Nat → List Header → List Int
  | v, _, _, [] => v
  | v, j, vc, h :: t =>
    if h.virtual != -1 then v2r_fill (v.set vc (j : Int)) (j + 1) (vc + 1) t
    else v2r_fill v (j + 1) vc t

/-- Visible size of the records in view. -/
def visible_size (K : List Header) : Int :=
  (K.map (fun h => if h.virtual != -1 then h.content.span else 0)).sum

/-- Reading `v2r[i]` for a C `int` index: defined for `0 ≤ i < length`. -/
def v2r_at (v2r : List Int) (i : Int) : Option Int :=
  if 0 ≤ i then v2r.get? i.toNat else none

/-- Two records are the same message: they agree on everything the pass does
not renumber (all fields but `msgno`, `virtual` and `changed`). -/
def same_message (h' h : Header) : Prop :=
  h' = { h with msgno := h'.msgno, virtual := h'.virtual, changed := h'.changed }

/-- The session fields the kept records determine. -/
structure RunFacts (opts : Options) (committing : Bool) (K : List Header) (j : Nat)
    (ctx c : Context) : Prop where
  magic : c.magic = ctx.magic
  v2r : c.v2r = v2r_fill ctx.v2r j ctx.vcount K
  vcount : c.vcount = ctx.vcount + K.countP (fun h => h.virtual != -1)
  vsize : c.vsize = ctx.vsize + visible_size K
  changed : c.changed = (ctx.changed || (!committing && K.any (fun h => h.changed)))
  deleted : c.deleted = ctx.deleted +
    (K.countP (fun h => (!committing || (ctx.magic == MUTT_MAILDIR && opts.OPTMAILDIRTRASH)) &&
      h.deleted) : Nat)
  tagged : c.tagged = ctx.tagged + (K.countP (fun h => h.tagged) : Nat)
  flagged : c.flagged = ctx.flagged + (K.countP (fun h => h.flagged) : Nat)
  unread : c.unread = ctx.unread + (K.countP (fun h => !h.read) : Nat)
  new : c.new = ctx.new + (K.countP (fun h => !h.read && !h.old) : Nat)

/-- The records the pass keeps. -/
def Context.kept (opts : Options) (ctx : Context) (committing : Bool) : List Header :=
  ctx.records.filter (update_tables_keep opts ctx.magic committing)

/-- The outcome of `mx_update_tables` on a well-formed session. -/
structure TablesResult (opts : Options) (ctx : Context) (committing : Bool) (c : Context) :
    Prop where
  hdrs : c.hdrs = (renumber committing 0 0 (ctx.kept opts committing)).map some ++
    List.replicate (ctx.msgcount - (ctx.kept opts committing).length) none ++
    ctx.hdrs.drop ctx.msgcount
  msgcount : c.msgcount = (ctx.kept opts committing).length
  records : c.records = renumber committing 0 0 (ctx.kept opts committing)
  magic : c.magic = ctx.magic
  v2r : c.v2r = v2r_fill ctx.v2r 0 0 (ctx.kept opts committing)
  vcount : c.vcount = (ctx.kept opts committing).countP (fun h => h.virtual != -1)
  vsize : c.vsize = visible_size (ctx.kept opts committing)
  changed : c.changed = (!committing && (ctx.kept opts committing).any (fun h => h.changed))
  deleted : c.deleted = ((ctx.kept opts committing).countP
    (fun h => (!committing || (ctx.magic == MUTT_MAILDIR && opts.OPTMAILDIRTRASH)) &&
      h.deleted) : Nat)
  tagged : c.tagged = ((ctx.kept opts committing).countP (fun h => h.tagged) : Nat)
  flagged : c.flagged = ((ctx.kept opts committing).countP (fun h => h.flagged) : Nat)
  unread : c.unread = ((ctx.kept opts committing).countP (fun h => !h.read) : Nat)
  new : c.new = ((ctx.kept opts committing).countP (fun h => !h.read && !h.old) : Nat)
  wf : c.WF

/-! ### Example sessions -/

/-- A record with every flag clear, in view at position 0. -/
def ex_hdr : Header :=
  { addr := 0, msgno := 0, virtual := 0, deleted := false, read := false, old := false,
    flagged := false, replied := false, tagged := false, purge := false, changed := false,
    active := true, quasi_deleted := false, superseded := false, received := 0,
    article_num := 0, content := { offset := 0, length := 10, hdr_offset := 0 },
    env := { message_id := none, real_subj := none, supersedes := none, x_label := none } }

/-- Every option off. -/
def ex_opts : Options :=
  { OPTMAILDIRTRASH := false, OPTKEEPFLAGGED := false, OPTMARKOLD := false,
    OPTSAVEEMPTY := false, OPTCHECKMBOXSIZE := false, OPTNOCURSES := false,
    OPTCONFIRMAPPEND := false, OPTSCORE := false, OPTFORCEREFRESH := false,
    OPTSORTSUBTHREADS := false, OPTNEEDRESCORE := false }

/-- A zeroed session (`memset (ctx, 0, sizeof (struct Context))`). -/
def Context.zero : Context :=
  { path := none, realpath := none, magic := 0, mx_ops := none, hdrs := [], v2r := [],
    hdrmax := 0, msgcount := 0, vcount := 0, vsize := 0, size := 0, tagged := 0, new := 0,
    unread := 0, deleted := 0, flagged := 0, changed := false, readonly := false,
    dontwrite := false, append := false, quiet := false, closing := false, peekonly := false,
    collapsed := false, mtime := 0, atime := 0, msgnotreadyet := 0, pattern := none,
    limit_pattern := false, subj_hash := none, id_hash := none, label_hash := none,
    last_tag := none, data := none, fp := false, rights := [] }

/-- An mbox session with three records, the second deleted and inactive, the
third read and flagged, and stale counters. -/
def ex_ctx : Context :=
  { Context.zero with
    path := some "/tmp/mbox", magic := MUTT_MBOX, mx_ops := some MUTT_MBOX,
    hdrs := [some { ex_hdr with addr := 1, changed := true },
             some { ex_hdr with addr := 2, msgno := 1, virtual := 1, deleted := true,
                                active := false },
             some { ex_hdr with addr := 3, msgno := 2, virtual := 2, read := true,
                                flagged := true },
             none],
    v2r := [0, 1, 2, -1], hdrmax := 4, msgcount := 3, vcount := 3, vsize := 30,
    deleted := 7, unread := 9, flagged := 5 }

/-- A session whose only record is filtered out of the view (`virtual == -1`). -/
def ex_hidden_ctx : Context :=
  { Context.zero with
    path := some "/tmp/mbox", magic := MUTT_MBOX, mx_ops := some MUTT_MBOX,
    hdrs := [some { ex_hdr with addr := 1, virtual := -1 }],
    v2r := [-1], hdrmax := 1, msgcount := 1 }

/-! ## Build configuration, events and the world outside the core -/

/-- The compile-time configuration: the `USE_*` switches of `config.h` and the
constants of headers that are not among the sources (`MAXLOCKATTEMPT` and
`RIGHTSMAX` from `mutt.h`, `_POSIX_PATH_MAX` from `limits.h`). -/
structure Build where
  USE_FCNTL : Bool
  USE_FLOCK : Bool
  USE_DOTLOCK : Bool
  USE_IMAP : Bool
  USE_POP : Bool
  USE_NNTP : Bool
  USE_NOTMUCH : Bool
  USE_COMPRESSED : Bool
  USE_SIDEBAR : Bool
  MAXLOCKATTEMPT : Int
  POSIX_PATH_MAX : Nat
  RIGHTSMAX : Nat
deriving DecidableEq, Repr

/-- The values of the `errno` constants the core tests. -/
structure Errnos where
  EAGAIN : Int
  EACCES : Int
  EWOULDBLOCK : Int
  ENOENT : Int
  EINVAL : Int
deriving DecidableEq, Repr

/-- The two kernel locks of `mx_lock_file`. -/
inductive LockKind where
  | fcntl
  | flock
deriving DecidableEq, Repr

/-- The `DL_FL_*` flags handed to the dotlock helper. -/
structure DotlockFlags where
  DL_FL_TRY : Bool
  DL_FL_UNLOCK : Bool
  DL_FL_USEPRIV : Bool
  DL_FL_FORCE : Bool
  DL_FL_RETRY : Bool
  DL_FL_UNLINK : Bool
deriving DecidableEq, Repr

/-- The quad-options the close pipeline asks about. -/
inductive QuadOpt where
  | OPT_CATCHUP
  | OPT_MOVE
  | OPT_DELETE
deriving DecidableEq, Repr

/-- The message flags `mutt_set_flag` is called with by the core. -/
inductive MsgFlag where
  | MUTT_READ
  | MUTT_OLD
  | MUTT_DELETE
  | MUTT_PURGE
deriving DecidableEq, Repr

/-- Everything the core does to the outside, in the order it happens. -/
inductive Event where
  | stat (path : String)
  | lstat (path : String)
  | is_maildir (path : String)
  | is_mh (path : String)
  | fopen (path : String)
  | utime (path : String) (actime modtime : Int)
  | comp_can_read (path : String)
  | comp_can_append (path : String)
  | realpath (path : String)
  | setlk (kind : LockKind) (excl : Bool)
  | unlock (kind : LockKind)
  | fstat
  | sleep (seconds : Nat)
  | dotlock (path : String) (flags : DotlockFlags) (retry : Int)
  | message (text : String) (args : List Int)
  | error (text : String)
  | clear_error
  | yesorno (text : String)
  | query_quadoption (opt : QuadOpt) (text : String)
  | buffy_setnotified (path : Option String)
  | make_label_hash
  | ops_open (table : Int)
  | ops_open_append (table : Int)
  | ops_close (table : Int)
  | ops_sync (table : Int)
  | ops_check (table : Int)
  | sort_headers
  | set_flag (addr : Nat) (flag : MsgFlag) (bf : Bool)
  | newsgroup_catchup (group : String)
  | append_message (addr : Nat) (chflags : Nat)
  | imap_copy_messages (dest : String)
  | imap_sync_mailbox (expunge : Int)
  | imap_fast_trash (dest : String)
  | save_confirm (path : String)
  | mbox_reset_atime
  | open_rdwr (path : String)
  | close_fd
  | unlink (path : String)
  | sb_set_buffystats (msgcount unread flagged : Int)
  | ops_open_msg (table : Int) (msgno : Int)
  | ops_open_new_msg (table : Int)
  | ops_commit_msg (table : Int)
  | ops_close_msg (table : Int)
  | time
  | fputs (text : String)
  | fprintf (text : String) (args : List Int)
deriving DecidableEq, Repr

/-- The world outside the session: the trace of events so far and the
sub-locks this process holds on the mailbox file. -/
structure World where
  trace : List Event
  fcntl_held : Bool
  flock_held : Bool
  dot_held : Bool
deriving DecidableEq, Repr

/-- Record an event. -/
def World.log (w : World) (e : Event) : World :=
  { w with trace := w.trace ++ [e] }

/-- A kernel lock request that succeeded: the lock is held. -/
def World.hold (w : World) : LockKind → World
  | .fcntl => { w with fcntl_held := true }
  | .flock => { w with flock_held := true }

/-- `fcntl (fd, F_SETLK, F_UNLCK)` and `flock (fd, LOCK_UN)`: the kernel drops
the lock of this process on the file, if any. -/
def World.release (w : World) (k : LockKind) : World :=
  match k with
  | .fcntl => { (w.log (Event.unlock k)) with fcntl_held := false }
  | .flock => { (w.log (Event.unlock k)) with flock_held := false }

/-! ## Locking service: `invoke_dotlock`, `dotlock_file`, `mx_lock_file` -/

/-- Modelled from the spec: `dotlock.h` is not among the sources; exit code of
the dotlock helper for success. -/
def DL_EX_OK : Int := 0
/-- Modelled from the spec: `dotlock.h` is not among the sources; exit code of
the dotlock helper when the lock file exists and the lock count is exceeded. -/
def DL_EX_EXIST : Int := 3

/-- One iteration's worth of answers of the kernel to a lock request: the
return value and `errno` of `fcntl`/`flock`, and what `fstat` reports if it is
called afterwards. -/
structure Poll where
  rc : Int
  errno : Int
  fstat_rc : Int
  st_size : Int
deriving DecidableEq, Repr

/-- The size the loop reads after a failed request: `if (fstat (fd, &sb) != 0)
sb.st_size = 0`. -/
def Poll.size (p : Poll) : Int := if p.fstat_rc != 0 then 0 else p.st_size

/-- What the environment does during one call of `mx_lock_file`: the answers
to the successive `fcntl` requests, to the successive `flock` requests, the
exit codes of the successive runs of the dotlock helper, and the answer to
the "remove lock?" question. -/
structure LockScript where
  fcntl : List Poll
  flock : List Poll
  dotlock : List Int
  yesorno : Int
deriving DecidableEq, Repr

/-- Answers of `mutt_yesorno` and the quad-option queries. -/
def MUTT_ABORT : Int := -1
/-- Answer "no". -/
def MUTT_NO : Int := 0
/-- Answer "yes". -/
def MUTT_YES : Int := 1

/-- How a waiting loop of `mx_lock_file` ends. -/
inductive LockExit where
  | acquired
  | hard_error
  | timed_out
deriving DecidableEq, Repr

/-- The `errno` test of the loop: for `fcntl`, `errno != EAGAIN && errno !=
EACCES`; for `flock`, `errno != EWOULDBLOCK`. -/
def lock_errno_fatal (E : Errnos) (k : LockKind) (errno : Int) : Bool :=
  match k with
  | .fcntl => errno != E.EAGAIN && errno != E.EACCES
  | .flock => errno != E.EWOULDBLOCK

/-- The text of the timeout error of a waiting loop. -/
def lock_timeout_text : LockKind → String
  | .fcntl => "Timeout exceeded while attempting fcntl lock!"
  | .flock => "Timeout exceeded while attempting flock lock!"

/-- The text of the progress message of a waiting loop. -/
def lock_waiting_text : LockKind → String
  | .fcntl => "Waiting for fcntl lock... %d"
  | .flock => "Waiting for flock attempt... %d"

/-- The argument of `mutt_perror` in a waiting loop. -/
def lock_perror_text : LockKind → String
  | .fcntl => "fcntl"
  | .flock => "flock"

/-- The two `while` loops of `mx_lock_file` (`while (fcntl (fd, F_SETLK, &lck)
== -1)` and `while (flock (fd, ... | LOCK_NB) == -1)`), which differ in the
system call, the `errno` test and the texts only.  `count`, `attempt` and
`prev` (`prev_sb.st_size`) are the loop variables; `none` means that the
answers ran out while the loop was still waiting. -/
def lock_wait_loop (b : Build) (E : Errnos) (k : LockKind) (excl timeout : Bool) :
    List Poll → Nat → Nat → Int → World → Option (LockExit × Nat × World)
  | [], _, _, _, _ => none
  | p :: ps, count, attempt, prev, w =>
    let w1 := w.log (Event.setlk k excl)
    if p.rc != -1 then some (LockExit.acquired, count, w1.hold k)
    else if lock_errno_fatal E k p.errno then
      some (LockExit.hard_error, count,
        w1.log (Event.error (lock_perror_text k)))
    else
      let w2 := w1.log Event.fstat
      let size : Int := p.size
      let prev1 : Int := if count == 0 then size else prev
      if prev1 == size then
        if decide (((count + 1 : Nat) : Int) ≥ (if timeout then b.MAXLOCKATTEMPT else 0)) then
          let w3 := if timeout then
              w2.log (Event.error (lock_timeout_text k))
            else w2
          some (LockExit.timed_out, count + 1, w3)
        else
          let w3 := w2.log (Event.message (lock_waiting_text k) [((attempt + 1 : Nat) : Int)])
          lock_wait_loop b E k excl timeout ps (count + 1) (attempt + 1) size
            (w3.log (Event.sleep 1))
      else
        let w3 := w2.log (Event.message (lock_waiting_text k) [((attempt + 1 : Nat) : Int)])
        lock_wait_loop b E k excl timeout ps count (attempt + 1) size (w3.log (Event.sleep 1))

/-- `invoke_dotlock (path, fd, flags, retry)`: run the dotlock helper; `code`
is its exit status.  A successful run without `-u` and `-d` leaves the dot
lock held, a successful run with `-u` drops it. -/
def invoke_dotlock (path : String) (flags : DotlockFlags) (retry : Int) (code : Int)
    (w : World) : Int × World :=
  let w1 := w.log (Event.dotlock path flags retry)
  if code == DL_EX_OK then
    if flags.DL_FL_UNLOCK then (code, { w1 with dot_held := false })
    else if flags.DL_FL_UNLINK then (code, w1)
    else (code, { w1 with dot_held := true })
  else (code, w1)

/-- The body of `dotlock_file` from the label `retry_lock` on; the `goto` is
the recursive call.  `none` means that the exit codes of the helper ran out. -/
def dotlock_retry_lock (opts : Options) (path : String) (yesorno : Int) :
    List Int → DotlockFlags → Int → World → Option (Int × World)
  | [], _, _, _ => none
  | c :: rest, flags, retry, w =>
    let r := invoke_dotlock path flags retry c w
    if r.1 == DL_EX_EXIST then
      if !opts.OPTNOCURSES then
        if retry != 0 then
          let w2 := r.2.log (Event.yesorno "Lock count exceeded, remove lock for %s?")
          if yesorno == MUTT_YES then
            dotlock_retry_lock opts path yesorno rest { flags with DL_FL_FORCE := true }
              (retry - 1) (w2.log Event.clear_error)
          else some (if r.1 == DL_EX_OK then 0 else -1, w2)
        else some (if r.1 == DL_EX_OK then 0 else -1, r.2)
      else
        some (if r.1 == DL_EX_OK then 0 else -1, r.2.log (Event.error "Can't dotlock %s.\n"))
    else some (if r.1 == DL_EX_OK then 0 else -1, r.2)

/-- `dotlock_file (path, fd, retry)`. -/
def dotlock_file (opts : Options) (path : String) (retry : Bool) (codes : List Int)
    (yesorno : Int) (w : World) : Option (Int × World) :=
  dotlock_retry_lock opts path yesorno codes
    { DL_FL_TRY := false, DL_FL_UNLOCK := false, DL_FL_USEPRIV := true, DL_FL_FORCE := false,
      DL_FL_RETRY := true, DL_FL_UNLINK := false }
    (if retry then 1 else 0) w

/-- `undotlock_file (path, fd)`. -/
def undotlock_file (path : String) (code : Int) (w : World) : Int × World :=
  let r := invoke_dotlock path
    { DL_FL_TRY := false, DL_FL_UNLOCK := true, DL_FL_USEPRIV := true, DL_FL_FORCE := false,
      DL_FL_RETRY := false, DL_FL_UNLINK := false } 0 code w
  (if r.1 == DL_EX_OK then 0 else -1, r.2)

/-- The `#ifdef USE_FCNTL` block of `mx_lock_file`.  `some (some r, w)`: the
function returned `r` from inside the block; `some (none, w)`: control goes on
to the next block. -/
def lock_fcntl_block (b : Build) (E : Errnos) (s : LockScript) (excl timeout : Bool)
    (w : World) : Option (Option Int × World) :=
  if b.USE_FCNTL then
    match lock_wait_loop b E LockKind.fcntl excl timeout s.fcntl 0 0 0 w with
    | none => none
    | some (LockExit.acquired, _, w1) => some (none, w1)
    | some (_, _, w1) => some (some (-1), w1)
  else some (none, w)

/-- The `#ifdef USE_FLOCK` block of `mx_lock_file`: the value of `r` after it
(`r = -1; break` on failure). -/
def lock_flock_block (b : Build) (E : Errnos) (s : LockScript) (excl timeout : Bool)
    (w : World) : Option (Int × World) :=
  if b.USE_FLOCK then
    match lock_wait_loop b E LockKind.flock excl timeout s.flock 0 0 0 w with
    | none => none
    | some (LockExit.acquired, _, w1) => some (0, w1)
    | some (_, _, w1) => some (-1, w1)
  else some (0, w)

/-- The `#ifdef USE_DOTLOCK` block of `mx_lock_file`: `if (r == 0 && dot) r =
dotlock_file (path, fd, timeout)`. -/
def lock_dot_block (b : Build) (opts : Options) (s : LockScript) (path : String)
    (dot timeout : Bool) (r : Int) (w : World) : Option (Int × World) :=
  if b.USE_DOTLOCK && r == 0 && dot then dotlock_file opts path timeout s.dotlock s.yesorno w
  else some (r, w)

/-- The last block of `mx_lock_file`: `if (r != 0)` release any other locks
obtained in the routine. -/
def lock_release_block (b : Build) (r : Int) (w : World) : World :=
  if r != 0 then
    let w1 := if b.USE_FCNTL then w.release LockKind.fcntl else w
    if b.USE_FLOCK then w1.release LockKind.flock else w1
  else w

/-- `mx_lock_file (path, fd, excl, dot, timeout)`.  `none` means that the
answers of the environment ran out while a loop was still waiting. -/
def mx_lock_file (b : Build) (E : Errnos) (opts : Options) (s : LockScript) (path : String)
    (excl dot timeout : Bool) (w : World) : Option (Int × World) :=
  match lock_fcntl_block b E s excl timeout w with
  | none => none
  | some (some r, w1) => some (r, w1)
  | some (none, w1) =>
    match lock_flock_block b E s excl timeout w1 with
    | none => none
    | some (r2, w2) =>
      match lock_dot_block b opts s path dot timeout r2 w2 with
      | none => none
      | some (r3, w3) => some (r3, lock_release_block b r3 w3)

/-- `mx_unlock_file (path, fd, dot)`; `code` is the exit status of the dotlock
helper if it is run. -/
def mx_unlock_file (b : Build) (path : String) (dot : Bool) (code : Int) (w : World) :
    Int × World :=
  let w1 := if b.USE_FCNTL then w.release LockKind.fcntl else w
  let w2 := if b.USE_FLOCK then w1.release LockKind.flock else w1
  let w3 := if b.USE_DOTLOCK && dot then (undotlock_file path code w2).2 else w2
  (0, w3)

/-- The number of polls whose size equals the size of the poll before; the
first poll of a loop counts (`if (count == 0) prev_sb = sb`). -/
def unchanged_polls : Option Int → List Int → Nat
  | _, [] => 0
  | none, s :: t => 1 + unchanged_polls (some s) t
  | some p, s :: t => (if p = s then 1 else 0) + unchanged_polls (some s) t

/-- The contention counter as the specification words it: it counts the
contended polls and is reset whenever the file size differs from the previous
poll. -/
def reset_counter : Option Int → Nat → List Int → Nat
  | _, c, [] => c
  | none, c, s :: t => reset_counter (some s) (c + 1) t
  | some p, c, s :: t =>
    if p = s then reset_counter (some s) (c + 1) t else reset_counter (some s) 0 t

/-- A build with every feature compiled in. -/
def ex_build : Build :=
  { USE_FCNTL := true, USE_FLOCK := true, USE_DOTLOCK := true, USE_IMAP := true,
    USE_POP := true, USE_NNTP := true, USE_NOTMUCH := true, USE_COMPRESSED := true,
    USE_SIDEBAR := true, MAXLOCKATTEMPT := 5, POSIX_PATH_MAX := 256, RIGHTSMAX := 11 }

/-- The Linux values of the `errno` constants. -/
def ex_errnos : Errnos :=
  { EAGAIN := 11, EACCES := 13, EWOULDBLOCK := 11, ENOENT := 2, EINVAL := 22 }

/-- A world with an empty trace and no lock held. -/
def ex_world : World :=
  { trace := [], fcntl_held := false, flock_held := false, dot_held := false }

/-- A contended poll (`EAGAIN`) that sees a file of the given size. -/
def ex_busy (size : Int) : Poll := { rc := -1, errno := 11, fstat_rc := 0, st_size := size }

/-- A granted lock request. -/
def ex_granted : Poll := { rc := 0, errno := 0, fstat_rc := 0, st_size := 0 }

/-- A competing writer that grows the file once: three polls at size 10, then
three at size 20. -/
def ex_growing : List Poll :=
  [ex_busy 10, ex_busy 10, ex_busy 10, ex_busy 20, ex_busy 20, ex_busy 20]

/-- Both kernel locks are granted at once, the dotlock helper fails. -/
def ex_dotlock_fails : LockScript :=
  { fcntl := [ex_granted], flock := [ex_granted], dotlock := [1], yesorno := 1 }

/-- The outcome of `mx_lock_file` on `ex_dotlock_fails`. -/
def ex_dotlock_failed : Int × World :=
  (mx_lock_file ex_build ex_errnos ex_opts ex_dotlock_fails "/tmp/mbox" true true true
    ex_world).getD (0, ex_world)

/-- A poll that finds the lock taken by another holder: the request fails with
an `errno` the loop goes on waiting for. -/
def Poll.contended (E : Errnos) (k : LockKind) (p : Poll) : Prop :=
  p.rc = -1 ∧ lock_errno_fatal E k p.errno = false

instance (E : Errnos) (k : LockKind) (p : Poll) : Decidable (p.contended E k) := by
  unfold Poll.contended; infer_instance

/-! ## Collaborators: backends, configuration, news server -/

/-- Modelled from the spec: `url.h` is not among the sources; the URL schemes
`url_check_scheme` can report. -/
inductive url_scheme_t where
  | U_FILE
  | U_POP
  | U_POPS
  | U_IMAP
  | U_IMAPS
  | U_NNTP
  | U_NNTPS
  | U_SMTP
  | U_SMTPS
  | U_MAILTO
  | U_NOTMUCH
  | U_UNKNOWN
deriving DecidableEq, Repr

/-- The fields of `struct stat` the core reads. -/
structure Stat where
  is_dir : Bool
  st_size : Int
  st_atime : Int
  st_mtime : Int
  st_ino : Nat
  st_dev : Nat
  st_rdev : Nat
deriving DecidableEq, Repr

/-- The `flags` argument of `mx_open_mailbox`, one field per `MUTT_*` bit. -/
structure OpenFlags where
  MUTT_NOSORT : Bool
  MUTT_APPEND : Bool
  MUTT_READONLY : Bool
  MUTT_QUIET : Bool
  MUTT_NEWFOLDER : Bool
  MUTT_PEEK : Bool
  MUTT_APPENDNEW : Bool
deriving DecidableEq, Repr

/-- An open message handle (`struct Message`). -/
structure Message where
  fp : Bool
  path : Option String
  commited_path : Option String
  write : Bool
  flag_read : Bool
  flag_flagged : Bool
  flag_replied : Bool
  flag_draft : Bool
  received : Int
deriving DecidableEq, Repr

/-- The operations table of one backend (`struct MxOps`); `none` is a `NULL`
function pointer (`open_` is the member `open`).  An operation sees the trace so far and returns its result
code and the session as it leaves it. -/
structure MxOps where
  open_ : Option (List Event → Context → Int × Context)
  open_append : Option (List Event → Context → OpenFlags → Int × Context)
  close : Option (List Event → Context → Int × Context)
  check : Option (List Event → Context → Int × Context)
  sync : Option (List Event → Context → Int × Context)
  open_msg : Option (List Event → Context → Int → Int × Message)
  close_msg : Option (List Event → Context → Message → Int)
  commit_msg : Option (List Event → Context → Message → Int)
  open_new_msg : Option (List Event → Context → Message → Option Header → Int × Message)

/-- One range of read articles of a `.newsrc` line. -/
structure NewsrcEntry where
  first : Nat
  last : Nat
deriving DecidableEq, Repr

/-- The per-group data of the news backend (`struct NntpData`); `addr` is the
address of the object, `nserv` tells whether its server pointer is set. -/
structure NntpData where
  addr : Nat
  group : Option String
  nserv : Bool
  newsrc_ent : Option (List NewsrcEntry)
  newsrc_len : Nat
  firstMessage : Nat
  lastMessage : Nat
  lastLoaded : Nat
  lastCached : Nat
  unread : Nat
  subscribed : Bool
deriving DecidableEq, Repr

/-- The news server (`struct NntpServer`): its hash of groups, keyed by the
group name. -/
structure NntpServer where
  groups_hash : Option (List NntpData)
deriving DecidableEq, Repr

/-- The global `Context` pointer: `NULL`, the session the core is working on,
or another session. -/
inductive CurrentMailbox where
  | null
  | this
  | other (c : Context)
deriving DecidableEq, Repr

/-- The global variables the core reads and writes. -/
structure Globals where
  opts : Options
  DefaultMagic : Int
  TrashPath : Option String
  Spoolfile : Option String
  Inbox : Option String
  Context : CurrentMailbox
  news : NntpServer
deriving DecidableEq, Repr

/-- The collaborators of the core that are not among the sources, as oracles:
each sees the trace of events so far (the state of the outside world at the
time of the call) and its arguments. -/
structure Env where
  errnos : Errnos
  url_check_scheme : String → url_scheme_t
  stat : List Event → String → Except Int Stat
  lstat : List Event → String → Except Int Stat
  mx_is_maildir : List Event → String → Bool
  mx_is_mh : List Event → String → Bool
  fopen_r : List Event → String → Option (List Char)
  mutt_comp_can_read : List Event → String → Bool
  mutt_comp_can_append : List Event → Context → Bool
  realpath : List Event → String → Option String
  ops : Int → MxOps
  mutt_sort_headers : List Event → Context → Context
  query_quadoption : List Event → QuadOpt → Int
  quadoption : QuadOpt → Int
  mutt_find_hook : String → Option String
  mutt_expand_path : String → String
  mutt_set_flag : Context → Header → MsgFlag → Bool → Header × Context
  imap_copy_messages : List Event → Context → String → Int × Context
  imap_sync_mailbox : List Event → Context → Int → Int × Context
  imap_fast_trash : List Event → String → Int
  mutt_save_confirm : List Event → String → Int × Stat
  mutt_append_message : List Event → Context → Context → Header → Int × Context
  open_rdwr : List Event → String → Bool
  lock_script : List Event → String → LockScript
  dotlock_code : List Event → Int
  fstat_size : List Event → Option Int

/-! ## Format detector: `mx_is_*`, `mx_get_magic`, `mx_set_magic` -/

/-- `mx_is_imap (p)`. -/
def mx_is_imap (env : Env) (p : Option String) : Bool :=
  match p with
  | none => false
  | some s =>
    if s.toList.head? == some '\x7b' then true
    else
      let scheme := env.url_check_scheme s
      if scheme == url_scheme_t.U_IMAP || scheme == url_scheme_t.U_IMAPS then true else false

/-- `mx_is_pop (p)`. -/
def mx_is_pop (env : Env) (p : Option String) : Bool :=
  match p with
  | none => false
  | some s =>
    let scheme := env.url_check_scheme s
    if scheme == url_scheme_t.U_POP || scheme == url_scheme_t.U_POPS then true else false

/-- `mx_is_nntp (p)`. -/
def mx_is_nntp (env : Env) (p : Option String) : Bool :=
  match p with
  | none => false
  | some s =>
    let scheme := env.url_check_scheme s
    if scheme == url_scheme_t.U_NNTP || scheme == url_scheme_t.U_NNTPS then true else false

/-- `mx_is_notmuch (p)`. -/
def mx_is_notmuch (env : Env) (p : Option String) : Bool :=
  match p with
  | none => false
  | some s =>
    let scheme := env.url_check_scheme s
    if scheme == url_scheme_t.U_NOTMUCH then true else false

/-- The four `#ifdef` blocks at the head of `mx_get_magic`: the remote kinds,
decided from the path alone.  `none`: control goes on to `stat`. -/
def mx_get_magic_remote (b : Build) (env : Env) (path : String) : Option Int :=
  if b.USE_IMAP && mx_is_imap env (some path) then some MUTT_IMAP
  else if b.USE_POP && mx_is_pop env (some path) then some MUTT_POP
  else if b.USE_NNTP && mx_is_nntp env (some path) then some MUTT_NNTP
  else if b.USE_NOTMUCH && mx_is_notmuch env (some path) then some MUTT_NOTMUCH
  else none

/-- Modelled from the spec: `mailbox.h` is not among the sources; the fixed
MMDF separator line. -/
def MMDF_SEP : List Char := ['\x01', '\x01', '\x01', '\x01', '\n']

/-- The `while ((ch = fgetc (f)) != EOF)` loop: skip leading `\n` and `\r`. -/
def skip_blank_lines : List Char → List Char
  | [] => []
  | c :: cs => if c != '\n' && c != '\r' then c :: cs else skip_blank_lines cs

/-- The characters `fgets` stores when there is room for `n` of them: up to
and including the first newline. -/
def fgets_chars : Nat → List Char → List Char
  | 0, _ => []
  | _, [] => []
  | n + 1, c :: cs => if c == '\n' then [c] else c :: fgets_chars n cs

/-- `fgets (tmp, size, f)`: `none` (`NULL`) at end of file. -/
def fgets (size : Nat) (input : List Char) : Option (List Char) :=
  if input.isEmpty then none else some (fgets_chars (size - 1) input)

/-- The string a `char` buffer holds: the bytes before the first NUL. -/
def c_string (buf : List Char) : List Char := buf.takeWhile (fun c => c != '\x00')

/-- The content test of `mx_get_magic` on an opened file: skip blank lines,
read one line, compare with `"From "` and `MMDF_SEP`. -/
def mx_get_magic_content (b : Build) (content : List Char) : Int :=
  match fgets b.POSIX_PATH_MAX (skip_blank_lines content) with
  | some tmp =>
    if (c_string tmp).take 5 == "From ".toList then MUTT_MBOX
    else if MMDF_SEP == c_string tmp then MUTT_MMDF
    else 0
  | none => 0

/-- The tail of `mx_get_magic`: `#ifdef USE_COMPRESSED if ((magic == 0) &&
mutt_comp_can_read (path)) return MUTT_COMPRESSED; #endif return magic;`. -/
def mx_get_magic_tail (b : Build) (env : Env) (path : String) (magic : Int) (w : World) :
    Int × World :=
  if b.USE_COMPRESSED && magic == 0 then
    let w1 := w.log (Event.comp_can_read path)
    if env.mutt_comp_can_read w.trace path then (MUTT_COMPRESSED, w1) else (magic, w1)
  else (magic, w)

/-- `mx_get_magic (path)`: try to figure out what type of mailbox `path` is.
Returns a `MUTT_*` kind, 0 (not a mailbox) or -1 (error). -/
def mx_get_magic (b : Build) (env : Env) (opts : Options) (DefaultMagic : Int) (path : String)
    (w : World) : Int × World :=
  match mx_get_magic_remote b env path with
  | some m => (m, w)
  | none =>
    let w1 := w.log (Event.stat path)
    match env.stat w.trace path with
    | .error _ => (-1, w1)
    | .ok st =>
      if st.is_dir then
        let w2 := w1.log (Event.is_maildir path)
        if env.mx_is_maildir w1.trace path then (MUTT_MAILDIR, w2)
        else
          let w3 := w2.log (Event.is_mh path)
          if env.mx_is_mh w2.trace path then (MUTT_MH, w3)
          else mx_get_magic_tail b env path 0 w3
      else if st.st_size == 0 then
        if DefaultMagic == MUTT_MBOX || DefaultMagic == MUTT_MMDF then (DefaultMagic, w1)
        else (MUTT_MBOX, w1)
      else
        let w2 := w1.log (Event.fopen path)
        match env.fopen_r w1.trace path with
        | some content =>
          let magic := mx_get_magic_content b content
          let w3 := if !opts.OPTCHECKMBOXSIZE then w2.log (Event.utime path st.st_atime st.st_mtime)
            else w2
          mx_get_magic_tail b env path magic w3
        | none => (-1, w2)

/-- Modelled from the spec: `ascii.c` is not among the sources;
`ascii_strcasecmp (a, b) == 0`, equality up to the case of ASCII letters. -/
def ascii_strcasecmp_eq (a b : String) : Bool :=
  a.toList.map Char.toLower == b.toList.map Char.toLower

/-- `mx_set_magic (s)`: set `DefaultMagic` to the given value.  Returns the
result code and the new `DefaultMagic`. -/
def mx_set_magic (s : String) (DefaultMagic : Int) : Int × Int :=
  if ascii_strcasecmp_eq s "mbox" then (0, MUTT_MBOX)
  else if ascii_strcasecmp_eq s "mmdf" then (0, MUTT_MMDF)
  else if ascii_strcasecmp_eq s "mh" then (0, MUTT_MH)
  else if ascii_strcasecmp_eq s "maildir" then (0, MUTT_MAILDIR)
  else (-1, DefaultMagic)

/-- `mx_get_ops (magic)`: the operations table of a kind, named by its tag;
`none` (`NULL`) for a kind that is unknown or not compiled in. -/
def mx_get_ops (b : Build) (magic : Int) : Option Int :=
  if b.USE_IMAP && magic == MUTT_IMAP then some MUTT_IMAP
  else if magic == MUTT_MAILDIR then some MUTT_MAILDIR
  else if magic == MUTT_MBOX then some MUTT_MBOX
  else if magic == MUTT_MH then some MUTT_MH
  else if magic == MUTT_MMDF then some MUTT_MMDF
  else if b.USE_POP && magic == MUTT_POP then some MUTT_POP
  else if b.USE_COMPRESSED && magic == MUTT_COMPRESSED then some MUTT_COMPRESSED
  else if b.USE_NNTP && magic == MUTT_NNTP then some MUTT_NNTP
  else if b.USE_NOTMUCH && magic == MUTT_NOTMUCH then some MUTT_NOTMUCH
  else none

/-! ## Mailbox session: open, fast close -/

/-- `mutt_strcmp (a, b) == 0`, where a `NULL` string compares as the empty
string. -/
def mutt_strcmp_eq (a b : Option String) : Bool := a.getD "" == b.getD ""

/-- `mx_fastclose_mailbox (ctx)`: free up memory associated with the mailbox
context.  The session is zeroed at the end; `none` is a call through a `NULL`
`close` pointer. -/
def mx_fastclose_mailbox (env : Env) (ctx : Context) (w : World) : Option (Context × World) :=
  let w1 :=
    match ctx.path with
    | some p =>
      if ctx.peekonly && decide (ctx.mtime > ctx.atime) then
        w.log (Event.utime p ctx.atime ctx.mtime)
      else w
    | none => w
  let w2 := if !ctx.peekonly then w1.log (Event.buffy_setnotified ctx.path) else w1
  match ctx.mx_ops with
  | some t =>
    match (env.ops t).close with
    | some _ => some (Context.zero, w2.log (Event.ops_close t))
    | none => none
  | none => some (Context.zero, w2)

/-- `mx_open_mailbox_append (ctx, flags)`.  Returns the result code and the
session as it leaves it. -/
def mx_open_mailbox_append (b : Build) (env : Env) (g : Globals) (ctx : Context)
    (flags : OpenFlags) (w : World) : Int × Context × World :=
  let path := ctx.path.getD ""
  let c1 := { ctx with append := true }
  let r := mx_get_magic b env g.opts g.DefaultMagic path w
  let c2 := { c1 with magic := r.1 }
  if c2.magic == 0 then (-1, c2, r.2.log (Event.error "%s is not a mailbox."))
  else
    let detected : Except World (Context × OpenFlags × World) :=
      if decide (c2.magic < 0) then
        let w2 := r.2.log (Event.stat path)
        match env.stat r.2.trace path with
        | .error e =>
          if e == env.errnos.ENOENT then
            let w3 := if b.USE_COMPRESSED then w2.log (Event.comp_can_append path) else w2
            let c3 :=
              if b.USE_COMPRESSED && env.mutt_comp_can_append w2.trace c2 then
                { c2 with magic := MUTT_COMPRESSED }
              else { c2 with magic := g.DefaultMagic }
            .ok (c3, { flags with MUTT_APPENDNEW := true }, w3)
          else .error (w2.log (Event.error "perror"))
        | .ok _ => .error w2
      else .ok (c2, flags, r.2)
    match detected with
    | .error w2 => (-1, c2, w2)
    | .ok (c3, flags1, w3) =>
      let c4 := { c3 with mx_ops := mx_get_ops b c3.magic }
      match c4.mx_ops with
      | none => (-1, c4, w3)
      | some t =>
        match (env.ops t).open_append with
        | none => (-1, c4, w3)
        | some f =>
          let o := f w3.trace c4 flags1
          (o.1, o.2, w3.log (Event.ops_open_append t))

/-- What `mx_open_mailbox` hands back: the returned pointer (`none` is `NULL`,
`some c` a pointer to a session whose content is `c`), the content of the
caller's session object after the call when one was supplied, the globals and
the world. -/
structure OpenResult where
  ret : Option Context
  pctx : Option Context
  g : Globals
  w : World

/-- `FREE (&ctx)` when the session was allocated by the call: the value of the
local `ctx` after `if (!pctx) FREE (&ctx);`. -/
def free_unless_supplied (pctx : Option Context) (ctx : Context) : Option Context :=
  match pctx with
  | none => none
  | some _ => some ctx

/-- `mx_open_mailbox (path, flags, pctx)`: open a mailbox and parse it.  `none`
is a call through a `NULL` function pointer. -/
def mx_open_mailbox (b : Build) (env : Env) (g : Globals) (path : Option String)
    (flags : OpenFlags) (pctx : Option Context) (w : World) : Option OpenResult :=
  match path with
  | none => some { ret := none, pctx := pctx, g := g, w := w }
  | some p =>
    if p.isEmpty then some { ret := none, pctx := pctx, g := g, w := w }
    else
      -- ctx = pctx or a fresh allocation; memset (ctx, 0, sizeof (struct Context))
      let c1 := { Context.zero with path := some p }
      let w1 := w.log (Event.realpath p)
      let c2 := { c1 with realpath := some ((env.realpath w.trace p).getD p) }
      let c3 := { c2 with msgnotreadyet := -1, collapsed := false,
                          rights := List.replicate b.RIGHTSMAX true }
      let c4 := if flags.MUTT_QUIET then { c3 with quiet := true } else c3
      let c5 := if flags.MUTT_READONLY then { c4 with readonly := true } else c4
      let c6 := if flags.MUTT_PEEK then { c5 with peekonly := true } else c5
      if flags.MUTT_APPEND || flags.MUTT_NEWFOLDER then
        let a := mx_open_mailbox_append b env g c6 flags w1
        if a.1 != 0 then
          match mx_fastclose_mailbox env a.2.1 a.2.2 with
          | none => none
          | some (c, w2) =>
            some { ret := none, pctx := free_unless_supplied pctx c, g := g, w := w2 }
        else some { ret := some a.2.1, pctx := free_unless_supplied pctx a.2.1, g := g,
                    w := a.2.2 }
      else
        let m := mx_get_magic b env g.opts g.DefaultMagic p w1
        let c7 := { c6 with magic := m.1, mx_ops := mx_get_ops b m.1 }
        if decide (c7.magic ≤ 0) || c7.mx_ops.isNone then
          let w2 :=
            if c7.magic == -1 then m.2.log (Event.error "perror")
            else if c7.magic == 0 || c7.mx_ops.isNone then
              m.2.log (Event.error "%s is not a mailbox.")
            else m.2
          match mx_fastclose_mailbox env c7 w2 with
          | none => none
          | some (c, w3) =>
            some { ret := none, pctx := free_unless_supplied pctx c, g := g, w := w3 }
        else
          match c7.mx_ops with
          | none => none
          | some t =>
            -- mutt_make_label_hash (ctx)
            let c8 := { c7 with label_hash := some [] }
            let w2 := m.2.log Event.make_label_hash
            let g1 := { g with opts := { g.opts with OPTFORCEREFRESH := true } }
            let w3 := if !c8.quiet then w2.log (Event.message "Reading %s..." []) else w2
            match (env.ops t).open_ with
            | none => none
            | some f =>
              let o := f w3.trace c8
              let w4 := w3.log (Event.ops_open t)
              if o.1 == 0 || o.1 == -2 then
                let sorted : Context × Globals × World :=
                  if !flags.MUTT_NOSORT then
                    (env.mutt_sort_headers w4.trace o.2,
                     { g1 with opts := { g1.opts with OPTSORTSUBTHREADS := false,
                                                      OPTNEEDRESCORE := false } },
                     w4.log Event.sort_headers)
                  else (o.2, g1, w4)
                let w5 := if !sorted.1.quiet then sorted.2.2.log Event.clear_error
                  else sorted.2.2
                let w6 := if o.1 == -2 then w5.log (Event.error "Reading from %s interrupted...")
                  else w5
                some { ret := some sorted.1, pctx := free_unless_supplied pctx sorted.1,
                       g := { sorted.2.1 with opts :=
                                { sorted.2.1.opts with OPTFORCEREFRESH := false } },
                       w := w6 }
              else
                match mx_fastclose_mailbox env o.2 w4 with
                | none => none
                | some (c, w5) =>
                  -- if (!pctx) FREE (&ctx);  ...  return ctx;
                  some { ret := free_unless_supplied pctx c,
                         pctx := free_unless_supplied pctx c,
                         g := { g1 with opts := { g1.opts with OPTFORCEREFRESH := false } },
                         w := w5 }

/-! ## Sync/close pipeline -/

/-- The records `hdrs[0..msgcount)` as a loop over them reads them; `none`
when a slot in that range is missing or `NULL`. -/
def all_slots : List (Option Header) → Option (List Header)
  | [] => some []
  | none :: _ => none
  | some h :: t =>
    match all_slots t with
    | none => none
    | some l => some (h :: l)

/-- The records a `for (i = 0; i < ctx->msgcount; i++)` loop visits. -/
def Context.live (ctx : Context) : Option (List Header) :=
  if ctx.msgcount ≤ ctx.hdrs.length then all_slots (ctx.hdrs.take ctx.msgcount) else none

/-- Write the records back into the first slots of `hdrs`. -/
def Context.store (ctx : Context) (recs : List Header) : Context :=
  { ctx with hdrs := recs.map some ++ ctx.hdrs.drop recs.length }

/-- `mutt_set_flag (ctx, ctx->hdrs[i], flag, bf)`: the collaborator changes the
record in slot `i` and the counters of the session. -/
def mutt_set_flag (env : Env) (ctx : Context) (i : Nat) (flag : MsgFlag) (bf : Bool)
    (w : World) : Option (Context × World) :=
  match ctx.hdrs.get? i with
  | some (some h) =>
    let r := env.mutt_set_flag ctx h flag bf
    some ({ r.2 with hdrs := r.2.hdrs.set i (some r.1) }, w.log (Event.set_flag h.addr flag bf))
  | _ => none

/-- A loop `for (i = 0; i < msgcount; i++) if (cond (hdrs[i])) mutt_set_flag
(ctx, hdrs[i], flag, 1);` with `n` iterations left. -/
def set_flag_loop (env : Env) (cond : Header → Bool) (flag : MsgFlag) :
    Nat → Nat → Context → World → Option (Context × World)
  | 0, _, ctx, w => some (ctx, w)
  | n + 1, i, ctx, w =>
    match ctx.hdrs.get? i with
    | some (some h) =>
      if cond h then
        match mutt_set_flag env ctx i flag true w with
        | none => none
        | some (c1, w1) => set_flag_loop env cond flag n (i + 1) c1 w1
      else set_flag_loop env cond flag n (i + 1) ctx w
    | _ => none

/-- `hash_find (nserv->groups_hash, group)`. -/
def find_group (news : NntpServer) (group : String) : Option NntpData :=
  match news.groups_hash with
  | none => none
  | some l => l.find? (fun d => d.group == some group)

/-- The object a `struct NntpData *` points to. -/
def find_data (news : NntpServer) (data : Option Nat) : Option NntpData :=
  match news.groups_hash, data with
  | some l, some a => l.find? (fun d => d.addr == a)
  | _, _ => none

/-- Store the changed group data back at its address. -/
def put_data (news : NntpServer) (d : NntpData) : NntpServer :=
  { news with groups_hash :=
      (news.groups_hash.map (fun l => l.map (fun x => if x.addr == d.addr then d else x))) }

/-- `mutt_newsgroup_catchup (nserv, group)` (newsrc.c): catchup newsgroup.
`nserv` tells whether the server pointer is set; the session at hand is `ctx`,
and the global `Context` is the one in `g`. -/
def mutt_newsgroup_catchup (env : Env) (g : Globals) (ctx : Context) (nserv : Bool)
    (group : Option String) (w : World) : Option (Context × Globals × World) :=
  match group with
  | none => some (ctx, g, w)
  | some grp =>
    if !nserv || g.news.groups_hash.isNone || grp.isEmpty then some (ctx, g, w)
    else
      match find_group g.news grp with
      | none => some (ctx, g, w)
      | some nd =>
        let nd1 :=
          if nd.newsrc_ent.isSome then
            { nd with newsrc_ent := some [{ first := 1, last := nd.lastMessage }],
                      newsrc_len := 1 }
          else nd
        let nd2 := { nd1 with unread := 0 }
        let g1 := { g with news := put_data g.news nd2 }
        match g.Context with
        | .null => some (ctx, g1, w)
        | .this =>
          if ctx.data == some nd.addr then
            match set_flag_loop env (fun _ => true) MsgFlag.MUTT_READ ctx.msgcount 0 ctx w with
            | none => none
            | some (c1, w1) => some (c1, g1, w1)
          else some (ctx, g1, w)
        | .other c =>
          if c.data == some nd.addr then
            match set_flag_loop env (fun _ => true) MsgFlag.MUTT_READ c.msgcount 0 c w with
            | none => none
            | some (c1, w1) => some (ctx, { g1 with Context := CurrentMailbox.other c1 }, w1)
          else some (ctx, g1, w)

/-- `sync_mailbox (ctx, index_hint)`: save changes to disk. -/
def sync_mailbox (env : Env) (ctx : Context) (w : World) : Int × Context × World :=
  match ctx.mx_ops with
  | none => (-1, ctx, w)
  | some t =>
    match (env.ops t).sync with
    | none => (-1, ctx, w)
    | some f =>
      let w1 := if !ctx.quiet then w.log (Event.message "Writing %s..." []) else w
      let o := f w1.trace ctx
      (o.1, o.2, w1.log (Event.ops_sync t))

/-- The return statements of `mx_close_mailbox`, in source order. -/
inductive CloseExit where
  | fast
  | abort_catchup
  | abort_move
  | abort_purge
  | imap_copy_failed
  | target_open_failed
  | copy_failed
  | unchanged
  | trash_failed
  | imap_sync_failed
  | sync_failed
  | closed
deriving DecidableEq, Repr

/-- What `mx_close_mailbox` leaves: the result code, the return statement
taken, the session, the globals and the world. -/
structure CloseResult where
  rc : Int
  exit : CloseExit
  ctx : Context
  g : Globals
  w : World
deriving DecidableEq, Repr

/-- The test of the record loops of the close pipeline: `read && !deleted &&
!(flagged && option (OPTKEEPFLAGGED))`. -/
def is_read_msg (opts : Options) (h : Header) : Bool :=
  !h.deleted && h.read && !(h.flagged && opts.OPTKEEPFLAGGED)

/-- The copy loop of `trash_append` from index `i` on: append every record
with `deleted && !purge` to the trash session.  Returns the result code, the
trash session and the world. -/
def trash_copy_loop (env : Env) (src : Context) :
    List Header → Context → World → Int × Context × World
  | [], trash, w => (0, trash, w)
  | h :: rest, trash, w =>
    if h.deleted && !h.purge then
      let o := env.mutt_append_message w.trace trash src h
      let w1 := w.log (Event.append_message h.addr 0)
      if o.1 == -1 then (-1, o.2, w1) else trash_copy_loop env src rest o.2 w1
    else trash_copy_loop env src rest trash w

/-- `trash_append (ctx)`: move deleted mails to the trash folder.
`close_nested` is `mx_close_mailbox` for the trash session.  `none` is a
`NULL` dereference. -/
def trash_append (b : Build) (env : Env) (g : Globals) (ctx : Context) (w : World)
    (close_nested : Globals → Context → World → Option CloseResult) :
    Option (Int × Globals × World) :=
  match g.TrashPath with
  | none => some (0, g, w)
  | some trash_path =>
    if ctx.deleted == 0 || (ctx.magic == MUTT_MAILDIR && g.opts.OPTMAILDIRTRASH) then
      some (0, g, w)
    else
      match ctx.live with
      | none => none
      | some recs =>
        let todo := recs.dropWhile (fun h => !(h.deleted && !h.purge))
        if todo.isEmpty then some (0, g, w)
        else
          -- avoid the "append messages" prompt
          let sc := env.mutt_save_confirm w.trace trash_path
          let w1 := w.log (Event.save_confirm trash_path)
          if sc.1 != 0 then some (-1, g, w1.log (Event.error "message(s) not deleted"))
          else
            let w2 := w1.log (Event.lstat (ctx.path.getD ""))
            let same_folder : Bool :=
              match env.lstat w1.trace (ctx.path.getD "") with
              | .ok stc => stc.st_ino == sc.2.st_ino && stc.st_dev == sc.2.st_dev &&
                  stc.st_rdev == sc.2.st_rdev
              | .error _ => false
            if same_folder then some (0, g, w2)
            else
              let fast : Option (Bool × World) :=
                if b.USE_IMAP then
                  match g.Context with
                  | .null => none
                  | .this =>
                    if ctx.magic == MUTT_IMAP && mx_is_imap env (some trash_path) then
                      some (env.imap_fast_trash w2.trace trash_path == 0,
                        w2.log (Event.imap_fast_trash trash_path))
                    else some (false, w2)
                  | .other c =>
                    if c.magic == MUTT_IMAP && mx_is_imap env (some trash_path) then
                      some (env.imap_fast_trash w2.trace trash_path == 0,
                        w2.log (Event.imap_fast_trash trash_path))
                    else some (false, w2)
                else some (false, w2)
              match fast with
              | none => none
              | some (true, w3) => some (0, g, w3)
              | some (false, w3) =>
                match mx_open_mailbox b env g (some trash_path)
                    { MUTT_NOSORT := false, MUTT_APPEND := true, MUTT_READONLY := false,
                      MUTT_QUIET := false, MUTT_NEWFOLDER := false, MUTT_PEEK := false,
                      MUTT_APPENDNEW := false } (some Context.zero) w3 with
                | none => none
                | some o =>
                  match o.ret with
                  | some ctx_trash =>
                    let r := trash_copy_loop env ctx todo ctx_trash o.w
                    match close_nested o.g r.2.1 r.2.2 with
                    | none => none
                    | some cr => some (r.1, cr.g, cr.w)
                  | none => some (-1, o.g, o.w.log (Event.error "Can't open trash folder"))

/-- `mx_unlink_empty (path)`. -/
def mx_unlink_empty (b : Build) (env : Env) (g : Globals) (path : String) (w : World) :
    Option World :=
  let w1 := w.log (Event.open_rdwr path)
  if !env.open_rdwr w.trace path then some w1
  else
    match mx_lock_file b env.errnos g.opts (env.lock_script w1.trace path) path true false true
        w1 with
    | none => none
    | some (r, w2) =>
      if r == -1 then some (w2.log Event.close_fd)
      else
        let w3 :=
          if b.USE_DOTLOCK then
            (invoke_dotlock path
              { DL_FL_TRY := false, DL_FL_UNLOCK := false, DL_FL_USEPRIV := false,
                DL_FL_FORCE := false, DL_FL_RETRY := false, DL_FL_UNLINK := true }
              1 (env.dotlock_code w2.trace) w2).2
          else
            let w2' := w2.log Event.fstat
            if env.fstat_size w2.trace == some 0 then w2'.log (Event.unlink path) else w2'
        let u := mx_unlock_file b path false (env.dotlock_code w3.trace) w3
        some (u.2.log Event.close_fd)

/-- `mutt_is_spool (s)`: `mutt_strcmp (Spoolfile, s) == 0`. -/
def mutt_is_spool (g : Globals) (s : Option String) : Bool := mutt_strcmp_eq g.Spoolfile s

/-- The `#ifdef USE_NNTP` block of `mx_close_mailbox`: the catch-up question.
Returns whether the user aborted, and the session, globals and world after
the block. -/
def close_catchup (b : Build) (env : Env) (g : Globals) (ctx : Context) (w : World) :
    Option (Bool × Context × Globals × World) :=
  if b.USE_NNTP && ctx.unread != 0 && ctx.magic == MUTT_NNTP then
    match find_data g.news ctx.data with
    | none => some (false, ctx, g, w)
    | some nd =>
      match nd.group with
      | none => some (false, ctx, g, w)
      | some grp =>
        if nd.nserv then
          let rc := env.query_quadoption w.trace QuadOpt.OPT_CATCHUP
          let w1 := w.log (Event.query_quadoption QuadOpt.OPT_CATCHUP "Mark all articles read?")
          if rc == MUTT_ABORT then some (true, ctx, g, w1)
          else if rc == MUTT_YES then
            match mutt_newsgroup_catchup env g ctx nd.nserv nd.group
                (w1.log (Event.newsgroup_catchup grp)) with
            | none => none
            | some (c1, g1, w2) => some (false, c1, g1, w2)
          else some (false, ctx, g, w1)
        else some (false, ctx, g, w)
  else some (false, ctx, g, w)

/-- The move question of `mx_close_mailbox`: the value of `move_messages`, the
target `mbox`, and the world. -/
def close_move_prompt (env : Env) (g : Globals) (ctx : Context) (read_msgs : Nat)
    (w : World) : Int × String × World :=
  if read_msgs != 0 && env.quadoption QuadOpt.OPT_MOVE != MUTT_NO && ctx.magic != MUTT_NNTP then
    let target : Bool × String :=
      match env.mutt_find_hook (ctx.path.getD "") with
      | some p => (true, p)
      | none =>
        let mbox := g.Inbox.getD ""
        (mutt_is_spool g ctx.path && !mutt_is_spool g (some mbox), mbox)
    if target.1 && !target.2.isEmpty then
      let mbox := env.mutt_expand_path target.2
      (env.query_quadoption w.trace QuadOpt.OPT_MOVE, mbox,
        w.log (Event.query_quadoption QuadOpt.OPT_MOVE "Move read messages to %s?"))
    else (0, target.2, w)
  else (0, "", w)

/-- The purge question of `mx_close_mailbox`: the value of `purge` and the
world. -/
def close_purge_prompt (env : Env) (g : Globals) (ctx : Context) (w : World) : Int × World :=
  if ctx.deleted != 0 && !(ctx.magic == MUTT_MAILDIR && g.opts.OPTMAILDIRTRASH) then
    (env.query_quadoption w.trace QuadOpt.OPT_DELETE,
      w.log (Event.query_quadoption QuadOpt.OPT_DELETE
        (if ctx.deleted == 1 then "Purge %d deleted message?" else "Purge %d deleted messages?")))
  else (1, w)

/-- The append-copy loop of `mx_close_mailbox` with `n` iterations left: copy
every read message to `f` and mark it deleted and purged.  The boolean tells
whether every copy succeeded. -/
def move_copy_loop (env : Env) (opts : Options) :
    Nat → Nat → Context → Context → World → Option (Bool × Context × Context × World)
  | 0, _, ctx, f, w => some (true, ctx, f, w)
  | n + 1, i, ctx, f, w =>
    match ctx.hdrs.get? i with
    | some (some h) =>
      if h.read && !h.deleted && !(h.flagged && opts.OPTKEEPFLAGGED) then
        let o := env.mutt_append_message w.trace f ctx h
        let w1 := w.log (Event.append_message h.addr 1)
        if o.1 == 0 then
          match mutt_set_flag env ctx i MsgFlag.MUTT_DELETE true w1 with
          | none => none
          | some (c1, w2) =>
            match mutt_set_flag env c1 i MsgFlag.MUTT_PURGE true w2 with
            | none => none
            | some (c2, w3) => move_copy_loop env opts n (i + 1) c2 o.2 w3
        else some (false, ctx, o.2, w1)
      else move_copy_loop env opts n (i + 1) ctx f w
    | _ => none

/-- The sidebar block at the end of `mx_close_mailbox`: the `unread` and
`flagged` counters without the deleted messages. -/
def sidebar_counts : List Header → Int → Int → Int × Int
  | [], unread, flagged => (unread, flagged)
  | h :: t, unread, flagged =>
    let u := if h.deleted && !h.read then unread - 1 else unread
    let f := if h.deleted && h.flagged then flagged - 1 else flagged
    sidebar_counts t u f

/-- The return statements of `mx_close_mailbox` that follow an "abort" answer
to one of its three questions. -/
def CloseExit.is_abort : CloseExit → Bool
  | .abort_catchup => true
  | .abort_move => true
  | .abort_purge => true
  | _ => false

/-- The flags `mx_close_mailbox` and `trash_append` open a target with:
`MUTT_APPEND`. -/
def append_flags : OpenFlags :=
  { MUTT_NOSORT := false, MUTT_APPEND := true, MUTT_READONLY := false, MUTT_QUIET := false,
    MUTT_NEWFOLDER := false, MUTT_PEEK := false, MUTT_APPENDNEW := false }

/-- The `#ifdef USE_IMAP` part of the move block: the value of `i` after the
attempt at a server-side copy (1 when it is not attempted), the session and
the world. -/
def close_move_imap (b : Build) (env : Env) (g1 : Globals) (c2 : Context) (w3 : World)
    (mbox : String) : Option (Int × Context × World) :=
  if b.USE_IMAP then
    if c2.magic == MUTT_IMAP && mx_is_imap env (some mbox) then
      -- tag messages for moving, and clear old tags, if any
      match c2.live with
      | none => none
      | some rs =>
        let c3 := c2.store (rs.map (fun h =>
          { h with tagged := h.read && !h.deleted && !(h.flagged && g1.opts.OPTKEEPFLAGGED) }))
        let o := env.imap_copy_messages w3.trace c3 mbox
        some (o.1, o.2, w3.log (Event.imap_copy_messages mbox))
    else some (1, c2, w3)
  else some (1, c2, w3)

/-- The regular append-copy mode of the move block: open the target for
append, copy, close the target. -/
def close_move_append (b : Build) (env : Env)
    (close_nested : Globals → Context → World → Option CloseResult)
    (g1 : Globals) (c3 : Context) (w4 : World) (mbox : String) :
    Option (Except CloseResult (Context × Globals × World)) :=
  match mx_open_mailbox b env g1 (some mbox) append_flags (some Context.zero) w4 with
  | none => none
  | some o =>
    match o.ret with
    | none =>
      some (.error { rc := -1, exit := CloseExit.target_open_failed,
                     ctx := { c3 with closing := false }, g := o.g, w := o.w })
    | some f =>
      match move_copy_loop env o.g.opts c3.msgcount 0 c3 f o.w with
      | none => none
      | some (ok, c4, f1, w5) =>
        match close_nested o.g f1 w5 with
        | none => none
        | some cr =>
          if ok then some (.ok (c4, cr.g, cr.w))
          else
            some (.error { rc := -1, exit := CloseExit.copy_failed,
                           ctx := { c4 with closing := false }, g := cr.g, w := cr.w })

/-- The block `if (move_messages) ... else if (!ctx->changed && ctx->deleted ==
0) ...` of `mx_close_mailbox`.  `.error r`: the function returned `r` from
inside the block; `.ok`: control goes on.  `close_nested` is
`mx_close_mailbox` for the target session. -/
def close_move (b : Build) (env : Env)
    (close_nested : Globals → Context → World → Option CloseResult)
    (g1 : Globals) (c2 : Context) (w2 : World) (move_messages : Int) (mbox : String) :
    Option (Except CloseResult (Context × Globals × World)) :=
  if move_messages != 0 then
    match close_move_imap b env g1 c2
        (if !c2.quiet then w2.log (Event.message "Moving read messages to %s..." []) else w2)
        mbox with
    | none => none
    | some (i, c3, w4) =>
      if b.USE_IMAP && i == 0 then some (.ok (c3, g1, w4.log Event.clear_error))
      else if b.USE_IMAP && i == -1 then
        some (.error { rc := -1, exit := CloseExit.imap_copy_failed,
                       ctx := { c3 with closing := false }, g := g1, w := w4 })
      else close_move_append b env close_nested g1 c3 w4 mbox
  else if !c2.changed && c2.deleted == 0 then
    match mx_fastclose_mailbox env c2
        (if c2.magic == MUTT_MBOX || c2.magic == MUTT_MMDF then
          (if !c2.quiet then w2.log (Event.message "Mailbox is unchanged." []) else w2).log
            Event.mbox_reset_atime
         else (if !c2.quiet then w2.log (Event.message "Mailbox is unchanged." []) else w2)) with
    | none => none
    | some (c, w5) =>
      some (.error { rc := 0, exit := CloseExit.unchanged, ctx := c, g := g1, w := w5 })
  else some (.ok (c2, g1, w2))

/-- The block `if (!purge)` of `mx_close_mailbox`: clear the deleted and purge
flags of every record and the deleted counter. -/
def close_clear_deleted (c3 : Context) (purge : Int) : Option Context :=
  if purge == 0 then
    match c3.live with
    | none => none
    | some rs =>
      some { (c3.store (rs.map (fun h => { h with deleted := false, purge := false }))) with
             deleted := 0 }
  else some c3

/-- The sync block of `mx_close_mailbox`: `imap_sync_mailbox` for IMAP, else
the clearing of the deleted flags when the purge was declined and
`sync_mailbox`. -/
def close_sync (b : Build) (env : Env) (g4 : Globals) (c3 : Context) (w4 : World)
    (purge : Int) : Option (Except CloseResult (Context × World)) :=
  if b.USE_IMAP && c3.magic == MUTT_IMAP then
    if (env.imap_sync_mailbox w4.trace c3 purge).1 != 0 then
      some (.error { rc := (env.imap_sync_mailbox w4.trace c3 purge).1,
                     exit := CloseExit.imap_sync_failed,
                     ctx := { (env.imap_sync_mailbox w4.trace c3 purge).2 with closing := false },
                     g := g4, w := w4.log (Event.imap_sync_mailbox purge) })
    else some (.ok ((env.imap_sync_mailbox w4.trace c3 purge).2,
      w4.log (Event.imap_sync_mailbox purge)))
  else
    match close_clear_deleted c3 purge with
    | none => none
    | some c4 =>
      if c4.changed || c4.deleted != 0 then
        if (sync_mailbox env c4 w4).1 != 0 then
          some (.error { rc := (sync_mailbox env c4 w4).1, exit := CloseExit.sync_failed,
                         ctx := { (sync_mailbox env c4 w4).2.1 with closing := false },
                         g := g4, w := (sync_mailbox env c4 w4).2.2 })
        else some (.ok ((sync_mailbox env c4 w4).2.1, (sync_mailbox env c4 w4).2.2))
      else some (.ok (c4, w4))

/-- The summary message at the end of `mx_close_mailbox`. -/
def close_summary (c5 : Context) (w5 : World) (move_messages : Int) (read_msgs : Nat) :
    World :=
  if !c5.quiet then
    if move_messages != 0 then
      w5.log (Event.message "%d kept, %d moved, %d deleted."
        [(c5.msgcount : Int) - c5.deleted, (read_msgs : Int), c5.deleted])
    else
      w5.log (Event.message "%d kept, %d deleted."
        [(c5.msgcount : Int) - c5.deleted, c5.deleted])
  else w5

/-- The removal of an emptied flat file at the end of `mx_close_mailbox`. -/
def close_unlink (b : Build) (env : Env) (g4 : Globals) (c5 : Context) (w6 : World) :
    Option World :=
  if (c5.msgcount : Int) == c5.deleted &&
      (c5.magic == MUTT_MMDF || c5.magic == MUTT_MBOX) &&
      !mutt_is_spool g4 c5.path && !g4.opts.OPTSAVEEMPTY then
    mx_unlink_empty b env g4 (c5.path.getD "") w6
  else some w6

/-- The `#ifdef USE_SIDEBAR` block at the end of `mx_close_mailbox`. -/
def close_sidebar (b : Build) (c5 : Context) (w7 : World) (purge : Int) :
    Option (Context × World) :=
  if b.USE_SIDEBAR && purge != 0 && c5.deleted != 0 then
    match c5.live with
    | none => none
    | some rs =>
      some ({ c5 with unread := (sidebar_counts rs c5.unread c5.flagged).1,
                      flagged := (sidebar_counts rs c5.unread c5.flagged).2 },
        w7.log (Event.sb_set_buffystats ((c5.msgcount : Int) - c5.deleted)
          (sidebar_counts rs c5.unread c5.flagged).1 (sidebar_counts rs c5.unread c5.flagged).2))
  else some (c5, w7)

/-- The end of `mx_close_mailbox` after a successful sync: the summary message,
the removal of an emptied flat file, the sidebar block and the teardown. -/
def close_finish (b : Build) (env : Env) (g4 : Globals) (c5 : Context) (w5 : World)
    (move_messages purge : Int) (read_msgs : Nat) : Option CloseResult :=
  match close_unlink b env g4 c5 (close_summary c5 w5 move_messages read_msgs) with
  | none => none
  | some w7 =>
    match close_sidebar b c5 w7 purge with
    | none => none
    | some (c6, w8) =>
      match mx_fastclose_mailbox env c6 w8 with
      | none => none
      | some (c, w9) => some { rc := 0, exit := CloseExit.closed, ctx := c, g := g4, w := w9 }

/-- The block `if (option (OPTMARKOLD))` of `mx_close_mailbox`. -/
def close_mark_old (env : Env) (g1 : Globals) (c1 : Context) (w : World) :
    Option (Context × World) :=
  if g1.opts.OPTMARKOLD then
    set_flag_loop env (fun h => !h.deleted && !h.old && !h.read) MsgFlag.MUTT_OLD
      c1.msgcount 0 c1 w
  else some (c1, w)

/-- The block "copy mails to the trash before expunging" of
`mx_close_mailbox`: the result of `trash_append`, 0 when it is not called. -/
def close_trash (b : Build) (env : Env)
    (close_nested : Globals → Context → World → Option CloseResult)
    (g3 : Globals) (c3 : Context) (w3 : World) (purge : Int) : Option (Int × Globals × World) :=
  if purge != 0 && c3.deleted != 0 && !mutt_strcmp_eq c3.path g3.TrashPath then
    trash_append b env g3 c3 w3 close_nested
  else some (0, g3, w3)

/-- `mx_close_mailbox` from `if (option (OPTMARKOLD))` on, that is after the
three questions. -/
def close_after_prompts (b : Build) (env : Env)
    (close_nested : Globals → Context → World → Option CloseResult)
    (g1 : Globals) (c1 : Context) (w : World) (move_messages : Int) (mbox : String)
    (purge : Int) (read_msgs : Nat) : Option CloseResult :=
  match close_mark_old env g1 c1 w with
  | none => none
  | some (c2, w2) =>
    match close_move b env close_nested g1 c2 w2 move_messages mbox with
    | none => none
    | some (.error r) => some r
    | some (.ok (c3, g3, w3)) =>
      match close_trash b env close_nested g3 c3 w3 purge with
      | none => none
      | some (tr, g4, w4) =>
        if tr != 0 then
          some { rc := -1, exit := CloseExit.trash_failed,
                 ctx := { c3 with closing := false }, g := g4, w := w4 }
        else
          match close_sync b env g4 c3 w4 purge with
          | none => none
          | some (.error r) => some r
          | some (.ok (c5, w5)) => close_finish b env g4 c5 w5 move_messages purge read_msgs

/-- `mx_close_mailbox (ctx, index_hint)`: save changes and close mailbox.  The
first argument bounds the depth of the nested calls for the target and trash
sessions; `none` is a `NULL` dereference or a nested call beyond that depth. -/
def mx_close_mailbox (b : Build) (env : Env) :
    Nat → Globals → Context → World → Option CloseResult
  | 0, _, _, _ => none
  | fuel + 1, g, ctx, w =>
    let c0 := { ctx with closing := true }
    if c0.readonly || c0.dontwrite || c0.append then
      match mx_fastclose_mailbox env c0 w with
      | none => none
      | some (c, w1) => some { rc := 0, exit := CloseExit.fast, ctx := c, g := g, w := w1 }
    else
      match close_catchup b env g c0 w with
      | none => none
      | some (true, c1, g1, w1) =>
        some { rc := -1, exit := CloseExit.abort_catchup, ctx := { c1 with closing := false },
               g := g1, w := w1 }
      | some (false, c1, g1, w1) =>
        match c1.live with
        | none => none
        | some recs =>
          let read_msgs := (recs.filter (is_read_msg g1.opts)).length
          let mv := close_move_prompt env g1 c1 read_msgs w1
          if mv.1 == MUTT_ABORT then
            some { rc := -1, exit := CloseExit.abort_move, ctx := { c1 with closing := false },
                   g := g1, w := mv.2.2 }
          else
            let pg := close_purge_prompt env g1 c1 mv.2.2
            if pg.1 == MUTT_ABORT then
              some { rc := -1, exit := CloseExit.abort_purge, ctx := { c1 with closing := false },
                     g := g1, w := pg.2 }
            else
              close_after_prompts b env (mx_close_mailbox b env fuel) g1 c1 pg.2 mv.1 mv.2.1
                pg.1 read_msgs

/-! ### Example environment -/

/-- Modelled from the spec: `mutt_set_flag` (flags.c) is not among the sources;
it sets the flag of the record and keeps the counters of the session in
step. -/
def ex_set_flag (ctx : Context) (h : Header) (flag : MsgFlag) (bf : Bool) : Header × Context :=
  match flag with
  | .MUTT_READ =>
    if bf && !h.read then
      ({ h with read := true, changed := true },
       { ctx with unread := ctx.unread - 1, new := if !h.old then ctx.new - 1 else ctx.new,
                  changed := true })
    else (h, ctx)
  | .MUTT_OLD =>
    if bf && !h.old then
      ({ h with old := true, changed := true },
       { ctx with new := if !h.read then ctx.new - 1 else ctx.new, changed := true })
    else (h, ctx)
  | .MUTT_DELETE =>
    if bf && !h.deleted then
      ({ h with deleted := true }, { ctx with deleted := ctx.deleted + 1 })
    else (h, ctx)
  | .MUTT_PURGE => if bf && !h.purge then ({ h with purge := true }, ctx) else (h, ctx)

/-- A backend whose operations all succeed and leave the session alone. -/
def ex_ops : MxOps :=
  { open_ := some (fun _ c => (0, c)),
    open_append := some (fun _ c _ => (0, c)),
    close := some (fun _ c => (0, c)),
    check := some (fun _ c => (0, c)),
    sync := some (fun _ c => (0, c)),
    open_msg := none, close_msg := none, commit_msg := none, open_new_msg := none }

/-- What `stat` answers in the example: a non-empty mbox file, an empty file,
a maildir, and nothing else. -/
def ex_stat (p : String) : Except Int Stat :=
  if p == "/tmp/mbox" then
    .ok { is_dir := false, st_size := 100, st_atime := 5, st_mtime := 3, st_ino := 1,
          st_dev := 1, st_rdev := 0 }
  else if p == "/tmp/empty" then
    .ok { is_dir := false, st_size := 0, st_atime := 5, st_mtime := 3, st_ino := 2,
          st_dev := 1, st_rdev := 0 }
  else if p == "/tmp/maildir" then
    .ok { is_dir := true, st_size := 4096, st_atime := 5, st_mtime := 3, st_ino := 3,
          st_dev := 1, st_rdev := 0 }
  else .error 2

/-- The example environment: a local file system with `/tmp/mbox`,
`/tmp/empty` and `/tmp/maildir`, no URL schemes, every question answered
yes. -/
def ex_env : Env :=
  { errnos := ex_errnos,
    url_check_scheme := fun _ => url_scheme_t.U_UNKNOWN,
    stat := fun _ p => ex_stat p,
    lstat := fun _ p => ex_stat p,
    mx_is_maildir := fun _ p => p == "/tmp/maildir",
    mx_is_mh := fun _ _ => false,
    fopen_r := fun _ p => if p == "/tmp/mbox" then some "From a@b Thu Jan  1 1970\n".toList
      else none,
    mutt_comp_can_read := fun _ _ => false,
    mutt_comp_can_append := fun _ _ => false,
    realpath := fun _ p => some p,
    ops := fun _ => ex_ops,
    mutt_sort_headers := fun _ c => c,
    query_quadoption := fun _ _ => MUTT_YES,
    quadoption := fun _ => MUTT_NO,
    mutt_find_hook := fun _ => none,
    mutt_expand_path := fun s => s,
    mutt_set_flag := ex_set_flag,
    imap_copy_messages := fun _ c _ => (0, c),
    imap_sync_mailbox := fun _ c _ => (0, c),
    imap_fast_trash := fun _ _ => 0,
    mutt_save_confirm := fun _ _ =>
      (0, { is_dir := false, st_size := 0, st_atime := 0, st_mtime := 0, st_ino := 9,
            st_dev := 1, st_rdev := 0 }),
    mutt_append_message := fun _ d _ _ => (0, d),
    open_rdwr := fun _ _ => true,
    lock_script := fun _ _ =>
      { fcntl := [ex_granted], flock := [ex_granted], dotlock := [0], yesorno := 1 },
    dotlock_code := fun _ => 0,
    fstat_size := fun _ => some 0 }

/-- The example environment with a backend whose `open` fails with -1. -/
def ex_env_open_fails : Env :=
  { ex_env with ops := fun _ => { ex_ops with open_ := some (fun _ c => (-1, c)) } }

/-- The example environment where the user confirms the catch-up and then
aborts at the purge question. -/
def ex_env_catchup_then_abort : Env :=
  { ex_env with query_quadoption := fun _ o =>
      match o with
      | .OPT_CATCHUP => MUTT_YES
      | .OPT_MOVE => MUTT_NO
      | .OPT_DELETE => MUTT_ABORT }

/-- The example environment where the user aborts at every question. -/
def ex_env_abort : Env := { ex_env with query_quadoption := fun _ _ => MUTT_ABORT }

/-- The group data of the example news session. -/
def ex_group : NntpData :=
  { addr := 100, group := some "comp.mail.mutt", nserv := true,
    newsrc_ent := some [{ first := 1, last := 3 }], newsrc_len := 1, firstMessage := 1,
    lastMessage := 10, lastLoaded := 10, lastCached := 0, unread := 1, subscribed := true }

/-- Example globals: default kind mbox, no trash, the global `Context` is the
session at hand, one news group. -/
def ex_globals : Globals :=
  { opts := ex_opts, DefaultMagic := MUTT_MBOX, TrashPath := none,
    Spoolfile := some "/var/mail/u", Inbox := some "/home/u/mbox",
    Context := CurrentMailbox.this, news := { groups_hash := some [ex_group] } }

/-- A writable news session with two articles: the first unread, the second
read and marked deleted. -/
def ex_news_ctx : Context :=
  { Context.zero with
    path := some "news://host/comp.mail.mutt", magic := MUTT_NNTP, mx_ops := some MUTT_NNTP,
    hdrs := [some { ex_hdr with addr := 1 },
             some { ex_hdr with addr := 2, msgno := 1, virtual := 1, read := true,
                                deleted := true }],
    v2r := [0, 1], hdrmax := 2, msgcount := 2, vcount := 2, unread := 1, new := 1,
    deleted := 1, data := some 100 }

/-- The flags of a plain open for reading. -/
def ex_read_flags : OpenFlags :=
  { MUTT_NOSORT := false, MUTT_APPEND := false, MUTT_READONLY := false, MUTT_QUIET := false,
    MUTT_NEWFOLDER := false, MUTT_PEEK := false, MUTT_APPENDNEW := false }

/-- The outcome of closing the example mbox session when every question is
answered abort: the purge question is the one asked. -/
def ex_abort_closed : CloseResult :=
  { rc := -1, exit := CloseExit.abort_purge, ctx := { ex_ctx with closing := false },
    g := ex_globals,
    w := ex_world.log (Event.query_quadoption QuadOpt.OPT_DELETE "Purge %d deleted messages?") }

/-- The answer of `stat` for `/tmp/empty` in the example environment. -/
def ex_empty_stat : Stat :=
  { is_dir := false, st_size := 0, st_atime := 5, st_mtime := 3, st_ino := 2, st_dev := 1,
    st_rdev := 0 }

/-! ## Remote kinds and determinism of the detector -/

/-- A `url_check_scheme` that knows the schemes by their leading characters. -/
def ex_url_check_scheme (s : String) : url_scheme_t :=
  if s.toList.take 5 == "imap:".toList then url_scheme_t.U_IMAP
  else if s.toList.take 6 == "imaps:".toList then url_scheme_t.U_IMAPS
  else if s.toList.take 4 == "pop:".toList then url_scheme_t.U_POP
  else if s.toList.take 5 == "pops:".toList then url_scheme_t.U_POPS
  else if s.toList.take 5 == "news:".toList then url_scheme_t.U_NNTP
  else if s.toList.take 6 == "snews:".toList then url_scheme_t.U_NNTPS
  else if s.toList.take 8 == "notmuch:".toList then url_scheme_t.U_NOTMUCH
  else url_scheme_t.U_UNKNOWN

/-- The example environment with URL schemes. -/
def ex_env_urls : Env := { ex_env with url_check_scheme := ex_url_check_scheme }

/-- The first line of a file content: the characters up to and including the
first newline. -/
def first_line : List Char → List Char
  | [] => []
  | c :: cs => if c == '\n' then [c] else c :: first_line cs

/-- The first non-blank content line of a file: the first line after the
leading `\n` and `\r` characters. -/
def first_nonblank_line (content : List Char) : List Char :=
  first_line (skip_blank_lines content)

/-- What the detector reads off the answer of `stat`: failure, or whether the
path is a directory and its size. -/
def stat_view (r : Except Int Stat) : Option (Bool × Int) :=
  match r with
  | .error _ => none
  | .ok st => some (st.is_dir, st.st_size)

/-- Two environments agree, whenever they are asked, on what the detector
reads about `path`: its URL scheme, the outcome of `stat` (failure, directory,
size), the directory structure (maildir, MH), whether the file opens and its
first non-blank line, and the answer of the compressed-mailbox collaborator. -/
structure SameDetectorInputs (env1 env2 : Env) (path : String) : Prop where
  scheme : env1.url_check_scheme path = env2.url_check_scheme path
  stat : ∀ t1 t2, stat_view (env1.stat t1 path) = stat_view (env2.stat t2 path)
  maildir : ∀ t1 t2, env1.mx_is_maildir t1 path = env2.mx_is_maildir t2 path
  mh : ∀ t1 t2, env1.mx_is_mh t1 path = env2.mx_is_mh t2 path
  line : ∀ t1 t2, (env1.fopen_r t1 path).map first_nonblank_line =
    (env2.fopen_r t2 path).map first_nonblank_line
  comp : ∀ t1 t2, env1.mutt_comp_can_read t1 path = env2.mutt_comp_can_read t2 path

/-! ## Open for append -/

/-- The events that are calls of a backend operation. -/
def Event.is_backend_op : Event → Bool
  | .ops_open _ => true
  | .ops_open_append _ => true
  | .ops_close _ => true
  | .ops_sync _ => true
  | .ops_check _ => true
  | .ops_open_msg _ _ => true
  | .ops_open_new_msg _ => true
  | .ops_commit_msg _ => true
  | .ops_close_msg _ => true
  | _ => false

/-- The world `w2` continues `w1` with events that all satisfy `P`. -/
def World.adds (P : Event → Bool) (w1 w2 : World) : Prop :=
  ∃ evs, w2.trace = w1.trace ++ evs ∧ ∀ e ∈ evs, P e = true

/-- An event that is not the call of a backend operation. -/
def Event.not_backend_op (e : Event) : Bool := !Event.is_backend_op e

/-- The detection step of `mx_open_mailbox_append`: `ctx->magic = mx_get_magic
(ctx->path)`. -/
def append_detect (b : Build) (env : Env) (g : Globals) (ctx : Context) (w : World) :
    Int × World :=
  mx_get_magic b env g.opts g.DefaultMagic (ctx.path.getD "") w

/-- The kind `mx_open_mailbox_append` gives a mailbox that does not exist yet:
the compressed kind when the collaborator can append, else `DefaultMagic`.
`tr` is the trace at the time the collaborator is asked. -/
def append_new_kind (b : Build) (env : Env) (g : Globals) (ctx : Context) (tr : List Event) :
    Int :=
  if b.USE_COMPRESSED && env.mutt_comp_can_append tr ctx then MUTT_COMPRESSED
  else g.DefaultMagic

/-- The example environment with an mbox file that starts with blank lines and
has a second line. -/
def ex_env_blank_lines : Env :=
  { ex_env with fopen_r := fun _ p =>
      if p == "/tmp/mbox" then some "\n\r\nFrom a@b Thu Jan  1 1970\nSubject: x\n".toList
      else none }

/-- A fresh session for a path that does not exist. -/
def ex_new_ctx : Context := { Context.zero with path := some "/tmp/none" }

/-- The world when the backend is called in the witness of C13: detection has
called `stat`, then `mx_open_mailbox_append` called `stat` and asked the
compression collaborator. -/
def ex_new_world : World :=
  ((ex_world.log (Event.stat "/tmp/none")).log (Event.stat "/tmp/none")).log
    (Event.comp_can_append "/tmp/none")

/-! ## Close of a session that is not writable -/

/-- The events of the fast teardown: the restoring of the file times, the
notification of the mailbox list and the backend `close`. -/
def Event.is_teardown : Event → Bool
  | .utime _ _ _ => true
  | .buffy_setnotified _ => true
  | .ops_close _ => true
  | _ => false

/-- A read-only view of the example mbox session. -/
def ex_readonly_ctx : Context := { ex_ctx with readonly := true }

/-! ## The close pipeline up to the sync block, and `mx_sync_mailbox` -/

/-- The state of `mx_close_mailbox` when control reaches the sync block (the
`#ifdef USE_IMAP` at line 1007): the session, the globals, the world and the
locals `purge`, `move_messages` and `read_msgs`. -/
structure SyncPoint where
  ctx : Context
  g : Globals
  w : World
  purge : Int
  move_messages : Int
  read_msgs : Nat
deriving DecidableEq, Repr

/-- `mx_close_mailbox` from its first line up to the sync block: the fast
path, the three questions, the marking as old, the move of the read messages
and the copy to the trash.  `.error r`: the function returned `r` before the
sync block; `.ok p`: control is at the sync block in state `p`.  `fuel` bounds
the depth of the nested closes of the target and trash sessions. -/
def close_until_sync (b : Build) (env : Env) (fuel : Nat) (g : Globals) (ctx : Context)
    (w : World) : Option (Except CloseResult SyncPoint) :=
  if ctx.readonly || ctx.dontwrite || ctx.append then
    match mx_fastclose_mailbox env { ctx with closing := true } w with
    | none => none
    | some (c, w1) =>
      some (.error { rc := 0, exit := CloseExit.fast, ctx := c, g := g, w := w1 })
  else
    match close_catchup b env g { ctx with closing := true } w with
    | none => none
    | some (true, c1, g1, w1) =>
      some (.error { rc := -1, exit := CloseExit.abort_catchup,
                     ctx := { c1 with closing := false }, g := g1, w := w1 })
    | some (false, c1, g1, w1) =>
      match c1.live with
      | none => none
      | some recs =>
        if (close_move_prompt env g1 c1 (recs.filter (is_read_msg g1.opts)).length w1).1
            == MUTT_ABORT then
          some (.error { rc := -1, exit := CloseExit.abort_move,
                         ctx := { c1 with closing := false }, g := g1,
                         w := (close_move_prompt env g1 c1
                                (recs.filter (is_read_msg g1.opts)).length w1).2.2 })
        else if (close_purge_prompt env g1 c1 (close_move_prompt env g1 c1
            (recs.filter (is_read_msg g1.opts)).length w1).2.2).1 == MUTT_ABORT then
          some (.error { rc := -1, exit := CloseExit.abort_purge,
                         ctx := { c1 with closing := false }, g := g1,
                         w := (close_purge_prompt env g1 c1 (close_move_prompt env g1 c1
                                (recs.filter (is_read_msg g1.opts)).length w1).2.2).2 })
        else
          match close_mark_old env g1 c1 (close_purge_prompt env g1 c1 (close_move_prompt env
              g1 c1 (recs.filter (is_read_msg g1.opts)).length w1).2.2).2 with
          | none => none
          | some (c2, w2) =>
            match close_move b env (mx_close_mailbox b env fuel) g1 c2 w2
                (close_move_prompt env g1 c1 (recs.filter (is_read_msg g1.opts)).length w1).1
                (close_move_prompt env g1 c1
                  (recs.filter (is_read_msg g1.opts)).length w1).2.1 with
            | none => none
            | some (.error r) => some (.error r)
            | some (.ok (c3, g3, w3)) =>
              match close_trash b env (mx_close_mailbox b env fuel) g3 c3 w3
                  (close_purge_prompt env g1 c1 (close_move_prompt env g1 c1
                    (recs.filter (is_read_msg g1.opts)).length w1).2.2).1 with
              | none => none
              | some (tr, g4, w4) =>
                if tr != 0 then
                  some (.error { rc := -1, exit := CloseExit.trash_failed,
                                 ctx := { c3 with closing := false }, g := g4, w := w4 })
                else
                  some (.ok { ctx := c3, g := g4, w := w4,
                              purge := (close_purge_prompt env g1 c1 (close_move_prompt env g1
                                c1 (recs.filter (is_read_msg g1.opts)).length w1).2.2).1,
                              move_messages := (close_move_prompt env g1 c1
                                (recs.filter (is_read_msg g1.opts)).length w1).1,
                              read_msgs := (recs.filter (is_read_msg g1.opts)).length })

/-- The test that decides the removal of the mailbox file once the sync is
done (`mx_close_mailbox` line 1049, `mx_sync_mailbox` line 1260): every
message is deleted, the kind is a flat file, the path is not the spool and
`$save_empty` is off. -/
def unlink_wanted (g : Globals) (c : Context) : Bool :=
  (c.msgcount : Int) == c.deleted && (c.magic == MUTT_MBOX || c.magic == MUTT_MMDF) &&
    !mutt_is_spool g c.path && !g.opts.OPTSAVEEMPTY

/-- The return statements of `mx_sync_mailbox`, in source order; `finished` is
the final `return rc`. -/
inductive SyncExit where
  | dontwrite
  | readonly
  | unchanged
  | abort_purge
  | nothing_to_do
  | trash_failed
  | unlinked
  | finished
deriving DecidableEq, Repr

/-- What `mx_sync_mailbox` leaves: the result code, the return statement
taken, the session, the globals and the world. -/
structure SyncResult where
  rc : Int
  exit : SyncExit
  ctx : Context
  g : Globals
  w : World
deriving DecidableEq, Repr

/-- The state of `mx_sync_mailbox` at the backend call: the session, the
globals, the world and the locals `purge`, `msgcount` and `deleted`. -/
structure CheckPoint where
  ctx : Context
  g : Globals
  w : World
  purge : Int
  msgcount : Nat
  deleted : Int
deriving DecidableEq, Repr

/-- The block `if (ctx->deleted)` of `mx_sync_mailbox`: the purge question.
`.error r`: the function returned `r` from inside the block; `.ok`: the
session, the value of `purge` and the world after the block.  `none` is a
`NULL` slot or a `last_tag` that points to no record of the session. -/
def sync_purge_prompt (env : Env) (g : Globals) (ctx : Context) (w : World) :
    Option (Except SyncResult (Context × Int × World)) :=
  if ctx.deleted != 0 then
    if env.query_quadoption w.trace QuadOpt.OPT_DELETE == MUTT_ABORT then
      some (.error { rc := -1, exit := SyncExit.abort_purge, ctx := ctx, g := g,
                     w := w.log (Event.query_quadoption QuadOpt.OPT_DELETE
                       (if ctx.deleted == 1 then "Purge %d deleted message?"
                        else "Purge %d deleted messages?")) })
    else if env.query_quadoption w.trace QuadOpt.OPT_DELETE == MUTT_NO then
      if !ctx.changed then
        -- nothing to do!
        some (.error { rc := 0, exit := SyncExit.nothing_to_do, ctx := ctx, g := g,
                       w := w.log (Event.query_quadoption QuadOpt.OPT_DELETE
                         (if ctx.deleted == 1 then "Purge %d deleted message?"
                          else "Purge %d deleted messages?")) })
      else if ctx.magic != MUTT_IMAP then
        -- let IMAP servers hold on to D flags
        match close_clear_deleted ctx 0 with
        | none => none
        | some c1 =>
          some (.ok (c1, env.query_quadoption w.trace QuadOpt.OPT_DELETE,
            w.log (Event.query_quadoption QuadOpt.OPT_DELETE
              (if ctx.deleted == 1 then "Purge %d deleted message?"
               else "Purge %d deleted messages?"))))
      else
        some (.ok (ctx, env.query_quadoption w.trace QuadOpt.OPT_DELETE,
          w.log (Event.query_quadoption QuadOpt.OPT_DELETE
            (if ctx.deleted == 1 then "Purge %d deleted message?"
             else "Purge %d deleted messages?"))))
    else
      match ctx.last_tag with
      | none =>
        some (.ok (ctx, env.query_quadoption w.trace QuadOpt.OPT_DELETE,
          w.log (Event.query_quadoption QuadOpt.OPT_DELETE
            (if ctx.deleted == 1 then "Purge %d deleted message?"
             else "Purge %d deleted messages?"))))
      | some a =>
        match (ctx.hdrs.filterMap id).find? (fun h => h.addr == a) with
        | none => none
        | some h =>
          -- reset last tagged msg now useless
          some (.ok (if h.deleted then { ctx with last_tag := none } else ctx,
            env.query_quadoption w.trace QuadOpt.OPT_DELETE,
            w.log (Event.query_quadoption QuadOpt.OPT_DELETE
              (if ctx.deleted == 1 then "Purge %d deleted message?"
               else "Purge %d deleted messages?"))))
  else some (.ok (ctx, 1, w))

/-- `mx_sync_mailbox` from its first line up to the backend call: the checks
for an unwritable and an unchanged session, the purge question and the copy
to the trash (the same block as in `mx_close_mailbox`).  `fuel` bounds the
depth of the nested close of the trash session. -/
def sync_until_backend (b : Build) (env : Env) (fuel : Nat) (g : Globals) (ctx : Context)
    (w : World) : Option (Except SyncResult CheckPoint) :=
  if ctx.dontwrite then
    some (.error { rc := -1, exit := SyncExit.dontwrite, ctx := ctx, g := g,
                   w := w.log (Event.error "Mailbox is marked unwritable. %s") })
  else if ctx.readonly then
    some (.error { rc := -1, exit := SyncExit.readonly, ctx := ctx, g := g,
                   w := w.log (Event.error "Mailbox is read-only.") })
  else if !ctx.changed && ctx.deleted == 0 then
    some (.error { rc := 0, exit := SyncExit.unchanged, ctx := ctx, g := g,
                   w := if !ctx.quiet then w.log (Event.message "Mailbox is unchanged." [])
                        else w })
  else
    match sync_purge_prompt env g ctx w with
    | none => none
    | some (.error r) => some (.error r)
    | some (.ok (c1, purge, w1)) =>
      match close_trash b env (mx_close_mailbox b env fuel) g c1 w1 purge with
      | none => none
      | some (tr, g2, w2) =>
        if tr != 0 then
          some (.error { rc := -1, exit := SyncExit.trash_failed, ctx := c1, g := g2, w := w2 })
        else
          some (.ok { ctx := c1, g := g2, w := w2, purge := purge, msgcount := c1.msgcount,
                      deleted := c1.deleted })

/-- The backend call of `mx_sync_mailbox`: `imap_sync_mailbox` for IMAP, else
`sync_mailbox`. -/
def sync_backend (b : Build) (env : Env) (ctx : Context) (w : World) (purge : Int) :
    Int × Context × World :=
  if b.USE_IMAP && ctx.magic == MUTT_IMAP then
    ((env.imap_sync_mailbox w.trace ctx purge).1, (env.imap_sync_mailbox w.trace ctx purge).2,
      w.log (Event.imap_sync_mailbox purge))
  else sync_mailbox env ctx w

/-- The message of `mx_sync_mailbox` after a successful backend call, and
`mutt_sleep (0)`. -/
def sync_summary (b : Build) (p : CheckPoint) (c : Context) (w : World) : World :=
  (if b.USE_IMAP && c.magic == MUTT_IMAP && p.purge == 0 then
    (if !c.quiet then w.log (Event.message "Mailbox checkpointed." []) else w)
  else
    (if !c.quiet then
      w.log (Event.message "%d kept, %d deleted."
        [(p.msgcount : Int) - p.deleted, p.deleted])
    else w)).log (Event.sleep 0)

/-- The block `if (rc == 0)` of `mx_sync_mailbox`: the message, the removal of
an emptied flat file with the teardown of the session, else the
reconciliation and the re-sort. -/
def sync_finish (b : Build) (env : Env) (p : CheckPoint) (c : Context) (w : World) :
    Option SyncResult :=
  if (c.msgcount : Int) == c.deleted && (c.magic == MUTT_MBOX || c.magic == MUTT_MMDF) &&
      !mutt_is_spool p.g c.path && !p.g.opts.OPTSAVEEMPTY then
    match mx_fastclose_mailbox env c
        ((sync_summary b p c w).log (Event.unlink (c.path.getD ""))) with
    | none => none
    | some (c1, w1) => some { rc := 0, exit := SyncExit.unlinked, ctx := c1, g := p.g, w := w1 }
  else if p.purge != 0 || (c.magic != MUTT_MAILDIR && c.magic != MUTT_MH) then
    -- IMAP does this automatically after handling EXPUNGE
    if c.magic != MUTT_IMAP then
      match mx_update_tables p.g.opts c true with
      | none => none
      | some c1 =>
        some { rc := 0, exit := SyncExit.finished,
               ctx := env.mutt_sort_headers (sync_summary b p c w).trace c1, g := p.g,
               w := (sync_summary b p c w).log Event.sort_headers }
    else some { rc := 0, exit := SyncExit.finished, ctx := c, g := p.g,
                w := sync_summary b p c w }
  else some { rc := 0, exit := SyncExit.finished, ctx := c, g := p.g,
              w := sync_summary b p c w }

/-- `mx_sync_mailbox (ctx, index_hint)`: save changes to mailbox.  `fuel`
bounds the depth of the nested close of the trash session; `none` is a `NULL`
dereference or a nested call beyond that depth. -/
def mx_sync_mailbox (b : Build) (env : Env) (fuel : Nat) (g : Globals) (ctx : Context)
    (w : World) : Option SyncResult :=
  match sync_until_backend b env fuel g ctx w with
  | none => none
  | some (.error r) => some r
  | some (.ok p) =>
    if (sync_backend b env p.ctx p.w p.purge).1 == 0 then
      sync_finish b env p (sync_backend b env p.ctx p.w p.purge).2.1
        (sync_backend b env p.ctx p.w p.purge).2.2
    else
      some { rc := (sync_backend b env p.ctx p.w p.purge).1, exit := SyncExit.finished,
             ctx := (sync_backend b env p.ctx p.w p.purge).2.1, g := p.g,
             w := (sync_backend b env p.ctx p.w p.purge).2.2 }

/-- The rest of `mx_close_mailbox` from the sync block on, in state `p`. -/
def close_from_sync (b : Build) (env : Env) (p : SyncPoint) : Option CloseResult :=
  match close_sync b env p.g p.ctx p.w p.purge with
  | none => none
  | some (.error r) => some r
  | some (.ok (c5, w5)) => close_finish b env p.g c5 w5 p.move_messages p.purge p.read_msgs

/-- An mbox session with two unread records, the second marked deleted, and
nothing else changed. -/
def ex_deleted_ctx : Context :=
  { Context.zero with
    path := some "/tmp/mbox", magic := MUTT_MBOX, mx_ops := some MUTT_MBOX,
    hdrs := [some { ex_hdr with addr := 1 },
             some { ex_hdr with addr := 2, msgno := 1, virtual := 1, deleted := true }],
    v2r := [0, 1], hdrmax := 2, msgcount := 2, vcount := 2, vsize := 20, deleted := 1,
    unread := 2, new := 2 }

/-- The example environment where the user answers no to every question. -/
def ex_env_no : Env := { ex_env with query_quadoption := fun _ _ => MUTT_NO }

/-- The state at the sync block when the example session is closed and the
purge is declined. -/
def ex_declined_point : SyncPoint :=
  { ctx := { ex_deleted_ctx with closing := true }, g := ex_globals,
    w := ex_world.log (Event.query_quadoption QuadOpt.OPT_DELETE "Purge %d deleted message?"),
    purge := 0, move_messages := 0, read_msgs := 0 }

/-- The outcome of closing the example session when the purge is declined. -/
def ex_declined_closed : CloseResult :=
  { rc := 0, exit := CloseExit.closed, ctx := Context.zero, g := ex_globals,
    w := (((ex_declined_point.w.log (Event.message "%d kept, %d deleted." [2, 0])).log
      (Event.buffy_setnotified (some "/tmp/mbox"))).log (Event.ops_close MUTT_MBOX)) }

/-- The example environment with a backend whose `sync` fails with -3 and
marks the session changed. -/
def ex_env_sync_fails : Env :=
  { ex_env with ops := fun _ =>
      { ex_ops with sync := some (fun _ c => (-3, { c with changed := true })) } }

/-- The state at the sync block when the example session is closed and the
purge is confirmed. -/
def ex_confirmed_point : SyncPoint :=
  { ctx := { ex_deleted_ctx with closing := true }, g := ex_globals,
    w := ex_world.log (Event.query_quadoption QuadOpt.OPT_DELETE "Purge %d deleted message?"),
    purge := 1, move_messages := 0, read_msgs := 0 }

/-! ### Removal of an emptied mailbox file -/

/-- The events of the locking service: lock requests, releases, the polls of
the waiting loops with their messages, and the runs of the dotlock helper. -/
def Event.is_lock_traffic : Event → Bool
  | .setlk _ _ => true
  | .unlock _ => true
  | .fstat => true
  | .sleep _ => true
  | .message _ _ => true
  | .error _ => true
  | .dotlock _ _ _ => true
  | .yesorno _ => true
  | .clear_error => true
  | _ => false

/-- An event other than the opening of the mailbox file by `mx_unlink_empty`
and the `unlink` of a file. -/
def Event.not_removal : Event → Bool
  | .open_rdwr _ => false
  | .unlink _ => false
  | _ => true

/-- The condition under which `mx_unlink_empty (path)`, called in world `w`,
removes the file itself: the build has no dotlock helper, the file opens, the
lock is granted, and `fstat` reports size zero. -/
def unlink_empty_removes (b : Build) (env : Env) (g : Globals) (path : String) (w : World) :
    Prop :=
  b.USE_DOTLOCK = false ∧ env.open_rdwr w.trace path = true ∧
    ∃ rl w2, mx_lock_file b env.errnos g.opts
        (env.lock_script (w.log (Event.open_rdwr path)).trace path) path true false true
        (w.log (Event.open_rdwr path)) = some (rl, w2) ∧
      rl ≠ -1 ∧ env.fstat_size w2.trace = some 0

/-- A build without the dotlock helper. -/
def ex_build_nodot : Build := { ex_build with USE_DOTLOCK := false }

/-- The example environment where the mailbox file is found non-empty when
`mx_unlink_empty` looks at it. -/
def ex_env_nonempty : Env := { ex_env with fstat_size := fun _ => some 100 }

/-- An mbox session whose only record is marked deleted. -/
def ex_all_deleted_ctx : Context :=
  { Context.zero with
    path := some "/tmp/mbox", magic := MUTT_MBOX, mx_ops := some MUTT_MBOX,
    hdrs := [some { ex_hdr with addr := 1, deleted := true }],
    v2r := [0], hdrmax := 1, msgcount := 1, vcount := 1, vsize := 10, deleted := 1,
    unread := 1, new := 1 }

/-- The state at the sync block when `ex_all_deleted_ctx` is closed and the
purge is confirmed. -/
def ex_all_deleted_point : SyncPoint :=
  { ctx := { ex_all_deleted_ctx with closing := true }, g := ex_globals,
    w := ex_world.log (Event.query_quadoption QuadOpt.OPT_DELETE "Purge %d deleted message?"),
    purge := 1, move_messages := 0, read_msgs := 0 }

/-- The world after the backend sync of `ex_all_deleted_ctx`. -/
def ex_synced_world : World :=
  (ex_all_deleted_point.w.log (Event.message "Writing %s..." [])).log (Event.ops_sync MUTT_MBOX)

/-- The outcome of closing `ex_all_deleted_ctx` in a build without the dotlock
helper, the file being empty after the sync: the file is unlinked. -/
def ex_all_deleted_closed : CloseResult :=
  { rc := 0, exit := CloseExit.closed, ctx := Context.zero, g := ex_globals,
    w := { ex_world with trace := ex_synced_world.trace ++
      [Event.message "%d kept, %d deleted." [0, 1], Event.open_rdwr "/tmp/mbox",
       Event.setlk LockKind.fcntl true, Event.setlk LockKind.flock true, Event.fstat,
       Event.unlink "/tmp/mbox", Event.unlock LockKind.fcntl, Event.unlock LockKind.flock,
       Event.close_fd, Event.sb_set_buffystats 0 0 0,
       Event.buffy_setnotified (some "/tmp/mbox"), Event.ops_close MUTT_MBOX] } }

/-! ### Copy to the trash -/

/-- An event other than a copy of a message. -/
def Event.not_append : Event → Bool
  | .append_message _ _ => false
  | _ => true

/-- The ways a call of `trash_append` on a session with records `recs` can
return `res`: with -1 (the confirmation of the trash folder failed, or the
folder could not be opened); with 0 from an early return, nothing copied; or
after the append path: the trash path was opened for append, the records with
`deleted && !purge` were appended to that session, each once and in storage
order, the trash session was closed and the result is 0. -/
def TrashOutcome (b : Build) (env : Env) (g : Globals) (ctx : Context) (w : World)
    (close_nested : Globals → Context → World → Option CloseResult)
    (recs : List Header) (res : Int × Globals × World) : Prop :=
    (res.1 = -1 ∧ ∀ tp, g.TrashPath = some tp →
        (env.mutt_save_confirm w.trace tp).1 = 0 → ∃ w3 o,
          mx_open_mailbox b env g (some tp) append_flags (some Context.zero) w3 = some o ∧
          o.ret = none) ∨
    (res.1 = 0 ∧ res.2.1 = g ∧ World.adds Event.not_append w res.2.2) ∨
    (∃ tp w3 o t cr,
      g.TrashPath = some tp ∧ ctx.deleted ≠ 0 ∧
      ¬ (ctx.magic = MUTT_MAILDIR ∧ g.opts.OPTMAILDIRTRASH = true) ∧
      mx_open_mailbox b env g (some tp) append_flags (some Context.zero) w3 = some o ∧
      o.ret = some t ∧
      (trash_copy_loop env ctx (recs.dropWhile (fun h => !(h.deleted && !h.purge))) t o.w).2.2.trace
        = o.w.trace ++ (recs.filter (fun h => h.deleted && !h.purge)).map
            (fun h => Event.append_message h.addr 0) ∧
      close_nested o.g
        (trash_copy_loop env ctx (recs.dropWhile (fun h => !(h.deleted && !h.purge))) t o.w).2.1
        (trash_copy_loop env ctx (recs.dropWhile (fun h => !(h.deleted && !h.purge))) t o.w).2.2
        = some cr ∧
      res = (0, cr.g, cr.w))

/-- Example globals with a trash folder. -/
def ex_trash_globals : Globals := { ex_globals with TrashPath := some "/tmp/trash" }

/-- An mbox session with three records: the first deleted, the second deleted
and purged (it was relocated), the third kept. -/
def ex_trash_ctx : Context :=
  { Context.zero with
    path := some "/tmp/mbox", magic := MUTT_MBOX, mx_ops := some MUTT_MBOX,
    hdrs := [some { ex_hdr with addr := 1, deleted := true },
             some { ex_hdr with addr := 2, msgno := 1, virtual := 1, deleted := true,
                                purge := true },
             some { ex_hdr with addr := 3, msgno := 2, virtual := 2 }],
    v2r := [0, 1, 2], hdrmax := 3, msgcount := 3, vcount := 3, vsize := 30, deleted := 2,
    unread := 3, new := 3 }

/-- The outcome of `trash_append` on the example session. -/
def ex_trash_result : Int × Globals × World :=
  (0, ex_trash_globals,
    { ex_world with trace :=
      [Event.save_confirm "/tmp/trash", Event.lstat "/tmp/mbox", Event.realpath "/tmp/trash",
       Event.stat "/tmp/trash", Event.stat "/tmp/trash", Event.comp_can_append "/tmp/trash",
       Event.ops_open_append MUTT_MBOX, Event.append_message 1 0,
       Event.buffy_setnotified (some "/tmp/trash"), Event.ops_close MUTT_MBOX] })

/-! ### Relocation of the read messages -/

/-- Modelled from the spec: `mutt_set_flag` (flags.c) is not among the sources.
What the close pipeline relies on when it sets a flag of a record of a
session: setting `MUTT_DELETE` or `MUTT_PURGE` sets that flag of the record
and leaves its other deletion flag alone; setting `MUTT_OLD` leaves the read,
deleted, flagged and purge flags alone; the record keeps its identity, and
the session keeps its array of records, its message count and its kind. -/
structure FlagContract (env : Env) : Prop where
  del : ∀ c h, (env.mutt_set_flag c h MsgFlag.MUTT_DELETE true).1.deleted = true ∧
    (env.mutt_set_flag c h MsgFlag.MUTT_DELETE true).1.purge = h.purge ∧
    (env.mutt_set_flag c h MsgFlag.MUTT_DELETE true).1.addr = h.addr ∧
    (env.mutt_set_flag c h MsgFlag.MUTT_DELETE true).2.hdrs = c.hdrs ∧
    (env.mutt_set_flag c h MsgFlag.MUTT_DELETE true).2.msgcount = c.msgcount ∧
    (env.mutt_set_flag c h MsgFlag.MUTT_DELETE true).2.magic = c.magic
  purge : ∀ c h, (env.mutt_set_flag c h MsgFlag.MUTT_PURGE true).1.purge = true ∧
    (env.mutt_set_flag c h MsgFlag.MUTT_PURGE true).1.deleted = h.deleted ∧
    (env.mutt_set_flag c h MsgFlag.MUTT_PURGE true).1.addr = h.addr ∧
    (env.mutt_set_flag c h MsgFlag.MUTT_PURGE true).2.hdrs = c.hdrs ∧
    (env.mutt_set_flag c h MsgFlag.MUTT_PURGE true).2.msgcount = c.msgcount ∧
    (env.mutt_set_flag c h MsgFlag.MUTT_PURGE true).2.magic = c.magic
  old : ∀ c h, (env.mutt_set_flag c h MsgFlag.MUTT_OLD true).1.read = h.read ∧
    (env.mutt_set_flag c h MsgFlag.MUTT_OLD true).1.deleted = h.deleted ∧
    (env.mutt_set_flag c h MsgFlag.MUTT_OLD true).1.flagged = h.flagged ∧
    (env.mutt_set_flag c h MsgFlag.MUTT_OLD true).1.purge = h.purge ∧
    (env.mutt_set_flag c h MsgFlag.MUTT_OLD true).1.addr = h.addr ∧
    (env.mutt_set_flag c h MsgFlag.MUTT_OLD true).2.hdrs = c.hdrs ∧
    (env.mutt_set_flag c h MsgFlag.MUTT_OLD true).2.msgcount = c.msgcount ∧
    (env.mutt_set_flag c h MsgFlag.MUTT_OLD true).2.magic = c.magic

/-- The record `h2` is the record `h1` with the same read, deleted, flagged
and purge flags. -/
def same_flags (h1 h2 : Header) : Prop :=
  h2.addr = h1.addr ∧ h2.read = h1.read ∧ h2.deleted = h1.deleted ∧ h2.flagged = h1.flagged ∧
    h2.purge = h1.purge

/-- What the relocation does to a record: a read message (read, not deleted,
not flagged-and-kept) ends deleted and purged, any other record is left as it
is. -/
def relocated (opts : Options) (h1 h2 : Header) : Prop :=
  h2.addr = h1.addr ∧ (is_read_msg opts h1 = true → h2.deleted = true ∧ h2.purge = true) ∧
    (is_read_msg opts h1 = false → h2 = h1)

/-- The example environment where read messages are always moved, to
`/tmp/archive`. -/
def ex_env_move : Env :=
  { ex_env with quadoption := fun _ => MUTT_YES, mutt_find_hook := fun _ => some "/tmp/archive" }

/-- An mbox session with three records: the first read, the second unread, the
third read and flagged. -/
def ex_move_ctx : Context :=
  { Context.zero with
    path := some "/tmp/mbox", magic := MUTT_MBOX, mx_ops := some MUTT_MBOX,
    hdrs := [some { ex_hdr with addr := 1, read := true },
             some { ex_hdr with addr := 2, msgno := 1, virtual := 1 },
             some { ex_hdr with addr := 3, msgno := 2, virtual := 2, read := true,
                                flagged := true }],
    v2r := [0, 1, 2], hdrmax := 3, msgcount := 3, vcount := 3, vsize := 30, unread := 1,
    new := 1, flagged := 1 }

/-- The state at the sync block when `ex_move_ctx` is closed and the move is
confirmed. -/
def ex_moved_point : SyncPoint :=
  match close_until_sync ex_build ex_env_move 1 ex_globals ex_move_ctx ex_world with
  | some (.ok p) => p
  | _ => { ctx := Context.zero, g := ex_globals, w := ex_world, purge := 0, move_messages := 0,
           read_msgs := 0 }

/-! ### The view after a pass -/

/-- A record is in the view. -/
def Header.visible (h : Header) : Bool := h.virtual != -1

/-- A peek-only session on `/tmp/mbox` whose recorded access time (10) is
later than its recorded modification time (5). -/
def ex_peek_ctx : Context :=
  { ex_ctx with peekonly := true, atime := 10, mtime := 5 }

/-! ### The no-op path of close and sync -/

/-- The events of a close that finds nothing to write: the questions, the
catch-up and the flag settings before the test, the message, the reset of the
access time, and the fast teardown. -/
def Event.is_quiet_close : Event → Bool
  | .query_quadoption _ _ => true
  | .newsgroup_catchup _ => true
  | .set_flag _ _ _ => true
  | .message _ _ => true
  | .mbox_reset_atime => true
  | .utime _ _ _ => true
  | .buffy_setnotified _ => true
  | .ops_close _ => true
  | _ => false

/-- A writable mbox session with one unread record, no change and nothing
deleted. -/
def ex_unchanged_ctx : Context :=
  { Context.zero with
    path := some "/tmp/mbox", magic := MUTT_MBOX, mx_ops := some MUTT_MBOX,
    hdrs := [some { ex_hdr with addr := 1 }], v2r := [0], hdrmax := 1, msgcount := 1,
    vcount := 1, vsize := 10, unread := 1, new := 1 }

/-- The world after the close of the unchanged example session. -/
def ex_unchanged_world : World :=
  { ex_world with
    trace := [Event.message "Mailbox is unchanged." [], Event.mbox_reset_atime,
              Event.buffy_setnotified (some "/tmp/mbox"), Event.ops_close MUTT_MBOX] }

/-! ## Message handles and the check for new mail -/

/-- A handle as `safe_calloc (1, sizeof (struct Message))` leaves it. -/
def Message.zero : Message :=
  { fp := false, path := none, commited_path := none, write := false, flag_read := false,
    flag_flagged := false, flag_replied := false, flag_draft := false, received := 0 }

/-- The `flags` argument of `mx_open_new_message`, one field per `MUTT_*`
bit. -/
structure NewMessageFlags where
  MUTT_ADD_FROM : Bool
  MUTT_SET_DRAFT : Bool
deriving DecidableEq, Repr

/-- `mx_check_mailbox (ctx, index_hint)`: check for new mail.  `ctx` is `none`
for a `NULL` pointer; the result `none` is a call through a `NULL` `check`
pointer.  (`mutt_debug` writes to the debug file and is left out, here and
below.) -/
def mx_check_mailbox (env : Env) (ctx : Option Context) (w : World) :
    Option (Int × Option Context × World) :=
  match ctx with
  | none => some (-1, none, w)
  | some c =>
    match c.mx_ops with
    | none => some (-1, some c, w)
    | some t =>
      match (env.ops t).check with
      | none => none
      | some f => some ((f w.trace c).1, some (f w.trace c).2, w.log (Event.ops_check t))

/-- `mx_open_message (ctx, msgno)`: return a stream pointer for a message.
The handle is `none` for `NULL`. -/
def mx_open_message (env : Env) (ctx : Context) (msgno : Int) (w : World) :
    Option Message × World :=
  match ctx.mx_ops with
  | none => (none, w)
  | some t =>
    match (env.ops t).open_msg with
    | none => (none, w)
    | some f =>
      (if (f w.trace ctx msgno).1 != 0 then none else some (f w.trace ctx msgno).2,
        w.log (Event.ops_open_msg t msgno))

/-- `mx_open_new_message (dest, hdr, flags)`.  `now` is the value `time ()`
stores.  The writes to the stream of the handle are events; the address in the
`From ` line comes from envelope fields that are not part of the model and is
not recorded. -/
def mx_open_new_message (env : Env) (now : Int) (dest : Context) (hdr : Option Header)
    (flags : NewMessageFlags) (w : World) : Option Message × World :=
  match dest.mx_ops with
  | none => (none, w)
  | some t =>
    match (env.ops t).open_new_msg with
    | none => (none, w)
    | some f =>
      let m1 : Message :=
        match hdr with
        | some h =>
          { Message.zero with write := true, flag_flagged := h.flagged,
                              flag_replied := h.replied, flag_read := h.read,
                              flag_draft := flags.MUTT_SET_DRAFT, received := h.received }
        | none => { Message.zero with write := true }
      let m2 : Message × World :=
        if m1.received == 0 then ({ m1 with received := now }, w.log Event.time) else (m1, w)
      let o := f m2.2.trace dest m2.1 hdr
      let w3 := m2.2.log (Event.ops_open_new_msg t)
      if o.1 == 0 then
        let w4 := if dest.magic == MUTT_MMDF then w3.log (Event.fputs (String.mk MMDF_SEP))
          else w3
        let w5 :=
          if (dest.magic == MUTT_MBOX || dest.magic == MUTT_MMDF) && flags.MUTT_ADD_FROM then
            w4.log (Event.fprintf "From %s %s" [o.2.received])
          else w4
        (some o.2, w5)
      else (none, w3)

/-- `mx_commit_message (msg, ctx)`: commit a message to a folder. -/
def mx_commit_message (env : Env) (msg : Message) (ctx : Context) (w : World) : Int × World :=
  match ctx.mx_ops with
  | none => (-1, w)
  | some t =>
    match (env.ops t).commit_msg with
    | none => (-1, w)
    | some f =>
      if !(msg.write && ctx.append) then (-1, w)
      else (f w.trace ctx msg, w.log (Event.ops_commit_msg t))

/-- `mx_close_message (ctx, msg)`: close a pointer to a message.  `ctx` and
`msg` are `none` for `NULL` pointers; the handle is released at the end. -/
def mx_close_message (env : Env) (ctx : Option Context) (msg : Option Message) (w : World) :
    Int × World :=
  match ctx, msg with
  | some c, some m =>
    let r : Int × World :=
      match c.mx_ops with
      | some t =>
        match (env.ops t).close_msg with
        | some f => (f w.trace c m, w.log (Event.ops_close_msg t))
        | none => (0, w)
      | none => (0, w)
    match m.path with
    | some p => (r.1, r.2.log (Event.unlink p))
    | none => r
  | _, _ => (0, w)

/-! ### Dispatch through the operations table -/

/-- The example environment with a backend that has no `check` operation. -/
def ex_env_no_check : Env :=
  { ex_env with ops := fun _ => { ex_ops with check := none } }

/-- A handle with a temporary file. -/
def ex_msg : Message := { Message.zero with path := some "/tmp/msg.tmp" }

/-! ### The parts of `mx_open_mailbox` -/

/-- The session `mx_open_mailbox` has set up when it turns to the kind of the
mailbox: zeroed, with the path, the real path, the rights and the mode flags. -/
def open_setup (b : Build) (env : Env) (p : String) (flags : OpenFlags) (w : World) : Context :=
  let c1 := { Context.zero with path := some p }
  let c2 := { c1 with realpath := some ((env.realpath w.trace p).getD p) }
  let c3 := { c2 with msgnotreadyet := -1, collapsed := false,
                      rights := List.replicate b.RIGHTSMAX true }
  let c4 := if flags.MUTT_QUIET then { c3 with quiet := true } else c3
  let c5 := if flags.MUTT_READONLY then { c4 with readonly := true } else c4
  if flags.MUTT_PEEK then { c5 with peekonly := true } else c5

/-- The block `if (flags & (MUTT_APPEND | MUTT_NEWFOLDER))` of
`mx_open_mailbox`, for the session `c6` set up so far. -/
def open_for_append (b : Build) (env : Env) (g : Globals) (flags : OpenFlags)
    (pctx : Option Context) (c6 : Context) (w1 : World) : Option OpenResult :=
  let a := mx_open_mailbox_append b env g c6 flags w1
  if a.1 != 0 then
    match mx_fastclose_mailbox env a.2.1 a.2.2 with
    | none => none
    | some (c, w2) =>
      some { ret := none, pctx := free_unless_supplied pctx c, g := g, w := w2 }
  else some { ret := some a.2.1, pctx := free_unless_supplied pctx a.2.1, g := g,
              w := a.2.2 }

/-- The rest of `mx_open_mailbox` for an open that is not for append, from
`ctx->magic = mx_get_magic (path)` on, for the session `c6` set up so far. -/
def open_for_read (b : Build) (env : Env) (g : Globals) (p : String) (flags : OpenFlags)
    (pctx : Option Context) (c6 : Context) (w1 : World) : Option OpenResult :=
  let m := mx_get_magic b env g.opts g.DefaultMagic p w1
  let c7 := { c6 with magic := m.1, mx_ops := mx_get_ops b m.1 }
  if decide (c7.magic ≤ 0) || c7.mx_ops.isNone then
    let w2 :=
      if c7.magic == -1 then m.2.log (Event.error "perror")
      else if c7.magic == 0 || c7.mx_ops.isNone then
        m.2.log (Event.error "%s is not a mailbox.")
      else m.2
    match mx_fastclose_mailbox env c7 w2 with
    | none => none
    | some (c, w3) =>
      some { ret := none, pctx := free_unless_supplied pctx c, g := g, w := w3 }
  else
    match c7.mx_ops with
    | none => none
    | some t =>
      let c8 := { c7 with label_hash := some [] }
      let w2 := m.2.log Event.make_label_hash
      let g1 := { g with opts := { g.opts with OPTFORCEREFRESH := true } }
      let w3 := if !c8.quiet then w2.log (Event.message "Reading %s..." []) else w2
      match (env.ops t).open_ with
      | none => none
      | some f =>
        let o := f w3.trace c8
        let w4 := w3.log (Event.ops_open t)
        if o.1 == 0 || o.1 == -2 then
          let sorted : Context × Globals × World :=
            if !flags.MUTT_NOSORT then
              (env.mutt_sort_headers w4.trace o.2,
               { g1 with opts := { g1.opts with OPTSORTSUBTHREADS := false,
                                                OPTNEEDRESCORE := false } },
               w4.log Event.sort_headers)
            else (o.2, g1, w4)
          let w5 := if !sorted.1.quiet then sorted.2.2.log Event.clear_error
            else sorted.2.2
          let w6 := if o.1 == -2 then w5.log (Event.error "Reading from %s interrupted...")
            else w5
          some { ret := some sorted.1, pctx := free_unless_supplied pctx sorted.1,
                 g := { sorted.2.1 with opts :=
                          { sorted.2.1.opts with OPTFORCEREFRESH := false } },
                 w := w6 }
        else
          match mx_fastclose_mailbox env o.2 w4 with
          | none => none
          | some (c, w5) =>
            some { ret := free_unless_supplied pctx c,
                   pctx := free_unless_supplied pctx c,
                   g := { g1 with opts := { g1.opts with OPTFORCEREFRESH := false } },
                   w := w5 }

/-- The example environment with a backend that has every message operation;
`commit_msg` answers 7. -/
def ex_env_msg_ops : Env :=
  { ex_env with ops := fun _ =>
      { ex_ops with open_msg := some (fun _ _ _ => (0, Message.zero)),
                    close_msg := some (fun _ _ _ => 0),
                    commit_msg := some (fun _ _ _ => 7),
                    open_new_msg := some (fun _ _ m _ => (0, m)) } }

/-! ## Growth of the index tables: `mx_alloc_memory` -/

/-- The sizes the growth arithmetic depends on: the width of `size_t` in bits,
`sizeof (struct Header *)` and `sizeof (int)`. -/
structure Abi where
  size_bits : Nat
  sizeof_ptr : Nat
  sizeof_int : Nat
deriving DecidableEq, Repr

/-- The slot size `s = MAX (sizeof (struct Header *), sizeof (int))`. -/
def Abi.slot (abi : Abi) : Nat := max abi.sizeof_ptr abi.sizeof_int

/-- A product of two `size_t` values: modulo `2 ^ size_bits`. -/
def Abi.mul (abi : Abi) (a b : Nat) : Nat := (a * b) % 2 ^ abi.size_bits

/-- How `mx_alloc_memory` ends: it returns with the grown session, or the
process is stopped by `mutt_exit`. -/
inductive AllocResult where
  | returned (ctx : Context) (w : World)
  | exited (code : Int) (w : World)
deriving DecidableEq, Repr

/-- The array `realloc` hands back for `n` slots: the old content as far as it
goes, and whatever the memory holds (`junk`) in the new slots. -/
def realloc_slots {α : Type} (old : List α) (n : Nat) (junk : Nat → α) : List α :=
  (List.range n).map (fun i => (old.get? i).getD (junk i))

/-- The loop `for (i = ctx->msgcount; i < ctx->hdrmax; i++)` of
`mx_alloc_memory`, with `n` iterations left. -/
def alloc_fill : Nat → Nat → List (Option Header) → List Int →
    List (Option Header) × List Int
  | 0, _, hdrs, v2r => (hdrs, v2r)
  | n + 1, i, hdrs, v2r => alloc_fill n (i + 1) (hdrs.set i none) (v2r.set i (-1))

/-- `mx_alloc_memory (ctx)`.  The test is made in `size_t`; `ctx->hdrmax + 25`
itself is an `int` sum and is taken exactly.  A `NULL` `hdrs` is the empty
array.  `alloc_ok` tells whether the allocator can provide the given number of
bytes: `safe_realloc` and `safe_calloc` stop the process when it cannot;
`junk_hdrs` and `junk_v2r` are what the new slots hold after `realloc`. -/
def mx_alloc_memory (abi : Abi) (alloc_ok : Nat → Bool) (junk_hdrs : Nat → Option Header)
    (junk_v2r : Nat → Int) (ctx : Context) (w : World) : AllocResult :=
  if abi.mul (ctx.hdrmax + 25) abi.slot < abi.mul ctx.hdrmax abi.slot then
    AllocResult.exited 1
      ((w.log (Event.error "Integer overflow -- can't allocate memory.")).log (Event.sleep 1))
  else
    let hdrmax := ctx.hdrmax + 25
    if !alloc_ok (abi.mul abi.sizeof_ptr hdrmax) || !alloc_ok (abi.mul abi.sizeof_int hdrmax) then
      AllocResult.exited 1 ((w.log (Event.error "Out of memory!")).log (Event.sleep 1))
    else
      let arrays : List (Option Header) × List Int :=
        if !ctx.hdrs.isEmpty then
          (realloc_slots ctx.hdrs hdrmax junk_hdrs, realloc_slots ctx.v2r hdrmax junk_v2r)
        else (List.replicate hdrmax none, List.replicate hdrmax 0)
      let filled := alloc_fill (hdrmax - ctx.msgcount) ctx.msgcount arrays.1 arrays.2
      AllocResult.returned { ctx with hdrmax := hdrmax, hdrs := filled.1, v2r := filled.2 } w

/-- A platform with 64-bit `size_t` and pointers and 32-bit `int`. -/
def ex_abi64 : Abi := { size_bits := 64, sizeof_ptr := 8, sizeof_int := 4 }

/-- A platform with 32-bit `size_t`, pointers and `int`. -/
def ex_abi32 : Abi := { size_bits := 32, sizeof_ptr := 4, sizeof_int := 4 }

/-- The example session with a capacity of 1073741800 slots, the last one
whose size in bytes fits in 32 bits. -/
def ex_full_ctx : Context := { ex_ctx with hdrmax := 1073741800 }

/-! ## The `.newsrc` data of a news group (`newsrc.c`) -/

/-- An article number lies in a `.newsrc` entry. -/
def NewsrcEntry.covers (e : NewsrcEntry) (a : Nat) : Prop := e.first ≤ a ∧ a ≤ e.last

instance (e : NewsrcEntry) (a : Nat) : Decidable (e.covers a) := by
  unfold NewsrcEntry.covers; infer_instance

/-- The entries `newsrc_ent[0 .. newsrc_len)` of a group as a loop over them
reads them; `none` when the array is shorter than `newsrc_len` (or `NULL` with
a positive `newsrc_len`). -/
def NntpData.entries (d : NntpData) : Option (List NewsrcEntry) :=
  if d.newsrc_len ≤ (d.newsrc_ent.getD []).length then
    some ((d.newsrc_ent.getD []).take d.newsrc_len)
  else none

/-- The loop of `nntp_group_unread_stat` over the entries still to visit.
`anum_t` is declared in `nntp.h`, which is not among the sources: it is an
unsigned type of `bits` bits, and `unread -= last - first + 1` is computed
modulo `2 ^ bits`. -/
def unread_stat_loop (bits firstMessage lastMessage : Nat) : List NewsrcEntry → Nat → Nat
  | [], unread => unread
  | e :: rest, unread =>
    let first := if e.first < firstMessage then firstMessage else e.first
    let last := if e.last > lastMessage then lastMessage else e.last
    unread_stat_loop bits firstMessage lastMessage rest
      (if first ≤ last then
        (unread + 2 ^ bits - (last - first + 1) % 2 ^ bits) % 2 ^ bits
       else unread)

/-- `nntp_group_unread_stat (nntp_data)`: calculate number of unread articles
using .newsrc data. -/
def nntp_group_unread_stat (bits : Nat) (nntp_data : NntpData) : Option NntpData :=
  if nntp_data.lastMessage == 0 || decide (nntp_data.firstMessage > nntp_data.lastMessage) then
    some { nntp_data with unread := 0 }
  else
    match nntp_data.entries with
    | none => none
    | some ents =>
      some { nntp_data with
             unread := unread_stat_loop bits nntp_data.firstMessage nntp_data.lastMessage ents
               ((nntp_data.lastMessage - nntp_data.firstMessage + 1) % 2 ^ bits) }

/-- The article numbers in `[firstMessage, lastMessage]` that lie in no entry
of the list. -/
def uncovered (firstMessage lastMessage : Nat) (ents : List NewsrcEntry) : Finset Nat :=
  (Finset.Icc firstMessage lastMessage).filter (fun a => ∀ e ∈ ents, ¬ e.covers a)

/-- Two entries share no article number. -/
def NewsrcEntry.disjoint (e1 e2 : NewsrcEntry) : Prop := ∀ a, ¬ (e1.covers a ∧ e2.covers a)

/-- A group with articles 2 to 10 and three entries: 1-3, the empty 5-4, and
8-20. -/
def ex_unread_group : NntpData :=
  { ex_group with
    newsrc_ent := some [{ first := 1, last := 3 }, { first := 5, last := 4 },
                        { first := 8, last := 20 }],
    newsrc_len := 3, firstMessage := 2, lastMessage := 10, unread := 99 }

/-! ### Generating the `.newsrc` entries of a session -/

/-- The locals of the loop of `nntp_newsrc_gen_entries` and the part of the
array written so far: `out` is `newsrc_ent[0 .. newsrc_len)`, `entries` the
allocated capacity. -/
structure GenState where
  out : List NewsrcEntry
  entries : Nat
  first : Nat
  last : Nat
  series : Bool
deriving DecidableEq, Repr

/-- Store one entry at `newsrc_ent[newsrc_len]`, doubling the capacity first
when the array is full. -/
def GenState.emit (s : GenState) (e : NewsrcEntry) (grow : Nat → Nat) : GenState :=
  { s with out := s.out ++ [e],
           entries := if s.out.length ≥ s.entries then grow s.entries else s.entries }

/-- One iteration of the loop of `nntp_newsrc_gen_entries`, for the record
`h`.  Article numbers are `anum_t` values of `bits` bits. -/
def gen_entries_step (bits firstMessage : Nat) (s : GenState) (h : Header) : GenState :=
  if s.series then
    -- search for first unread
    if decide (h.article_num ≥ firstMessage) && !h.deleted && !h.read then
      { (s.emit { first := s.first, last := (h.article_num + 2 ^ bits - 1) % 2 ^ bits }
          (fun n => n * 2)) with last := h.article_num, series := false }
    else { s with last := h.article_num }
  else
    -- search for first read
    if h.deleted || h.read then
      { s with first := (s.last + 1) % 2 ^ bits, series := true, last := h.article_num }
    else { s with last := h.article_num }

/-- The block after the loop: the closing entry up to `lastLoaded`. -/
def gen_entries_close (lastLoaded : Nat) (s : GenState) : GenState :=
  if s.series && decide (s.first ≤ lastLoaded) then
    s.emit { first := s.first, last := lastLoaded } (fun n => n + 1)
  else s

/-- The entries `nntp_newsrc_gen_entries` generates for the records `recs` of
a group with the given `newsrc_len`, `firstMessage` and `lastLoaded`. -/
def gen_entries (bits : Nat) (d : NntpData) (recs : List Header) : GenState :=
  gen_entries_close d.lastLoaded
    (recs.foldl (gen_entries_step bits d.firstMessage)
      { out := [], entries := if d.newsrc_len == 0 then 5 else d.newsrc_len,
        first := 1, last := 0, series := true })

/-- The group data after `nntp_newsrc_gen_entries`: the array cut down to the
entries generated (`NULL` when there is none) and their number. -/
def gen_entries_data (bits : Nat) (d : NntpData) (recs : List Header) : NntpData :=
  { d with newsrc_ent := if (gen_entries bits d recs).out.isEmpty then none
                         else some (gen_entries bits d recs).out,
           newsrc_len := (gen_entries bits d recs).out.length }

/-- `nntp_newsrc_gen_entries (ctx)`: generate array of .newsrc entries.
`sort_order` tells whether the global `Sort` is `SORT_ORDER`; the group data
is the object `ctx->data` points to and is stored back at its address; an
array cut down to no entry is `NULL`.  `none` is a `NULL` dereference. -/
def nntp_newsrc_gen_entries (env : Env) (bits : Nat) (sort_order : Bool) (g : Globals)
    (ctx : Context) (w : World) : Option (Context × Globals × World) :=
  match find_data g.news ctx.data with
  | none => none
  | some d =>
    let sorted : Context × World :=
      if !sort_order then (env.mutt_sort_headers w.trace ctx, w.log Event.sort_headers)
      else (ctx, w)
    match sorted.1.live with
    | none => none
    | some recs =>
      let d1 := gen_entries_data bits d recs
      let restored : Context × World :=
        if !sort_order then
          (env.mutt_sort_headers sorted.2.trace sorted.1, sorted.2.log Event.sort_headers)
        else sorted
      some (restored.1, { g with news := put_data g.news d1 }, restored.2)

/-- `nntp_article_status (ctx, hdr, group, anum)`: fake the status flags of an
article from the `.newsrc` data.  `none` is a `NULL` dereference. -/
def nntp_article_status (g : Globals) (ctx : Context) (hdr : Header) (group : Option String)
    (anum : Nat) : Option Header :=
  let nntp_data : Option (Option NntpData) :=
    match group with
    | none => some (find_data g.news ctx.data)
    | some grp =>
      match find_data g.news ctx.data with
      | none => none
      | some d0 => if d0.nserv then some (find_group g.news grp) else none
  match nntp_data with
  | none => none
  | some none => some hdr
  | some (some d) =>
    match d.entries with
    | none => none
    | some ents =>
      if ents.any (fun e => decide (anum ≥ e.first) && decide (anum ≤ e.last)) then
        some { hdr with read := true }
      else if anum > d.lastCached then some hdr
      else if g.opts.OPTMARKOLD then some { hdr with old := true }
      else some hdr

/-- A news session whose only article has number 0 and is read. -/
def ex_article0_ctx : Context :=
  { Context.zero with
    path := some "news://host/comp.mail.mutt", magic := MUTT_NNTP, mx_ops := some MUTT_NNTP,
    hdrs := [some { ex_hdr with addr := 1, read := true, article_num := 0 }],
    v2r := [0], hdrmax := 1, msgcount := 1, vcount := 1, data := some 100 }

/-- Globals whose news group has articles 0 to 5. -/
def ex_globals0 : Globals :=
  { ex_globals with
    news := { groups_hash := some [{ ex_group with firstMessage := 0, lastMessage := 5,
                                                   lastLoaded := 5 }] } }

/-- What holds after the loop of `nntp_newsrc_gen_entries` has visited the
records `pre`: the entries written lie at or below the last article seen and,
in a run of read articles, below its start `first`; and an article seen is
inside an entry, or at or above the start of the current run, exactly when it
is read or deleted. -/
structure GenInv (pre : List Header) (s : GenState) : Prop where
  below : ∀ e ∈ s.out, ∀ b, e.covers b → b ≤ s.last
  apart : s.series = true → ∀ e ∈ s.out, ∀ b, e.covers b → b < s.first
  near : s.series = true → s.first ≤ s.last + 1
  seen : ∀ h ∈ pre, h.article_num ≤ s.last
  marks : ∀ h ∈ pre,
    ((∃ e ∈ s.out, e.covers h.article_num) ∨ (s.series = true ∧ s.first ≤ h.article_num)) ↔
      (h.read = true ∨ h.deleted = true)

/-- A news session with four articles, 3, 4, 6 and 9: the first read, the
second unread, the third deleted, the fourth unread. -/
def ex_articles_ctx : Context :=
  { Context.zero with
    path := some "news://host/comp.mail.mutt", magic := MUTT_NNTP, mx_ops := some MUTT_NNTP,
    hdrs := [some { ex_hdr with addr := 1, read := true, article_num := 3 },
             some { ex_hdr with addr := 2, msgno := 1, virtual := 1, article_num := 4 },
             some { ex_hdr with addr := 3, msgno := 2, virtual := 2, deleted := true,
                                article_num := 6 },
             some { ex_hdr with addr := 4, msgno := 3, virtual := 3, article_num := 9 }],
    v2r := [0, 1, 2, 3], hdrmax := 4, msgcount := 4, vcount := 4, data := some 100 }

/-! ## Counting new messages: `mx_update_context` -/

/-- Modelled from the spec: `hash.c` is not among the sources; `hash_find
(table, key)` gives the reference stored under `key` (the one inserted last),
`NULL` when there is none. -/
def hash_find (table : Hash) (key : String) : Option Nat :=
  (table.find? (fun e => e.1 == key)).map (fun e => e.2)

/-- Modelled from the spec: `hash.c` is not among the sources; `hash_insert
(table, key, data)` adds a reference to the record at address `data` under
`key`. -/
def hash_insert (table : Hash) (key : String) (data : Nat) : Hash := (key, data) :: table

/-- Modelled from the spec: `mutt_make_id_hash` (thread.c) is not among the
sources; it builds the message-id index of the records of the session. -/
def mutt_make_id_hash (ctx : Context) : Hash :=
  ctx.records.foldl
    (fun t h =>
      match h.env.message_id with
      | some m => hash_insert t m h.addr
      | none => t) []

/-- Modelled from the spec: `mutt_label_hash_add` is not among the sources; it
adds the record to the label index. -/
def mutt_label_hash_add (label_hash : Option Hash) (h : Header) : Option Hash :=
  match label_hash, h.env.x_label with
  | some t, some l => some (hash_insert t l h.addr)
  | lh, _ => lh

/-- A write through a pointer to the record at address `a`. -/
def Context.update_at (ctx : Context) (a : Nat) (f : Header → Header) : Context :=
  { ctx with hdrs := ctx.hdrs.map (fun s => s.map (fun h => if h.addr == a then f h else h)) }

/-- `mutt_score_message (ctx, hdr, upd_ctx)` for the record at address `a`:
the collaborator `score` (score.c, not among the sources) changes the record
and the session. -/
def score_at (score : Context → Header → Bool → Header × Context) (ctx : Context) (a : Nat)
    (upd_ctx : Bool) : Context :=
  match (ctx.hdrs.filterMap id).find? (fun h => h.addr == a) with
  | none => ctx
  | some h => ((score ctx h upd_ctx).2).update_at a (fun _ => (score ctx h upd_ctx).1)

/-- The first part of the loop body of `mx_update_context`, for the record `h`
in slot `msgno`: its place in the view and its `msgno`.  (`h->security =
crypt_query (h->content)` writes a field that is not part of the model.) -/
def update_context_view (msgno : Nat) (h : Header) (ctx : Context) : Header × Context :=
  if ctx.pattern.isNone then
    ({ h with virtual := (ctx.vcount : Int), msgno := (msgno : Int) },
     { ctx with v2r := ctx.v2r.set ctx.vcount (msgno : Int), vcount := ctx.vcount + 1 })
  else ({ h with virtual := -1, msgno := (msgno : Int) }, ctx)

/-- The block `if (h->env->supersedes)` of the loop body. -/
def update_context_supersedes (opts : Options)
    (score : Context → Header → Bool → Header × Context) (h : Header) (ctx : Context) :
    Context :=
  match h.env.supersedes with
  | none => ctx
  | some sup =>
    let c1 := if ctx.id_hash.isNone then { ctx with id_hash := some (mutt_make_id_hash ctx) }
      else ctx
    match hash_find (c1.id_hash.getD []) sup with
    | none => c1
    | some a =>
      let c2 := c1.update_at a (fun x => { x with superseded := true })
      if opts.OPTSCORE then score_at score c2 a true else c2

/-- The block "add this message to the hash tables" of the loop body. -/
def update_context_hashes (h : Header) (ctx : Context) : Context :=
  let c1 :=
    match ctx.id_hash, h.env.message_id with
    | some t, some m => { ctx with id_hash := some (hash_insert t m h.addr) }
    | _, _ => ctx
  let c2 :=
    match c1.subj_hash, h.env.real_subj with
    | some t, some s => { c1 with subj_hash := some (hash_insert t s h.addr) }
    | _, _ => c1
  { c2 with label_hash := mutt_label_hash_add c2.label_hash h }

/-- The counters at the end of the loop body. -/
def update_context_count (h : Header) (ctx : Context) : Context :=
  let c1 := if h.changed then { ctx with changed := true } else ctx
  let c2 := if h.flagged then { c1 with flagged := c1.flagged + 1 } else c1
  let c3 := if h.deleted then { c2 with deleted := c2.deleted + 1 } else c2
  if !h.read then
    let c := { c3 with unread := c3.unread + 1 }
    if !h.old then { c with new := c.new + 1 } else c
  else c3

/-- One iteration of the loop of `mx_update_context`, for slot `msgno`.  The
record is read again from its slot after each block that can write to it
through another pointer.  `none` is a `NULL` slot or a write past the end of
`v2r`. -/
def update_context_step (opts : Options)
    (score : Context → Header → Bool → Header × Context) (msgno : Nat) (ctx : Context) :
    Option Context :=
  match ctx.hdrs.get? msgno with
  | some (some h) =>
    if ctx.pattern.isNone && decide (ctx.v2r.length ≤ ctx.vcount) then none
    else
      let r := update_context_view msgno h ctx
      let c2 := update_context_supersedes opts score r.1
        { r.2 with hdrs := r.2.hdrs.set msgno (some r.1) }
      match c2.hdrs.get? msgno with
      | some (some h3) =>
        let c3 := update_context_hashes h3 c2
        let c4 := if opts.OPTSCORE then score_at score c3 h3.addr false else c3
        match c4.hdrs.get? msgno with
        | some (some h4) => some (update_context_count h4 c4)
        | _ => none
      | _ => none
  | _ => none

/-- The loop `for (msgno = ...; msgno < ctx->msgcount; msgno++)` with `n`
iterations left. -/
def update_context_loop (opts : Options)
    (score : Context → Header → Bool → Header × Context) : Nat → Nat → Context → Option Context
  | 0, _, ctx => some ctx
  | n + 1, msgno, ctx =>
    match update_context_step opts score msgno ctx with
    | none => none
    | some c => update_context_loop opts score n (msgno + 1) c

/-- `mx_update_context (ctx, new_messages)`: update the counts in the context
structure for the last `new_messages` message headers parsed.  `none` is a
`NULL` dereference, a write outside an array, or more new messages than the
session has. -/
def mx_update_context (opts : Options) (score : Context → Header → Bool → Header × Context)
    (ctx : Context) (new_messages : Nat) : Option Context :=
  if new_messages ≤ ctx.msgcount then
    update_context_loop opts score new_messages (ctx.msgcount - new_messages) ctx
  else none

/-- A session as a backend leaves it after parsing three records, before the
counts are taken: no view, counters zero. -/
def ex_parsed_ctx : Context :=
  { Context.zero with
    path := some "/tmp/mbox", magic := MUTT_MBOX, mx_ops := some MUTT_MBOX,
    hdrs := [some { ex_hdr with addr := 1, msgno := 0, virtual := 0, flagged := true,
                                env := { ex_hdr.env with message_id := some "a" } },
             some { ex_hdr with addr := 2, msgno := 0, virtual := 0, deleted := true,
                                read := true,
                                env := { ex_hdr.env with supersedes := some "a" } },
             some { ex_hdr with addr := 3, msgno := 0, virtual := 0, old := true },
             none],
    v2r := [-1, -1, -1, -1], hdrmax := 4, msgcount := 3 }

/-! ### The incremental counts agree with the recount -/

/-- A record with the superseded mark cleared: what a write of `superseded`
cannot change. -/
def Header.sup_free (h : Header) : Header := { h with superseded := false }

/-- A record without its place in the tables and its superseded mark: what
`mx_update_context` leaves alone when scoring is off. -/
def Header.core (h : Header) : Header :=
  { h with msgno := 0, virtual := 0, superseded := false }

/-- What holds when the loop of `mx_update_context`, started on the session
`ctx0` with records `R0` and an empty view, has counted the first `i` records:
the records are the same up to their place in the tables and their superseded
mark; the first `i` are numbered `0 .. i-1` in storage and in the view; and
the counters are the counts over these `i` records. -/
structure CountInv (ctx0 : Context) (R0 : List Header) (i : Nat) (c : Context) : Prop where
  slots : c.hdrs.map (Option.map Header.core) = ctx0.hdrs.map (Option.map Header.core)
  numbered : ∀ j, j < i → ∀ h, c.hdrs.get? j = some (some h) →
    h.msgno = (j : Int) ∧ h.virtual = (j : Int)
  msgcount : c.msgcount = ctx0.msgcount
  magic : c.magic = ctx0.magic
  pattern : c.pattern = none
  vcount : c.vcount = i
  v2r_len : c.v2r.length = ctx0.v2r.length
  v2r : ∀ j, j < i → c.v2r[j]? = some (j : Int)
  flagged : c.flagged = (((R0.take i).countP (fun h => h.flagged) : Nat) : Int)
  deleted : c.deleted = (((R0.take i).countP (fun h => h.deleted) : Nat) : Int)
  unread : c.unread = (((R0.take i).countP (fun h => !h.read) : Nat) : Int)
  new : c.new = (((R0.take i).countP (fun h => !h.read && !h.old) : Nat) : Int)

/-! # Theorems -/

/-! ### Array lemmas -/

theorem slots_get_mid {α : Type} (A B : List α) (x : α) :
    (A ++ x :: B)[A.length]? = some x := by
  induction A with
  | nil => simp
  | cons a A ih => simpa using ih

theorem slots_set_mid {α : Type} (A B : List α) (x y : α) :
    (A ++ x :: B).set A.length y = A ++ y :: B := by
  induction A with
  | nil => simp
  | cons a A ih => simp

theorem slots_replicate_snoc {α : Type} (k : Nat) (x : α) (T : List α) :
    List.replicate k x ++ x :: T = List.replicate (k + 1) x ++ T := by
  induction k with
  | zero => simp
  | succ k ih => simp [List.replicate_succ] at ih ⊢; exact ih

theorem slots_get_hole {α : Type} (A T : List (Option α)) (k : Nat) (x : Option α) :
    (A ++ List.replicate k none ++ x :: T)[A.length + k]? = some x := by
  have := slots_get_mid (A ++ List.replicate k none) T x
  simpa using this

theorem slots_drop {α : Type} (A T : List (Option α)) (k : Nat) (x : Option α) :
    (A ++ List.replicate k none ++ x :: T).set (A.length + k) none =
      A ++ List.replicate (k + 1) none ++ T := by
  have := slots_set_mid (A ++ List.replicate k none) T x none
  simp only [List.length_append, List.length_replicate] at this
  rw [this, List.append_assoc, slots_replicate_snoc, ← List.append_assoc]

theorem slots_keep {α : Type} (A T : List (Option α)) (k : Nat) (x y : Option α) :
    (if (A.length + k != A.length) = true
        then ((A ++ List.replicate k none ++ x :: T).set A.length x).set (A.length + k) none
        else A ++ List.replicate k none ++ x :: T).set A.length y =
      (A ++ [y]) ++ List.replicate k none ++ T := by
  cases k with
  | zero =>
    simp only [Nat.add_zero, bne_self_eq_false, Bool.false_eq_true, if_false,
      List.replicate_zero, List.append_nil]
    rw [slots_set_mid]; simp
  | succ k =>
    have hne : (A.length + (k + 1) != A.length) = true := by simp
    rw [if_pos hne]
    have e1 : A ++ List.replicate (k + 1) none ++ x :: T =
        A ++ none :: (List.replicate k none ++ x :: T) := by
      simp [List.replicate_succ]
    rw [e1, slots_set_mid]
    have e2 : A ++ x :: (List.replicate k none ++ x :: T) =
        (A ++ x :: List.replicate k none) ++ x :: T := by simp
    have e3 : A.length + (k + 1) = (A ++ x :: List.replicate k none).length := by simp
    rw [e2, e3, slots_set_mid]
    have e4 : (A ++ x :: List.replicate k none) ++ none :: T =
        A ++ x :: (List.replicate k none ++ none :: T) := by simp
    rw [e4, slots_set_mid, slots_replicate_snoc]
    simp

/-- The array loop computes what `update_tables_run` computes on the records
still to visit, and leaves the kept records packed at the front. -/
theorem update_tables_loop_eq_run (opts : Options) (committing : Bool) :
    ∀ (rest : List Header) (A extra : List (Option Header)) (k : Nat) (ctx : Context),
      update_tables_loop opts committing rest.length (A.length + k) A.length
          (A ++ List.replicate k none ++ (rest.map some ++ extra)) ctx =
        (update_tables_run opts committing rest A.length ctx).map
          (fun r => (A.length + r.1.length,
            A ++ r.1.map some ++ List.replicate (k + rest.length - r.1.length) none ++ extra,
            r.2)) := by
  intro rest
  induction rest with
  | nil =>
    intro A extra k ctx
    simp [update_tables_loop, update_tables_run]
  | cons h t ih =>
    intro A extra k ctx
    have hget : (A ++ List.replicate k none ++ (List.map some (h :: t) ++ extra)).get?
        (A.length + k) = some (some h) := by
      rw [List.get?_eq_getElem?]
      exact slots_get_hole A (t.map some ++ extra) k (some h)
    simp only [List.length_cons, update_tables_loop, update_tables_run, hget]
    by_cases hk : update_tables_keep opts ctx.magic committing h = true
    · simp only [hk, if_true]
      by_cases hb : (h.virtual != -1 && decide (ctx.v2r.length ≤ ctx.vcount)) = true
      · simp [hb]
      · simp only [hb, if_false]
        have hs := slots_keep A (t.map some ++ extra) k (some h)
          (some (update_tables_kept opts committing A.length h ctx).1)
        simp only [List.map_cons, List.cons_append] at hs ⊢
        rw [hs]
        have := ih (A ++ [some (update_tables_kept opts committing A.length h ctx).1]) extra k
          (update_tables_kept opts committing A.length h ctx).2
        simp only [List.length_append, List.length_singleton] at this
        have e0 : A.length + k + 1 = A.length + 1 + k := by omega
        simp only [Bool.false_eq_true, if_false]
        rw [e0, this]
        cases hr : update_tables_run opts committing t (A.length + 1)
            (update_tables_kept opts committing A.length h ctx).2 with
        | none => simp
        | some r =>
          simp only [Option.map_some', List.length_cons, List.map_cons, Option.some.injEq,
            Prod.mk.injEq]
          refine ⟨by omega, ?_, trivial⟩
          have e : k + t.length - r.1.length = k + (t.length + 1) - (r.1.length + 1) := by omega
          rw [e]; simp
    · simp only [hk, if_false, Bool.false_eq_true]
      have hs := slots_drop A (t.map some ++ extra) k (some h)
      simp only [List.map_cons, List.cons_append] at hs ⊢
      rw [hs]
      have := ih A extra (k + 1) (update_tables_dropped h ctx)
      rw [Nat.add_assoc, this]
      cases hr : update_tables_run opts committing t A.length (update_tables_dropped h ctx) with
      | none => simp
      | some r =>
        simp only [Option.map_some', Option.some.injEq, Prod.mk.injEq, true_and, and_true]
        have e : k + 1 + t.length - r.1.length = k + (t.length + 1) - r.1.length := by omega
        rw [e]

/-- Closed form of the counters step. -/
theorem update_tables_count_eq (opts : Options) (committing : Bool) (h : Header) (ctx : Context) :
    update_tables_count opts committing h ctx =
      { ctx with
        deleted := ctx.deleted +
          (if (!committing || (ctx.magic == MUTT_MAILDIR && opts.OPTMAILDIRTRASH)) && h.deleted
            then 1 else 0),
        tagged := ctx.tagged + (if h.tagged then 1 else 0),
        flagged := ctx.flagged + (if h.flagged then 1 else 0),
        unread := ctx.unread + (if !h.read then 1 else 0),
        new := ctx.new + (if !h.read && !h.old then 1 else 0) } := by
  rcases h with ⟨a, m, v, hd, hr, ho, hf, hrep, ht, hp, hc, hact, hq, hs, rc, an, b, e⟩
  cases hcond : (!committing || (ctx.magic == MUTT_MAILDIR && opts.OPTMAILDIRTRASH)) <;>
  cases hd <;> cases ht <;> cases hf <;> cases hr <;> cases ho <;>
  simp [update_tables_count, hcond]

theorem update_tables_kept_eq (opts : Options) (committing : Bool) (j : Nat) (h : Header)
    (ctx : Context) :
    update_tables_kept opts committing j h ctx =
      ({ h with msgno := (j : Int),
                virtual := if h.virtual != -1 then (ctx.vcount : Int) else h.virtual,
                changed := if committing then false else h.changed },
       { ctx with
         v2r := if h.virtual != -1 then ctx.v2r.set ctx.vcount (j : Int) else ctx.v2r,
         vcount := ctx.vcount + (if h.virtual != -1 then 1 else 0),
         vsize := ctx.vsize + (if h.virtual != -1 then h.content.span else 0),
         changed := ctx.changed || (!committing && h.changed),
         deleted := ctx.deleted +
          (if (!committing || (ctx.magic == MUTT_MAILDIR && opts.OPTMAILDIRTRASH)) && h.deleted
            then 1 else 0),
         tagged := ctx.tagged + (if h.tagged then 1 else 0),
         flagged := ctx.flagged + (if h.flagged then 1 else 0),
         unread := ctx.unread + (if !h.read then 1 else 0),
         new := ctx.new + (if !h.read && !h.old then 1 else 0) }) := by
  rw [update_tables_kept, update_tables_count_eq]
  rcases h with ⟨a, m, v, hd, hr, ho, hf, hrep, ht, hp, hc, hact, hq, hs, rc, an, b, e⟩
  cases hv : (v != -1) <;> cases committing <;> cases hc <;>
  simp [update_tables_view, update_tables_changed, hv]

theorem update_tables_dropped_frame (h : Header) (ctx : Context) :
    update_tables_dropped h ctx =
      { ctx with size := (update_tables_dropped h ctx).size,
                 subj_hash := (update_tables_dropped h ctx).subj_hash,
                 id_hash := (update_tables_dropped h ctx).id_hash,
                 label_hash := (update_tables_dropped h ctx).label_hash,
                 last_tag := (update_tables_dropped h ctx).last_tag } := by
  simp only [update_tables_dropped]
  split <;> split <;> split <;> split <;> rfl

theorem kept_fst (opts : Options) (committing : Bool) (j : Nat) (h : Header) (ctx : Context) :
    (update_tables_kept opts committing j h ctx).1 =
      { h with msgno := (j : Int),
               virtual := if h.virtual != -1 then (ctx.vcount : Int) else h.virtual,
               changed := if committing then false else h.changed } := by
  rw [update_tables_kept_eq]

theorem kept_magic (opts : Options) (committing : Bool) (j : Nat) (h : Header) (ctx : Context) :
    (update_tables_kept opts committing j h ctx).2.magic = ctx.magic := by
  rw [update_tables_kept_eq]

theorem kept_v2r (opts : Options) (committing : Bool) (j : Nat) (h : Header) (ctx : Context) :
    (update_tables_kept opts committing j h ctx).2.v2r =
      if h.virtual != -1 then ctx.v2r.set ctx.vcount (j : Int) else ctx.v2r := by
  rw [update_tables_kept_eq]

theorem kept_vcount (opts : Options) (committing : Bool) (j : Nat) (h : Header) (ctx : Context) :
    (update_tables_kept opts committing j h ctx).2.vcount =
      ctx.vcount + (if h.virtual != -1 then 1 else 0) := by
  rw [update_tables_kept_eq]

theorem kept_vsize (opts : Options) (committing : Bool) (j : Nat) (h : Header) (ctx : Context) :
    (update_tables_kept opts committing j h ctx).2.vsize =
      ctx.vsize + (if h.virtual != -1 then h.content.span else 0) := by
  rw [update_tables_kept_eq]

theorem kept_changed (opts : Options) (committing : Bool) (j : Nat) (h : Header) (ctx : Context) :
    (update_tables_kept opts committing j h ctx).2.changed =
      (ctx.changed || (!committing && h.changed)) := by
  rw [update_tables_kept_eq]

theorem kept_deleted (opts : Options) (committing : Bool) (j : Nat) (h : Header) (ctx : Context) :
    (update_tables_kept opts committing j h ctx).2.deleted = ctx.deleted +
      (if (!committing || (ctx.magic == MUTT_MAILDIR && opts.OPTMAILDIRTRASH)) && h.deleted
        then 1 else 0) := by
  rw [update_tables_kept_eq]

theorem kept_tagged (opts : Options) (committing : Bool) (j : Nat) (h : Header) (ctx : Context) :
    (update_tables_kept opts committing j h ctx).2.tagged =
      ctx.tagged + (if h.tagged then 1 else 0) := by
  rw [update_tables_kept_eq]

theorem kept_flagged (opts : Options) (committing : Bool) (j : Nat) (h : Header) (ctx : Context) :
    (update_tables_kept opts committing j h ctx).2.flagged =
      ctx.flagged + (if h.flagged then 1 else 0) := by
  rw [update_tables_kept_eq]

theorem kept_unread (opts : Options) (committing : Bool) (j : Nat) (h : Header) (ctx : Context) :
    (update_tables_kept opts committing j h ctx).2.unread =
      ctx.unread + (if !h.read then 1 else 0) := by
  rw [update_tables_kept_eq]

theorem kept_new (opts : Options) (committing : Bool) (j : Nat) (h : Header) (ctx : Context) :
    (update_tables_kept opts committing j h ctx).2.new =
      ctx.new + (if !h.read && !h.old then 1 else 0) := by
  rw [update_tables_kept_eq]

theorem dropped_magic (h : Header) (ctx : Context) :
    (update_tables_dropped h ctx).magic = ctx.magic := by
  rw [update_tables_dropped_frame]

theorem count_step (p : Header → Bool) (h : Header) (t : List Header) (a x : Int)
    (hx : x = a + (if p h = true then 1 else 0) + (t.countP p : Int)) :
    x = a + ((h :: t).countP p : Int) := by
  rw [hx, List.countP_cons]
  by_cases hp : p h = true
  · simp [hp]; omega
  · simp [hp]

theorem RunFacts.nil (opts : Options) (committing : Bool) (j : Nat) (ctx : Context) :
    RunFacts opts committing [] j ctx ctx := by
  constructor <;> simp [v2r_fill, visible_size]

theorem RunFacts.kept (opts : Options) (committing : Bool) (K : List Header) (j : Nat)
    (h : Header) (ctx c : Context)
    (hf : RunFacts opts committing K (j + 1) (update_tables_kept opts committing j h ctx).2 c) :
    RunFacts opts committing (h :: K) j ctx c := by
  obtain ⟨hm, hv, hvc, hvs, hch, hd, htg, hfl, hu, hn⟩ := hf
  rw [kept_magic] at hm hd
  rw [kept_v2r, kept_vcount] at hv
  rw [kept_vcount] at hvc
  rw [kept_vsize] at hvs
  rw [kept_changed] at hch
  rw [kept_deleted] at hd
  rw [kept_tagged] at htg
  rw [kept_flagged] at hfl
  rw [kept_unread] at hu
  rw [kept_new] at hn
  refine ⟨hm, ?_, ?_, ?_, ?_, ?_, ?_, ?_, ?_, ?_⟩
  · rw [hv]; by_cases hvis : (h.virtual != -1) = true <;> simp [v2r_fill, hvis]
  · rw [hvc, List.countP_cons]; omega
  · rw [hvs]; simp only [visible_size, List.map_cons, List.sum_cons]; ring
  · rw [hch, List.any_cons]; cases committing <;> simp [Bool.or_assoc]
  · exact count_step _ h K _ _ hd
  · exact count_step _ h K _ _ htg
  · exact count_step _ h K _ _ hfl
  · exact count_step _ h K _ _ hu
  · exact count_step _ h K _ _ hn

theorem RunFacts.dropped (opts : Options) (committing : Bool) (K : List Header) (j : Nat)
    (h : Header) (ctx c : Context)
    (hf : RunFacts opts committing K j (update_tables_dropped h ctx) c) :
    RunFacts opts committing K j ctx c := by
  obtain ⟨hm, hv, hvc, hvs, hch, hd, htg, hfl, hu, hn⟩ := hf
  rw [update_tables_dropped_frame] at hm hv hvc hvs hch hd htg hfl hu hn
  exact ⟨hm, hv, hvc, hvs, hch, hd, htg, hfl, hu, hn⟩

/-- What `update_tables_run` returns for a session with room in `v2r`: the kept
records renumbered, and the session fields they determine. -/
theorem update_tables_run_spec (opts : Options) (committing : Bool) :
    ∀ (rest : List Header) (j : Nat) (ctx : Context),
      j + rest.length ≤ ctx.v2r.length → ctx.vcount ≤ j →
      ∃ c, update_tables_run opts committing rest j ctx =
          some (renumber committing j ctx.vcount
            (rest.filter (update_tables_keep opts ctx.magic committing)), c) ∧
        RunFacts opts committing (rest.filter (update_tables_keep opts ctx.magic committing))
          j ctx c := by
  intro rest
  induction rest with
  | nil =>
    intro j ctx _ _
    exact ⟨ctx, by simp [update_tables_run, renumber], RunFacts.nil opts committing j ctx⟩
  | cons h t ih =>
    intro j ctx hlen hvc
    simp only [List.length_cons] at hlen
    by_cases hk : update_tables_keep opts ctx.magic committing h = true
    · have hb : (h.virtual != -1 && decide (ctx.v2r.length ≤ ctx.vcount)) = false := by
        have : ¬ ctx.v2r.length ≤ ctx.vcount := by omega
        simp [this]
      obtain ⟨c, hrun, hfacts⟩ :=
        ih (j + 1) (update_tables_kept opts committing j h ctx).2
          (by rw [kept_v2r]; split
              · rw [List.length_set]; omega
              · omega)
          (by rw [kept_vcount]; split <;> omega)
      rw [kept_magic, kept_vcount] at hrun
      rw [kept_magic] at hfacts
      refine ⟨c, ?_, ?_⟩
      · simp only [update_tables_run, hk, hb, if_true, Bool.false_eq_true, if_false,
          List.filter_cons_of_pos hk, renumber, hrun, kept_fst]
      · rw [List.filter_cons_of_pos hk]
        exact RunFacts.kept opts committing _ j h ctx c hfacts
    · obtain ⟨c, hrun, hfacts⟩ :=
        ih j (update_tables_dropped h ctx)
          (by rw [update_tables_dropped_frame]; dsimp only; omega)
          (by rw [update_tables_dropped_frame]; dsimp only; omega)
      rw [dropped_magic] at hrun hfacts
      have hvc' : (update_tables_dropped h ctx).vcount = ctx.vcount := by
        rw [update_tables_dropped_frame]
      rw [hvc'] at hrun
      refine ⟨c, ?_, ?_⟩
      · simp only [update_tables_run, hk, Bool.false_eq_true, if_false,
          List.filter_cons_of_neg hk, hrun]
      · rw [List.filter_cons_of_neg hk]
        exact RunFacts.dropped opts committing _ j h ctx c hfacts

theorem renumber_length (committing : Bool) :
    ∀ (K : List Header) (j vc : Nat), (renumber committing j vc K).length = K.length := by
  intro K
  induction K with
  | nil => intro j vc; rfl
  | cons h t ih => intro j vc; simp [renumber, ih]

theorem v2r_fill_length : ∀ (K : List Header) (v : List Int) (j vc : Nat),
    (v2r_fill v j vc K).length = v.length := by
  intro K
  induction K with
  | nil => intro v j vc; rfl
  | cons h t ih =>
    intro v j vc
    simp only [v2r_fill]
    split
    · rw [ih, List.length_set]
    · rw [ih]

theorem records_of_packed (K : List Header) (n m : Nat) (extra : List (Option Header))
    (hm : m = K.length) :
    ((K.map some ++ List.replicate n none ++ extra).take m).filterMap id = K ∧
    (K.map some ++ List.replicate n none ++ extra).take m = K.map some := by
  subst hm
  have h1 : (K.map some ++ List.replicate n none ++ extra).take K.length = K.map some := by
    rw [List.append_assoc]
    exact @List.take_left' _ (K.map some) (List.replicate n none ++ extra) K.length (by simp)
  refine ⟨?_, h1⟩
  rw [h1, List.filterMap_map]
  simp

theorem mx_update_tables_result (opts : Options) (ctx : Context) (committing : Bool)
    (hwf : ctx.WF) :
    ∃ c, mx_update_tables opts ctx committing = some c ∧ TablesResult opts ctx committing c := by
  obtain ⟨htake, hlen, hv2r⟩ := hwf
  have hsplit : ctx.hdrs = [] ++ List.replicate 0 none ++
      (ctx.records.map some ++ ctx.hdrs.drop ctx.msgcount) := by
    rw [← htake]; simp
  obtain ⟨c, hrun, hfacts⟩ := update_tables_run_spec opts committing ctx.records 0
    { ctx with vcount := 0, vsize := 0, tagged := 0, deleted := 0, new := 0,
               unread := 0, changed := false, flagged := 0 }
    (by simp only [hlen]; omega) (by simp)
  have hloop := update_tables_loop_eq_run opts committing ctx.records []
    (ctx.hdrs.drop ctx.msgcount) 0
    { ctx with vcount := 0, vsize := 0, tagged := 0, deleted := 0, new := 0,
               unread := 0, changed := false, flagged := 0 }
  rw [← hsplit, hlen] at hloop
  simp only [List.length_nil, Nat.add_zero] at hloop
  rw [hrun] at hloop
  simp only [Option.map_some', List.nil_append, Nat.zero_add, renumber_length] at hloop
  obtain ⟨hm, hv, hvc, hvs, hch, hd, htg, hfl, hu, hn⟩ := hfacts
  dsimp only at hm hv hvc hvs hch hd htg hfl hu hn
  have hklen : (ctx.kept opts committing).length ≤ ctx.msgcount := by
    rw [← hlen]; exact List.length_filter_le _ _
  have hrec := records_of_packed (renumber committing 0 0 (ctx.kept opts committing))
    (ctx.msgcount - (ctx.kept opts committing).length) (ctx.kept opts committing).length
    (ctx.hdrs.drop ctx.msgcount) (by rw [renumber_length])
  have hmx : mx_update_tables opts ctx committing = some
      { c with hdrs := (renumber committing 0 0 (ctx.kept opts committing)).map some ++
                 List.replicate (ctx.msgcount - (ctx.kept opts committing).length) none ++
                 ctx.hdrs.drop ctx.msgcount,
               msgcount := (ctx.kept opts committing).length } := by
    simp only [mx_update_tables]
    rw [hloop]
    rfl
  refine ⟨_, hmx, ?_⟩
  · refine ⟨rfl, rfl, hrec.1, hm, hv, ?_, ?_, ?_, ?_, ?_, ?_, ?_, ?_, ?_⟩
    · simpa using hvc
    · simpa using hvs
    · rw [hch]; rfl
    · simpa using hd
    · simpa using htg
    · simpa using hfl
    · simpa using hu
    · simpa using hn
    · refine ⟨?_, ?_, ?_⟩
      · show List.take _ _ = List.map some (List.filterMap id (List.take _ _))
        rw [hrec.1, hrec.2]
      · show (List.filterMap id (List.take _ _)).length = _
        rw [hrec.1, renumber_length]
      · show (ctx.kept opts committing).length ≤ c.v2r.length
        rw [hv, v2r_fill_length]; exact le_trans hklen hv2r

/-! ### The renumbering -/

theorem renumber_same (committing : Bool) :
    ∀ (K : List Header) (j vc : Nat),
      List.Forall₂ same_message (renumber committing j vc K) K := by
  intro K
  induction K with
  | nil => intro j vc; exact List.Forall₂.nil
  | cons h t ih => intro j vc; exact List.Forall₂.cons rfl (ih _ _)

theorem renumber_map {β : Type} (committing : Bool) (f : Header → β)
    (hf : ∀ (h : Header) (j vc : Nat),
      f { h with msgno := (j : Int),
                 virtual := if h.virtual != -1 then (vc : Int) else h.virtual,
                 changed := if committing then false else h.changed } = f h) :
    ∀ (K : List Header) (j vc : Nat), (renumber committing j vc K).map f = K.map f := by
  intro K
  induction K with
  | nil => intro j vc; rfl
  | cons h t ih => intro j vc; simp only [renumber, List.map_cons, hf, ih]

theorem visible_renumbered (committing : Bool) (h : Header) (j vc : Nat) :
    (({ h with msgno := (j : Int),
               virtual := if h.virtual != -1 then (vc : Int) else h.virtual,
               changed := if committing then false else h.changed } : Header).virtual != -1) =
      (h.virtual != -1) := by
  by_cases hv : (h.virtual != -1) = true
  · simp only [hv, if_true]
    have : (vc : Int) ≠ -1 := by omega
    simp [this]
  · simp only [hv, if_false, Bool.false_eq_true]

theorem renumber_countP (committing : Bool) (p : Header → Bool)
    (hp : ∀ (h : Header) (j vc : Nat),
      p { h with msgno := (j : Int),
                 virtual := if h.virtual != -1 then (vc : Int) else h.virtual,
                 changed := if committing then false else h.changed } = p h)
    (K : List Header) (j vc : Nat) :
    (renumber committing j vc K).countP p = K.countP p := by
  have h1 : ∀ L : List Header, L.countP p = (L.map p).countP id := by
    intro L; rw [List.countP_map]; rfl
  rw [h1, h1 K, renumber_map committing p hp]

theorem renumber_msgno (committing : Bool) :
    ∀ (K : List Header) (j vc k : Nat) (r : Header),
      (renumber committing j vc K).get? k = some r → r.msgno = ((j + k : Nat) : Int) := by
  intro K
  induction K with
  | nil => intro j vc k r h; simp [renumber] at h
  | cons a t ih =>
    intro j vc k r h
    cases k with
    | zero =>
      simp only [renumber, List.get?_cons_zero, Option.some.injEq] at h
      rw [← h]; rfl
    | succ k =>
      simp only [renumber, List.get?_cons_succ] at h
      rw [ih _ _ _ _ h]
      congr 1; omega

theorem v2r_fill_frame : ∀ (K : List Header) (v : List Int) (j vc p : Nat), p < vc →
    (v2r_fill v j vc K)[p]? = v[p]? := by
  intro K
  induction K with
  | nil => intro v j vc p _; rfl
  | cons h t ih =>
    intro v j vc p hp
    simp only [v2r_fill]
    split
    · rw [ih _ _ _ _ (by omega), List.getElem?_set_ne (by omega)]
    · rw [ih _ _ _ _ hp]

theorem renumber_v2r (committing : Bool) :
    ∀ (K : List Header) (v : List Int) (j vc : Nat),
      vc + K.countP (fun h => h.virtual != -1) ≤ v.length →
      ∀ r ∈ renumber committing j vc K, r.virtual ≠ -1 →
        v2r_at (v2r_fill v j vc K) r.virtual = some r.msgno := by
  intro K
  induction K with
  | nil => intro v j vc _ r hr; simp [renumber] at hr
  | cons h t ih =>
    intro v j vc hlen r hr hvis
    simp only [renumber, List.mem_cons] at hr
    rw [List.countP_cons] at hlen
    by_cases hv : (h.virtual != -1) = true
    · simp only [hv, if_true] at hr hlen
      simp only [v2r_fill, hv, if_true]
      rcases hr with hr | hr
      · subst hr
        simp only [v2r_at, Int.natCast_nonneg, if_true, Int.toNat_ofNat,
          List.get?_eq_getElem?]
        rw [v2r_fill_frame _ _ _ _ _ (by omega)]
        rw [List.getElem?_set_self (by omega)]
      · exact ih _ _ _ (by rw [List.length_set]; omega) r hr hvis
    · simp only [hv, if_false, Bool.false_eq_true, Nat.add_zero] at hr hlen
      simp only [v2r_fill, hv, if_false, Bool.false_eq_true]
      rcases hr with hr | hr
      · subst hr
        exfalso
        apply hvis
        simpa using hv
      · exact ih _ _ _ hlen r hr hvis

theorem renumber_filter (committing : Bool) (p : Header → Bool)
    (hp : ∀ (h : Header) (j vc : Nat),
      p { h with msgno := (j : Int),
                 virtual := if h.virtual != -1 then (vc : Int) else h.virtual,
                 changed := if committing then false else h.changed } = p h) :
    ∀ (K : List Header) (j vc : Nat), (∀ h ∈ K, p h = true) →
      (renumber committing j vc K).filter p = renumber committing j vc K := by
  intro K
  induction K with
  | nil => intro j vc _; rfl
  | cons h t ih =>
    intro j vc hall
    simp only [renumber]
    rw [List.filter_cons_of_pos (by rw [hp]; exact hall h (List.mem_cons_self _ _))]
    rw [ih _ _ (fun x hx => hall x (List.mem_cons_of_mem _ hx))]

theorem renumber_idem (committing : Bool) :
    ∀ (K : List Header) (j vc : Nat),
      renumber committing j vc (renumber committing j vc K) = renumber committing j vc K := by
  intro K
  induction K with
  | nil => intro j vc; rfl
  | cons h t ih =>
    intro j vc
    simp only [renumber]
    rw [visible_renumbered, ih]
    congr 1
    by_cases hv : (h.virtual != -1) = true
    · have : (vc : Int) ≠ -1 := by omega
      cases committing <;> simp [hv, this]
    · cases committing <;> simp [hv]

theorem v2r_fill_renumber (committing : Bool) :
    ∀ (K : List Header) (v : List Int) (j vc j' vc' : Nat),
      v2r_fill v j vc (renumber committing j' vc' K) = v2r_fill v j vc K := by
  intro K
  induction K with
  | nil => intro v j vc j' vc'; rfl
  | cons h t ih =>
    intro v j vc j' vc'
    simp only [renumber, v2r_fill]
    rw [visible_renumbered, ih, ih]

theorem set_same {α : Type} : ∀ (l : List α) (i : Nat) (a : α),
    (i < l.length → l[i]? = some a) → l.set i a = l := by
  intro l
  induction l with
  | nil => intro i a _; rfl
  | cons x t ih =>
    intro i a h
    cases i with
    | zero =>
      have := h (by simp)
      simp only [List.getElem?_cons_zero, Option.some.injEq] at this
      simp [this]
    | succ i =>
      simp only [List.set_cons_succ, List.cons.injEq, true_and]
      apply ih
      intro hi
      have := h (by simp only [List.length_cons]; omega)
      simpa using this

theorem v2r_fill_idem : ∀ (K : List Header) (v : List Int) (j vc : Nat),
    v2r_fill (v2r_fill v j vc K) j vc K = v2r_fill v j vc K := by
  intro K
  induction K with
  | nil => intro v j vc; rfl
  | cons h t ih =>
    intro v j vc
    simp only [v2r_fill]
    split
    · have hset : (v2r_fill (v.set vc (j : Int)) (j + 1) (vc + 1) t).set vc (j : Int) =
          v2r_fill (v.set vc (j : Int)) (j + 1) (vc + 1) t := by
        apply set_same
        intro hl
        rw [v2r_fill_length, List.length_set] at hl
        rw [v2r_fill_frame _ _ _ _ _ (by omega), List.getElem?_set_self hl]
      rw [hset, ih]
    · rw [ih]

/-! ### Claims about `mx_update_tables` -/

theorem kept_le_msgcount (opts : Options) (ctx : Context) (committing : Bool) (hwf : ctx.WF) :
    (ctx.kept opts committing).length ≤ ctx.msgcount := by
  rw [← hwf.2.1]; exact List.length_filter_le _ _

/-- C1: on every well-formed session and for either value of `committing`,
`mx_update_tables` returns, and afterwards `hdrs[0..msgcount)` holds exactly
the records that are not quasi-deleted and (committing and (not deleted or
MAILDIR with the maildir-trash option)) or (not committing and active), the
same messages in their original storage order; the slots of the removed
records up to the old `msgcount` are empty. -/
theorem mx_update_tables_keeps_exactly (opts : Options) (ctx : Context) (committing : Bool)
    (hwf : ctx.WF) :
    ∃ c, mx_update_tables opts ctx committing = some c ∧
      c.hdrs.take c.msgcount = c.records.map some ∧
      c.records.length = c.msgcount ∧
      List.Forall₂ same_message c.records
        (ctx.records.filter (fun h => !h.quasi_deleted &&
          ((committing && (!h.deleted || (ctx.magic == MUTT_MAILDIR && opts.OPTMAILDIRTRASH))) ||
            (!committing && h.active)))) ∧
      (∀ k, c.msgcount ≤ k → k < ctx.msgcount → c.hdrs.get? k = some none) := by
  obtain ⟨c, hc, hr⟩ := mx_update_tables_result opts ctx committing hwf
  refine ⟨c, hc, hr.wf.1, hr.wf.2.1, ?_, ?_⟩
  · rw [hr.records]
    exact renumber_same committing _ 0 0
  · intro k hk1 hk2
    have hkl := kept_le_msgcount opts ctx committing hwf
    rw [hr.msgcount] at hk1
    rw [hr.hdrs, List.get?_eq_getElem?, List.append_assoc,
      List.getElem?_append_right (by simp [renumber_length]; exact hk1),
      List.getElem?_append_left (by simp [renumber_length]; omega)]
    simp only [List.length_map, renumber_length]
    rw [List.getElem?_replicate]
    simp only [ite_eq_left_iff]
    intro h; omega

/-- Witness of C1 on the three-record example session, committing. -/
theorem mx_update_tables_keeps_exactly_witness :
    ex_ctx.WF ∧ ∃ c, mx_update_tables ex_opts ex_ctx true = some c ∧
      c.hdrs.take c.msgcount = c.records.map some ∧
      c.records.length = c.msgcount ∧
      List.Forall₂ same_message c.records
        (ex_ctx.records.filter (fun h => !h.quasi_deleted &&
          ((true && (!h.deleted || (ex_ctx.magic == MUTT_MAILDIR && ex_opts.OPTMAILDIRTRASH))) ||
            (!true && h.active)))) ∧
      (∀ k, c.msgcount ≤ k → k < ex_ctx.msgcount → c.hdrs.get? k = some none) :=
  ⟨by decide, mx_update_tables_keeps_exactly ex_opts ex_ctx true (by decide)⟩

/-- C2 as stated fails: a surviving record that is filtered out of the view
has `virtual == -1`, and `v2r[-1]` is not an entry of `v2r`. -/
theorem index_invariant_fails_for_hidden_record :
    ex_hidden_ctx.WF ∧
    ∃ c, mx_update_tables ex_opts ex_hidden_ctx false = some c ∧
      ¬ (∀ r ∈ c.records, v2r_at c.v2r r.virtual = some r.msgno) := by
  refine ⟨by decide, _, rfl, ?_⟩
  intro h
  have := h { ex_hdr with addr := 1, virtual := -1 } (by decide)
  revert this
  decide

/-- C2, amended: after any pass, every surviving record has `msgno` equal to
its position in `hdrs`, and every surviving record that is in the view
(`virtual != -1`) has `v2r[virtual] == msgno`. -/
theorem mx_update_tables_index_invariant (opts : Options) (ctx : Context) (committing : Bool)
    (hwf : ctx.WF) :
    ∃ c, mx_update_tables opts ctx committing = some c ∧
      ∀ (k : Nat) (r : Header), c.records.get? k = some r →
        r.msgno = (k : Int) ∧ (r.virtual ≠ -1 → v2r_at c.v2r r.virtual = some r.msgno) := by
  obtain ⟨c, hc, hr⟩ := mx_update_tables_result opts ctx committing hwf
  refine ⟨c, hc, ?_⟩
  intro k r hk
  rw [hr.records] at hk
  constructor
  · have := renumber_msgno committing _ 0 0 k r hk
    simpa using this
  · intro hvis
    rw [hr.v2r]
    have hkl := kept_le_msgcount opts ctx committing hwf
    have hcount := List.countP_le_length (fun h : Header => h.virtual != -1)
      (l := ctx.kept opts committing)
    exact renumber_v2r committing _ ctx.v2r 0 0 (by have := hwf.2.2; omega) r
      (List.get?_mem hk) hvis

/-- Witness of the amended C2 on the three-record example session. -/
theorem mx_update_tables_index_invariant_witness :
    ex_ctx.WF ∧ ∃ c, mx_update_tables ex_opts ex_ctx false = some c ∧
      ∀ (k : Nat) (r : Header), c.records.get? k = some r →
        r.msgno = (k : Int) ∧ (r.virtual ≠ -1 → v2r_at c.v2r r.virtual = some r.msgno) :=
  ⟨by decide, mx_update_tables_index_invariant ex_opts ex_ctx false (by decide)⟩

theorem kept_deleted_count (opts : Options) (magic : Int) (committing : Bool)
    (L : List Header) :
    (L.filter (update_tables_keep opts magic committing)).countP
        (fun h => (!committing || (magic == MUTT_MAILDIR && opts.OPTMAILDIRTRASH)) && h.deleted) =
      (L.filter (update_tables_keep opts magic committing)).countP (fun h => h.deleted) := by
  apply List.countP_congr
  intro h hmem
  have hk := (List.mem_filter.mp hmem).2
  simp only [update_tables_keep] at hk
  generalize (magic == MUTT_MAILDIR && opts.OPTMAILDIRTRASH) = b at hk ⊢
  revert hk
  cases committing <;> cases b <;> cases h.deleted <;> simp

/-- C3: after `mx_update_tables`, `msgcount` is the number of surviving
records and the deleted, tagged, flagged, unread and new counters are the
numbers of surviving records that are deleted, tagged, flagged, not read, and
not read and not old, whatever the counters held before; so
`deleted <= msgcount`. -/
theorem mx_update_tables_counters (opts : Options) (ctx : Context) (committing : Bool)
    (hwf : ctx.WF) :
    ∃ c, mx_update_tables opts ctx committing = some c ∧
      c.msgcount = c.records.length ∧
      c.msgcount = (ctx.records.filter (update_tables_keep opts ctx.magic committing)).length ∧
      c.deleted = (c.records.countP (fun h => h.deleted) : Nat) ∧
      c.tagged = (c.records.countP (fun h => h.tagged) : Nat) ∧
      c.flagged = (c.records.countP (fun h => h.flagged) : Nat) ∧
      c.unread = (c.records.countP (fun h => !h.read) : Nat) ∧
      c.new = (c.records.countP (fun h => !h.read && !h.old) : Nat) ∧
      c.deleted ≤ (c.msgcount : Int) := by
  obtain ⟨c, hc, hr⟩ := mx_update_tables_result opts ctx committing hwf
  have hdel : c.deleted = (c.records.countP (fun h => h.deleted) : Nat) := by
    rw [hr.deleted, hr.records,
      renumber_countP committing (fun h => h.deleted) (fun _ _ _ => rfl)]
    rw [Context.kept, kept_deleted_count]
  refine ⟨c, hc, hr.wf.2.1.symm, hr.msgcount, hdel, ?_, ?_, ?_, ?_, ?_⟩
  · rw [hr.tagged, hr.records, renumber_countP committing (fun h => h.tagged) (fun _ _ _ => rfl)]
  · rw [hr.flagged, hr.records, renumber_countP committing (fun h => h.flagged) (fun _ _ _ => rfl)]
  · rw [hr.unread, hr.records, renumber_countP committing (fun h => !h.read) (fun _ _ _ => rfl)]
  · rw [hr.new, hr.records, renumber_countP committing (fun h => !h.read && !h.old) (fun _ _ _ => rfl)]
  · rw [hdel, ← hr.wf.2.1]
    exact_mod_cast List.countP_le_length _

/-- Witness of C3 on the three-record example session with stale counters. -/
theorem mx_update_tables_counters_witness :
    ex_ctx.WF ∧ ∃ c, mx_update_tables ex_opts ex_ctx true = some c ∧
      c.msgcount = c.records.length ∧
      c.msgcount = (ex_ctx.records.filter (update_tables_keep ex_opts ex_ctx.magic true)).length ∧
      c.deleted = (c.records.countP (fun h => h.deleted) : Nat) ∧
      c.tagged = (c.records.countP (fun h => h.tagged) : Nat) ∧
      c.flagged = (c.records.countP (fun h => h.flagged) : Nat) ∧
      c.unread = (c.records.countP (fun h => !h.read) : Nat) ∧
      c.new = (c.records.countP (fun h => !h.read && !h.old) : Nat) ∧
      c.deleted ≤ (c.msgcount : Int) :=
  ⟨by decide, mx_update_tables_counters ex_opts ex_ctx true (by decide)⟩

/-- C4: calling `mx_update_tables (ctx, 0)` twice in a row gives, after the
second call, the same `msgcount`, `vcount`, `vsize`, deleted, tagged, flagged,
unread, new and changed values, the same `v2r` and the same records as after
the first call. -/
theorem mx_update_tables_idempotent (opts : Options) (ctx : Context) (hwf : ctx.WF) :
    ∃ c1 c2, mx_update_tables opts ctx false = some c1 ∧
      mx_update_tables opts c1 false = some c2 ∧
      c2.msgcount = c1.msgcount ∧ c2.vcount = c1.vcount ∧ c2.vsize = c1.vsize ∧
      c2.deleted = c1.deleted ∧ c2.tagged = c1.tagged ∧ c2.flagged = c1.flagged ∧
      c2.unread = c1.unread ∧ c2.new = c1.new ∧ c2.changed = c1.changed ∧
      c2.v2r = c1.v2r ∧ c2.records = c1.records := by
  obtain ⟨c1, hc1, h1⟩ := mx_update_tables_result opts ctx false hwf
  obtain ⟨c2, hc2, h2⟩ := mx_update_tables_result opts c1 false h1.wf
  have hkeep : ∀ (h : Header) (j vc : Nat),
      update_tables_keep opts ctx.magic false
        { h with msgno := (j : Int),
                 virtual := if h.virtual != -1 then (vc : Int) else h.virtual,
                 changed := if false then false else h.changed } =
        update_tables_keep opts ctx.magic false h := fun _ _ _ => rfl
  have hK : c1.kept opts false = renumber false 0 0 (ctx.kept opts false) := by
    rw [Context.kept, h1.records, h1.magic]
    exact renumber_filter false (update_tables_keep opts ctx.magic false) hkeep _ 0 0
      (fun h hm => (List.mem_filter.mp hm).2)
  have hvis : ∀ L : List Header, (renumber false 0 0 L).countP (fun h => h.virtual != -1) =
      L.countP (fun h => h.virtual != -1) :=
    fun L => renumber_countP false (fun h => h.virtual != -1)
      (fun h j vc => visible_renumbered false h j vc) L 0 0
  refine ⟨c1, c2, hc1, hc2, ?_, ?_, ?_, ?_, ?_, ?_, ?_, ?_, ?_, ?_, ?_⟩
  · rw [h2.msgcount, hK, renumber_length, h1.msgcount]
  · rw [h2.vcount, hK, hvis, h1.vcount]
  · rw [h2.vsize, hK, h1.vsize, visible_size, visible_size,
      renumber_map false (fun h : Header => if h.virtual != -1 then h.content.span else 0)
        (fun h j vc => by
          have := visible_renumbered false h j vc
          simp only [] at this ⊢
          rw [this])]
  · rw [h2.deleted, hK, h1.deleted, h1.magic,
      renumber_countP false (fun h => (!false || (ctx.magic == MUTT_MAILDIR &&
        opts.OPTMAILDIRTRASH)) && h.deleted) (fun _ _ _ => rfl)]
  · rw [h2.tagged, hK, h1.tagged, renumber_countP false (fun h => h.tagged) (fun _ _ _ => rfl)]
  · rw [h2.flagged, hK, h1.flagged, renumber_countP false (fun h => h.flagged) (fun _ _ _ => rfl)]
  · rw [h2.unread, hK, h1.unread, renumber_countP false (fun h => !h.read) (fun _ _ _ => rfl)]
  · rw [h2.new, hK, h1.new, renumber_countP false (fun h => !h.read && !h.old) (fun _ _ _ => rfl)]
  · rw [h2.changed, hK, h1.changed]
    congr 1
    have hm := renumber_map false (fun h : Header => h.changed) (fun _ _ _ => rfl)
      (ctx.kept opts false) 0 0
    have e : ∀ L : List Header, L.any (fun h => h.changed) =
        (L.map (fun h : Header => h.changed)).any id := by
      intro L; induction L with
      | nil => rfl
      | cons a t ih => simp only [List.any_cons, List.map_cons, ih, id]
    rw [e, e (ctx.kept opts false), hm]
  · rw [h2.v2r, hK, h1.v2r, v2r_fill_renumber, v2r_fill_idem]
  · rw [h2.records, hK, h1.records, renumber_idem]

/-- Witness of C4 on the three-record example session. -/
theorem mx_update_tables_idempotent_witness :
    ex_ctx.WF ∧ ∃ c1 c2, mx_update_tables ex_opts ex_ctx false = some c1 ∧
      mx_update_tables ex_opts c1 false = some c2 ∧
      c2.msgcount = c1.msgcount ∧ c2.vcount = c1.vcount ∧ c2.vsize = c1.vsize ∧
      c2.deleted = c1.deleted ∧ c2.tagged = c1.tagged ∧ c2.flagged = c1.flagged ∧
      c2.unread = c1.unread ∧ c2.new = c1.new ∧ c2.changed = c1.changed ∧
      c2.v2r = c1.v2r ∧ c2.records = c1.records :=
  ⟨by decide, mx_update_tables_idempotent ex_opts ex_ctx (by decide)⟩

/-! ### Locking service -/

/-- The sub-locks held, as a triple (fcntl, flock, dot). -/
theorem World.log_locks (w : World) (e : Event) :
    (w.log e).fcntl_held = w.fcntl_held ∧ (w.log e).flock_held = w.flock_held ∧
      (w.log e).dot_held = w.dot_held := ⟨rfl, rfl, rfl⟩

theorem lock_wait_loop_failed_keeps (b : Build) (E : Errnos) (k : LockKind)
    (excl timeout : Bool) :
    ∀ (ps : List Poll) (count attempt : Nat) (prev : Int) (w : World)
      (ex : LockExit) (c : Nat) (w' : World),
      lock_wait_loop b E k excl timeout ps count attempt prev w = some (ex, c, w') →
      (ex ≠ LockExit.acquired →
        w'.fcntl_held = w.fcntl_held ∧ w'.flock_held = w.flock_held ∧
          w'.dot_held = w.dot_held) ∧
      (ex = LockExit.acquired →
        w'.fcntl_held = (w.hold k).fcntl_held ∧ w'.flock_held = (w.hold k).flock_held ∧
          w'.dot_held = (w.hold k).dot_held) := by
  intro ps
  induction ps with
  | nil => intro count attempt prev w ex c w' h; simp [lock_wait_loop] at h
  | cons p ps ih =>
    intro count attempt prev w ex c w' h
    have hrec : ∀ (count' attempt' : Nat) (prev' : Int) (e1 e2 e3 e4 : Event),
        lock_wait_loop b E k excl timeout ps count' attempt' prev'
          ((((w.log e1).log e2).log e3).log e4) = some (ex, c, w') →
        (ex ≠ LockExit.acquired →
          w'.fcntl_held = w.fcntl_held ∧ w'.flock_held = w.flock_held ∧
            w'.dot_held = w.dot_held) ∧
        (ex = LockExit.acquired →
          w'.fcntl_held = (w.hold k).fcntl_held ∧ w'.flock_held = (w.hold k).flock_held ∧
            w'.dot_held = (w.hold k).dot_held) := by
      intro count' attempt' prev' e1 e2 e3 e4 hh
      obtain ⟨ha, hb⟩ := ih _ _ _ _ _ _ _ hh
      refine ⟨fun hne => ha hne, fun he => ?_⟩
      have := hb he
      cases k <;> exact this
    simp only [lock_wait_loop] at h
    by_cases h1 : (p.rc != -1) = true
    · simp only [h1, if_true, Option.some.injEq, Prod.mk.injEq] at h
      obtain ⟨h1, _, h3⟩ := h
      subst h1; subst h3
      refine ⟨fun hne => absurd rfl hne, fun _ => ?_⟩
      cases k <;> exact ⟨rfl, rfl, rfl⟩
    · simp only [h1, if_false, Bool.false_eq_true] at h
      by_cases h2 : lock_errno_fatal E k p.errno = true
      · simp only [h2, if_true, Option.some.injEq, Prod.mk.injEq] at h
        obtain ⟨h1, _, h3⟩ := h
        subst h1; subst h3
        exact ⟨fun _ => ⟨rfl, rfl, rfl⟩, fun hc => by cases hc⟩
      · simp only [h2, if_false, Bool.false_eq_true] at h
        by_cases h3 : ((if (count == 0) = true then p.size else prev) == p.size) = true
        · simp only [h3, if_true] at h
          by_cases h4 : ((count + 1 : Nat) : Int) ≥ (if timeout = true then b.MAXLOCKATTEMPT else 0)
          · simp only [h4, decide_True, if_true, Option.some.injEq, Prod.mk.injEq] at h
            obtain ⟨h1, _, h3⟩ := h
            subst h1; subst h3
            refine ⟨fun _ => ?_, fun hc => by cases hc⟩
            split <;> exact ⟨rfl, rfl, rfl⟩
          · simp only [h4, decide_False, if_false, Bool.false_eq_true] at h
            exact hrec _ _ _ _ _ _ _ h
        · simp only [h3, if_false, Bool.false_eq_true] at h
          exact hrec _ _ _ _ _ _ _ h

theorem invoke_dotlock_locks (path : String) (flags : DotlockFlags) (retry code : Int)
    (w : World) :
    (invoke_dotlock path flags retry code w).1 = code ∧
    (invoke_dotlock path flags retry code w).2.fcntl_held = w.fcntl_held ∧
    (invoke_dotlock path flags retry code w).2.flock_held = w.flock_held ∧
    (code ≠ DL_EX_OK → (invoke_dotlock path flags retry code w).2.dot_held = w.dot_held) := by
  by_cases hc : code = DL_EX_OK
  · subst hc
    cases hu : flags.DL_FL_UNLOCK <;> cases hd : flags.DL_FL_UNLINK <;>
      simp [invoke_dotlock, World.log, hu, hd]
  · have : (code == DL_EX_OK) = false := by simpa using hc
    simp [invoke_dotlock, World.log, this]

theorem dotlock_retry_lock_locks (opts : Options) (path : String) (yesorno : Int) :
    ∀ (codes : List Int) (flags : DotlockFlags) (retry : Int) (w : World) (r : Int)
      (w' : World),
      dotlock_retry_lock opts path yesorno codes flags retry w = some (r, w') →
      w'.fcntl_held = w.fcntl_held ∧ w'.flock_held = w.flock_held ∧
        (r ≠ 0 → w'.dot_held = w.dot_held) := by
  intro codes
  induction codes with
  | nil => intro flags retry w r w' h; simp [dotlock_retry_lock] at h
  | cons c rest ih =>
    intro flags retry w r w' h
    by_cases hex : c = DL_EX_EXIST
    · subst hex
      obtain ⟨hi1, hi2, hi3, hi4⟩ := invoke_dotlock_locks path flags retry DL_EX_EXIST w
      have hdot := hi4 (by decide)
      simp only [dotlock_retry_lock, hi1, beq_self_eq_true, if_true] at h
      have hok : (DL_EX_EXIST == DL_EX_OK) = false := by decide
      simp only [hok, Bool.false_eq_true, if_false] at h
      split at h
      · split at h
        · split at h
          · obtain ⟨h1, h2, h3⟩ := ih _ _ _ _ _ h
            exact ⟨h1.trans hi2, h2.trans hi3, fun hr => (h3 hr).trans hdot⟩
          · simp only [Option.some.injEq, Prod.mk.injEq] at h
            obtain ⟨_, h2⟩ := h
            subst h2
            exact ⟨hi2, hi3, fun _ => hdot⟩
        · simp only [Option.some.injEq, Prod.mk.injEq] at h
          obtain ⟨_, h2⟩ := h
          subst h2
          exact ⟨hi2, hi3, fun _ => hdot⟩
      · simp only [Option.some.injEq, Prod.mk.injEq] at h
        obtain ⟨_, h2⟩ := h
        subst h2
        exact ⟨hi2, hi3, fun _ => hdot⟩
    · obtain ⟨hi1, hi2, hi3, hi4⟩ := invoke_dotlock_locks path flags retry c w
      have hex' : (c == DL_EX_EXIST) = false := by simpa using hex
      simp only [dotlock_retry_lock, hi1, hex', Bool.false_eq_true, if_false,
        Option.some.injEq, Prod.mk.injEq] at h
      obtain ⟨h1, h2⟩ := h
      subst h2
      refine ⟨hi2, hi3, fun hr => hi4 ?_⟩
      intro hc
      apply hr
      rw [← h1]
      simp [hc]

theorem lock_fcntl_block_locks (b : Build) (E : Errnos) (s : LockScript)
    (excl timeout : Bool) (w w1 : World) (x : Option Int)
    (h : lock_fcntl_block b E s excl timeout w = some (x, w1)) :
    w1.flock_held = w.flock_held ∧ w1.dot_held = w.dot_held ∧
      (x ≠ none → w1.fcntl_held = w.fcntl_held) ∧
      (b.USE_FCNTL = false → w1.fcntl_held = w.fcntl_held) := by
  simp only [lock_fcntl_block] at h
  cases hF : b.USE_FCNTL
  · simp only [hF, Bool.false_eq_true, if_false, Option.some.injEq, Prod.mk.injEq] at h
    obtain ⟨_, h2⟩ := h
    subst h2
    exact ⟨rfl, rfl, fun _ => rfl, fun _ => rfl⟩
  · simp only [hF, if_true] at h
    cases hl : lock_wait_loop b E LockKind.fcntl excl timeout s.fcntl 0 0 0 w with
    | none => rw [hl] at h; simp at h
    | some res =>
      obtain ⟨ex, c, wl⟩ := res
      have hk := lock_wait_loop_failed_keeps b E LockKind.fcntl excl timeout _ _ _ _ _ _ _ _ hl
      rw [hl] at h
      cases ex with
      | acquired =>
        simp only [Option.some.injEq, Prod.mk.injEq] at h
        obtain ⟨hx1, hx2⟩ := h
        subst hx1; subst hx2
        obtain ⟨_, h2, h3⟩ := hk.2 rfl
        exact ⟨h2, h3, fun hne => absurd rfl hne, fun hc => by cases hc⟩
      | hard_error =>
        simp only [Option.some.injEq, Prod.mk.injEq] at h
        obtain ⟨_, hx2⟩ := h
        subst hx2
        obtain ⟨h1, h2, h3⟩ := hk.1 (by decide)
        exact ⟨h2, h3, fun _ => h1, fun _ => h1⟩
      | timed_out =>
        simp only [Option.some.injEq, Prod.mk.injEq] at h
        obtain ⟨_, hx2⟩ := h
        subst hx2
        obtain ⟨h1, h2, h3⟩ := hk.1 (by decide)
        exact ⟨h2, h3, fun _ => h1, fun _ => h1⟩

theorem lock_flock_block_locks (b : Build) (E : Errnos) (s : LockScript)
    (excl timeout : Bool) (w w1 : World) (r : Int)
    (h : lock_flock_block b E s excl timeout w = some (r, w1)) :
    w1.fcntl_held = w.fcntl_held ∧ w1.dot_held = w.dot_held ∧
      (b.USE_FLOCK = false → w1.flock_held = w.flock_held) := by
  simp only [lock_flock_block] at h
  cases hF : b.USE_FLOCK
  · simp only [hF, Bool.false_eq_true, if_false, Option.some.injEq, Prod.mk.injEq] at h
    obtain ⟨_, h2⟩ := h
    subst h2
    exact ⟨rfl, rfl, fun _ => rfl⟩
  · simp only [hF, if_true] at h
    cases hl : lock_wait_loop b E LockKind.flock excl timeout s.flock 0 0 0 w with
    | none => rw [hl] at h; simp at h
    | some res =>
      obtain ⟨ex, c, wl⟩ := res
      have hk := lock_wait_loop_failed_keeps b E LockKind.flock excl timeout _ _ _ _ _ _ _ _ hl
      rw [hl] at h
      cases ex with
      | acquired =>
        simp only [Option.some.injEq, Prod.mk.injEq] at h
        obtain ⟨_, hx2⟩ := h
        subst hx2
        obtain ⟨h1, _, h3⟩ := hk.2 rfl
        exact ⟨h1, h3, fun hc => by cases hc⟩
      | hard_error =>
        simp only [Option.some.injEq, Prod.mk.injEq] at h
        obtain ⟨_, hx2⟩ := h
        subst hx2
        obtain ⟨h1, _, h3⟩ := hk.1 (by decide)
        exact ⟨h1, h3, fun hc => by cases hc⟩
      | timed_out =>
        simp only [Option.some.injEq, Prod.mk.injEq] at h
        obtain ⟨_, hx2⟩ := h
        subst hx2
        obtain ⟨h1, _, h3⟩ := hk.1 (by decide)
        exact ⟨h1, h3, fun hc => by cases hc⟩

theorem lock_dot_block_locks (b : Build) (opts : Options) (s : LockScript) (path : String)
    (dot timeout : Bool) (r r' : Int) (w w' : World)
    (h : lock_dot_block b opts s path dot timeout r w = some (r', w')) :
    w'.fcntl_held = w.fcntl_held ∧ w'.flock_held = w.flock_held ∧
      (r' ≠ 0 → w'.dot_held = w.dot_held) := by
  simp only [lock_dot_block] at h
  split at h
  · exact dotlock_retry_lock_locks opts path s.yesorno _ _ _ _ _ _ h
  · simp only [Option.some.injEq, Prod.mk.injEq] at h
    obtain ⟨_, h2⟩ := h
    subst h2
    exact ⟨rfl, rfl, fun _ => rfl⟩

theorem lock_release_block_locks (b : Build) (r : Int) (w : World) (hr : r ≠ 0) :
    (lock_release_block b r w).dot_held = w.dot_held ∧
    (lock_release_block b r w).fcntl_held = (if b.USE_FCNTL then false else w.fcntl_held) ∧
    (lock_release_block b r w).flock_held = (if b.USE_FLOCK then false else w.flock_held) := by
  have : (r != 0) = true := by simpa using hr
  cases hF : b.USE_FCNTL <;> cases hL : b.USE_FLOCK <;>
    simp [lock_release_block, this, hF, hL, World.release, World.log]

/-- C7: starting with no sub-lock held, whenever `mx_lock_file` returns
failure none of the three sub-locks (fcntl, flock, dot-lock) is held on
return, whichever stage failed and in every build configuration. -/
theorem mx_lock_file_failure_holds_nothing (b : Build) (E : Errnos) (opts : Options)
    (s : LockScript) (path : String) (excl dot timeout : Bool) (w w' : World) (r : Int)
    (hw : w.fcntl_held = false ∧ w.flock_held = false ∧ w.dot_held = false)
    (h : mx_lock_file b E opts s path excl dot timeout w = some (r, w'))
    (hr : r ≠ 0) :
    w'.fcntl_held = false ∧ w'.flock_held = false ∧ w'.dot_held = false := by
  obtain ⟨hw1, hw2, hw3⟩ := hw
  simp only [mx_lock_file] at h
  cases h1 : lock_fcntl_block b E s excl timeout w with
  | none => rw [h1] at h; simp at h
  | some res1 =>
    obtain ⟨x, w1⟩ := res1
    obtain ⟨a1, a2, a3, a4⟩ := lock_fcntl_block_locks b E s excl timeout w w1 x h1
    rw [h1] at h
    cases x with
    | some r1 =>
      simp only [Option.some.injEq, Prod.mk.injEq] at h
      obtain ⟨_, h5⟩ := h
      subst h5
      exact ⟨(a3 (by simp)).trans hw1, a1.trans hw2, a2.trans hw3⟩
    | none =>
      simp only at h
      cases h2 : lock_flock_block b E s excl timeout w1 with
      | none => rw [h2] at h; simp at h
      | some res2 =>
        obtain ⟨r2, w2⟩ := res2
        obtain ⟨b1, b2, b3⟩ := lock_flock_block_locks b E s excl timeout w1 w2 r2 h2
        rw [h2] at h
        simp only at h
        cases h3 : lock_dot_block b opts s path dot timeout r2 w2 with
        | none => rw [h3] at h; simp at h
        | some res3 =>
          obtain ⟨r3, w3⟩ := res3
          obtain ⟨c1, c2, c3⟩ := lock_dot_block_locks b opts s path dot timeout r2 r3 w2 w3 h3
          rw [h3] at h
          simp only [Option.some.injEq, Prod.mk.injEq] at h
          obtain ⟨h4, h5⟩ := h
          subst h4; subst h5
          obtain ⟨d1, d2, d3⟩ := lock_release_block_locks b r3 w3 hr
          refine ⟨?_, ?_, ?_⟩
          · rw [d2]
            cases hF : b.USE_FCNTL
            · simp only [Bool.false_eq_true, if_false]
              rw [c1, b1, a4 hF, hw1]
            · simp
          · rw [d3]
            cases hL : b.USE_FLOCK
            · simp only [Bool.false_eq_true, if_false]
              rw [c2, b3 hL, a1, hw2]
            · simp
          · rw [d1, c3 hr, b2, a2, hw3]

/-- Witness of C7: both kernel locks are granted, the dotlock helper fails, and
`mx_lock_file` returns -1 with nothing held. -/
theorem mx_lock_file_failure_holds_nothing_witness :
    (ex_world.fcntl_held = false ∧ ex_world.flock_held = false ∧ ex_world.dot_held = false) ∧
    mx_lock_file ex_build ex_errnos ex_opts ex_dotlock_fails "/tmp/mbox" true true true
        ex_world = some (-1, ex_dotlock_failed.2) ∧
    (ex_dotlock_failed.2.fcntl_held = false ∧ ex_dotlock_failed.2.flock_held = false ∧
      ex_dotlock_failed.2.dot_held = false) :=
  ⟨by decide, by decide,
    mx_lock_file_failure_holds_nothing ex_build ex_errnos ex_opts ex_dotlock_fails
      "/tmp/mbox" true true true ex_world ex_dotlock_failed.2 (-1) (by decide) (by decide)
      (by decide)⟩

theorem lock_wait_loop_step (b : Build) (E : Errnos) (k : LockKind) (excl timeout : Bool)
    (p : Poll) (ps : List Poll) (count attempt : Nat) (prev : Int) (w : World)
    (hp : p.contended E k) :
    lock_wait_loop b E k excl timeout (p :: ps) count attempt prev w =
      if (if count = 0 then p.size else prev) = p.size then
        if ((count + 1 : Nat) : Int) ≥ (if timeout then b.MAXLOCKATTEMPT else 0) then
          some (LockExit.timed_out, count + 1,
            if timeout then
              ((w.log (Event.setlk k excl)).log Event.fstat).log
                (Event.error (lock_timeout_text k))
            else (w.log (Event.setlk k excl)).log Event.fstat)
        else
          lock_wait_loop b E k excl timeout ps (count + 1) (attempt + 1) p.size
            (((((w.log (Event.setlk k excl)).log Event.fstat).log
              (Event.message (lock_waiting_text k) [((attempt + 1 : Nat) : Int)]))).log
                (Event.sleep 1))
      else
        lock_wait_loop b E k excl timeout ps count (attempt + 1) p.size
          (((((w.log (Event.setlk k excl)).log Event.fstat).log
            (Event.message (lock_waiting_text k) [((attempt + 1 : Nat) : Int)]))).log
              (Event.sleep 1)) := by
  obtain ⟨h1, h2⟩ := hp
  have h1' : (p.rc != -1) = false := by simp [h1]
  simp only [lock_wait_loop, h1', h2, Bool.false_eq_true, if_false]
  by_cases h3 : (if count = 0 then p.size else prev) = p.size
  · have h3' : ((if (count == 0) = true then p.size else prev) == p.size) = true := by
      simpa using h3
    simp only [h3', h3, if_true]
    by_cases h4 : ((count + 1 : Nat) : Int) ≥ (if timeout = true then b.MAXLOCKATTEMPT else 0)
    · simp only [h4, decide_True, if_true]
    · simp only [h4, decide_False, if_false, Bool.false_eq_true]
  · have h3' : ((if (count == 0) = true then p.size else prev) == p.size) = false := by
      simpa using h3
    simp only [h3', h3, if_false, Bool.false_eq_true]

theorem lock_wait_loop_waits (b : Build) (E : Errnos) (k : LockKind) (excl : Bool) :
    ∀ (ps : List Poll), (∀ p ∈ ps, p.contended E k) →
      ∀ (count attempt : Nat) (prev : Int) (w : World),
        ((count + unchanged_polls (if count = 0 then none else some prev)
            (ps.map Poll.size) : Nat) : Int) < b.MAXLOCKATTEMPT →
        lock_wait_loop b E k excl true ps count attempt prev w = none := by
  intro ps
  induction ps with
  | nil => intro _ count attempt prev w _; rfl
  | cons p ps ih =>
    intro hall count attempt prev w hlt
    rw [lock_wait_loop_step b E k excl true p ps count attempt prev w
      (hall p (List.mem_cons_self _ _))]
    have hall' : ∀ q ∈ ps, q.contended E k := fun q hq => hall q (List.mem_cons_of_mem _ hq)
    simp only [List.map_cons] at hlt
    by_cases hc : count = 0
    · subst hc
      simp only [if_true, unchanged_polls] at hlt ⊢
      have hnot : ¬ (((0 + 1 : Nat) : Int) ≥ b.MAXLOCKATTEMPT) := by
        push_cast at hlt ⊢; omega
      simp only [hnot, if_false]
      apply ih hall'
      simp only [Nat.add_eq_zero, one_ne_zero, and_false, if_false]
      push_cast at hlt ⊢; omega
    · simp only [hc, if_false, unchanged_polls] at hlt ⊢
      by_cases hs : prev = p.size
      · simp only [hs, if_true] at hlt ⊢
        have hnot : ¬ (((count + 1 : Nat) : Int) ≥ b.MAXLOCKATTEMPT) := by
          push_cast at hlt ⊢; omega
        simp only [hnot, if_false]
        apply ih hall'
        simp only [Nat.add_eq_zero, one_ne_zero, and_false, if_false]
        push_cast at hlt ⊢; omega
      · simp only [hs, if_false] at hlt ⊢
        apply ih hall'
        simp only [hc, if_false]
        push_cast at hlt ⊢; omega

theorem lock_wait_loop_times_out (b : Build) (E : Errnos) (k : LockKind) (excl : Bool) :
    ∀ (ps : List Poll), (∀ p ∈ ps, p.contended E k) →
      ∀ (count attempt : Nat) (prev : Int) (w : World),
        (count : Int) < b.MAXLOCKATTEMPT →
        b.MAXLOCKATTEMPT ≤ ((count + unchanged_polls (if count = 0 then none else some prev)
            (ps.map Poll.size) : Nat) : Int) →
        ∃ w', (∀ post, lock_wait_loop b E k excl true (ps ++ post) count attempt prev w =
            some (LockExit.timed_out, b.MAXLOCKATTEMPT.toNat, w')) ∧
          w'.trace.getLast? = some (Event.error (lock_timeout_text k)) := by
  intro ps
  induction ps with
  | nil =>
    intro _ count attempt prev w hlt hge
    simp only [List.map_nil, unchanged_polls] at hge
    omega
  | cons p ps ih =>
    intro hall count attempt prev w hlt hge
    have hall' : ∀ q ∈ ps, q.contended E k := fun q hq => hall q (List.mem_cons_of_mem _ hq)
    have hstep := fun post => lock_wait_loop_step b E k excl true p (ps ++ post) count attempt
      prev w (hall p (List.mem_cons_self _ _))
    simp only [List.map_cons] at hge
    by_cases heq : (if count = 0 then p.size else prev) = p.size
    · have hU : unchanged_polls (if count = 0 then none else some prev)
          (p.size :: ps.map Poll.size) = 1 + unchanged_polls (some p.size) (ps.map Poll.size) := by
        by_cases hc : count = 0
        · simp [hc, unchanged_polls]
        · simp only [hc, if_false] at heq ⊢
          simp [unchanged_polls, heq]
      rw [hU] at hge
      by_cases hlim : ((count + 1 : Nat) : Int) ≥ b.MAXLOCKATTEMPT
      · refine ⟨((w.log (Event.setlk k excl)).log Event.fstat).log
          (Event.error (lock_timeout_text k)), ?_, ?_⟩
        · intro post
          rw [List.cons_append, hstep post]
          simp only [heq, if_true, hlim]
          have : b.MAXLOCKATTEMPT.toNat = count + 1 := by push_cast at hlim; omega
          rw [this]
        · simp [World.log]
      · obtain ⟨w', hw', hlast⟩ := ih hall' (count + 1) (attempt + 1) p.size _
          (by push_cast at hlim ⊢; omega)
          (by simp only [Nat.add_eq_zero, one_ne_zero, and_false, if_false]
              push_cast at hge ⊢; omega)
        refine ⟨w', ?_, hlast⟩
        intro post
        rw [List.cons_append, hstep post]
        simp only [heq, if_true, hlim, if_false]
        exact hw' post
    · have hc : count ≠ 0 := by
        intro hc; apply heq; simp [hc]
      have hU : unchanged_polls (if count = 0 then none else some prev)
          (p.size :: ps.map Poll.size) = unchanged_polls (some p.size) (ps.map Poll.size) := by
        simp only [hc, if_false] at heq ⊢
        simp [unchanged_polls, heq]
      rw [hU] at hge
      obtain ⟨w', hw', hlast⟩ := ih hall' count (attempt + 1) p.size _ hlt
        (by simp only [hc, if_false]; exact hge)
      refine ⟨w', ?_, hlast⟩
      intro post
      rw [List.cons_append, hstep post]
      simp only [heq, if_false]
      exact hw' post

/-- C8 as stated fails: with `MAXLOCKATTEMPT = 5` and contended polls that see
the sizes 10, 10, 10, 20, 20, 20, the fcntl loop of `mx_lock_file` gives up
with a timeout at the sixth poll, where a counter that is reset when the size
changes stands at 2: the code never resets `count`. -/
theorem lock_counter_is_never_reset :
    (∀ p ∈ ex_growing, p.contended ex_errnos LockKind.fcntl) ∧
    ex_growing.map Poll.size = [10, 10, 10, 20, 20, 20] ∧
    (lock_wait_loop ex_build ex_errnos LockKind.fcntl true true ex_growing 0 0 0
        ex_world).map (fun r => (r.1, r.2.1)) = some (LockExit.timed_out, 5) ∧
    lock_wait_loop ex_build ex_errnos LockKind.fcntl true true (ex_growing.take 5) 0 0 0
        ex_world = none ∧
    reset_counter none 0 (ex_growing.map Poll.size) = 2 ∧
    ¬ (ex_build.MAXLOCKATTEMPT ≤ ((reset_counter none 0 (ex_growing.map Poll.size) : Nat) : Int)) := by
  decide

/-- C8, amended: in a waiting loop of `mx_lock_file` with retry requested, the
contention counter is incremented by each contended poll whose file size
equals that of the poll before (the first poll counts) and is never reset:
the loop keeps waiting while the number of such polls is below
`MAXLOCKATTEMPT` and gives up with the timeout error at the poll where it
reaches `MAXLOCKATTEMPT`, whatever follows; with retry not requested the loop
gives up at the first contended poll, without message and without sleeping. -/
theorem lock_wait_loop_timeout_exact (b : Build) (E : Errnos) (k : LockKind) (excl : Bool)
    (ps : List Poll) (w : World) (hall : ∀ p ∈ ps, p.contended E k)
    (hmax : 1 ≤ b.MAXLOCKATTEMPT) :
    (((unchanged_polls none (ps.map Poll.size) : Nat) : Int) < b.MAXLOCKATTEMPT →
      lock_wait_loop b E k excl true ps 0 0 0 w = none) ∧
    (b.MAXLOCKATTEMPT ≤ ((unchanged_polls none (ps.map Poll.size) : Nat) : Int) →
      ∃ w', (∀ post, lock_wait_loop b E k excl true (ps ++ post) 0 0 0 w =
          some (LockExit.timed_out, b.MAXLOCKATTEMPT.toNat, w')) ∧
        w'.trace.getLast? = some (Event.error (lock_timeout_text k))) ∧
    (∀ p rest, p.contended E k →
      lock_wait_loop b E k excl false (p :: rest) 0 0 0 w =
        some (LockExit.timed_out, 1, (w.log (Event.setlk k excl)).log Event.fstat)) := by
  refine ⟨?_, ?_, ?_⟩
  · intro h
    apply lock_wait_loop_waits b E k excl ps hall
    simpa using h
  · intro h
    apply lock_wait_loop_times_out b E k excl ps hall 0 0 0 w (by push_cast; omega)
    simpa using h
  · intro p rest hp
    rw [lock_wait_loop_step b E k excl false p rest 0 0 0 w hp]
    simp

/-- Witness of the amended C8 on the growing-file polls with `MAXLOCKATTEMPT =
5`. -/
theorem lock_wait_loop_timeout_exact_witness :
    ((∀ p ∈ ex_growing, p.contended ex_errnos LockKind.fcntl) ∧
      1 ≤ ex_build.MAXLOCKATTEMPT) ∧
    ((((unchanged_polls none (ex_growing.map Poll.size) : Nat) : Int) <
        ex_build.MAXLOCKATTEMPT →
      lock_wait_loop ex_build ex_errnos LockKind.fcntl true true ex_growing 0 0 0 ex_world =
        none) ∧
    (ex_build.MAXLOCKATTEMPT ≤ ((unchanged_polls none (ex_growing.map Poll.size) : Nat) : Int) →
      ∃ w', (∀ post, lock_wait_loop ex_build ex_errnos LockKind.fcntl true true
          (ex_growing ++ post) 0 0 0 ex_world =
          some (LockExit.timed_out, ex_build.MAXLOCKATTEMPT.toNat, w')) ∧
        w'.trace.getLast? = some (Event.error (lock_timeout_text LockKind.fcntl))) ∧
    (∀ p rest, p.contended ex_errnos LockKind.fcntl →
      lock_wait_loop ex_build ex_errnos LockKind.fcntl true false (p :: rest) 0 0 0 ex_world =
        some (LockExit.timed_out, 1,
          (ex_world.log (Event.setlk LockKind.fcntl true)).log Event.fstat))) :=
  ⟨⟨by decide, by decide⟩,
    lock_wait_loop_timeout_exact ex_build ex_errnos LockKind.fcntl true ex_growing ex_world
      (by decide) (by decide)⟩

/-! ### Format detector -/

theorem mx_get_magic_tail_cases (b : Build) (env : Env) (path : String) (magic : Int)
    (w : World) :
    ((mx_get_magic_tail b env path magic w).1 = magic ∨
      (mx_get_magic_tail b env path magic w).1 = MUTT_COMPRESSED) ∧
    ((mx_get_magic_tail b env path magic w).1 = 0 →
      magic = 0 ∧ (b.USE_COMPRESSED = true →
        (mx_get_magic_tail b env path magic w).2.trace = w.trace ++ [Event.comp_can_read path] ∧
          env.mutt_comp_can_read w.trace path = false)) := by
  unfold mx_get_magic_tail
  by_cases hc : (b.USE_COMPRESSED && magic == 0) = true
  · rw [if_pos hc]
    by_cases hr : env.mutt_comp_can_read w.trace path = true
    · rw [if_pos hr]
      exact ⟨Or.inr rfl, fun h => absurd (show MUTT_COMPRESSED = 0 from h) (by decide)⟩
    · rw [if_neg hr]
      have hr' : env.mutt_comp_can_read w.trace path = false := by simpa using hr
      exact ⟨Or.inl rfl, fun h => ⟨h, fun _ => ⟨rfl, hr'⟩⟩⟩
  · rw [if_neg hc]
    refine ⟨Or.inl rfl, fun h => ⟨h, fun hb => ?_⟩⟩
    exfalso
    apply hc
    have h0 : magic = 0 := h
    simp [hb, h0]

theorem mx_get_magic_content_cases (b : Build) (content : List Char) :
    mx_get_magic_content b content = MUTT_MBOX ∨ mx_get_magic_content b content = MUTT_MMDF ∨
      mx_get_magic_content b content = 0 := by
  unfold mx_get_magic_content
  split
  · split
    · exact Or.inl rfl
    · split
      · exact Or.inr (Or.inl rfl)
      · exact Or.inr (Or.inr rfl)
  · exact Or.inr (Or.inr rfl)

/-- The value and the final world of `mx_get_magic` on a local path, case by
case. -/
theorem mx_get_magic_local (b : Build) (env : Env) (opts : Options) (dm : Int)
    (path : String) (w : World) (hlocal : mx_get_magic_remote b env path = none) :
    mx_get_magic b env opts dm path w =
      match env.stat w.trace path with
      | .error _ => (-1, w.log (Event.stat path))
      | .ok st =>
        if st.is_dir = true then
          if env.mx_is_maildir (w.trace ++ [Event.stat path]) path = true then
            (MUTT_MAILDIR, (w.log (Event.stat path)).log (Event.is_maildir path))
          else if env.mx_is_mh (w.trace ++ [Event.stat path] ++ [Event.is_maildir path]) path
              = true then
            (MUTT_MH, ((w.log (Event.stat path)).log (Event.is_maildir path)).log
              (Event.is_mh path))
          else mx_get_magic_tail b env path 0
            (((w.log (Event.stat path)).log (Event.is_maildir path)).log (Event.is_mh path))
        else if st.st_size = 0 then
          (if dm = MUTT_MBOX ∨ dm = MUTT_MMDF then dm else MUTT_MBOX, w.log (Event.stat path))
        else
          match env.fopen_r (w.trace ++ [Event.stat path]) path with
          | some content =>
            mx_get_magic_tail b env path (mx_get_magic_content b content)
              (if opts.OPTCHECKMBOXSIZE = false then
                ((w.log (Event.stat path)).log (Event.fopen path)).log
                  (Event.utime path st.st_atime st.st_mtime)
              else (w.log (Event.stat path)).log (Event.fopen path))
          | none => (-1, (w.log (Event.stat path)).log (Event.fopen path)) := by
  unfold mx_get_magic
  rw [hlocal]
  cases hst : env.stat w.trace path with
  | error e => rfl
  | ok st =>
    dsimp only [World.log]
    by_cases hd : st.is_dir = true
    · rw [if_pos hd, if_pos hd]
    · rw [if_neg hd, if_neg hd]
      by_cases hz : st.st_size = 0
      · have hz' : (st.st_size == 0) = true := by simpa using hz
        rw [if_pos hz', if_pos hz]
        by_cases hdm : dm = MUTT_MBOX ∨ dm = MUTT_MMDF
        · have : (dm == MUTT_MBOX || dm == MUTT_MMDF) = true := by simpa using hdm
          rw [if_pos this, if_pos hdm]
        · have : ¬ (dm == MUTT_MBOX || dm == MUTT_MMDF) = true := by simpa using hdm
          rw [if_neg this, if_neg hdm]
      · have hz' : ¬ (st.st_size == 0) = true := by simpa using hz
        rw [if_neg hz', if_neg hz]
        cases hf : env.fopen_r (w.trace ++ [Event.stat path]) path with
        | none => rfl
        | some content =>
          dsimp only
          cases opts.OPTCHECKMBOXSIZE <;> rfl

/-- C9: for a path that none of the remote-kind tests claims, `mx_get_magic`
returns -1 if and only if `stat` fails or a non-directory, non-empty file
cannot be opened for reading; and when it returns 0, `stat` succeeded, the
path is a directory or has nonzero size, no kind matched (neither maildir nor
MH for a directory; neither `From ` nor the MMDF separator for a file), and
the compressed-mailbox collaborator, where compiled in, was asked last and did
not claim the path. -/
theorem mx_get_magic_error_iff (b : Build) (env : Env) (opts : Options) (dm : Int)
    (path : String) (w : World) (hlocal : mx_get_magic_remote b env path = none) :
    ((mx_get_magic b env opts dm path w).1 = -1 ↔
      ((∃ e, env.stat w.trace path = .error e) ∨
        (∃ st, env.stat w.trace path = .ok st ∧ st.is_dir = false ∧ st.st_size ≠ 0 ∧
          env.fopen_r (w.trace ++ [Event.stat path]) path = none))) ∧
    ((mx_get_magic b env opts dm path w).1 = 0 →
      ∃ st, env.stat w.trace path = .ok st ∧ (st.is_dir = true ∨ st.st_size ≠ 0) ∧
        (st.is_dir = true →
          env.mx_is_maildir (w.trace ++ [Event.stat path]) path = false ∧
          env.mx_is_mh (w.trace ++ [Event.stat path] ++ [Event.is_maildir path]) path = false) ∧
        (st.is_dir = false →
          ∃ content, env.fopen_r (w.trace ++ [Event.stat path]) path = some content ∧
            mx_get_magic_content b content = 0) ∧
        (b.USE_COMPRESSED = true →
          ∃ tr, (mx_get_magic b env opts dm path w).2.trace = tr ++ [Event.comp_can_read path] ∧
            env.mutt_comp_can_read tr path = false)) := by
  rw [mx_get_magic_local b env opts dm path w hlocal]
  cases hst : env.stat w.trace path with
  | error e =>
    dsimp only
    exact ⟨⟨fun _ => Or.inl ⟨e, rfl⟩, fun _ => rfl⟩, fun h => absurd h (by decide)⟩
  | ok st =>
    dsimp only
    have hstat : ∀ P : Prop,
        ((∃ e, (Except.ok st : Except Int Stat) = Except.error e) ∨ P) ↔ P := by
      intro P
      constructor
      · rintro (⟨e, he⟩ | h)
        · cases he
        · exact h
      · exact Or.inr
    rw [hstat]
    by_cases hd : st.is_dir = true
    · rw [if_pos hd]
      have hnofile : ¬ ∃ st', (Except.ok st : Except Int Stat) = Except.ok st' ∧
          st'.is_dir = false ∧ st'.st_size ≠ 0 ∧
          env.fopen_r (w.trace ++ [Event.stat path]) path = none := by
        rintro ⟨st', hs', hd', _⟩
        cases hs'
        rw [hd] at hd'; cases hd'
      by_cases hm : env.mx_is_maildir (w.trace ++ [Event.stat path]) path = true
      · rw [if_pos hm]
        exact ⟨⟨fun h => absurd (show MUTT_MAILDIR = -1 from h) (by decide),
          fun h => absurd h hnofile⟩, fun h => absurd (show MUTT_MAILDIR = 0 from h) (by decide)⟩
      · rw [if_neg hm]
        by_cases hh : env.mx_is_mh (w.trace ++ [Event.stat path] ++ [Event.is_maildir path])
            path = true
        · rw [if_pos hh]
          exact ⟨⟨fun h => absurd (show MUTT_MH = -1 from h) (by decide),
            fun h => absurd h hnofile⟩, fun h => absurd (show MUTT_MH = 0 from h) (by decide)⟩
        · rw [if_neg hh]
          obtain ⟨t1, t2⟩ := mx_get_magic_tail_cases b env path 0
            (((w.log (Event.stat path)).log (Event.is_maildir path)).log (Event.is_mh path))
          refine ⟨⟨fun h => ?_, fun h => absurd h hnofile⟩, fun h => ?_⟩
          · rcases t1 with t1 | t1
            · rw [t1] at h; exact absurd h (by decide)
            · rw [t1] at h; exact absurd h (by decide)
          · obtain ⟨_, t3⟩ := t2 h
            have hm' : env.mx_is_maildir (w.trace ++ [Event.stat path]) path = false := by
              simpa using hm
            have hh' : env.mx_is_mh (w.trace ++ [Event.stat path] ++ [Event.is_maildir path])
                path = false := by simpa using hh
            refine ⟨st, rfl, Or.inl hd, fun _ => ⟨hm', hh'⟩, fun hf => ?_, fun hb => ?_⟩
            · rw [hd] at hf; cases hf
            · obtain ⟨t4, t5⟩ := t3 hb
              exact ⟨_, t4, t5⟩
    · rw [if_neg hd]
      have hd' : st.is_dir = false := by simpa using hd
      by_cases hz : st.st_size = 0
      · rw [if_pos hz]
        have hval : ∀ x : Int, (if dm = MUTT_MBOX ∨ dm = MUTT_MMDF then dm else MUTT_MBOX) = x →
            x = MUTT_MBOX ∨ x = MUTT_MMDF := by
          intro x hx
          split at hx
          · rename_i hdm
            rcases hdm with hdm | hdm
            · exact Or.inl (by rw [← hx, hdm])
            · exact Or.inr (by rw [← hx, hdm])
          · exact Or.inl hx.symm
        refine ⟨⟨fun h => ?_, fun h => ?_⟩, fun h => ?_⟩
        · rcases hval _ h with h' | h' <;> exact absurd h' (by decide)
        · obtain ⟨st', hs', _, hne, _⟩ := h
          cases hs'
          exact absurd hz hne
        · rcases hval _ h with h' | h' <;> exact absurd h' (by decide)
      · rw [if_neg hz]
        cases hf : env.fopen_r (w.trace ++ [Event.stat path]) path with
        | none =>
          dsimp only
          exact ⟨⟨fun _ => ⟨st, rfl, hd', hz, rfl⟩, fun _ => rfl⟩,
            fun h => absurd h (by decide)⟩
        | some content =>
          dsimp only
          obtain ⟨t1, t2⟩ := mx_get_magic_tail_cases b env path (mx_get_magic_content b content)
            (if opts.OPTCHECKMBOXSIZE = false then
                ((w.log (Event.stat path)).log (Event.fopen path)).log
                  (Event.utime path st.st_atime st.st_mtime)
              else (w.log (Event.stat path)).log (Event.fopen path))
          refine ⟨⟨fun h => ?_, fun h => ?_⟩, fun h => ?_⟩
          · exfalso
            rcases t1 with t1 | t1
            · rw [t1] at h
              rcases mx_get_magic_content_cases b content with c | c | c <;>
                rw [c] at h <;> exact absurd h (by decide)
            · rw [t1] at h; exact absurd h (by decide)
          · obtain ⟨st', hs', _, _, hnone⟩ := h
            cases hnone
          · obtain ⟨t3, t4⟩ := t2 h
            refine ⟨st, rfl, Or.inr hz, fun hdir => ?_, fun _ => ⟨content, rfl, t3⟩,
              fun hb => ?_⟩
            · rw [hd'] at hdir; cases hdir
            · obtain ⟨t5, t6⟩ := t4 hb
              exact ⟨_, t5, t6⟩

/-- C10: for a local path that stats as a non-directory of size zero,
`mx_get_magic` returns the configured default kind when it is MBOX or MMDF
and MBOX for every other value of the default (so MBOX after `mx_set_magic`
with "mh" or "maildir"), and the only thing it does to the outside is the
`stat`: no open of the file, no question to the compressed-mailbox
collaborator. -/
theorem mx_get_magic_empty_file (b : Build) (env : Env) (opts : Options) (dm : Int)
    (path : String) (w : World) (st : Stat)
    (hlocal : mx_get_magic_remote b env path = none)
    (hstat : env.stat w.trace path = .ok st) (hfile : st.is_dir = false)
    (hsize : st.st_size = 0) :
    mx_get_magic b env opts dm path w =
      (if dm = MUTT_MBOX ∨ dm = MUTT_MMDF then dm else MUTT_MBOX,
        { w with trace := w.trace ++ [Event.stat path] }) ∧
    (dm = MUTT_MH ∨ dm = MUTT_MAILDIR ∨ dm = 0 →
      (mx_get_magic b env opts dm path w).1 = MUTT_MBOX) ∧
    Event.fopen path ∉ (mx_get_magic b env opts dm path w).2.trace.drop w.trace.length ∧
    Event.comp_can_read path ∉ (mx_get_magic b env opts dm path w).2.trace.drop
      w.trace.length ∧
    (mx_get_magic b env opts (mx_set_magic "mbox" dm).2 path w).1 = MUTT_MBOX ∧
    (mx_get_magic b env opts (mx_set_magic "mmdf" dm).2 path w).1 = MUTT_MMDF ∧
    (mx_get_magic b env opts (mx_set_magic "mh" dm).2 path w).1 = MUTT_MBOX ∧
    (mx_get_magic b env opts (mx_set_magic "maildir" dm).2 path w).1 = MUTT_MBOX := by
  have hval : ∀ d : Int, mx_get_magic b env opts d path w =
      (if d = MUTT_MBOX ∨ d = MUTT_MMDF then d else MUTT_MBOX,
        { w with trace := w.trace ++ [Event.stat path] }) := by
    intro d
    rw [mx_get_magic_local b env opts d path w hlocal, hstat]
    dsimp only
    rw [if_neg (by rw [hfile]; simp), if_pos hsize]
    rfl
  have s1 : (mx_set_magic "mbox" dm).2 = MUTT_MBOX := by
    have : ascii_strcasecmp_eq "mbox" "mbox" = true := by decide
    simp [mx_set_magic, this]
  have s2 : (mx_set_magic "mmdf" dm).2 = MUTT_MMDF := by
    have h1 : ascii_strcasecmp_eq "mmdf" "mbox" = false := by decide
    have h2 : ascii_strcasecmp_eq "mmdf" "mmdf" = true := by decide
    simp [mx_set_magic, h1, h2]
  have s3 : (mx_set_magic "mh" dm).2 = MUTT_MH := by
    have h1 : ascii_strcasecmp_eq "mh" "mbox" = false := by decide
    have h2 : ascii_strcasecmp_eq "mh" "mmdf" = false := by decide
    have h3 : ascii_strcasecmp_eq "mh" "mh" = true := by decide
    simp [mx_set_magic, h1, h2, h3]
  have s4 : (mx_set_magic "maildir" dm).2 = MUTT_MAILDIR := by
    have h1 : ascii_strcasecmp_eq "maildir" "mbox" = false := by decide
    have h2 : ascii_strcasecmp_eq "maildir" "mmdf" = false := by decide
    have h3 : ascii_strcasecmp_eq "maildir" "mh" = false := by decide
    have h4 : ascii_strcasecmp_eq "maildir" "maildir" = true := by decide
    simp [mx_set_magic, h1, h2, h3, h4]
  refine ⟨hval dm, ?_, ?_, ?_, ?_, ?_, ?_, ?_⟩
  · intro hdm
    rw [hval]
    dsimp only
    rw [if_neg]
    rintro (h | h) <;> rcases hdm with h' | h' | h' <;> rw [h'] at h <;>
      exact absurd h (by decide)
  · rw [hval]; simp
  · rw [hval]; simp
  · rw [hval, s1]; rfl
  · rw [hval, s2]; rfl
  · rw [hval, s3]; rfl
  · rw [hval, s4]; rfl

/-! ### Close pipeline -/

theorem close_move_append_exit (b : Build) (env : Env)
    (close_nested : Globals → Context → World → Option CloseResult)
    (g1 : Globals) (c3 : Context) (w4 : World) (mbox : String) (r : CloseResult)
    (h : close_move_append b env close_nested g1 c3 w4 mbox = some (.error r)) :
    CloseExit.is_abort r.exit = false := by
  unfold close_move_append at h
  cases h1 : mx_open_mailbox b env g1 (some mbox) append_flags (some Context.zero) w4 with
  | none => rw [h1] at h; cases h
  | some o =>
    rw [h1] at h
    dsimp only at h
    cases h2 : o.ret with
    | none =>
      rw [h2] at h
      simp only [Option.some.injEq, Except.error.injEq] at h
      subst h; rfl
    | some f =>
      rw [h2] at h
      dsimp only at h
      cases h3 : move_copy_loop env o.g.opts c3.msgcount 0 c3 f o.w with
      | none => rw [h3] at h; cases h
      | some x =>
        obtain ⟨ok, c4, f1, w5⟩ := x
        rw [h3] at h
        dsimp only at h
        cases h4 : close_nested o.g f1 w5 with
        | none => rw [h4] at h; cases h
        | some cr =>
          rw [h4] at h
          dsimp only at h
          cases ok with
          | true => simp at h
          | false =>
            simp only [Bool.false_eq_true, if_false, Option.some.injEq, Except.error.injEq] at h
            subst h; rfl

theorem close_move_exit (b : Build) (env : Env)
    (close_nested : Globals → Context → World → Option CloseResult)
    (g1 : Globals) (c2 : Context) (w2 : World) (mm : Int) (mbox : String) (r : CloseResult)
    (h : close_move b env close_nested g1 c2 w2 mm mbox = some (.error r)) :
    CloseExit.is_abort r.exit = false := by
  unfold close_move at h
  by_cases hm : (mm != 0) = true
  · rw [if_pos hm] at h
    cases h1 : close_move_imap b env g1 c2
        (if (!c2.quiet) = true then w2.log (Event.message "Moving read messages to %s..." [])
          else w2) mbox with
    | none => rw [h1] at h; cases h
    | some x =>
      obtain ⟨i, c3, w4⟩ := x
      rw [h1] at h
      dsimp only at h
      by_cases hi0 : (b.USE_IMAP && i == 0) = true
      · rw [if_pos hi0] at h; simp at h
      · rw [if_neg hi0] at h
        by_cases hi1 : (b.USE_IMAP && i == -1) = true
        · rw [if_pos hi1] at h
          simp only [Option.some.injEq, Except.error.injEq] at h
          subst h; rfl
        · rw [if_neg hi1] at h
          exact close_move_append_exit b env close_nested g1 c3 w4 mbox r h
  · rw [if_neg hm] at h
    by_cases hu : (!c2.changed && c2.deleted == 0) = true
    · rw [if_pos hu] at h
      split at h
      · cases h
      · simp only [Option.some.injEq, Except.error.injEq] at h
        subst h; rfl
    · rw [if_neg hu] at h; simp at h

theorem close_sync_exit (b : Build) (env : Env) (g4 : Globals) (c3 : Context) (w4 : World)
    (purge : Int) (r : CloseResult)
    (h : close_sync b env g4 c3 w4 purge = some (.error r)) :
    CloseExit.is_abort r.exit = false := by
  unfold close_sync at h
  by_cases hi : (b.USE_IMAP && c3.magic == MUTT_IMAP) = true
  · rw [if_pos hi] at h
    by_cases hr : ((env.imap_sync_mailbox w4.trace c3 purge).1 != 0) = true
    · rw [if_pos hr] at h
      simp only [Option.some.injEq, Except.error.injEq] at h
      subst h; rfl
    · rw [if_neg hr] at h; simp at h
  · rw [if_neg hi] at h
    cases hc : close_clear_deleted c3 purge with
    | none => rw [hc] at h; cases h
    | some c4 =>
      rw [hc] at h
      dsimp only at h
      by_cases hs : (c4.changed || c4.deleted != 0) = true
      · rw [if_pos hs] at h
        by_cases hr : ((sync_mailbox env c4 w4).1 != 0) = true
        · rw [if_pos hr] at h
          simp only [Option.some.injEq, Except.error.injEq] at h
          subst h; rfl
        · rw [if_neg hr] at h; simp at h
      · rw [if_neg hs] at h; simp at h

theorem close_finish_exit (b : Build) (env : Env) (g4 : Globals) (c5 : Context) (w5 : World)
    (mm purge : Int) (n : Nat) (r : CloseResult)
    (h : close_finish b env g4 c5 w5 mm purge n = some r) :
    CloseExit.is_abort r.exit = false := by
  unfold close_finish at h
  cases h1 : close_unlink b env g4 c5 (close_summary c5 w5 mm n) with
  | none => rw [h1] at h; cases h
  | some w7 =>
    rw [h1] at h
    dsimp only at h
    cases h2 : close_sidebar b c5 w7 purge with
    | none => rw [h2] at h; cases h
    | some x =>
      obtain ⟨c6, w8⟩ := x
      rw [h2] at h
      dsimp only at h
      cases h3 : mx_fastclose_mailbox env c6 w8 with
      | none => rw [h3] at h; cases h
      | some y =>
        obtain ⟨c, w9⟩ := y
        rw [h3] at h
        simp only [Option.some.injEq] at h
        subst h; rfl

theorem close_after_prompts_exit (b : Build) (env : Env)
    (close_nested : Globals → Context → World → Option CloseResult)
    (g1 : Globals) (c1 : Context) (w : World) (mm : Int) (mbox : String) (purge : Int)
    (n : Nat) (r : CloseResult)
    (h : close_after_prompts b env close_nested g1 c1 w mm mbox purge n = some r) :
    CloseExit.is_abort r.exit = false := by
  unfold close_after_prompts at h
  cases h1 : close_mark_old env g1 c1 w with
  | none => rw [h1] at h; cases h
  | some x =>
    obtain ⟨c2, w2⟩ := x
    rw [h1] at h
    dsimp only at h
    cases h2 : close_move b env close_nested g1 c2 w2 mm mbox with
    | none => rw [h2] at h; cases h
    | some y =>
      rw [h2] at h
      cases y with
      | error r' =>
        simp only [Option.some.injEq] at h
        subst h
        exact close_move_exit b env close_nested g1 c2 w2 mm mbox _ h2
      | ok z =>
        obtain ⟨c3, g3, w3⟩ := z
        dsimp only at h
        cases h3 : close_trash b env close_nested g3 c3 w3 purge with
        | none => rw [h3] at h; cases h
        | some t =>
          obtain ⟨tr, g4, w4⟩ := t
          rw [h3] at h
          dsimp only at h
          by_cases htr : (tr != 0) = true
          · rw [if_pos htr] at h
            simp only [Option.some.injEq] at h
            subst h; rfl
          · rw [if_neg htr] at h
            cases h4 : close_sync b env g4 c3 w4 purge with
            | none => rw [h4] at h; cases h
            | some s =>
              rw [h4] at h
              cases s with
              | error r' =>
                simp only [Option.some.injEq] at h
                subst h
                exact close_sync_exit _ _ _ _ _ _ _ h4
              | ok u =>
                obtain ⟨c5, w5⟩ := u
                exact close_finish_exit _ _ _ _ _ _ _ _ _ h

theorem close_catchup_unchanged (b : Build) (env : Env) (g : Globals) (c0 : Context)
    (w : World) (ab : Bool) (c1 : Context) (g1 : Globals) (w1 : World)
    (h : close_catchup b env g c0 w = some (ab, c1, g1, w1)) :
    (ab = true → c1 = c0 ∧ g1 = g) ∧
    (env.query_quadoption w.trace QuadOpt.OPT_CATCHUP ≠ MUTT_YES → c1 = c0 ∧ g1 = g) := by
  unfold close_catchup at h
  by_cases h0 : (b.USE_NNTP && c0.unread != 0 && c0.magic == MUTT_NNTP) = true
  · rw [if_pos h0] at h
    cases hd : find_data g.news c0.data with
    | none =>
      rw [hd] at h
      simp only [Option.some.injEq, Prod.mk.injEq] at h
      obtain ⟨h1, h2, h3, _⟩ := h
      subst h2; subst h3
      exact ⟨fun _ => ⟨rfl, rfl⟩, fun _ => ⟨rfl, rfl⟩⟩
    | some nd =>
      rw [hd] at h
      dsimp only at h
      cases hg : nd.group with
      | none =>
        rw [hg] at h
        simp only [Option.some.injEq, Prod.mk.injEq] at h
        obtain ⟨h1, h2, h3, _⟩ := h
        subst h2; subst h3
        exact ⟨fun _ => ⟨rfl, rfl⟩, fun _ => ⟨rfl, rfl⟩⟩
      | some grp =>
        rw [hg] at h
        dsimp only at h
        by_cases hs : nd.nserv = true
        · rw [if_pos hs] at h
          by_cases ha : (env.query_quadoption w.trace QuadOpt.OPT_CATCHUP == MUTT_ABORT) = true
          · rw [if_pos ha] at h
            simp only [Option.some.injEq, Prod.mk.injEq] at h
            obtain ⟨h1, h2, h3, _⟩ := h
            subst h2; subst h3
            exact ⟨fun _ => ⟨rfl, rfl⟩, fun _ => ⟨rfl, rfl⟩⟩
          · rw [if_neg ha] at h
            by_cases hy : (env.query_quadoption w.trace QuadOpt.OPT_CATCHUP == MUTT_YES) = true
            · rw [if_pos hy] at h
              have hy' : env.query_quadoption w.trace QuadOpt.OPT_CATCHUP = MUTT_YES := by
                simpa using hy
              split at h
              · cases h
              · simp only [Option.some.injEq, Prod.mk.injEq] at h
                have h1 := h.1
                subst h1
                exact ⟨fun hc => (by cases hc), fun hne => absurd hy' hne⟩
            · rw [if_neg hy] at h
              simp only [Option.some.injEq, Prod.mk.injEq] at h
              obtain ⟨h1, h2, h3, _⟩ := h
              subst h2; subst h3
              exact ⟨fun _ => ⟨rfl, rfl⟩, fun _ => ⟨rfl, rfl⟩⟩
        · rw [if_neg hs] at h
          simp only [Option.some.injEq, Prod.mk.injEq] at h
          obtain ⟨h1, h2, h3, _⟩ := h
          subst h2; subst h3
          exact ⟨fun _ => ⟨rfl, rfl⟩, fun _ => ⟨rfl, rfl⟩⟩
  · rw [if_neg h0] at h
    simp only [Option.some.injEq, Prod.mk.injEq] at h
    obtain ⟨h1, h2, h3, _⟩ := h
    subst h2; subst h3
    exact ⟨fun _ => ⟨rfl, rfl⟩, fun _ => ⟨rfl, rfl⟩⟩

/-- C5, amended: whenever `mx_close_mailbox` ends with a user abort (the
catch-up, the move or the purge question answers abort) it returns -1 with
the closing flag false; when the abort is that of the catch-up question, or
the catch-up question was not answered yes earlier in the call, the session
is exactly the one before the call with `closing = false` (records, flags,
counters, sequence) and the globals are unchanged. -/
theorem mx_close_mailbox_abort (b : Build) (env : Env) (fuel : Nat) (g : Globals)
    (ctx : Context) (w : World) (r : CloseResult)
    (h : mx_close_mailbox b env fuel g ctx w = some r)
    (habort : CloseExit.is_abort r.exit = true) :
    r.rc = -1 ∧ r.ctx.closing = false ∧
    (r.exit = CloseExit.abort_catchup → r.ctx = { ctx with closing := false } ∧ r.g = g) ∧
    (env.query_quadoption w.trace QuadOpt.OPT_CATCHUP ≠ MUTT_YES →
      r.ctx = { ctx with closing := false } ∧ r.g = g) := by
  cases fuel with
  | zero => simp [mx_close_mailbox] at h
  | succ fuel =>
    unfold mx_close_mailbox at h
    dsimp only at h
    by_cases hf : (ctx.readonly || ctx.dontwrite || ctx.append) = true
    · rw [if_pos hf] at h
      split at h
      · cases h
      · simp only [Option.some.injEq] at h
        subst h
        cases habort
    · rw [if_neg hf] at h
      cases hc : close_catchup b env g { ctx with closing := true } w with
      | none => rw [hc] at h; cases h
      | some x =>
        obtain ⟨ab, c1, g1, w1⟩ := x
        obtain ⟨k1, k2⟩ := close_catchup_unchanged b env g _ w ab c1 g1 w1 hc
        rw [hc] at h
        cases ab with
        | true =>
          simp only [Option.some.injEq] at h
          subst h
          obtain ⟨e1, e2⟩ := k1 rfl
          subst e1; subst e2
          exact ⟨rfl, rfl, fun _ => ⟨rfl, rfl⟩, fun _ => ⟨rfl, rfl⟩⟩
        | false =>
          dsimp only at h
          cases hl : c1.live with
          | none => rw [hl] at h; cases h
          | some recs =>
            rw [hl] at h
            dsimp only at h
            have hrest : ∀ (r' : CloseResult), r' = r → r'.ctx = { c1 with closing := false } →
                r'.g = g1 → r'.rc = -1 → r'.exit ≠ CloseExit.abort_catchup →
                r.rc = -1 ∧ r.ctx.closing = false ∧
                (r.exit = CloseExit.abort_catchup → r.ctx = { ctx with closing := false } ∧
                  r.g = g) ∧
                (env.query_quadoption w.trace QuadOpt.OPT_CATCHUP ≠ MUTT_YES →
                  r.ctx = { ctx with closing := false } ∧ r.g = g) := by
              intro r' hr hctx hg hrc hex
              subst hr
              refine ⟨hrc, by rw [hctx], fun he => absurd he hex, fun hne => ?_⟩
              obtain ⟨e1, e2⟩ := k2 hne
              subst e1; subst e2
              exact ⟨hctx, hg⟩
            split at h
            · simp only [Option.some.injEq] at h
              exact hrest _ h rfl rfl rfl (fun hc => by cases hc)
            · split at h
              · simp only [Option.some.injEq] at h
                exact hrest _ h rfl rfl rfl (fun hc => by cases hc)
              · have := close_after_prompts_exit _ _ _ _ _ _ _ _ _ _ _ h
                rw [this] at habort
                cases habort

/-- C5 as stated fails: on a news session with an unread article and a deleted
one, the user confirms the catch-up and then aborts at the purge question;
`mx_close_mailbox` returns -1 with `closing` false, but the catch-up stays:
the group's unread counter went from 1 to 0 and its newsrc entries were
replaced, and the unread article is now read. -/
theorem close_abort_after_catchup_keeps_catchup :
    (mx_close_mailbox ex_build ex_env_catchup_then_abort 1 ex_globals ex_news_ctx
        ex_world).map (fun r => (r.rc, r.exit, r.ctx.closing,
          r.ctx.records.map (fun h => h.read), r.ctx.unread,
          (find_data r.g.news (some 100)).map (fun d => (d.unread, d.newsrc_ent)))) =
      some (-1, CloseExit.abort_purge, false, [true, true], 0,
        some (0, some [{ first := 1, last := 10 }])) ∧
    (ex_news_ctx.records.map (fun h => h.read), ex_news_ctx.unread,
        (find_data ex_globals.news (some 100)).map (fun d => (d.unread, d.newsrc_ent))) =
      ([false, true], 1, some (1, some [{ first := 1, last := 3 }])) :=
  ⟨rfl, rfl⟩

/-- Witness of the amended C5: every question answers abort on the example
mbox session; the purge question is asked and the session is unchanged. -/
theorem mx_close_mailbox_abort_witness :
    (mx_close_mailbox ex_build ex_env_abort 1 ex_globals ex_ctx ex_world =
        some ex_abort_closed ∧ CloseExit.is_abort ex_abort_closed.exit = true) ∧
    (ex_abort_closed.rc = -1 ∧ ex_abort_closed.ctx.closing = false ∧
      (ex_abort_closed.exit = CloseExit.abort_catchup →
        ex_abort_closed.ctx = { ex_ctx with closing := false } ∧ ex_abort_closed.g = ex_globals) ∧
      (ex_env_abort.query_quadoption ex_world.trace QuadOpt.OPT_CATCHUP ≠ MUTT_YES →
        ex_abort_closed.ctx = { ex_ctx with closing := false } ∧
          ex_abort_closed.g = ex_globals)) :=
  ⟨⟨rfl, rfl⟩,
    mx_close_mailbox_abort ex_build ex_env_abort 1 ex_globals ex_ctx ex_world ex_abort_closed
      rfl rfl⟩

/-- C6, the failing input: the caller supplies the session object, the path is
an mbox file and the backend `open` fails with -1.  `mx_open_mailbox` tears
the session down and returns the pointer to the caller's zeroed object, not
`NULL`; with a session allocated by the call the same failure returns
`NULL`. -/
theorem mx_open_mailbox_open_failure_returns_session :
    (mx_open_mailbox ex_build ex_env_open_fails ex_globals (some "/tmp/mbox") ex_read_flags
        (some ex_ctx) ex_world).map (fun r => r.ret) = some (some Context.zero) ∧
    (mx_open_mailbox ex_build ex_env_open_fails ex_globals (some "/tmp/mbox") ex_read_flags
        none ex_world).map (fun r => r.ret) = some none :=
  ⟨rfl, rfl⟩

/-- Witness of C9 on a path that does not exist. -/
theorem mx_get_magic_error_iff_witness :
    mx_get_magic_remote ex_build ex_env "/tmp/none" = none ∧
    (((mx_get_magic ex_build ex_env ex_opts MUTT_MBOX "/tmp/none" ex_world).1 = -1 ↔
      ((∃ e, ex_env.stat ex_world.trace "/tmp/none" = .error e) ∨
        (∃ st, ex_env.stat ex_world.trace "/tmp/none" = .ok st ∧ st.is_dir = false ∧
          st.st_size ≠ 0 ∧
          ex_env.fopen_r (ex_world.trace ++ [Event.stat "/tmp/none"]) "/tmp/none" = none))) ∧
    ((mx_get_magic ex_build ex_env ex_opts MUTT_MBOX "/tmp/none" ex_world).1 = 0 →
      ∃ st, ex_env.stat ex_world.trace "/tmp/none" = .ok st ∧
        (st.is_dir = true ∨ st.st_size ≠ 0) ∧
        (st.is_dir = true →
          ex_env.mx_is_maildir (ex_world.trace ++ [Event.stat "/tmp/none"]) "/tmp/none" = false ∧
          ex_env.mx_is_mh (ex_world.trace ++ [Event.stat "/tmp/none"] ++
            [Event.is_maildir "/tmp/none"]) "/tmp/none" = false) ∧
        (st.is_dir = false →
          ∃ content, ex_env.fopen_r (ex_world.trace ++ [Event.stat "/tmp/none"]) "/tmp/none" =
              some content ∧ mx_get_magic_content ex_build content = 0) ∧
        (ex_build.USE_COMPRESSED = true →
          ∃ tr, (mx_get_magic ex_build ex_env ex_opts MUTT_MBOX "/tmp/none" ex_world).2.trace =
              tr ++ [Event.comp_can_read "/tmp/none"] ∧
            ex_env.mutt_comp_can_read tr "/tmp/none" = false))) :=
  ⟨rfl, mx_get_magic_error_iff ex_build ex_env ex_opts MUTT_MBOX "/tmp/none" ex_world rfl⟩

/-- Witness of C10 on the empty file of the example environment, with the
default kind set to MH. -/
theorem mx_get_magic_empty_file_witness :
    (mx_get_magic_remote ex_build ex_env "/tmp/empty" = none ∧
      ex_env.stat ex_world.trace "/tmp/empty" = .ok ex_empty_stat ∧
      ex_empty_stat.is_dir = false ∧ ex_empty_stat.st_size = 0) ∧
    (mx_get_magic ex_build ex_env ex_opts MUTT_MH "/tmp/empty" ex_world =
      (if MUTT_MH = MUTT_MBOX ∨ MUTT_MH = MUTT_MMDF then MUTT_MH else MUTT_MBOX,
        { ex_world with trace := ex_world.trace ++ [Event.stat "/tmp/empty"] }) ∧
    (MUTT_MH = MUTT_MH ∨ MUTT_MH = MUTT_MAILDIR ∨ MUTT_MH = 0 →
      (mx_get_magic ex_build ex_env ex_opts MUTT_MH "/tmp/empty" ex_world).1 = MUTT_MBOX) ∧
    Event.fopen "/tmp/empty" ∉ (mx_get_magic ex_build ex_env ex_opts MUTT_MH "/tmp/empty"
      ex_world).2.trace.drop ex_world.trace.length ∧
    Event.comp_can_read "/tmp/empty" ∉ (mx_get_magic ex_build ex_env ex_opts MUTT_MH
      "/tmp/empty" ex_world).2.trace.drop ex_world.trace.length ∧
    (mx_get_magic ex_build ex_env ex_opts (mx_set_magic "mbox" MUTT_MH).2 "/tmp/empty"
      ex_world).1 = MUTT_MBOX ∧
    (mx_get_magic ex_build ex_env ex_opts (mx_set_magic "mmdf" MUTT_MH).2 "/tmp/empty"
      ex_world).1 = MUTT_MMDF ∧
    (mx_get_magic ex_build ex_env ex_opts (mx_set_magic "mh" MUTT_MH).2 "/tmp/empty"
      ex_world).1 = MUTT_MBOX ∧
    (mx_get_magic ex_build ex_env ex_opts (mx_set_magic "maildir" MUTT_MH).2 "/tmp/empty"
      ex_world).1 = MUTT_MBOX) :=
  ⟨⟨rfl, rfl, rfl, rfl⟩,
    mx_get_magic_empty_file ex_build ex_env ex_opts MUTT_MH "/tmp/empty" ex_world ex_empty_stat
      rfl rfl rfl rfl⟩

theorem mx_get_magic_of_remote (b : Build) (env : Env) (opts : Options) (dm : Int)
    (path : String) (w : World) (m : Int) (h : mx_get_magic_remote b env path = some m) :
    mx_get_magic b env opts dm path w = (m, w) := by
  unfold mx_get_magic
  rw [h]

/-- C11: for a path that begins with `{` or whose URL scheme is imap/imaps,
pop/pops, nntp/nntps or notmuch, `mx_get_magic` (in a build with that backend
compiled in) returns IMAP, POP, NNTP or NOTMUCH, the tests being made in that
order, and leaves the world as it is: no `stat`, no open.  The verdict is the
same in every environment that gives the path the same scheme, whatever the
file system, the options and the default kind. -/
theorem mx_get_magic_remote_kinds (b : Build) (env : Env) (opts : Options) (dm : Int)
    (path : String) (w : World) :
    (b.USE_IMAP = true →
      (path.toList.head? = some '\x7b' ∨ env.url_check_scheme path = url_scheme_t.U_IMAP ∨
        env.url_check_scheme path = url_scheme_t.U_IMAPS) →
      mx_get_magic b env opts dm path w = (MUTT_IMAP, w)) ∧
    (b.USE_POP = true →
      (env.url_check_scheme path = url_scheme_t.U_POP ∨
        env.url_check_scheme path = url_scheme_t.U_POPS) →
      ¬ (b.USE_IMAP = true ∧ path.toList.head? = some '\x7b') →
      mx_get_magic b env opts dm path w = (MUTT_POP, w)) ∧
    (b.USE_NNTP = true →
      (env.url_check_scheme path = url_scheme_t.U_NNTP ∨
        env.url_check_scheme path = url_scheme_t.U_NNTPS) →
      ¬ (b.USE_IMAP = true ∧ path.toList.head? = some '\x7b') →
      mx_get_magic b env opts dm path w = (MUTT_NNTP, w)) ∧
    (b.USE_NOTMUCH = true →
      env.url_check_scheme path = url_scheme_t.U_NOTMUCH →
      ¬ (b.USE_IMAP = true ∧ path.toList.head? = some '\x7b') →
      mx_get_magic b env opts dm path w = (MUTT_NOTMUCH, w)) ∧
    (∀ (env2 : Env) (opts2 : Options) (dm2 : Int) (w2 : World),
      env2.url_check_scheme path = env.url_check_scheme path →
      mx_get_magic_remote b env path ≠ none →
      (mx_get_magic b env2 opts2 dm2 path w2).1 = (mx_get_magic b env opts dm path w).1 ∧
      (mx_get_magic b env2 opts2 dm2 path w2).2 = w2) := by
  refine ⟨?_, ?_, ?_, ?_, ?_⟩
  · intro hb hc
    apply mx_get_magic_of_remote
    unfold mx_get_magic_remote mx_is_imap
    rcases hc with hc | hc | hc
    · have hc2 : path.data.head? = some '\x7b' := hc
      simp [hb, hc2]
    · simp [hb, hc]
    · simp [hb, hc]
  · intro hb hc hn
    apply mx_get_magic_of_remote
    unfold mx_get_magic_remote mx_is_imap mx_is_pop
    have hi : (b.USE_IMAP && (if (path.toList.head? == some '\x7b') = true then true
        else if (env.url_check_scheme path == url_scheme_t.U_IMAP ||
          env.url_check_scheme path == url_scheme_t.U_IMAPS) = true then true else false))
        = false := by
      by_cases hbi : b.USE_IMAP = true
      · have hbr : ¬ path.data.head? = some '\x7b' := fun hx => hn ⟨hbi, hx⟩
        rcases hc with hc | hc <;> simp [hbi, hbr, hc]
      · simp [hbi]
    dsimp only
    rw [hi]
    rcases hc with hc | hc <;> simp [hb, hc]
  · intro hb hc hn
    apply mx_get_magic_of_remote
    unfold mx_get_magic_remote mx_is_imap mx_is_pop mx_is_nntp
    have hi : (b.USE_IMAP && (if (path.toList.head? == some '\x7b') = true then true
        else if (env.url_check_scheme path == url_scheme_t.U_IMAP ||
          env.url_check_scheme path == url_scheme_t.U_IMAPS) = true then true else false))
        = false := by
      by_cases hbi : b.USE_IMAP = true
      · have hbr : ¬ path.data.head? = some '\x7b' := fun hx => hn ⟨hbi, hx⟩
        rcases hc with hc | hc <;> simp [hbi, hbr, hc]
      · simp [hbi]
    dsimp only
    rw [hi]
    rcases hc with hc | hc <;> simp [hb, hc]
  · intro hb hc hn
    apply mx_get_magic_of_remote
    unfold mx_get_magic_remote mx_is_imap mx_is_pop mx_is_nntp mx_is_notmuch
    have hi : (b.USE_IMAP && (if (path.toList.head? == some '\x7b') = true then true
        else if (env.url_check_scheme path == url_scheme_t.U_IMAP ||
          env.url_check_scheme path == url_scheme_t.U_IMAPS) = true then true else false))
        = false := by
      by_cases hbi : b.USE_IMAP = true
      · have hbr : ¬ path.data.head? = some '\x7b' := fun hx => hn ⟨hbi, hx⟩
        simp [hbi, hbr, hc]
      · simp [hbi]
    dsimp only
    rw [hi]
    simp [hb, hc]
  · intro env2 opts2 dm2 w2 hs hr
    have e : mx_get_magic_remote b env2 path = mx_get_magic_remote b env path := by
      unfold mx_get_magic_remote mx_is_imap mx_is_pop mx_is_nntp mx_is_notmuch
      dsimp only
      rw [hs]
    cases hm : mx_get_magic_remote b env path with
    | none => exact absurd hm hr
    | some m =>
      rw [mx_get_magic_of_remote b env opts dm path w m hm,
        mx_get_magic_of_remote b env2 opts2 dm2 path w2 m (e.trans hm)]
      exact ⟨rfl, rfl⟩

theorem fgets_chars_first_line : ∀ (n : Nat) (l : List Char),
    fgets_chars n l = (first_line l).take n
  | 0, l => by simp [fgets_chars]
  | n + 1, [] => by simp [fgets_chars, first_line]
  | n + 1, c :: cs => by
    unfold fgets_chars first_line
    by_cases hc : (c == '\n') = true
    · rw [if_pos hc, if_pos hc]; simp
    · rw [if_neg hc, if_neg hc, List.take_succ_cons, fgets_chars_first_line n cs]

theorem first_line_isEmpty (l : List Char) : (first_line l).isEmpty = l.isEmpty := by
  cases l with
  | nil => rfl
  | cons c cs =>
    unfold first_line
    by_cases hc : (c == '\n') = true
    · rw [if_pos hc]; rfl
    · rw [if_neg hc]; rfl

theorem mx_get_magic_content_line (b : Build) (c1 c2 : List Char)
    (h : first_nonblank_line c1 = first_nonblank_line c2) :
    mx_get_magic_content b c1 = mx_get_magic_content b c2 := by
  unfold first_nonblank_line at h
  unfold mx_get_magic_content fgets
  rw [← first_line_isEmpty (skip_blank_lines c1), ← first_line_isEmpty (skip_blank_lines c2),
    fgets_chars_first_line, fgets_chars_first_line, h]

theorem mx_get_magic_tail_fst (b : Build) (env : Env) (path : String) (m : Int) (w : World) :
    (mx_get_magic_tail b env path m w).1 =
      if (b.USE_COMPRESSED && m == 0) = true ∧ env.mutt_comp_can_read w.trace path = true
      then MUTT_COMPRESSED else m := by
  unfold mx_get_magic_tail
  by_cases h1 : (b.USE_COMPRESSED && m == 0) = true
  · rw [if_pos h1]
    by_cases h2 : env.mutt_comp_can_read w.trace path = true
    · rw [if_pos h2, if_pos ⟨h1, h2⟩]
    · rw [if_neg h2, if_neg (fun hx => h2 hx.2)]
  · rw [if_neg h1, if_neg (fun hx => h1 hx.1)]

theorem mx_get_magic_tail_same (b : Build) (env1 env2 : Env) (path : String) (m : Int)
    (w1 w2 : World) (h : SameDetectorInputs env1 env2 path) :
    (mx_get_magic_tail b env1 path m w1).1 = (mx_get_magic_tail b env2 path m w2).1 := by
  rw [mx_get_magic_tail_fst, mx_get_magic_tail_fst, h.comp w1.trace w2.trace]

theorem mx_get_magic_same (b : Build) (env1 env2 : Env) (opts1 opts2 : Options) (dm : Int)
    (path : String) (w1 w2 : World) (h : SameDetectorInputs env1 env2 path) :
    (mx_get_magic b env1 opts1 dm path w1).1 = (mx_get_magic b env2 opts2 dm path w2).1 := by
  have e : mx_get_magic_remote b env1 path = mx_get_magic_remote b env2 path := by
    unfold mx_get_magic_remote mx_is_imap mx_is_pop mx_is_nntp mx_is_notmuch
    dsimp only
    rw [h.scheme]
  cases hm : mx_get_magic_remote b env2 path with
  | some m =>
    rw [mx_get_magic_of_remote b env2 opts2 dm path w2 m hm,
      mx_get_magic_of_remote b env1 opts1 dm path w1 m (e.trans hm)]
  | none =>
    rw [mx_get_magic_local b env2 opts2 dm path w2 hm,
      mx_get_magic_local b env1 opts1 dm path w1 (e.trans hm)]
    have hs := h.stat w1.trace w2.trace
    cases h1 : env1.stat w1.trace path with
    | error e1 =>
      cases h2 : env2.stat w2.trace path with
      | error e2 => rfl
      | ok st2 => rw [h1, h2] at hs; cases hs
    | ok st1 =>
      cases h2 : env2.stat w2.trace path with
      | error e2 => rw [h1, h2] at hs; cases hs
      | ok st2 =>
        rw [h1, h2] at hs
        simp only [stat_view, Option.some.injEq, Prod.mk.injEq] at hs
        obtain ⟨hd, hz⟩ := hs
        dsimp only
        rw [hd, hz]
        by_cases hdir : st2.is_dir = true
        · rw [if_pos hdir, if_pos hdir,
            h.maildir (w1.trace ++ [Event.stat path]) (w2.trace ++ [Event.stat path]),
            h.mh (w1.trace ++ [Event.stat path] ++ [Event.is_maildir path])
              (w2.trace ++ [Event.stat path] ++ [Event.is_maildir path])]
          by_cases hmd : env2.mx_is_maildir (w2.trace ++ [Event.stat path]) path = true
          · rw [if_pos hmd, if_pos hmd]
          · rw [if_neg hmd, if_neg hmd]
            by_cases hmh : env2.mx_is_mh (w2.trace ++ [Event.stat path] ++
                [Event.is_maildir path]) path = true
            · rw [if_pos hmh, if_pos hmh]
            · rw [if_neg hmh, if_neg hmh]
              exact mx_get_magic_tail_same b env1 env2 path 0 _ _ h
        · rw [if_neg hdir, if_neg hdir]
          by_cases hsz : st2.st_size = 0
          · rw [if_pos hsz, if_pos hsz]
          · rw [if_neg hsz, if_neg hsz]
            have hl := h.line (w1.trace ++ [Event.stat path]) (w2.trace ++ [Event.stat path])
            cases hf1 : env1.fopen_r (w1.trace ++ [Event.stat path]) path with
            | none =>
              cases hf2 : env2.fopen_r (w2.trace ++ [Event.stat path]) path with
              | none => rfl
              | some x2 => rw [hf1, hf2] at hl; cases hl
            | some x1 =>
              cases hf2 : env2.fopen_r (w2.trace ++ [Event.stat path]) path with
              | none => rw [hf1, hf2] at hl; cases hl
              | some x2 =>
                rw [hf1, hf2] at hl
                simp only [Option.map_some', Option.some.injEq] at hl
                dsimp only
                rw [mx_get_magic_content_line b x1 x2 hl]
                exact mx_get_magic_tail_same b env1 env2 path _ _ _ h

/-- C12 as stated fails: in one and the same environment (same scheme, same
directory structure, same content, same size) the empty file `/tmp/empty` is
an MBOX when the configured default kind is mbox and an MMDF when it is mmdf:
the verdict also depends on `DefaultMagic`. -/
theorem classify_depends_on_default_kind :
    (mx_get_magic ex_build ex_env ex_opts MUTT_MBOX "/tmp/empty" ex_world).1 = MUTT_MBOX ∧
    (mx_get_magic ex_build ex_env ex_opts MUTT_MMDF "/tmp/empty" ex_world).1 = MUTT_MMDF ∧
    MUTT_MBOX ≠ MUTT_MMDF :=
  ⟨rfl, rfl, by decide⟩

/-- C12, amended: the kind `mx_get_magic` returns is a function of the build,
the path, the configured default kind and what `SameDetectorInputs` lists (the
scheme, the outcome of `stat`, the directory structure, whether the file opens
and its first non-blank line, the size, the answer of the compressed-mailbox
collaborator): two calls in environments that agree on these return the same
kind, whatever the options and the events that went before, and so does a
second call made right after the first. -/
theorem mx_get_magic_deterministic (b : Build) (env1 env2 : Env) (opts1 opts2 : Options)
    (dm : Int) (path : String) (w1 w2 : World) (h : SameDetectorInputs env1 env2 path) :
    (mx_get_magic b env1 opts1 dm path w1).1 = (mx_get_magic b env2 opts2 dm path w2).1 ∧
    (mx_get_magic b env2 opts2 dm path (mx_get_magic b env1 opts1 dm path w1).2).1 =
      (mx_get_magic b env1 opts1 dm path w1).1 :=
  ⟨mx_get_magic_same b env1 env2 opts1 opts2 dm path w1 w2 h,
    (mx_get_magic_same b env1 env2 opts1 opts2 dm path w1 _ h).symm⟩

theorem adds_refl (P : Event → Bool) (w : World) : World.adds P w w :=
  ⟨[], by simp, by simp⟩

theorem adds_log (P : Event → Bool) (w1 w2 : World) (e : Event) (h : World.adds P w1 w2)
    (he : P e = true) : World.adds P w1 (w2.log e) := by
  obtain ⟨evs, h1, h2⟩ := h
  refine ⟨evs ++ [e], by simp [World.log, h1], ?_⟩
  intro x hx
  rcases List.mem_append.1 hx with hx | hx
  · exact h2 x hx
  · simp only [List.mem_singleton] at hx
    rw [hx]; exact he

theorem adds_trans (P : Event → Bool) (w1 w2 w3 : World) (h : World.adds P w1 w2)
    (h' : World.adds P w2 w3) : World.adds P w1 w3 := by
  obtain ⟨e1, a1, a2⟩ := h
  obtain ⟨e2, b1, b2⟩ := h'
  refine ⟨e1 ++ e2, by rw [b1, a1, List.append_assoc], ?_⟩
  intro x hx
  rcases List.mem_append.1 hx with hx | hx
  · exact a2 x hx
  · exact b2 x hx

theorem adds_mono (P Q : Event → Bool) (w1 w2 : World) (hPQ : ∀ e, P e = true → Q e = true)
    (h : World.adds P w1 w2) : World.adds Q w1 w2 := by
  obtain ⟨evs, h1, h2⟩ := h
  exact ⟨evs, h1, fun e he => hPQ e (h2 e he)⟩

theorem adds_trace (P : Event → Bool) (w1 w2 w3 : World) (h : World.adds P w1 w2)
    (ht : w3.trace = w2.trace) : World.adds P w1 w3 := by
  obtain ⟨evs, h1, h2⟩ := h
  exact ⟨evs, by rw [ht, h1], h2⟩

theorem mx_get_magic_tail_no_backend (b : Build) (env : Env) (path : String) (m : Int)
    (w : World) : World.adds Event.not_backend_op w (mx_get_magic_tail b env path m w).2 := by
  unfold mx_get_magic_tail
  by_cases h1 : (b.USE_COMPRESSED && m == 0) = true
  · rw [if_pos h1]
    by_cases h2 : env.mutt_comp_can_read w.trace path = true
    · rw [if_pos h2]; exact adds_log _ _ _ _ (adds_refl _ w) rfl
    · rw [if_neg h2]; exact adds_log _ _ _ _ (adds_refl _ w) rfl
  · rw [if_neg h1]; exact adds_refl _ w

theorem mx_get_magic_no_backend (b : Build) (env : Env) (opts : Options) (dm : Int)
    (path : String) (w : World) : World.adds Event.not_backend_op w (mx_get_magic b env opts dm path w).2 := by
  cases hm : mx_get_magic_remote b env path with
  | some m =>
    unfold mx_get_magic
    rw [hm]
    exact adds_refl _ w
  | none =>
    rw [mx_get_magic_local b env opts dm path w hm]
    have s1 : World.adds Event.not_backend_op w (w.log (Event.stat path)) :=
      adds_log _ _ _ _ (adds_refl _ w) rfl
    cases h1 : env.stat w.trace path with
    | error e => exact s1
    | ok st =>
      dsimp only
      by_cases hd : st.is_dir = true
      · rw [if_pos hd]
        have s2 := adds_log _ _ _ (Event.is_maildir path) s1 rfl
        have s3 := adds_log _ _ _ (Event.is_mh path) s2 rfl
        by_cases hmd : env.mx_is_maildir (w.trace ++ [Event.stat path]) path = true
        · rw [if_pos hmd]; exact s2
        · rw [if_neg hmd]
          by_cases hmh : env.mx_is_mh (w.trace ++ [Event.stat path] ++
              [Event.is_maildir path]) path = true
          · rw [if_pos hmh]; exact s3
          · rw [if_neg hmh]
            exact adds_trans _ _ _ _ s3 (mx_get_magic_tail_no_backend _ _ _ _ _)
      · rw [if_neg hd]
        by_cases hz : st.st_size = 0
        · rw [if_pos hz]; exact s1
        · rw [if_neg hz]
          have s2 := adds_log _ _ _ (Event.fopen path) s1 rfl
          cases hf : env.fopen_r (w.trace ++ [Event.stat path]) path with
          | none => exact s2
          | some content =>
            dsimp only
            refine adds_trans _ _ _ _ ?_ (mx_get_magic_tail_no_backend _ _ _ _ _)
            by_cases ho : opts.OPTCHECKMBOXSIZE = false
            · rw [if_pos ho]; exact adds_log _ _ _ _ s2 rfl
            · rw [if_neg ho]; exact s2

/-- C13: `mx_open_mailbox_append`.  When detection says not-a-mailbox (0), when
detection reports an error and the path exists, and when detection reports an
error and `stat` fails for a reason other than `ENOENT`, the call returns -1
and no backend operation was called.  When detection reports an error and
`stat` fails with `ENOENT`, the kind of the session becomes the compressed
kind if the collaborator can append and `DefaultMagic` otherwise, and the
`open_append` of that kind's backend is called with `MUTT_APPENDNEW` added to
the flags; its result is the result of the call (a kind without a backend or
without `open_append` gives -1). -/
theorem mx_open_mailbox_append_detection (b : Build) (env : Env) (g : Globals) (ctx : Context)
    (flags : OpenFlags) (w : World) :
    ((append_detect b env g ctx w).1 = 0 →
      (mx_open_mailbox_append b env g ctx flags w).1 = -1 ∧
      World.adds Event.not_backend_op w (mx_open_mailbox_append b env g ctx flags w).2.2) ∧
    ((append_detect b env g ctx w).1 < 0 →
      ∀ st, env.stat (append_detect b env g ctx w).2.trace (ctx.path.getD "") = .ok st →
      (mx_open_mailbox_append b env g ctx flags w).1 = -1 ∧
      World.adds Event.not_backend_op w (mx_open_mailbox_append b env g ctx flags w).2.2) ∧
    ((append_detect b env g ctx w).1 < 0 →
      ∀ e, env.stat (append_detect b env g ctx w).2.trace (ctx.path.getD "") = .error e →
      e ≠ env.errnos.ENOENT →
      (mx_open_mailbox_append b env g ctx flags w).1 = -1 ∧
      World.adds Event.not_backend_op w (mx_open_mailbox_append b env g ctx flags w).2.2) ∧
    ((append_detect b env g ctx w).1 < 0 →
      env.stat (append_detect b env g ctx w).2.trace (ctx.path.getD "") =
        .error env.errnos.ENOENT →
      ∀ (K : Int) (w3 : World),
      K = append_new_kind b env g
          ({ ctx with append := true, magic := (append_detect b env g ctx w).1 })
          ((append_detect b env g ctx w).2.trace ++ [Event.stat (ctx.path.getD "")]) →
      w3 = (if b.USE_COMPRESSED = true then
          ((append_detect b env g ctx w).2.log (Event.stat (ctx.path.getD ""))).log
            (Event.comp_can_append (ctx.path.getD ""))
        else (append_detect b env g ctx w).2.log (Event.stat (ctx.path.getD ""))) →
      (∀ t f, mx_get_ops b K = some t → (env.ops t).open_append = some f →
        mx_open_mailbox_append b env g ctx flags w =
          ((f w3.trace { ctx with append := true, magic := K, mx_ops := some t }
              { flags with MUTT_APPENDNEW := true }).1,
           (f w3.trace { ctx with append := true, magic := K, mx_ops := some t }
              { flags with MUTT_APPENDNEW := true }).2,
           w3.log (Event.ops_open_append t))) ∧
      ((mx_get_ops b K = none ∨ ∃ t, mx_get_ops b K = some t ∧
          (env.ops t).open_append = none) →
        mx_open_mailbox_append b env g ctx flags w =
          (-1, { ctx with append := true, magic := K, mx_ops := mx_get_ops b K }, w3))) := by
  have hq := mx_get_magic_no_backend b env g.opts g.DefaultMagic (ctx.path.getD "") w
  refine ⟨?_, ?_, ?_, ?_⟩
  · intro h0
    unfold append_detect at h0
    unfold mx_open_mailbox_append
    dsimp only
    have : ((mx_get_magic b env g.opts g.DefaultMagic (ctx.path.getD "") w).1 == 0) = true := by
      simpa using h0
    rw [if_pos this]
    exact ⟨rfl, adds_log _ _ _ _ hq rfl⟩
  · intro hneg st hst
    unfold append_detect at hneg hst
    unfold mx_open_mailbox_append
    dsimp only
    have h0 : ¬ ((mx_get_magic b env g.opts g.DefaultMagic (ctx.path.getD "") w).1 == 0) = true := by
      simp; omega
    have h1 : decide ((mx_get_magic b env g.opts g.DefaultMagic (ctx.path.getD "") w).1 < 0)
        = true := by simpa using hneg
    rw [if_neg h0, if_pos h1, hst]
    exact ⟨rfl, adds_log _ _ _ _ hq rfl⟩
  · intro hneg e hst hne
    unfold append_detect at hneg hst
    unfold mx_open_mailbox_append
    dsimp only
    have h0 : ¬ ((mx_get_magic b env g.opts g.DefaultMagic (ctx.path.getD "") w).1 == 0) = true := by
      simp; omega
    have h1 : decide ((mx_get_magic b env g.opts g.DefaultMagic (ctx.path.getD "") w).1 < 0)
        = true := by simpa using hneg
    have h2 : ¬ (e == env.errnos.ENOENT) = true := by simpa using hne
    rw [if_neg h0, if_pos h1, hst]
    dsimp only
    rw [if_neg h2]
    exact ⟨rfl, adds_log _ _ _ _ (adds_log _ _ _ _ hq rfl) rfl⟩
  · intro hneg hst K w3 hK hw3
    unfold append_detect at hneg hst hK hw3
    unfold append_new_kind at hK
    have h0 : ¬ ((mx_get_magic b env g.opts g.DefaultMagic (ctx.path.getD "") w).1 == 0) = true := by
      simp; omega
    have h1 : decide ((mx_get_magic b env g.opts g.DefaultMagic (ctx.path.getD "") w).1 < 0)
        = true := by simpa using hneg
    have h2 : (env.errnos.ENOENT == env.errnos.ENOENT) = true := by simp
    constructor
    · intro t f ht hf
      unfold mx_open_mailbox_append
      dsimp only
      rw [if_neg h0, if_pos h1, hst]
      dsimp only
      rw [if_pos h2]
      dsimp only [World.log] at hK hw3 ⊢
      by_cases hc : (b.USE_COMPRESSED && env.mutt_comp_can_append
          ((mx_get_magic b env g.opts g.DefaultMagic (ctx.path.getD "") w).2.trace ++
            [Event.stat (ctx.path.getD "")])
          { ctx with append := true,
                     magic := (mx_get_magic b env g.opts g.DefaultMagic (ctx.path.getD "") w).1 })
          = true
      · rw [if_pos hc] at hK ⊢
        subst hK
        dsimp only
        rw [ht]
        dsimp only
        rw [hf, hw3]
      · rw [if_neg hc] at hK ⊢
        subst hK
        dsimp only
        rw [ht]
        dsimp only
        rw [hf, hw3]
    · intro hnone
      unfold mx_open_mailbox_append
      dsimp only
      rw [if_neg h0, if_pos h1, hst]
      dsimp only
      rw [if_pos h2]
      dsimp only [World.log] at hK hw3 ⊢
      by_cases hc : (b.USE_COMPRESSED && env.mutt_comp_can_append
          ((mx_get_magic b env g.opts g.DefaultMagic (ctx.path.getD "") w).2.trace ++
            [Event.stat (ctx.path.getD "")])
          { ctx with append := true,
                     magic := (mx_get_magic b env g.opts g.DefaultMagic (ctx.path.getD "") w).1 })
          = true
      · rw [if_pos hc] at hK ⊢
        subst hK
        dsimp only
        rcases hnone with hn | ⟨t, ht, hf⟩
        · rw [hn, hw3]
        · rw [ht]
          dsimp only
          rw [hf, hw3]
      · rw [if_neg hc] at hK ⊢
        subst hK
        dsimp only
        rcases hnone with hn | ⟨t, ht, hf⟩
        · rw [hn, hw3]
        · rw [ht]
          dsimp only
          rw [hf, hw3]

/-- Witness of C11 on an `imaps:` URL. -/
theorem mx_get_magic_remote_kinds_witness :
    (ex_build.USE_IMAP = true ∧
      ex_env_urls.url_check_scheme "imaps://host/INBOX" = url_scheme_t.U_IMAPS) ∧
    mx_get_magic ex_build ex_env_urls ex_opts MUTT_MBOX "imaps://host/INBOX" ex_world =
      (MUTT_IMAP, ex_world) :=
  ⟨⟨rfl, rfl⟩,
    (mx_get_magic_remote_kinds ex_build ex_env_urls ex_opts MUTT_MBOX "imaps://host/INBOX"
      ex_world).1 rfl (Or.inr (Or.inr rfl))⟩

/-- Witness of the amended C12: two environments whose `/tmp/mbox` differ in
the leading blank lines and in what follows the first line. -/
theorem mx_get_magic_deterministic_witness :
    SameDetectorInputs ex_env ex_env_blank_lines "/tmp/mbox" ∧
    ((mx_get_magic ex_build ex_env ex_opts MUTT_MMDF "/tmp/mbox" ex_world).1 =
        (mx_get_magic ex_build ex_env_blank_lines ex_opts MUTT_MMDF "/tmp/mbox" ex_world).1 ∧
      (mx_get_magic ex_build ex_env_blank_lines ex_opts MUTT_MMDF "/tmp/mbox"
          (mx_get_magic ex_build ex_env ex_opts MUTT_MMDF "/tmp/mbox" ex_world).2).1 =
        (mx_get_magic ex_build ex_env ex_opts MUTT_MMDF "/tmp/mbox" ex_world).1) :=
  ⟨⟨rfl, fun _ _ => rfl, fun _ _ => rfl, fun _ _ => rfl, fun _ _ => rfl, fun _ _ => rfl⟩,
    mx_get_magic_deterministic ex_build ex_env ex_env_blank_lines ex_opts ex_opts MUTT_MMDF
      "/tmp/mbox" ex_world ex_world
      ⟨rfl, fun _ _ => rfl, fun _ _ => rfl, fun _ _ => rfl, fun _ _ => rfl, fun _ _ => rfl⟩⟩

/-- Witness of C13: open for append of a path that does not exist, default
kind mbox. -/
theorem mx_open_mailbox_append_detection_witness :
    ((append_detect ex_build ex_env ex_globals ex_new_ctx ex_world).1 < 0 ∧
      ex_env.stat (append_detect ex_build ex_env ex_globals ex_new_ctx ex_world).2.trace
        "/tmp/none" = .error ex_env.errnos.ENOENT ∧
      mx_get_ops ex_build MUTT_MBOX = some MUTT_MBOX) ∧
    mx_open_mailbox_append ex_build ex_env ex_globals ex_new_ctx append_flags ex_world =
      (0, { ex_new_ctx with append := true, magic := MUTT_MBOX, mx_ops := some MUTT_MBOX },
        ex_new_world.log (Event.ops_open_append MUTT_MBOX)) :=
  ⟨⟨by decide, rfl, rfl⟩,
    ((mx_open_mailbox_append_detection ex_build ex_env ex_globals ex_new_ctx append_flags
      ex_world).2.2.2 (by decide) rfl MUTT_MBOX ex_new_world rfl rfl).1 MUTT_MBOX
        (fun _ c _ => (0, c)) rfl rfl⟩

theorem mx_fastclose_mailbox_adds (env : Env) (ctx : Context) (w : World) (c : Context)
    (w1 : World) (h : mx_fastclose_mailbox env ctx w = some (c, w1)) :
    c = Context.zero ∧ World.adds Event.is_teardown w w1 := by
  unfold mx_fastclose_mailbox at h
  dsimp only at h
  have s1 : World.adds Event.is_teardown w
      (match ctx.path with
        | some p =>
          if (ctx.peekonly && decide (ctx.mtime > ctx.atime)) = true then
            w.log (Event.utime p ctx.atime ctx.mtime)
          else w
        | none => w) := by
    cases ctx.path with
    | none => exact adds_refl _ w
    | some p =>
      dsimp only
      split
      · exact adds_log _ _ _ _ (adds_refl _ w) rfl
      · exact adds_refl _ w
  have s2 : World.adds Event.is_teardown w
      (if (!ctx.peekonly) = true then
        (match ctx.path with
          | some p =>
            if (ctx.peekonly && decide (ctx.mtime > ctx.atime)) = true then
              w.log (Event.utime p ctx.atime ctx.mtime)
            else w
          | none => w).log (Event.buffy_setnotified ctx.path)
       else
        (match ctx.path with
          | some p =>
            if (ctx.peekonly && decide (ctx.mtime > ctx.atime)) = true then
              w.log (Event.utime p ctx.atime ctx.mtime)
            else w
          | none => w)) := by
    split
    · exact adds_log _ _ _ _ s1 rfl
    · exact s1
  cases ho : ctx.mx_ops with
  | none =>
    rw [ho] at h
    simp only [Option.some.injEq, Prod.mk.injEq] at h
    obtain ⟨h1, h2⟩ := h
    subst h1; subst h2
    exact ⟨rfl, s2⟩
  | some t =>
    rw [ho] at h
    dsimp only at h
    cases hc : (env.ops t).close with
    | none => rw [hc] at h; cases h
    | some f =>
      rw [hc] at h
      simp only [Option.some.injEq, Prod.mk.injEq] at h
      obtain ⟨h1, h2⟩ := h
      subst h1; subst h2
      exact ⟨rfl, adds_log _ _ _ _ s2 rfl⟩

theorem mx_fastclose_mailbox_some (env : Env) (ctx : Context) (w : World)
    (hclose : ∀ t, ctx.mx_ops = some t → ((env.ops t).close).isSome = true) :
    ∃ w1, mx_fastclose_mailbox env ctx w = some (Context.zero, w1) := by
  unfold mx_fastclose_mailbox
  dsimp only
  cases ho : ctx.mx_ops with
  | none => exact ⟨_, rfl⟩
  | some t =>
    dsimp only
    have := hclose t ho
    cases hc : (env.ops t).close with
    | none => rw [hc] at this; cases this
    | some f => exact ⟨_, rfl⟩

/-- C14: for a session that is readonly, marked dont-write or in append mode,
whose backend (if any) has a `close` operation, `mx_close_mailbox` returns 0
from its first return statement with the session torn down (zeroed) and the
globals unchanged, and the only things it did to the outside are those of the
fast teardown: no question, no `mutt_set_flag`, no copy, no backend `sync`. -/
theorem mx_close_mailbox_not_writable (b : Build) (env : Env) (fuel : Nat) (g : Globals)
    (ctx : Context) (w : World)
    (h : ctx.readonly = true ∨ ctx.dontwrite = true ∨ ctx.append = true)
    (hclose : ∀ t, ctx.mx_ops = some t → ((env.ops t).close).isSome = true) :
    ∃ w1, mx_close_mailbox b env (fuel + 1) g ctx w =
        some { rc := 0, exit := CloseExit.fast, ctx := Context.zero, g := g, w := w1 } ∧
      mx_fastclose_mailbox env { ctx with closing := true } w = some (Context.zero, w1) ∧
      World.adds Event.is_teardown w w1 := by
  obtain ⟨w1, hw1⟩ := mx_fastclose_mailbox_some env { ctx with closing := true } w hclose
  refine ⟨w1, ?_, hw1, (mx_fastclose_mailbox_adds env _ w _ w1 hw1).2⟩
  unfold mx_close_mailbox
  dsimp only
  have hf : (ctx.readonly || ctx.dontwrite || ctx.append) = true := by
    rcases h with h | h | h <;> simp [h]
  rw [if_pos hf, hw1]

/-- Witness of C14 on a read-only session with a deleted record. -/
theorem mx_close_mailbox_not_writable_witness :
    ((ex_readonly_ctx.readonly = true ∨ ex_readonly_ctx.dontwrite = true ∨
        ex_readonly_ctx.append = true) ∧
      (∀ t, ex_readonly_ctx.mx_ops = some t → ((ex_env.ops t).close).isSome = true)) ∧
    ∃ w1, mx_close_mailbox ex_build ex_env 1 ex_globals ex_readonly_ctx ex_world =
        some { rc := 0, exit := CloseExit.fast, ctx := Context.zero, g := ex_globals, w := w1 } ∧
      mx_fastclose_mailbox ex_env { ex_readonly_ctx with closing := true } ex_world =
        some (Context.zero, w1) ∧
      World.adds Event.is_teardown ex_world w1 :=
  ⟨⟨Or.inl rfl, fun _ _ => rfl⟩,
    mx_close_mailbox_not_writable ex_build ex_env 0 ex_globals ex_readonly_ctx ex_world
      (Or.inl rfl) (fun _ _ => rfl)⟩

theorem mx_close_mailbox_eq (b : Build) (env : Env) (fuel : Nat) (g : Globals) (ctx : Context)
    (w : World) :
    mx_close_mailbox b env (fuel + 1) g ctx w =
      match close_until_sync b env fuel g ctx w with
      | none => none
      | some (.error r) => some r
      | some (.ok p) => close_from_sync b env p := by
  unfold mx_close_mailbox close_until_sync
  dsimp only
  by_cases hf : (ctx.readonly || ctx.dontwrite || ctx.append) = true
  · rw [if_pos hf, if_pos hf]
    cases mx_fastclose_mailbox env { ctx with closing := true } w with
    | none => rfl
    | some x => rfl
  · rw [if_neg hf, if_neg hf]
    cases close_catchup b env g { ctx with closing := true } w with
    | none => rfl
    | some x =>
      obtain ⟨ab, c1, g1, w1⟩ := x
      cases ab with
      | true => rfl
      | false =>
        dsimp only
        cases c1.live with
        | none => rfl
        | some recs =>
          dsimp only
          by_cases hm : ((close_move_prompt env g1 c1
              (recs.filter (is_read_msg g1.opts)).length w1).1 == MUTT_ABORT) = true
          · rw [if_pos hm, if_pos hm]
          · rw [if_neg hm, if_neg hm]
            by_cases hp : ((close_purge_prompt env g1 c1 (close_move_prompt env g1 c1
                (recs.filter (is_read_msg g1.opts)).length w1).2.2).1 == MUTT_ABORT) = true
            · rw [if_pos hp, if_pos hp]
            · rw [if_neg hp, if_neg hp]
              unfold close_after_prompts
              cases close_mark_old env g1 c1 (close_purge_prompt env g1 c1
                  (close_move_prompt env g1 c1
                    (recs.filter (is_read_msg g1.opts)).length w1).2.2).2 with
              | none => rfl
              | some y =>
                obtain ⟨c2, w2⟩ := y
                dsimp only
                cases close_move b env (mx_close_mailbox b env fuel) g1 c2 w2
                    (close_move_prompt env g1 c1
                      (recs.filter (is_read_msg g1.opts)).length w1).1
                    (close_move_prompt env g1 c1
                      (recs.filter (is_read_msg g1.opts)).length w1).2.1 with
                | none => rfl
                | some z =>
                  cases z with
                  | error r => rfl
                  | ok u =>
                    obtain ⟨c3, g3, w3⟩ := u
                    dsimp only
                    cases close_trash b env (mx_close_mailbox b env fuel) g3 c3 w3
                        (close_purge_prompt env g1 c1 (close_move_prompt env g1 c1
                          (recs.filter (is_read_msg g1.opts)).length w1).2.2).1 with
                    | none => rfl
                    | some t =>
                      obtain ⟨tr, g4, w4⟩ := t
                      dsimp only
                      by_cases ht : (tr != 0) = true
                      · rw [if_pos ht, if_pos ht]
                      · rw [if_neg ht, if_neg ht]
                        rfl

/-! ### The state at the sync block -/

theorem close_until_sync_ok (b : Build) (env : Env) (fuel : Nat) (g : Globals) (ctx : Context)
    (w : World) (p : SyncPoint) (h : close_until_sync b env fuel g ctx w = some (.ok p)) :
    ∃ c1 g1 w1 recs c2 w2 g3 w3,
      (ctx.readonly || ctx.dontwrite || ctx.append) = false ∧
      close_catchup b env g { ctx with closing := true } w = some (false, c1, g1, w1) ∧
      c1.live = some recs ∧
      p.read_msgs = (recs.filter (is_read_msg g1.opts)).length ∧
      p.move_messages = (close_move_prompt env g1 c1 p.read_msgs w1).1 ∧
      p.purge = (close_purge_prompt env g1 c1
        (close_move_prompt env g1 c1 p.read_msgs w1).2.2).1 ∧
      close_mark_old env g1 c1 (close_purge_prompt env g1 c1
        (close_move_prompt env g1 c1 p.read_msgs w1).2.2).2 = some (c2, w2) ∧
      close_move b env (mx_close_mailbox b env fuel) g1 c2 w2 p.move_messages
        (close_move_prompt env g1 c1 p.read_msgs w1).2.1 = some (.ok (p.ctx, g3, w3)) ∧
      close_trash b env (mx_close_mailbox b env fuel) g3 p.ctx w3 p.purge =
        some (0, p.g, p.w) := by
  unfold close_until_sync at h
  by_cases hf : (ctx.readonly || ctx.dontwrite || ctx.append) = true
  · rw [if_pos hf] at h
    cases hx : mx_fastclose_mailbox env { ctx with closing := true } w with
    | none => rw [hx] at h; cases h
    | some x => rw [hx] at h; simp at h
  · rw [if_neg hf] at h
    cases hc : close_catchup b env g { ctx with closing := true } w with
    | none => rw [hc] at h; cases h
    | some x =>
      obtain ⟨ab, c1, g1, w1⟩ := x
      rw [hc] at h
      cases ab with
      | true => simp at h
      | false =>
        dsimp only at h
        cases hl : c1.live with
        | none => rw [hl] at h; cases h
        | some recs =>
          rw [hl] at h
          dsimp only at h
          by_cases hm : ((close_move_prompt env g1 c1
              (recs.filter (is_read_msg g1.opts)).length w1).1 == MUTT_ABORT) = true
          · rw [if_pos hm] at h; simp at h
          · rw [if_neg hm] at h
            by_cases hpp : ((close_purge_prompt env g1 c1 (close_move_prompt env g1 c1
                (recs.filter (is_read_msg g1.opts)).length w1).2.2).1 == MUTT_ABORT) = true
            · rw [if_pos hpp] at h; simp at h
            · rw [if_neg hpp] at h
              cases hmo : close_mark_old env g1 c1 (close_purge_prompt env g1 c1
                  (close_move_prompt env g1 c1
                    (recs.filter (is_read_msg g1.opts)).length w1).2.2).2 with
              | none => rw [hmo] at h; cases h
              | some y =>
                obtain ⟨c2, w2⟩ := y
                rw [hmo] at h
                dsimp only at h
                cases hmv : close_move b env (mx_close_mailbox b env fuel) g1 c2 w2
                    (close_move_prompt env g1 c1
                      (recs.filter (is_read_msg g1.opts)).length w1).1
                    (close_move_prompt env g1 c1
                      (recs.filter (is_read_msg g1.opts)).length w1).2.1 with
                | none => rw [hmv] at h; cases h
                | some z =>
                  rw [hmv] at h
                  cases z with
                  | error r => simp at h
                  | ok u =>
                    obtain ⟨c3, g3, w3⟩ := u
                    dsimp only at h
                    cases htr : close_trash b env (mx_close_mailbox b env fuel) g3 c3 w3
                        (close_purge_prompt env g1 c1 (close_move_prompt env g1 c1
                          (recs.filter (is_read_msg g1.opts)).length w1).2.2).1 with
                    | none => rw [htr] at h; cases h
                    | some t =>
                      obtain ⟨tr, g4, w4⟩ := t
                      rw [htr] at h
                      dsimp only at h
                      by_cases ht : (tr != 0) = true
                      · rw [if_pos ht] at h; simp at h
                      · rw [if_neg ht] at h
                        simp only [Option.some.injEq, Except.ok.injEq] at h
                        subst h
                        have ht0 : tr = 0 := by simpa using ht
                        subst ht0
                        have hf' : (ctx.readonly || ctx.dontwrite || ctx.append) = false := by
                          simpa using hf
                        exact ⟨c1, g1, w1, recs, c2, w2, g3, w3, hf', rfl, hl, rfl, rfl, rfl,
                          hmo, hmv, htr⟩

theorem close_trash_skipped (b : Build) (env : Env)
    (close_nested : Globals → Context → World → Option CloseResult)
    (g : Globals) (c : Context) (w : World) :
    close_trash b env close_nested g c w 0 = some (0, g, w) := by
  unfold close_trash
  simp

theorem close_finish_closed (b : Build) (env : Env) (g4 : Globals) (c5 : Context) (w5 : World)
    (mm purge : Int) (n : Nat) (r : CloseResult)
    (h : close_finish b env g4 c5 w5 mm purge n = some r) :
    r.exit = CloseExit.closed ∧ r.rc = 0 ∧ r.ctx = Context.zero ∧ r.g = g4 := by
  unfold close_finish at h
  cases h1 : close_unlink b env g4 c5 (close_summary c5 w5 mm n) with
  | none => rw [h1] at h; cases h
  | some w7 =>
    rw [h1] at h
    dsimp only at h
    cases h2 : close_sidebar b c5 w7 purge with
    | none => rw [h2] at h; cases h
    | some x =>
      obtain ⟨c6, w8⟩ := x
      rw [h2] at h
      dsimp only at h
      cases h3 : mx_fastclose_mailbox env c6 w8 with
      | none => rw [h3] at h; cases h
      | some y =>
        obtain ⟨c, w9⟩ := y
        rw [h3] at h
        simp only [Option.some.injEq] at h
        subst h
        exact ⟨rfl, rfl, (mx_fastclose_mailbox_adds env c6 w8 c w9 h3).1, rfl⟩

/-! ### Records of a session -/

theorem all_slots_some : ∀ (l : List (Option Header)) (rs : List Header),
    all_slots l = some rs ↔ l = rs.map some
  | [], rs => by
    cases rs with
    | nil => simp [all_slots]
    | cons a t => simp [all_slots]
  | none :: t, rs => by
    cases rs with
    | nil => simp [all_slots]
    | cons a t' => simp [all_slots]
  | some h :: t, rs => by
    unfold all_slots
    cases hs : all_slots t with
    | none =>
      cases rs with
      | nil => simp
      | cons a t' =>
        constructor
        · intro hx; cases hx
        · intro hx
          simp only [List.map_cons, List.cons.injEq, Option.some.injEq] at hx
          rw [(all_slots_some t t').2 hx.2] at hs
          cases hs
    | some l =>
      have := (all_slots_some t l).1 hs
      cases rs with
      | nil => simp
      | cons a t' =>
        simp only [Option.some.injEq, List.cons.injEq, List.map_cons]
        constructor
        · rintro ⟨h1, h2⟩
          subst h1; subst h2
          exact ⟨rfl, this⟩
        · rintro ⟨h1, h2⟩
          subst h1
          rw [this] at h2
          exact ⟨rfl, (List.map_injective_iff.2 (Option.some_injective _) h2)⟩

theorem live_some (ctx : Context) (rs : List Header) (h : ctx.live = some rs) :
    ctx.msgcount ≤ ctx.hdrs.length ∧ ctx.hdrs.take ctx.msgcount = rs.map some ∧
      rs.length = ctx.msgcount := by
  unfold Context.live at h
  by_cases hl : ctx.msgcount ≤ ctx.hdrs.length
  · rw [if_pos hl] at h
    have := (all_slots_some _ _).1 h
    refine ⟨hl, this, ?_⟩
    have e := congrArg List.length this
    simp only [List.length_take, List.length_map] at e
    omega
  · rw [if_neg hl] at h; cases h

theorem live_of_slots (c : Context) (rs : List Header) (rest : List (Option Header))
    (hh : c.hdrs = rs.map some ++ rest) (hm : c.msgcount = rs.length) :
    c.live = some rs := by
  unfold Context.live
  have hl : c.msgcount ≤ c.hdrs.length := by
    rw [hh, hm]; simp
  rw [if_pos hl]
  apply (all_slots_some _ _).2
  rw [hh, hm]
  have : (List.map some rs).length = rs.length := by simp
  rw [← this, List.take_left]

theorem close_clear_deleted_no (c3 : Context) (rs : List Header) (h : c3.live = some rs) :
    ∃ c4, close_clear_deleted c3 0 = some c4 ∧
      c4 = { (c3.store (rs.map (fun h => { h with deleted := false, purge := false }))) with
             deleted := 0 } ∧
      c4.live = some (rs.map (fun h => { h with deleted := false, purge := false })) ∧
      c4.deleted = 0 ∧ c4.changed = c3.changed ∧ c4.magic = c3.magic ∧
      c4.msgcount = c3.msgcount ∧ c4.path = c3.path ∧ c4.mx_ops = c3.mx_ops ∧
      c4.quiet = c3.quiet := by
  refine ⟨_, ?_, rfl, ?_, rfl, rfl, rfl, rfl, rfl, rfl, rfl⟩
  · unfold close_clear_deleted
    rw [h]
    simp
  · obtain ⟨_, _, h3⟩ := live_some c3 rs h
    apply live_of_slots _ _ (c3.hdrs.drop (rs.map (fun h : Header =>
      { h with deleted := false, purge := false })).length)
    · rfl
    · show c3.msgcount = _
      simp [h3]

/-! ### Purge declined at close -/

theorem purge_declined_at_sync (b : Build) (env : Env) (fuel : Nat) (g : Globals)
    (ctx : Context) (w : World) (p : SyncPoint) (recs : List Header)
    (hp : close_until_sync b env fuel g ctx w = some (.ok p))
    (hno : p.purge = MUTT_NO)
    (himap : (b.USE_IMAP && p.ctx.magic == MUTT_IMAP) = false)
    (hlive : p.ctx.live = some recs) :
    (∃ tr, env.query_quadoption tr QuadOpt.OPT_DELETE = MUTT_NO) ∧
    (∃ g1 c2 w2 mbox, close_move b env (mx_close_mailbox b env fuel) g1 c2 w2 p.move_messages
        mbox = some (.ok (p.ctx, p.g, p.w))) ∧
    (∃ c4, close_clear_deleted p.ctx p.purge = some c4 ∧
      c4.live = some (recs.map (fun h => { h with deleted := false, purge := false })) ∧
      (∀ r ∈ c4.records, r.deleted = false ∧ r.purge = false) ∧
      c4.deleted = 0 ∧
      mx_close_mailbox b env (fuel + 1) g ctx w =
        if c4.changed = true then
          if (sync_mailbox env c4 p.w).1 = 0 then
            close_finish b env p.g (sync_mailbox env c4 p.w).2.1 (sync_mailbox env c4 p.w).2.2
              p.move_messages p.purge p.read_msgs
          else
            some { rc := (sync_mailbox env c4 p.w).1, exit := CloseExit.sync_failed,
                   ctx := { (sync_mailbox env c4 p.w).2.1 with closing := false }, g := p.g,
                   w := (sync_mailbox env c4 p.w).2.2 }
        else close_finish b env p.g c4 p.w p.move_messages p.purge p.read_msgs) ∧
    (∀ r, mx_close_mailbox b env (fuel + 1) g ctx w = some r →
      (r.exit = CloseExit.sync_failed ∧ r.rc ≠ 0) ∨ (r.exit = CloseExit.closed ∧ r.rc = 0)) := by
  have hp0 : p.purge = 0 := hno
  obtain ⟨c1, g1, w1, recs1, c2, w2, g3, w3, _, _, _, _, _, hpg, _, hmv, htr⟩ :=
    close_until_sync_ok b env fuel g ctx w p hp
  obtain ⟨c4, hcl, hc4, hlive4, hdel4, hch4, _⟩ := close_clear_deleted_no p.ctx recs hlive
  have heq : mx_close_mailbox b env (fuel + 1) g ctx w =
        if c4.changed = true then
          if (sync_mailbox env c4 p.w).1 = 0 then
            close_finish b env p.g (sync_mailbox env c4 p.w).2.1 (sync_mailbox env c4 p.w).2.2
              p.move_messages p.purge p.read_msgs
          else
            some { rc := (sync_mailbox env c4 p.w).1, exit := CloseExit.sync_failed,
                   ctx := { (sync_mailbox env c4 p.w).2.1 with closing := false }, g := p.g,
                   w := (sync_mailbox env c4 p.w).2.2 }
        else close_finish b env p.g c4 p.w p.move_messages p.purge p.read_msgs := by
    rw [mx_close_mailbox_eq, hp]
    dsimp only
    unfold close_from_sync close_sync
    have hi : ¬ (b.USE_IMAP && p.ctx.magic == MUTT_IMAP) = true := by
      rw [himap]; simp
    rw [if_neg hi, hp0, hcl]
    dsimp only
    by_cases hc : c4.changed = true
    · have h1 : (c4.changed || c4.deleted != 0) = true := by simp [hc]
      rw [if_pos h1, if_pos hc]
      by_cases hs : (sync_mailbox env c4 p.w).1 = 0
      · have h2 : ¬ ((sync_mailbox env c4 p.w).1 != 0) = true := by simp [hs]
        rw [if_neg h2, if_pos hs]
      · have h2 : ((sync_mailbox env c4 p.w).1 != 0) = true := by simpa using hs
        rw [if_pos h2, if_neg hs]
    · have h1 : ¬ (c4.changed || c4.deleted != 0) = true := by simp [hc, hdel4]
      rw [if_neg h1, if_neg hc]
  refine ⟨?_, ?_, ⟨c4, by rw [hp0]; exact hcl, hlive4, ?_, hdel4, heq⟩, ?_⟩
  · rw [hp0] at hpg
    unfold close_purge_prompt at hpg
    split at hpg
    · exact ⟨_, hpg.symm⟩
    · cases hpg
  · rw [hp0, close_trash_skipped] at htr
    simp only [Option.some.injEq, Prod.mk.injEq, true_and] at htr
    obtain ⟨e1, e2⟩ := htr
    subst e1; subst e2
    exact ⟨g1, c2, w2, _, hmv⟩
  · intro r hr
    obtain ⟨_, h2, _⟩ := live_some c4 _ hlive4
    unfold Context.records at hr
    rw [h2] at hr
    simp only [List.map_map, List.filterMap_map, List.mem_filterMap, Function.comp_apply,
      id_eq, Option.some.injEq] at hr
    obtain ⟨a, _, ha⟩ := hr
    subst ha
    exact ⟨rfl, rfl⟩
  · intro r hr
    rw [heq] at hr
    by_cases hc : c4.changed = true
    · rw [if_pos hc] at hr
      by_cases hs : (sync_mailbox env c4 p.w).1 = 0
      · rw [if_pos hs] at hr
        obtain ⟨h1, h2, _⟩ := close_finish_closed _ _ _ _ _ _ _ _ _ hr
        exact Or.inr ⟨h1, h2⟩
      · rw [if_neg hs] at hr
        simp only [Option.some.injEq] at hr
        subst hr
        exact Or.inl ⟨rfl, hs⟩
    · rw [if_neg hc] at hr
      obtain ⟨h1, h2, _⟩ := close_finish_closed _ _ _ _ _ _ _ _ _ hr
      exact Or.inr ⟨h1, h2⟩

theorem close_until_sync_abort_purge (b : Build) (env : Env) (fuel : Nat) (g : Globals)
    (ctx : Context) (w : World) (r : CloseResult)
    (h : close_until_sync b env fuel g ctx w = some (.error r))
    (he : r.exit = CloseExit.abort_purge) :
    ∃ tr, env.query_quadoption tr QuadOpt.OPT_DELETE = MUTT_ABORT := by
  unfold close_until_sync at h
  by_cases hf : (ctx.readonly || ctx.dontwrite || ctx.append) = true
  · rw [if_pos hf] at h
    cases hx : mx_fastclose_mailbox env { ctx with closing := true } w with
    | none => rw [hx] at h; cases h
    | some x =>
      rw [hx] at h
      simp only [Option.some.injEq, Except.error.injEq] at h
      subst h
      cases he
  · rw [if_neg hf] at h
    cases hc : close_catchup b env g { ctx with closing := true } w with
    | none => rw [hc] at h; cases h
    | some x =>
      obtain ⟨ab, c1, g1, w1⟩ := x
      rw [hc] at h
      cases ab with
      | true =>
        simp only [Option.some.injEq, Except.error.injEq] at h
        subst h
        cases he
      | false =>
        dsimp only at h
        cases hl : c1.live with
        | none => rw [hl] at h; cases h
        | some recs =>
          rw [hl] at h
          dsimp only at h
          by_cases hm : ((close_move_prompt env g1 c1
              (recs.filter (is_read_msg g1.opts)).length w1).1 == MUTT_ABORT) = true
          · rw [if_pos hm] at h
            simp only [Option.some.injEq, Except.error.injEq] at h
            subst h
            cases he
          · rw [if_neg hm] at h
            by_cases hpp : ((close_purge_prompt env g1 c1 (close_move_prompt env g1 c1
                (recs.filter (is_read_msg g1.opts)).length w1).2.2).1 == MUTT_ABORT) = true
            · have hq : (close_purge_prompt env g1 c1 (close_move_prompt env g1 c1
                  (recs.filter (is_read_msg g1.opts)).length w1).2.2).1 = MUTT_ABORT := by
                simpa using hpp
              unfold close_purge_prompt at hq
              split at hq
              · exact ⟨_, hq⟩
              · cases hq
            · rw [if_neg hpp] at h
              cases hmo : close_mark_old env g1 c1 (close_purge_prompt env g1 c1
                  (close_move_prompt env g1 c1
                    (recs.filter (is_read_msg g1.opts)).length w1).2.2).2 with
              | none => rw [hmo] at h; cases h
              | some y =>
                obtain ⟨c2, w2⟩ := y
                rw [hmo] at h
                dsimp only at h
                cases hmv : close_move b env (mx_close_mailbox b env fuel) g1 c2 w2
                    (close_move_prompt env g1 c1
                      (recs.filter (is_read_msg g1.opts)).length w1).1
                    (close_move_prompt env g1 c1
                      (recs.filter (is_read_msg g1.opts)).length w1).2.1 with
                | none => rw [hmv] at h; cases h
                | some z =>
                  rw [hmv] at h
                  cases z with
                  | error r2 =>
                    simp only [Option.some.injEq, Except.error.injEq] at h
                    subst h
                    have := close_move_exit b env _ g1 c2 w2 _ _ _ hmv
                    rw [he] at this
                    cases this
                  | ok u =>
                    obtain ⟨c3, g3, w3⟩ := u
                    dsimp only at h
                    cases htr : close_trash b env (mx_close_mailbox b env fuel) g3 c3 w3
                        (close_purge_prompt env g1 c1 (close_move_prompt env g1 c1
                          (recs.filter (is_read_msg g1.opts)).length w1).2.2).1 with
                    | none => rw [htr] at h; cases h
                    | some t =>
                      obtain ⟨tr, g4, w4⟩ := t
                      rw [htr] at h
                      dsimp only at h
                      by_cases ht : (tr != 0) = true
                      · rw [if_pos ht] at h
                        simp only [Option.some.injEq, Except.error.injEq] at h
                        subst h
                        cases he
                      · rw [if_neg ht] at h
                        simp at h

theorem close_from_sync_not_abort (b : Build) (env : Env) (p : SyncPoint) (r : CloseResult)
    (h : close_from_sync b env p = some r) : CloseExit.is_abort r.exit = false := by
  unfold close_from_sync at h
  cases hs : close_sync b env p.g p.ctx p.w p.purge with
  | none => rw [hs] at h; cases h
  | some x =>
    rw [hs] at h
    cases x with
    | ok u =>
      obtain ⟨c5, w5⟩ := u
      exact close_finish_exit _ _ _ _ _ _ _ _ _ h
    | error r2 =>
      simp only [Option.some.injEq] at h
      subst h
      exact close_sync_exit _ _ _ _ _ _ _ hs

/-- C15: `mx_close_mailbox` returns from the abort of the purge question only
when that question was answered abort, so an answer "no" does not abort the
close.  When the call gets to its sync block on a session that is not IMAP
with `purge == MUTT_NO` (the purge question was asked and answered no), no
copy to the trash was made (the state is the one the move block left); the
`if (!purge)` block gives every record `deleted == false` and `purge ==
false` and sets the deleted counter to 0 before the sync decision; the call
then ends either with the nonzero code of a failing backend sync or with 0 at
the last return statement. -/
theorem mx_close_mailbox_purge_declined (b : Build) (env : Env) (fuel : Nat) (g : Globals)
    (ctx : Context) (w : World) :
    (∀ (r : CloseResult), mx_close_mailbox b env (fuel + 1) g ctx w = some r →
      r.exit = CloseExit.abort_purge →
      ∃ tr, env.query_quadoption tr QuadOpt.OPT_DELETE = MUTT_ABORT) ∧
    (∀ (p : SyncPoint) (recs : List Header),
      close_until_sync b env fuel g ctx w = some (.ok p) →
      p.purge = MUTT_NO →
      (b.USE_IMAP && p.ctx.magic == MUTT_IMAP) = false →
      p.ctx.live = some recs →
      (∃ tr, env.query_quadoption tr QuadOpt.OPT_DELETE = MUTT_NO) ∧
      (∃ g1 c2 w2 mbox, close_move b env (mx_close_mailbox b env fuel) g1 c2 w2
          p.move_messages mbox = some (.ok (p.ctx, p.g, p.w))) ∧
      (∃ c4, close_clear_deleted p.ctx p.purge = some c4 ∧
        c4.live = some (recs.map (fun h => { h with deleted := false, purge := false })) ∧
        (∀ r ∈ c4.records, r.deleted = false ∧ r.purge = false) ∧
        c4.deleted = 0 ∧
        mx_close_mailbox b env (fuel + 1) g ctx w =
          if c4.changed = true then
            if (sync_mailbox env c4 p.w).1 = 0 then
              close_finish b env p.g (sync_mailbox env c4 p.w).2.1
                (sync_mailbox env c4 p.w).2.2 p.move_messages p.purge p.read_msgs
            else
              some { rc := (sync_mailbox env c4 p.w).1, exit := CloseExit.sync_failed,
                     ctx := { (sync_mailbox env c4 p.w).2.1 with closing := false }, g := p.g,
                     w := (sync_mailbox env c4 p.w).2.2 }
          else close_finish b env p.g c4 p.w p.move_messages p.purge p.read_msgs) ∧
      (∀ r, mx_close_mailbox b env (fuel + 1) g ctx w = some r →
        (r.exit = CloseExit.sync_failed ∧ r.rc ≠ 0) ∨
          (r.exit = CloseExit.closed ∧ r.rc = 0))) := by
  constructor
  · intro r hr he
    rw [mx_close_mailbox_eq] at hr
    cases hx : close_until_sync b env fuel g ctx w with
    | none => rw [hx] at hr; cases hr
    | some x =>
      rw [hx] at hr
      cases x with
      | error r2 =>
        simp only [Option.some.injEq] at hr
        subst hr
        exact close_until_sync_abort_purge b env fuel g ctx w _ hx he
      | ok p =>
        dsimp only at hr
        have := close_from_sync_not_abort b env p r hr
        rw [he] at this
        cases this
  · intro p recs hp hno himap hlive
    exact purge_declined_at_sync b env fuel g ctx w p recs hp hno himap hlive

/-- Witness of C15: the example session is closed and the purge declined; the
close ends with 0 and both records are kept. -/
theorem mx_close_mailbox_purge_declined_witness :
    (close_until_sync ex_build ex_env_no 0 ex_globals ex_deleted_ctx ex_world =
        some (.ok ex_declined_point) ∧
      ex_declined_point.purge = MUTT_NO ∧
      (ex_build.USE_IMAP && ex_declined_point.ctx.magic == MUTT_IMAP) = false ∧
      ex_declined_point.ctx.live = some ex_deleted_ctx.records ∧
      mx_close_mailbox ex_build ex_env_no 1 ex_globals ex_deleted_ctx ex_world =
        some ex_declined_closed) ∧
    ((ex_declined_closed.exit = CloseExit.sync_failed ∧ ex_declined_closed.rc ≠ 0) ∨
      (ex_declined_closed.exit = CloseExit.closed ∧ ex_declined_closed.rc = 0)) :=
  ⟨⟨rfl, rfl, rfl, rfl, rfl⟩,
    ((mx_close_mailbox_purge_declined ex_build ex_env_no 0 ex_globals ex_deleted_ctx
      ex_world).2 ex_declined_point ex_deleted_ctx.records rfl rfl rfl rfl).2.2.2
      ex_declined_closed rfl⟩

/-! ### Purge declined at sync -/

theorem sync_mailbox_eq (env : Env) (c : Context) (w : World) (t : Int)
    (f : List Event → Context → Int × Context)
    (ht : c.mx_ops = some t) (hf : (env.ops t).sync = some f) :
    sync_mailbox env c w =
      ((f (if c.quiet = false then w.log (Event.message "Writing %s..." []) else w).trace c).1,
       (f (if c.quiet = false then w.log (Event.message "Writing %s..." []) else w).trace c).2,
       (if c.quiet = false then w.log (Event.message "Writing %s..." []) else w).log
         (Event.ops_sync t)) := by
  unfold sync_mailbox
  rw [ht]
  dsimp only
  rw [hf]
  dsimp only
  cases c.quiet <;> rfl

theorem sync_finish_rc (b : Build) (env : Env) (p : CheckPoint) (c : Context) (w : World)
    (r : SyncResult) (h : sync_finish b env p c w = some r) : r.rc = 0 := by
  unfold sync_finish at h
  by_cases h1 : ((c.msgcount : Int) == c.deleted && (c.magic == MUTT_MBOX || c.magic == MUTT_MMDF)
      && !mutt_is_spool p.g c.path && !p.g.opts.OPTSAVEEMPTY) = true
  · rw [if_pos h1] at h
    cases hx : mx_fastclose_mailbox env c
        ((sync_summary b p c w).log (Event.unlink (c.path.getD ""))) with
    | none => rw [hx] at h; cases h
    | some x =>
      rw [hx] at h
      simp only [Option.some.injEq] at h
      subst h; rfl
  · rw [if_neg h1] at h
    by_cases h2 : (p.purge != 0 || (c.magic != MUTT_MAILDIR && c.magic != MUTT_MH)) = true
    · rw [if_pos h2] at h
      by_cases h3 : (c.magic != MUTT_IMAP) = true
      · rw [if_pos h3] at h
        cases hx : mx_update_tables p.g.opts c true with
        | none => rw [hx] at h; cases h
        | some x =>
          rw [hx] at h
          simp only [Option.some.injEq] at h
          subst h; rfl
      · rw [if_neg h3] at h
        simp only [Option.some.injEq] at h
        subst h; rfl
    · rw [if_neg h2] at h
      simp only [Option.some.injEq] at h
      subst h; rfl

/-- C16 as stated fails: the example mbox session is writable, has one record
marked deleted and no other change (`changed` is false); the purge question
is answered no and `mx_sync_mailbox` returns 0 from the "nothing to do"
return statement: the record is still marked deleted and the deleted counter
is still 1. -/
theorem sync_purge_declined_keeps_deleted :
    (mx_sync_mailbox ex_build ex_env_no 1 ex_globals ex_deleted_ctx ex_world).map
        (fun r => (r.rc, r.exit, r.ctx.records.map (fun h => (h.deleted, h.purge)),
          r.ctx.deleted)) =
      some (0, SyncExit.nothing_to_do, [(false, false), (true, false)], 1) ∧
    (ex_deleted_ctx.readonly, ex_deleted_ctx.dontwrite, ex_deleted_ctx.changed,
      ex_deleted_ctx.magic, ex_deleted_ctx.deleted) = (false, false, false, MUTT_MBOX, 1) :=
  ⟨rfl, rfl⟩

/-- C16, amended: on a writable session with a nonzero deleted counter whose
purge question is answered no, `mx_sync_mailbox` returns 0 at once when the
session has no other change, leaving the session (flags and counter included)
as it is; when the session is changed and is not IMAP, every record gets
`deleted == false` and `purge == false` and the deleted counter is set to 0,
no copy to the trash is made, and the backend sync is called on that
session. -/
theorem mx_sync_mailbox_purge_declined (b : Build) (env : Env) (fuel : Nat) (g : Globals)
    (ctx : Context) (w : World)
    (hw : ctx.dontwrite = false ∧ ctx.readonly = false)
    (hdel : ctx.deleted ≠ 0)
    (hno : env.query_quadoption w.trace QuadOpt.OPT_DELETE = MUTT_NO) :
    (ctx.changed = false →
      mx_sync_mailbox b env fuel g ctx w =
        some { rc := 0, exit := SyncExit.nothing_to_do, ctx := ctx, g := g,
               w := w.log (Event.query_quadoption QuadOpt.OPT_DELETE
                 (if ctx.deleted == 1 then "Purge %d deleted message?"
                  else "Purge %d deleted messages?")) }) ∧
    (ctx.changed = true → ctx.magic ≠ MUTT_IMAP → ∀ recs, ctx.live = some recs →
      ∃ c4, close_clear_deleted ctx 0 = some c4 ∧
        c4.live = some (recs.map (fun h => { h with deleted := false, purge := false })) ∧
        (∀ r ∈ c4.records, r.deleted = false ∧ r.purge = false) ∧
        c4.deleted = 0 ∧
        sync_until_backend b env fuel g ctx w =
          some (.ok { ctx := c4, g := g,
                      w := w.log (Event.query_quadoption QuadOpt.OPT_DELETE
                        (if ctx.deleted == 1 then "Purge %d deleted message?"
                         else "Purge %d deleted messages?")),
                      purge := 0, msgcount := ctx.msgcount, deleted := 0 }) ∧
        ∀ r, mx_sync_mailbox b env fuel g ctx w = some r →
          (r.rc = (sync_mailbox env c4 (w.log (Event.query_quadoption QuadOpt.OPT_DELETE
              (if ctx.deleted == 1 then "Purge %d deleted message?"
               else "Purge %d deleted messages?")))).1) ∧
          (r.rc ≠ 0 → r.ctx = (sync_mailbox env c4 (w.log (Event.query_quadoption
              QuadOpt.OPT_DELETE (if ctx.deleted == 1 then "Purge %d deleted message?"
               else "Purge %d deleted messages?")))).2.1)) := by
  obtain ⟨hdw, hro⟩ := hw
  have hd : (ctx.deleted != 0) = true := by simpa using hdel
  have hna : ¬ (env.query_quadoption w.trace QuadOpt.OPT_DELETE == MUTT_ABORT) = true := by
    rw [hno]; decide
  have hn : (env.query_quadoption w.trace QuadOpt.OPT_DELETE == MUTT_NO) = true := by
    rw [hno]; decide
  have hun : ¬ (!ctx.changed && ctx.deleted == 0) = true := by
    simp [hdel]
  constructor
  · intro hch
    have hnc : (!ctx.changed) = true := by simp [hch]
    have hsub : sync_until_backend b env fuel g ctx w =
        some (.error { rc := 0, exit := SyncExit.nothing_to_do, ctx := ctx, g := g,
                       w := w.log (Event.query_quadoption QuadOpt.OPT_DELETE
                         (if ctx.deleted == 1 then "Purge %d deleted message?"
                          else "Purge %d deleted messages?")) }) := by
      unfold sync_until_backend
      rw [if_neg (by rw [hdw]; simp), if_neg (by rw [hro]; simp), if_neg hun]
      unfold sync_purge_prompt
      rw [if_pos hd, if_neg hna, if_pos hn, if_pos hnc]
    unfold mx_sync_mailbox
    rw [hsub]
  · intro hch hmag recs hlive
    obtain ⟨c4, hcl, hc4, hlive4, hdel4, _, hmag4, hmc4, _⟩ :=
      close_clear_deleted_no ctx recs hlive
    have hm : (ctx.magic != MUTT_IMAP) = true := by simpa using hmag
    have hsub : sync_until_backend b env fuel g ctx w =
          some (.ok { ctx := c4, g := g,
                      w := w.log (Event.query_quadoption QuadOpt.OPT_DELETE
                        (if ctx.deleted == 1 then "Purge %d deleted message?"
                         else "Purge %d deleted messages?")),
                      purge := 0, msgcount := ctx.msgcount, deleted := 0 }) := by
      have hnc : ¬ (!ctx.changed) = true := by simp [hch]
      unfold sync_until_backend
      rw [if_neg (by rw [hdw]; simp), if_neg (by rw [hro]; simp), if_neg hun]
      unfold sync_purge_prompt
      rw [if_pos hd, if_neg hna, if_pos hn, if_neg hnc, if_pos hm, hcl]
      dsimp only
      rw [hno, show MUTT_NO = (0 : Int) from rfl, close_trash_skipped]
      dsimp only
      rw [if_neg (by simp), hmc4, hdel4]
    refine ⟨c4, hcl, hlive4, ?_, hdel4, hsub, ?_⟩
    · intro r hr
      obtain ⟨_, h2, _⟩ := live_some c4 _ hlive4
      unfold Context.records at hr
      rw [h2] at hr
      simp only [List.map_map, List.filterMap_map, List.mem_filterMap, Function.comp_apply,
        id_eq, Option.some.injEq] at hr
      obtain ⟨a, _, ha⟩ := hr
      subst ha
      exact ⟨rfl, rfl⟩
    · intro r hr
      unfold mx_sync_mailbox at hr
      rw [hsub] at hr
      dsimp only at hr
      have hb : sync_backend b env c4 (w.log (Event.query_quadoption QuadOpt.OPT_DELETE
              (if ctx.deleted == 1 then "Purge %d deleted message?"
               else "Purge %d deleted messages?"))) 0 =
          sync_mailbox env c4 (w.log (Event.query_quadoption QuadOpt.OPT_DELETE
              (if ctx.deleted == 1 then "Purge %d deleted message?"
               else "Purge %d deleted messages?"))) := by
        unfold sync_backend
        have : ¬ (b.USE_IMAP && c4.magic == MUTT_IMAP) = true := by
          rw [hmag4]; simp [hmag]
        rw [if_neg this]
      rw [hb] at hr
      by_cases hs : ((sync_mailbox env c4 (w.log (Event.query_quadoption QuadOpt.OPT_DELETE
              (if ctx.deleted == 1 then "Purge %d deleted message?"
               else "Purge %d deleted messages?")))).1 == 0) = true
      · rw [if_pos hs] at hr
        have hs0 : (sync_mailbox env c4 (w.log (Event.query_quadoption QuadOpt.OPT_DELETE
              (if ctx.deleted == 1 then "Purge %d deleted message?"
               else "Purge %d deleted messages?")))).1 = 0 := by simpa using hs
        have hrc : r.rc = 0 := sync_finish_rc _ _ _ _ _ _ hr
        rw [hs0]
        exact ⟨hrc, fun hne => absurd hrc hne⟩
      · rw [if_neg hs] at hr
        simp only [Option.some.injEq] at hr
        subst hr
        exact ⟨rfl, fun _ => rfl⟩

/-- Witness of the amended C16 on the example session: no other change, so the
call returns at once. -/
theorem mx_sync_mailbox_purge_declined_witness :
    ((ex_deleted_ctx.dontwrite = false ∧ ex_deleted_ctx.readonly = false) ∧
      ex_deleted_ctx.deleted ≠ 0 ∧
      ex_env_no.query_quadoption ex_world.trace QuadOpt.OPT_DELETE = MUTT_NO ∧
      ex_deleted_ctx.changed = false) ∧
    mx_sync_mailbox ex_build ex_env_no 1 ex_globals ex_deleted_ctx ex_world =
      some { rc := 0, exit := SyncExit.nothing_to_do, ctx := ex_deleted_ctx, g := ex_globals,
             w := ex_world.log (Event.query_quadoption QuadOpt.OPT_DELETE
               (if ex_deleted_ctx.deleted == 1 then "Purge %d deleted message?"
                else "Purge %d deleted messages?")) } :=
  ⟨⟨⟨rfl, rfl⟩, by decide, rfl, rfl⟩,
    (mx_sync_mailbox_purge_declined ex_build ex_env_no 1 ex_globals ex_deleted_ctx ex_world
      ⟨rfl, rfl⟩ (by decide) rfl).1 rfl⟩

/-! ### A failing backend sync -/

/-- C19: when the backend sync that `mx_close_mailbox` calls (the `sync`
operation of the session's backend, or `imap_sync_mailbox` for IMAP) returns
a nonzero code, `mx_close_mailbox` returns that code, the session is the one
the backend left with `closing` reset to false (no teardown), and the call of
the backend is the last thing done to the outside (no unlink); in the same
situation `mx_sync_mailbox` returns the code of the backend with the session
as the backend left it (no reconciliation, no sort). -/
theorem sync_failure_is_returned (b : Build) (env : Env) (fuel : Nat) (g : Globals)
    (ctx : Context) (w : World) :
    (∀ (p : SyncPoint) (c4 : Context) (t : Int) (f : List Event → Context → Int × Context),
      close_until_sync b env fuel g ctx w = some (.ok p) →
      (b.USE_IMAP && p.ctx.magic == MUTT_IMAP) = false →
      close_clear_deleted p.ctx p.purge = some c4 →
      (c4.changed || c4.deleted != 0) = true →
      c4.mx_ops = some t → (env.ops t).sync = some f →
      (f (if c4.quiet = false then p.w.log (Event.message "Writing %s..." [])
          else p.w).trace c4).1 ≠ 0 →
      mx_close_mailbox b env (fuel + 1) g ctx w =
        some { rc := (f (if c4.quiet = false then p.w.log (Event.message "Writing %s..." [])
                  else p.w).trace c4).1,
               exit := CloseExit.sync_failed,
               ctx := { (f (if c4.quiet = false then
                            p.w.log (Event.message "Writing %s..." [])
                          else p.w).trace c4).2 with closing := false },
               g := p.g,
               w := (if c4.quiet = false then p.w.log (Event.message "Writing %s..." [])
                  else p.w).log (Event.ops_sync t) }) ∧
    (∀ (p : SyncPoint),
      close_until_sync b env fuel g ctx w = some (.ok p) →
      (b.USE_IMAP && p.ctx.magic == MUTT_IMAP) = true →
      (env.imap_sync_mailbox p.w.trace p.ctx p.purge).1 ≠ 0 →
      mx_close_mailbox b env (fuel + 1) g ctx w =
        some { rc := (env.imap_sync_mailbox p.w.trace p.ctx p.purge).1,
               exit := CloseExit.imap_sync_failed,
               ctx := { (env.imap_sync_mailbox p.w.trace p.ctx p.purge).2 with
                        closing := false },
               g := p.g, w := p.w.log (Event.imap_sync_mailbox p.purge) }) ∧
    (∀ (q : CheckPoint) (t : Int) (f : List Event → Context → Int × Context),
      sync_until_backend b env fuel g ctx w = some (.ok q) →
      (b.USE_IMAP && q.ctx.magic == MUTT_IMAP) = false →
      q.ctx.mx_ops = some t → (env.ops t).sync = some f →
      (f (if q.ctx.quiet = false then q.w.log (Event.message "Writing %s..." [])
          else q.w).trace q.ctx).1 ≠ 0 →
      mx_sync_mailbox b env fuel g ctx w =
        some { rc := (f (if q.ctx.quiet = false then
                      q.w.log (Event.message "Writing %s..." [])
                    else q.w).trace q.ctx).1,
               exit := SyncExit.finished,
               ctx := (f (if q.ctx.quiet = false then
                      q.w.log (Event.message "Writing %s..." [])
                    else q.w).trace q.ctx).2,
               g := q.g,
               w := (if q.ctx.quiet = false then q.w.log (Event.message "Writing %s..." [])
                  else q.w).log (Event.ops_sync t) }) ∧
    (∀ (q : CheckPoint),
      sync_until_backend b env fuel g ctx w = some (.ok q) →
      (b.USE_IMAP && q.ctx.magic == MUTT_IMAP) = true →
      (env.imap_sync_mailbox q.w.trace q.ctx q.purge).1 ≠ 0 →
      mx_sync_mailbox b env fuel g ctx w =
        some { rc := (env.imap_sync_mailbox q.w.trace q.ctx q.purge).1,
               exit := SyncExit.finished,
               ctx := (env.imap_sync_mailbox q.w.trace q.ctx q.purge).2,
               g := q.g, w := q.w.log (Event.imap_sync_mailbox q.purge) }) := by
  refine ⟨?_, ?_, ?_, ?_⟩
  · intro p c4 t f hp himap hcl hneed ht hf hrc
    have hi : ¬ (b.USE_IMAP && p.ctx.magic == MUTT_IMAP) = true := by rw [himap]; simp
    rw [mx_close_mailbox_eq, hp]
    dsimp only
    unfold close_from_sync close_sync
    rw [if_neg hi, hcl]
    dsimp only
    rw [if_pos hneed, sync_mailbox_eq env c4 p.w t f ht hf]
    dsimp only
    have : ((f (if c4.quiet = false then p.w.log (Event.message "Writing %s..." [])
          else p.w).trace c4).1 != 0) = true := by simpa using hrc
    rw [if_pos this]
  · intro p hp himap hrc
    rw [mx_close_mailbox_eq, hp]
    dsimp only
    unfold close_from_sync close_sync
    have : ((env.imap_sync_mailbox p.w.trace p.ctx p.purge).1 != 0) = true := by simpa using hrc
    rw [if_pos himap, if_pos this]
  · intro q t f hq himap ht hf hrc
    have hi : ¬ (b.USE_IMAP && q.ctx.magic == MUTT_IMAP) = true := by rw [himap]; simp
    unfold mx_sync_mailbox
    rw [hq]
    dsimp only
    unfold sync_backend
    rw [if_neg hi, sync_mailbox_eq env q.ctx q.w t f ht hf]
    dsimp only
    have : ¬ ((f (if q.ctx.quiet = false then q.w.log (Event.message "Writing %s..." [])
          else q.w).trace q.ctx).1 == 0) = true := by simpa using hrc
    rw [if_neg this]
  · intro q hq himap hrc
    unfold mx_sync_mailbox
    rw [hq]
    dsimp only
    unfold sync_backend
    rw [if_pos himap]
    dsimp only
    have : ¬ ((env.imap_sync_mailbox q.w.trace q.ctx q.purge).1 == 0) = true := by
      simpa using hrc
    rw [if_neg this]

/-- Witness of C19: the backend sync of the example session fails with -3 and
`mx_close_mailbox` returns -3, the session still in place. -/
theorem sync_failure_is_returned_witness :
    (close_until_sync ex_build ex_env_sync_fails 0 ex_globals ex_deleted_ctx ex_world =
        some (.ok ex_confirmed_point) ∧
      close_clear_deleted ex_confirmed_point.ctx ex_confirmed_point.purge =
        some ex_confirmed_point.ctx ∧
      (ex_env_sync_fails.ops MUTT_MBOX).sync =
        some (fun _ c => (-3, { c with changed := true }))) ∧
    mx_close_mailbox ex_build ex_env_sync_fails 1 ex_globals ex_deleted_ctx ex_world =
      some { rc := -3, exit := CloseExit.sync_failed,
             ctx := { ex_deleted_ctx with changed := true, closing := false },
             g := ex_globals,
             w := (ex_confirmed_point.w.log (Event.message "Writing %s..." [])).log
               (Event.ops_sync MUTT_MBOX) } :=
  ⟨⟨rfl, rfl, rfl⟩,
    (sync_failure_is_returned ex_build ex_env_sync_fails 0 ex_globals ex_deleted_ctx
      ex_world).1 ex_confirmed_point ex_confirmed_point.ctx MUTT_MBOX
      (fun _ c => (-3, { c with changed := true })) rfl rfl rfl rfl rfl rfl (by decide)⟩

theorem log_trace (w : World) (e : Event) : (w.log e).trace = w.trace ++ [e] := rfl

theorem adds_hold (P : Event → Bool) (w1 w2 : World) (k : LockKind)
    (h : World.adds P w1 w2) : World.adds P w1 (w2.hold k) := by
  apply adds_trace P w1 w2 _ h
  cases k <;> rfl

theorem adds_release (w1 w2 : World) (k : LockKind)
    (h : World.adds Event.is_lock_traffic w1 w2) :
    World.adds Event.is_lock_traffic w1 (w2.release k) := by
  have := adds_log _ w1 w2 (Event.unlock k) h rfl
  apply adds_trace _ w1 _ _ this
  cases k <;> rfl

theorem lock_wait_loop_adds (b : Build) (E : Errnos) (k : LockKind) (excl timeout : Bool) :
    ∀ (ps : List Poll) (count attempt : Nat) (prev : Int) (w0 w : World)
      (ex : LockExit) (c : Nat) (w' : World),
      World.adds Event.is_lock_traffic w0 w →
      lock_wait_loop b E k excl timeout ps count attempt prev w = some (ex, c, w') →
      World.adds Event.is_lock_traffic w0 w' := by
  intro ps
  induction ps with
  | nil => intro count attempt prev w0 w ex c w' _ h; simp [lock_wait_loop] at h
  | cons p ps ih =>
    intro count attempt prev w0 w ex c w' h0 h
    have s1 := adds_log _ w0 w (Event.setlk k excl) h0 rfl
    have s2 := adds_log _ w0 _ Event.fstat s1 rfl
    simp only [lock_wait_loop] at h
    by_cases h1 : (p.rc != -1) = true
    · simp only [h1, if_true, Option.some.injEq, Prod.mk.injEq] at h
      obtain ⟨_, _, h3⟩ := h
      subst h3
      exact adds_hold _ _ _ _ s1
    · simp only [h1, if_false, Bool.false_eq_true] at h
      by_cases h2 : lock_errno_fatal E k p.errno = true
      · simp only [h2, if_true, Option.some.injEq, Prod.mk.injEq] at h
        obtain ⟨_, _, h3⟩ := h
        subst h3
        exact adds_log _ _ _ _ s1 rfl
      · simp only [h2, if_false, Bool.false_eq_true] at h
        by_cases h3 : ((if (count == 0) = true then p.size else prev) == p.size) = true
        · simp only [h3, if_true] at h
          by_cases h4 : ((count + 1 : Nat) : Int) ≥ (if timeout = true then b.MAXLOCKATTEMPT else 0)
          · simp only [h4, decide_True, if_true, Option.some.injEq, Prod.mk.injEq] at h
            obtain ⟨_, _, h3⟩ := h
            subst h3
            split
            · exact adds_log _ _ _ _ s2 rfl
            · exact s2
          · simp only [h4, decide_False, if_false, Bool.false_eq_true] at h
            exact ih _ _ _ w0 _ _ _ _ (adds_log _ _ _ (Event.sleep 1)
              (adds_log _ _ _ (Event.message (lock_waiting_text k) [((attempt + 1 : Nat) : Int)])
                s2 rfl) rfl) h
        · simp only [h3, if_false, Bool.false_eq_true] at h
          exact ih _ _ _ w0 _ _ _ _ (adds_log _ _ _ (Event.sleep 1)
              (adds_log _ _ _ (Event.message (lock_waiting_text k) [((attempt + 1 : Nat) : Int)])
                s2 rfl) rfl) h

theorem invoke_dotlock_adds (path : String) (flags : DotlockFlags) (retry code : Int)
    (w0 w : World) (h : World.adds Event.is_lock_traffic w0 w) :
    World.adds Event.is_lock_traffic w0 (invoke_dotlock path flags retry code w).2 := by
  have s := adds_log _ w0 w (Event.dotlock path flags retry) h rfl
  apply adds_trace _ w0 _ _ s
  unfold invoke_dotlock
  dsimp only
  split
  · split
    · rfl
    · split <;> rfl
  · rfl

theorem lock_nodot_adds (b : Build) (E : Errnos) (opts : Options) (s : LockScript)
    (path : String) (excl timeout : Bool) (w : World) (r : Int) (w' : World)
    (h : mx_lock_file b E opts s path excl false timeout w = some (r, w')) :
    World.adds Event.is_lock_traffic w w' := by
  simp only [mx_lock_file] at h
  cases h1 : lock_fcntl_block b E s excl timeout w with
  | none => rw [h1] at h; simp at h
  | some res1 =>
    obtain ⟨x, w1⟩ := res1
    have a1 : World.adds Event.is_lock_traffic w w1 := by
      simp only [lock_fcntl_block] at h1
      cases hF : b.USE_FCNTL
      · simp only [hF, Bool.false_eq_true, if_false, Option.some.injEq, Prod.mk.injEq] at h1
        rw [← h1.2]; exact adds_refl _ w
      · simp only [hF, if_true] at h1
        cases hl : lock_wait_loop b E LockKind.fcntl excl timeout s.fcntl 0 0 0 w with
        | none => rw [hl] at h1; simp at h1
        | some res =>
          obtain ⟨ex, c, wl⟩ := res
          have hk := lock_wait_loop_adds b E LockKind.fcntl excl timeout _ _ _ _ w _ _ _ _
            (adds_refl _ w) hl
          rw [hl] at h1
          cases ex <;>
            · simp only [Option.some.injEq, Prod.mk.injEq] at h1
              rw [← h1.2]; exact hk
    rw [h1] at h
    cases x with
    | some r1 =>
      simp only [Option.some.injEq, Prod.mk.injEq] at h
      rw [← h.2]; exact a1
    | none =>
      simp only at h
      cases h2 : lock_flock_block b E s excl timeout w1 with
      | none => rw [h2] at h; simp at h
      | some res2 =>
        obtain ⟨r2, w2⟩ := res2
        have a2 : World.adds Event.is_lock_traffic w w2 := by
          simp only [lock_flock_block] at h2
          cases hF : b.USE_FLOCK
          · simp only [hF, Bool.false_eq_true, if_false, Option.some.injEq, Prod.mk.injEq] at h2
            rw [← h2.2]; exact a1
          · simp only [hF, if_true] at h2
            cases hl : lock_wait_loop b E LockKind.flock excl timeout s.flock 0 0 0 w1 with
            | none => rw [hl] at h2; simp at h2
            | some res =>
              obtain ⟨ex, c, wl⟩ := res
              have hk := lock_wait_loop_adds b E LockKind.flock excl timeout _ _ _ _ w _ _ _ _
                a1 hl
              rw [hl] at h2
              cases ex <;>
                · simp only [Option.some.injEq, Prod.mk.injEq] at h2
                  rw [← h2.2]; exact hk
        rw [h2] at h
        simp only [lock_dot_block, Bool.and_false, Bool.false_eq_true, if_false,
          Option.some.injEq, Prod.mk.injEq] at h
        obtain ⟨h4, h5⟩ := h
        subst h4
        rw [← h5]
        unfold lock_release_block
        split
        · dsimp only
          cases b.USE_FCNTL <;> cases b.USE_FLOCK <;>
            simp only [Bool.false_eq_true, if_false, if_true]
          · exact a2
          · exact adds_release _ _ _ a2
          · exact adds_release _ _ _ a2
          · exact adds_release _ _ _ (adds_release _ _ _ a2)
        · exact a2

theorem mx_unlock_file_nodot_adds (b : Build) (path : String) (code : Int) (w0 w : World)
    (h : World.adds Event.is_lock_traffic w0 w) :
    World.adds Event.is_lock_traffic w0 (mx_unlock_file b path false code w).2 := by
  unfold mx_unlock_file
  dsimp only
  simp only [Bool.and_false, Bool.false_eq_true, if_false]
  cases b.USE_FCNTL <;> cases b.USE_FLOCK <;>
    simp only [Bool.false_eq_true, if_false, if_true]
  · exact h
  · exact adds_release _ _ _ h
  · exact adds_release _ _ _ h
  · exact adds_release _ _ _ (adds_release _ _ _ h)

theorem not_mem_of_adds (P : Event → Bool) (w1 w2 : World) (e : Event) (evs : List Event)
    (h : World.adds P w1 w2) (he : P e = false) (ht : w2.trace = w1.trace ++ evs) :
    e ∉ evs := by
  obtain ⟨evs2, h1, h2⟩ := h
  rw [h1] at ht
  have := List.append_cancel_left ht
  subst this
  intro hm
  have := h2 e hm
  rw [he] at this
  cases this

theorem adds_evs (P : Event → Bool) (w1 w2 : World) (h : World.adds P w1 w2) :
    ∃ evs, w2.trace = w1.trace ++ evs ∧ ∀ e, P e = false → e ∉ evs := by
  obtain ⟨evs, h1, h2⟩ := h
  refine ⟨evs, h1, fun e he hm => ?_⟩
  have := h2 e hm
  rw [he] at this
  cases this

theorem mx_unlink_empty_trace (b : Build) (env : Env) (g : Globals) (path : String)
    (w wu : World) (h : mx_unlink_empty b env g path w = some wu) :
    ∃ rest, wu.trace = w.trace ++ Event.open_rdwr path :: rest ∧
      (Event.unlink path ∈ rest ↔ unlink_empty_removes b env g path w) := by
  unfold mx_unlink_empty at h
  dsimp only at h
  by_cases ho : env.open_rdwr w.trace path = true
  · have ho2 : ¬ (!env.open_rdwr w.trace path) = true := by simp [ho]
    rw [if_neg ho2] at h
    cases hl : mx_lock_file b env.errnos g.opts
        (env.lock_script (w.log (Event.open_rdwr path)).trace path) path true false true
        (w.log (Event.open_rdwr path)) with
    | none => rw [hl] at h; cases h
    | some x =>
      obtain ⟨r, w2⟩ := x
      rw [hl] at h
      dsimp only at h
      obtain ⟨evsL, hL1, hL2⟩ := adds_evs _ _ _ (lock_nodot_adds _ _ _ _ _ _ _ _ _ _ hl)
      have hL3 : Event.unlink path ∉ evsL := hL2 _ rfl
      have hw1 : (w.log (Event.open_rdwr path)).trace = w.trace ++ [Event.open_rdwr path] := rfl
      by_cases hr : (r == -1) = true
      · rw [if_pos hr] at h
        simp only [Option.some.injEq] at h
        subst h
        refine ⟨evsL ++ [Event.close_fd], by simp [World.log, hL1], ?_⟩
        constructor
        · intro hm
          simp only [List.mem_append, List.mem_singleton] at hm
          rcases hm with hm | hm
          · exact absurd hm hL3
          · cases hm
        · rintro ⟨_, _, rl, w2b, hlb, hne, _⟩
          rw [hl] at hlb
          simp only [Option.some.injEq, Prod.mk.injEq] at hlb
          have : r = -1 := by simpa using hr
          rw [← hlb.1, this] at hne
          exact absurd rfl hne
      · rw [if_neg hr] at h
        have hr2 : r ≠ -1 := by simpa using hr
        simp only [Option.some.injEq] at h
        subst h
        by_cases hd : b.USE_DOTLOCK = true
        · rw [if_pos hd]
          obtain ⟨evsD, hD1, hD2⟩ := adds_evs _ _ _
            (mx_unlock_file_nodot_adds b path
              (env.dotlock_code (invoke_dotlock path
                { DL_FL_TRY := false, DL_FL_UNLOCK := false, DL_FL_USEPRIV := false,
                  DL_FL_FORCE := false, DL_FL_RETRY := false, DL_FL_UNLINK := true }
                1 (env.dotlock_code w2.trace) w2).2.trace) w2 _
              (invoke_dotlock_adds path _ 1 (env.dotlock_code w2.trace) w2 w2 (adds_refl _ w2)))
          refine ⟨evsL ++ evsD ++ [Event.close_fd], ?_, ?_⟩
          · rw [log_trace, hD1, hL1, hw1]
            simp
          · constructor
            · intro hm
              simp only [List.mem_append, List.mem_singleton] at hm
              rcases hm with (hm | hm) | hm
              · exact absurd hm hL3
              · exact absurd hm (hD2 _ rfl)
              · cases hm
            · rintro ⟨hnd, _⟩
              rw [hd] at hnd; cases hnd
        · rw [if_neg hd]
          have hd2 : b.USE_DOTLOCK = false := by simpa using hd
          by_cases hz : env.fstat_size w2.trace = some 0
          · have hz2 : (env.fstat_size w2.trace == some 0) = true := by simp [hz]
            rw [if_pos hz2]
            obtain ⟨evsU, hU1, hU2⟩ := adds_evs _ _ _
              (mx_unlock_file_nodot_adds b path
                (env.dotlock_code ((w2.log Event.fstat).log (Event.unlink path)).trace)
                ((w2.log Event.fstat).log (Event.unlink path)) _ (adds_refl _ _))
            refine ⟨evsL ++ [Event.fstat, Event.unlink path] ++ evsU ++ [Event.close_fd], ?_, ?_⟩
            · rw [log_trace, hU1, log_trace, log_trace, hL1, hw1]
              simp
            · constructor
              · intro _
                exact ⟨hd2, ho, r, w2, hl, hr2, hz⟩
              · intro _
                simp
          · have hz2 : ¬ (env.fstat_size w2.trace == some 0) = true := by simpa using hz
            rw [if_neg hz2]
            obtain ⟨evsU, hU1, hU2⟩ := adds_evs _ _ _
              (mx_unlock_file_nodot_adds b path
                (env.dotlock_code (w2.log Event.fstat).trace)
                (w2.log Event.fstat) _ (adds_refl _ _))
            refine ⟨evsL ++ [Event.fstat] ++ evsU ++ [Event.close_fd], ?_, ?_⟩
            · rw [log_trace, hU1, log_trace, hL1, hw1]
              simp
            · constructor
              · intro hm
                simp only [List.mem_append, List.mem_singleton] at hm
                rcases hm with ((hm | hm) | hm) | hm
                · exact absurd hm hL3
                · cases hm
                · exact absurd hm (hU2 _ rfl)
                · cases hm
              · rintro ⟨_, _, rl, w2b, hlb, _, hsz⟩
                rw [hl] at hlb
                simp only [Option.some.injEq, Prod.mk.injEq] at hlb
                rw [← hlb.2] at hsz
                exact absurd hsz hz
  · have ho2 : (!env.open_rdwr w.trace path) = true := by simpa using ho
    rw [if_pos ho2] at h
    simp only [Option.some.injEq] at h
    subst h
    refine ⟨[], rfl, ?_⟩
    constructor
    · intro hm; cases hm
    · rintro ⟨_, hop, _⟩
      exact absurd hop ho

theorem teardown_not_removal (e : Event) (h : Event.is_teardown e = true) :
    Event.not_removal e = true := by
  cases e <;> first | rfl | cases h

theorem close_unlink_test (g : Globals) (c : Context) :
    ((c.msgcount : Int) == c.deleted && (c.magic == MUTT_MMDF || c.magic == MUTT_MBOX) &&
      !mutt_is_spool g c.path && !g.opts.OPTSAVEEMPTY) = unlink_wanted g c := by
  unfold unlink_wanted
  rw [Bool.or_comm]

theorem close_summary_adds (c5 : Context) (w5 : World) (mm : Int) (n : Nat) :
    World.adds Event.not_removal w5 (close_summary c5 w5 mm n) := by
  unfold close_summary
  split
  · split
    · exact adds_log _ _ _ _ (adds_refl _ w5) rfl
    · exact adds_log _ _ _ _ (adds_refl _ w5) rfl
  · exact adds_refl _ w5

theorem close_sidebar_adds (b : Build) (c5 : Context) (w7 : World) (purge : Int)
    (c6 : Context) (w8 : World) (h : close_sidebar b c5 w7 purge = some (c6, w8)) :
    World.adds Event.not_removal w7 w8 := by
  unfold close_sidebar at h
  split at h
  · cases hl : c5.live with
    | none => rw [hl] at h; cases h
    | some rs =>
      rw [hl] at h
      simp only [Option.some.injEq, Prod.mk.injEq] at h
      rw [← h.2]
      exact adds_log _ _ _ _ (adds_refl _ w7) rfl
  · simp only [Option.some.injEq, Prod.mk.injEq] at h
    rw [← h.2]
    exact adds_refl _ w7

theorem close_finish_trace (b : Build) (env : Env) (g4 : Globals) (c5 : Context) (w5 : World)
    (mm purge : Int) (n : Nat) (r : CloseResult)
    (h : close_finish b env g4 c5 w5 mm purge n = some r) :
    ∃ evs, r.w.trace = w5.trace ++ evs ∧
      (Event.open_rdwr (c5.path.getD "") ∈ evs ↔ unlink_wanted g4 c5 = true) ∧
      (Event.unlink (c5.path.getD "") ∈ evs ↔
        unlink_wanted g4 c5 = true ∧
          unlink_empty_removes b env g4 (c5.path.getD "") (close_summary c5 w5 mm n)) := by
  unfold close_finish at h
  obtain ⟨evsS, hS1, hS2⟩ := adds_evs _ _ _ (close_summary_adds c5 w5 mm n)
  cases h1 : close_unlink b env g4 c5 (close_summary c5 w5 mm n) with
  | none => rw [h1] at h; cases h
  | some w7 =>
    rw [h1] at h
    dsimp only at h
    cases h2 : close_sidebar b c5 w7 purge with
    | none => rw [h2] at h; cases h
    | some x =>
      obtain ⟨c6, w8⟩ := x
      rw [h2] at h
      dsimp only at h
      obtain ⟨evsB, hB1, hB2⟩ := adds_evs _ _ _ (close_sidebar_adds b c5 w7 purge c6 w8 h2)
      cases h3 : mx_fastclose_mailbox env c6 w8 with
      | none => rw [h3] at h; cases h
      | some y =>
        obtain ⟨c, w9⟩ := y
        rw [h3] at h
        simp only [Option.some.injEq] at h
        subst h
        obtain ⟨evsT, hT1, hT2⟩ := adds_evs _ _ _
          (adds_mono _ _ _ _ teardown_not_removal (mx_fastclose_mailbox_adds env c6 w8 c w9 h3).2)
        unfold close_unlink at h1
        rw [close_unlink_test] at h1
        by_cases hw : unlink_wanted g4 c5 = true
        · rw [if_pos hw] at h1
          obtain ⟨rest, hR1, hR2⟩ := mx_unlink_empty_trace b env g4 _ _ _ h1
          refine ⟨evsS ++ Event.open_rdwr (c5.path.getD "") :: rest ++ evsB ++ evsT, ?_, ?_, ?_⟩
          · show w9.trace = _
            rw [hT1, hB1, hR1, hS1]
            simp
          · simp [hw]
          · simp only [List.mem_append, List.mem_cons, hw, true_and]
            constructor
            · rintro (((hm | hm | hm) | hm) | hm)
              · exact absurd hm (hS2 _ rfl)
              · cases hm
              · exact hR2.1 hm
              · exact absurd hm (hB2 _ rfl)
              · exact absurd hm (hT2 _ rfl)
            · intro hx
              exact Or.inl (Or.inl (Or.inr (Or.inr (hR2.2 hx))))
        · rw [if_neg hw] at h1
          simp only [Option.some.injEq] at h1
          subst h1
          refine ⟨evsS ++ evsB ++ evsT, ?_, ?_, ?_⟩
          · show w9.trace = _
            rw [hT1, hB1, hS1]
            simp
          · simp only [List.mem_append]
            constructor
            · rintro ((hm | hm) | hm)
              · exact absurd hm (hS2 _ rfl)
              · exact absurd hm (hB2 _ rfl)
              · exact absurd hm (hT2 _ rfl)
            · intro hx; exact absurd hx hw
          · simp only [List.mem_append]
            constructor
            · rintro ((hm | hm) | hm)
              · exact absurd hm (hS2 _ rfl)
              · exact absurd hm (hB2 _ rfl)
              · exact absurd hm (hT2 _ rfl)
            · intro hx; exact absurd hx.1 hw

theorem sync_summary_adds (b : Build) (p : CheckPoint) (c : Context) (w : World) :
    World.adds Event.not_removal w (sync_summary b p c w) := by
  unfold sync_summary
  apply adds_log _ _ _ _ _ rfl
  split
  · split
    · exact adds_log _ _ _ _ (adds_refl _ w) rfl
    · exact adds_refl _ w
  · split
    · exact adds_log _ _ _ _ (adds_refl _ w) rfl
    · exact adds_refl _ w

theorem sync_finish_trace (b : Build) (env : Env) (p : CheckPoint) (c : Context) (w : World)
    (r : SyncResult) (h : sync_finish b env p c w = some r) :
    ∃ evs, r.w.trace = w.trace ++ evs ∧
      (Event.unlink (c.path.getD "") ∈ evs ↔ unlink_wanted p.g c = true) ∧
      (unlink_wanted p.g c = true → r.exit = SyncExit.unlinked ∧ r.ctx = Context.zero) ∧
      (unlink_wanted p.g c = false → r.exit = SyncExit.finished) := by
  unfold sync_finish at h
  obtain ⟨evsS, hS1, hS2⟩ := adds_evs _ _ _ (sync_summary_adds b p c w)
  have htest : ((c.msgcount : Int) == c.deleted && (c.magic == MUTT_MBOX || c.magic == MUTT_MMDF)
      && !mutt_is_spool p.g c.path && !p.g.opts.OPTSAVEEMPTY) = unlink_wanted p.g c := rfl
  rw [htest] at h
  by_cases hw : unlink_wanted p.g c = true
  · rw [if_pos hw] at h
    cases hx : mx_fastclose_mailbox env c
        ((sync_summary b p c w).log (Event.unlink (c.path.getD ""))) with
    | none => rw [hx] at h; cases h
    | some x =>
      obtain ⟨c1, w1⟩ := x
      rw [hx] at h
      simp only [Option.some.injEq] at h
      subst h
      obtain ⟨hz, ht⟩ := mx_fastclose_mailbox_adds env _ _ _ _ hx
      obtain ⟨evsT, hT1, hT2⟩ := adds_evs _ _ _ (adds_mono _ _ _ _ teardown_not_removal ht)
      refine ⟨evsS ++ [Event.unlink (c.path.getD "")] ++ evsT, ?_, ?_, ?_, ?_⟩
      · show w1.trace = _
        rw [hT1, log_trace, hS1]
        simp
      · simp [hw]
      · intro _; exact ⟨rfl, hz⟩
      · intro hf; rw [hw] at hf; cases hf
  · rw [if_neg hw] at h
    have hwf : unlink_wanted p.g c = false := by simpa using hw
    have key : ∀ (evs : List Event), (∀ e, Event.not_removal e = false → e ∉ evs) →
        r.w.trace = w.trace ++ evs → r.exit = SyncExit.finished →
        ∃ evs, r.w.trace = w.trace ++ evs ∧
          (Event.unlink (c.path.getD "") ∈ evs ↔ unlink_wanted p.g c = true) ∧
          (unlink_wanted p.g c = true → r.exit = SyncExit.unlinked ∧ r.ctx = Context.zero) ∧
          (unlink_wanted p.g c = false → r.exit = SyncExit.finished) := by
      intro evs h1 h2 h3
      refine ⟨evs, h2, ?_, fun hc => absurd hc hw, fun _ => h3⟩
      simp only [hwf, Bool.false_eq_true, iff_false]
      exact h1 _ rfl
    by_cases h2 : (p.purge != 0 || (c.magic != MUTT_MAILDIR && c.magic != MUTT_MH)) = true
    · rw [if_pos h2] at h
      by_cases h3 : (c.magic != MUTT_IMAP) = true
      · rw [if_pos h3] at h
        cases hx : mx_update_tables p.g.opts c true with
        | none => rw [hx] at h; cases h
        | some x =>
          rw [hx] at h
          simp only [Option.some.injEq] at h
          subst h
          refine key (evsS ++ [Event.sort_headers]) ?_ ?_ rfl
          · intro e he hm
            simp only [List.mem_append, List.mem_singleton] at hm
            rcases hm with hm | hm
            · exact hS2 e he hm
            · subst hm; cases he
          · show ((sync_summary b p c w).log Event.sort_headers).trace = _
            rw [log_trace, hS1]
            simp
      · rw [if_neg h3] at h
        simp only [Option.some.injEq] at h
        subst h
        exact key evsS hS2 hS1 rfl
    · rw [if_neg h2] at h
      simp only [Option.some.injEq] at h
      subst h
      exact key evsS hS2 hS1 rfl

/-- C20 as stated fails for `mx_close_mailbox`: every message of the example
mbox is deleted, the purge is confirmed, the backend sync succeeds, the path
is not the spool and `$save_empty` is off, so the test for the removal holds;
but `mx_unlink_empty` finds the file non-empty (size 100) and does not unlink
it.  The close returns 0 and its trace has no `unlink`. -/
theorem close_keeps_nonempty_file :
    (mx_close_mailbox ex_build_nodot ex_env_nonempty 1 ex_globals ex_all_deleted_ctx
        ex_world).map (fun r => (r.rc, r.exit, r.w.trace)) =
      some (0, CloseExit.closed,
        [Event.query_quadoption QuadOpt.OPT_DELETE "Purge %d deleted message?",
         Event.message "Writing %s..." [], Event.ops_sync MUTT_MBOX,
         Event.message "%d kept, %d deleted." [0, 1], Event.open_rdwr "/tmp/mbox",
         Event.setlk LockKind.fcntl true, Event.setlk LockKind.flock true, Event.fstat,
         Event.unlock LockKind.fcntl, Event.unlock LockKind.flock, Event.close_fd,
         Event.sb_set_buffystats 0 0 0, Event.buffy_setnotified (some "/tmp/mbox"),
         Event.ops_close MUTT_MBOX]) ∧
    unlink_wanted ex_globals { ex_all_deleted_ctx with closing := true } = true :=
  ⟨rfl, rfl⟩

/-- C20, amended: after a successful sync block `mx_close_mailbox` calls
`mx_unlink_empty` (whose first act is to open the file) if and only if every
message is deleted, the kind is MBOX or MMDF, the path is not the spool and
`$save_empty` is off; `mx_unlink_empty` unlinks the file only in a build
without the dotlock helper (with it, the removal is left to the helper) and
only when the file opens, the lock is granted and `fstat` reports size zero.
After a successful backend sync `mx_sync_mailbox` unlinks the file if and
only if the same test holds, and then tears the session down. -/
theorem unlink_after_sync (b : Build) (env : Env) (fuel : Nat) (g : Globals) (ctx : Context)
    (w : World) :
    (∀ (g2 : Globals) (path : String) (w1 wu : World),
      mx_unlink_empty b env g2 path w1 = some wu →
      ∃ rest, wu.trace = w1.trace ++ Event.open_rdwr path :: rest ∧
        (Event.unlink path ∈ rest ↔ unlink_empty_removes b env g2 path w1)) ∧
    (∀ (p : SyncPoint) (c5 : Context) (w5 : World) (r : CloseResult),
      close_until_sync b env fuel g ctx w = some (.ok p) →
      close_sync b env p.g p.ctx p.w p.purge = some (.ok (c5, w5)) →
      mx_close_mailbox b env (fuel + 1) g ctx w = some r →
      ∃ evs, r.w.trace = w5.trace ++ evs ∧
        (Event.open_rdwr (c5.path.getD "") ∈ evs ↔ unlink_wanted p.g c5 = true) ∧
        (Event.unlink (c5.path.getD "") ∈ evs ↔
          unlink_wanted p.g c5 = true ∧
            unlink_empty_removes b env p.g (c5.path.getD "")
              (close_summary c5 w5 p.move_messages p.read_msgs))) ∧
    (∀ (q : CheckPoint) (r : SyncResult),
      sync_until_backend b env fuel g ctx w = some (.ok q) →
      (sync_backend b env q.ctx q.w q.purge).1 = 0 →
      mx_sync_mailbox b env fuel g ctx w = some r →
      ∃ evs, r.w.trace = (sync_backend b env q.ctx q.w q.purge).2.2.trace ++ evs ∧
        (Event.unlink ((sync_backend b env q.ctx q.w q.purge).2.1.path.getD "") ∈ evs ↔
          unlink_wanted q.g (sync_backend b env q.ctx q.w q.purge).2.1 = true) ∧
        (unlink_wanted q.g (sync_backend b env q.ctx q.w q.purge).2.1 = true →
          r.exit = SyncExit.unlinked ∧ r.ctx = Context.zero) ∧
        (unlink_wanted q.g (sync_backend b env q.ctx q.w q.purge).2.1 = false →
          r.exit = SyncExit.finished)) := by
  refine ⟨fun g2 path w1 wu h => mx_unlink_empty_trace b env g2 path w1 wu h, ?_, ?_⟩
  · intro p c5 w5 r hp hs hr
    rw [mx_close_mailbox_eq, hp] at hr
    dsimp only at hr
    unfold close_from_sync at hr
    rw [hs] at hr
    exact close_finish_trace b env p.g c5 w5 _ _ _ r hr
  · intro q r hq hrc hr
    unfold mx_sync_mailbox at hr
    rw [hq] at hr
    dsimp only at hr
    have : ((sync_backend b env q.ctx q.w q.purge).1 == 0) = true := by simp [hrc]
    rw [if_pos this] at hr
    exact sync_finish_trace b env q _ _ r hr

/-- Witness of the amended C20: the same close with the file found empty; the
file is opened and unlinked. -/
theorem unlink_after_sync_witness :
    (close_until_sync ex_build_nodot ex_env 0 ex_globals ex_all_deleted_ctx ex_world =
        some (.ok ex_all_deleted_point) ∧
      close_sync ex_build_nodot ex_env ex_all_deleted_point.g ex_all_deleted_point.ctx
          ex_all_deleted_point.w ex_all_deleted_point.purge =
        some (.ok (ex_all_deleted_point.ctx, ex_synced_world)) ∧
      mx_close_mailbox ex_build_nodot ex_env 1 ex_globals ex_all_deleted_ctx ex_world =
        some ex_all_deleted_closed) ∧
    ∃ evs, ex_all_deleted_closed.w.trace = ex_synced_world.trace ++ evs ∧
      (Event.open_rdwr (ex_all_deleted_point.ctx.path.getD "") ∈ evs ↔
        unlink_wanted ex_all_deleted_point.g ex_all_deleted_point.ctx = true) ∧
      (Event.unlink (ex_all_deleted_point.ctx.path.getD "") ∈ evs ↔
        unlink_wanted ex_all_deleted_point.g ex_all_deleted_point.ctx = true ∧
          unlink_empty_removes ex_build_nodot ex_env ex_all_deleted_point.g
            (ex_all_deleted_point.ctx.path.getD "")
            (close_summary ex_all_deleted_point.ctx ex_synced_world
              ex_all_deleted_point.move_messages ex_all_deleted_point.read_msgs)) :=
  ⟨⟨rfl, rfl, rfl⟩,
    (unlink_after_sync ex_build_nodot ex_env 0 ex_globals ex_all_deleted_ctx ex_world).2.1
      ex_all_deleted_point ex_all_deleted_point.ctx ex_synced_world ex_all_deleted_closed
      rfl rfl rfl⟩

theorem filter_dropWhile_not {α : Type} (p : α → Bool) : ∀ (l : List α),
    (l.dropWhile (fun x => !p x)).filter p = l.filter p
  | [] => rfl
  | x :: t => by
    cases hp : p x
    · simp [List.dropWhile, List.filter, hp, filter_dropWhile_not p t]
    · simp [List.dropWhile, hp]

theorem trash_copy_loop_ok (env : Env) (src : Context)
    (hok : ∀ tr d h, (env.mutt_append_message tr d src h).1 ≠ -1) :
    ∀ (todo : List Header) (trash : Context) (w : World),
      (trash_copy_loop env src todo trash w).1 = 0 ∧
      (trash_copy_loop env src todo trash w).2.2.trace =
        w.trace ++ (todo.filter (fun h => h.deleted && !h.purge)).map
          (fun h => Event.append_message h.addr 0)
  | [], trash, w => by simp [trash_copy_loop]
  | h :: rest, trash, w => by
    unfold trash_copy_loop
    by_cases hp : (h.deleted && !h.purge) = true
    · rw [if_pos hp]
      dsimp only
      have h1 : ¬ ((env.mutt_append_message w.trace trash src h).1 == -1) = true := by
        simpa using hok w.trace trash h
      rw [if_neg h1]
      obtain ⟨a, b⟩ := trash_copy_loop_ok env src hok rest
        (env.mutt_append_message w.trace trash src h).2 (w.log (Event.append_message h.addr 0))
      refine ⟨a, ?_⟩
      rw [b, log_trace]
      simp [List.filter, hp]
    · rw [if_neg hp]
      obtain ⟨a, b⟩ := trash_copy_loop_ok env src hok rest trash w
      refine ⟨a, ?_⟩
      rw [b]
      have hp2 : (h.deleted && !h.purge) = false := by simpa using hp
      simp [List.filter, hp2]

/-- C18: when every append succeeds, a call of `trash_append` that returns
either made no copy at all (it returned -1, or 0 from one of the early
returns, having asked at most `mutt_save_confirm`, `lstat` and
`imap_fast_trash`), or it opened the trash path for append, appended to that
session exactly the records with `deleted && !purge`, each once and in
storage order (a record with `purge` set is not among them), closed the
trash session and returned 0. -/
theorem trash_append_copies (b : Build) (env : Env) (g : Globals) (ctx : Context) (w : World)
    (close_nested : Globals → Context → World → Option CloseResult)
    (recs : List Header) (res : Int × Globals × World)
    (hlive : ctx.live = some recs)
    (hok : ∀ tr d h, (env.mutt_append_message tr d ctx h).1 ≠ -1)
    (h : trash_append b env g ctx w close_nested = some res) :
    TrashOutcome b env g ctx w close_nested recs res := by
  unfold TrashOutcome
  unfold trash_append at h
  cases htp : g.TrashPath with
  | none =>
    rw [htp] at h
    simp only [Option.some.injEq] at h
    subst h
    exact Or.inr (Or.inl ⟨rfl, rfl, adds_refl _ w⟩)
  | some tp =>
    rw [htp] at h
    dsimp only at h
    by_cases h0 : (ctx.deleted == 0 || (ctx.magic == MUTT_MAILDIR && g.opts.OPTMAILDIRTRASH)) = true
    · rw [if_pos h0] at h
      simp only [Option.some.injEq] at h
      subst h
      exact Or.inr (Or.inl ⟨rfl, rfl, adds_refl _ w⟩)
    · rw [if_neg h0, hlive] at h
      dsimp only at h
      have hd : ctx.deleted ≠ 0 ∧ ¬ (ctx.magic = MUTT_MAILDIR ∧ g.opts.OPTMAILDIRTRASH = true) := by
        simpa using h0
      by_cases h1 : (recs.dropWhile (fun h => !(h.deleted && !h.purge))).isEmpty = true
      · rw [if_pos h1] at h
        simp only [Option.some.injEq] at h
        subst h
        exact Or.inr (Or.inl ⟨rfl, rfl, adds_refl _ w⟩)
      · rw [if_neg h1] at h
        by_cases h2 : ((env.mutt_save_confirm w.trace tp).1 != 0) = true
        · rw [if_pos h2] at h
          simp only [Option.some.injEq] at h
          subst h
          refine Or.inl ⟨rfl, ?_⟩
          intro tp2 _ hz
          simp only [Option.some.injEq] at *
          have : (env.mutt_save_confirm w.trace tp).1 ≠ 0 := by simpa using h2
          rename_i htp2
          rw [← htp2] at hz
          exact absurd hz this
        · rw [if_neg h2] at h
          have s2 : World.adds Event.not_append w
              ((w.log (Event.save_confirm tp)).log (Event.lstat (ctx.path.getD ""))) :=
            adds_log _ _ _ _ (adds_log _ _ _ _ (adds_refl _ w) rfl) rfl
          split at h
          · simp only [Option.some.injEq] at h
            subst h
            exact Or.inr (Or.inl ⟨rfl, rfl, s2⟩)
          · split at h
            · cases h
            · rename_i w3 hfast
              simp only [Option.some.injEq] at h
              subst h
              refine Or.inr (Or.inl ⟨rfl, rfl, ?_⟩)
              have : w3 = ((w.log (Event.save_confirm tp)).log (Event.lstat (ctx.path.getD ""))).log
                  (Event.imap_fast_trash tp) := by
                revert hfast
                split
                · split
                  · intro hc; cases hc
                  · split
                    · intro hc
                      simp only [Option.some.injEq, Prod.mk.injEq] at hc
                      exact hc.2.symm
                    · intro hc
                      simp only [Option.some.injEq, Prod.mk.injEq] at hc
                      exact absurd hc.1 (by simp)
                  · split
                    · intro hc
                      simp only [Option.some.injEq, Prod.mk.injEq] at hc
                      exact hc.2.symm
                    · intro hc
                      simp only [Option.some.injEq, Prod.mk.injEq] at hc
                      exact absurd hc.1 (by simp)
                · intro hc
                  simp only [Option.some.injEq, Prod.mk.injEq] at hc
                  exact absurd hc.1 (by simp)
              rw [this]
              exact adds_log _ _ _ _ s2 rfl
            · rename_i w3 hfast
              cases ho : mx_open_mailbox b env g (some tp)
                  { MUTT_NOSORT := false, MUTT_APPEND := true, MUTT_READONLY := false,
                    MUTT_QUIET := false, MUTT_NEWFOLDER := false, MUTT_PEEK := false,
                    MUTT_APPENDNEW := false } (some Context.zero) w3 with
              | none => rw [ho] at h; cases h
              | some o =>
                rw [ho] at h
                dsimp only at h
                cases hr : o.ret with
                | none =>
                  rw [hr] at h
                  simp only [Option.some.injEq] at h
                  subst h
                  refine Or.inl ⟨rfl, ?_⟩
                  intro tp2 htp2 _
                  simp only [Option.some.injEq] at htp2
                  subst htp2
                  exact ⟨w3, o, ho, hr⟩
                | some t =>
                  rw [hr] at h
                  dsimp only at h
                  cases hc : close_nested o.g
                      (trash_copy_loop env ctx
                        (recs.dropWhile (fun h => !(h.deleted && !h.purge))) t o.w).2.1
                      (trash_copy_loop env ctx
                        (recs.dropWhile (fun h => !(h.deleted && !h.purge))) t o.w).2.2 with
                  | none => rw [hc] at h; cases h
                  | some cr =>
                    rw [hc] at h
                    simp only [Option.some.injEq] at h
                    obtain ⟨k1, k2⟩ := trash_copy_loop_ok env ctx hok
                      (recs.dropWhile (fun h => !(h.deleted && !h.purge))) t o.w
                    rw [filter_dropWhile_not (fun h : Header => h.deleted && !h.purge)] at k2
                    rw [k1] at h
                    exact Or.inr (Or.inr ⟨tp, w3, o, t, cr, rfl, hd.1, hd.2, ho, hr, k2, hc,
                      h.symm⟩)

/-- Witness of C18: of the three records only the first (deleted, not purged)
is appended to the trash. -/
theorem trash_append_copies_witness :
    (ex_trash_ctx.live = some ex_trash_ctx.records ∧
      (∀ tr d h, (ex_env.mutt_append_message tr d ex_trash_ctx h).1 ≠ -1) ∧
      trash_append ex_build ex_env ex_trash_globals ex_trash_ctx ex_world
        (mx_close_mailbox ex_build ex_env 1) = some ex_trash_result) ∧
    TrashOutcome ex_build ex_env ex_trash_globals ex_trash_ctx ex_world
      (mx_close_mailbox ex_build ex_env 1) ex_trash_ctx.records ex_trash_result :=
  ⟨⟨rfl, fun _ _ _ => (by decide : (0 : Int) ≠ -1), rfl⟩,
    trash_append_copies ex_build ex_env ex_trash_globals ex_trash_ctx ex_world
      (mx_close_mailbox ex_build ex_env 1) ex_trash_ctx.records ex_trash_result rfl
      (fun _ _ _ => (by decide : (0 : Int) ≠ -1)) rfl⟩

theorem slot_get (done : List Header) (x : Option Header) (tail : List (Option Header)) :
    (done.map some ++ x :: tail).get? done.length = some x := by
  have := slots_get_mid (done.map some) tail x
  rw [List.length_map] at this
  rw [List.get?_eq_getElem?]
  exact this

theorem slot_set (done : List Header) (x y : Option Header) (tail : List (Option Header)) :
    (done.map some ++ x :: tail).set done.length y = done.map some ++ y :: tail := by
  have := slots_set_mid (done.map some) tail x y
  rw [List.length_map] at this
  exact this

theorem mutt_set_flag_at (env : Env) (c : Context) (done : List Header) (h : Header)
    (tail : List (Option Header)) (flag : MsgFlag) (bf : Bool) (w : World)
    (hh : c.hdrs = done.map some ++ some h :: tail)
    (hkeep : (env.mutt_set_flag c h flag bf).2.hdrs = c.hdrs) :
    ∃ c1, mutt_set_flag env c done.length flag bf w =
        some (c1, w.log (Event.set_flag h.addr flag bf)) ∧
      c1.hdrs = done.map some ++ some (env.mutt_set_flag c h flag bf).1 :: tail ∧
      c1.msgcount = (env.mutt_set_flag c h flag bf).2.msgcount ∧
      c1.magic = (env.mutt_set_flag c h flag bf).2.magic := by
  refine ⟨{ (env.mutt_set_flag c h flag bf).2 with
    hdrs := (env.mutt_set_flag c h flag bf).2.hdrs.set done.length
      (some (env.mutt_set_flag c h flag bf).1) }, ?_, ?_, rfl, rfl⟩
  · unfold mutt_set_flag
    rw [hh, slot_get]
  · show (env.mutt_set_flag c h flag bf).2.hdrs.set done.length _ = _
    rw [hkeep, hh, slot_set]

theorem snoc_slots (done : List Header) (h : Header) (tail : List (Option Header)) :
    done.map some ++ some h :: tail = (done ++ [h]).map some ++ tail := by
  simp

theorem set_flag_loop_old (env : Env) (hc : FlagContract env) (cond : Header → Bool)
    (rest : List (Option Header)) :
    ∀ (todo done : List Header) (c : Context) (w : World) (c2 : Context) (w2 : World),
      c.hdrs = done.map some ++ (todo.map some ++ rest) →
      set_flag_loop env cond MsgFlag.MUTT_OLD todo.length done.length c w = some (c2, w2) →
      ∃ todo2, c2.hdrs = done.map some ++ (todo2.map some ++ rest) ∧
        c2.msgcount = c.msgcount ∧ c2.magic = c.magic ∧ List.Forall₂ same_flags todo todo2 := by
  intro todo
  induction todo with
  | nil =>
    intro done c w c2 w2 hh h
    simp only [List.length_nil, set_flag_loop, Option.some.injEq, Prod.mk.injEq] at h
    obtain ⟨h1, _⟩ := h
    subst h1
    exact ⟨[], hh, rfl, rfl, List.Forall₂.nil⟩
  | cons h t ih =>
    intro done c w c2 w2 hh hl
    have hh2 : c.hdrs = done.map some ++ some h :: (t.map some ++ rest) := by
      rw [hh]; simp
    have hget : c.hdrs.get? done.length = some (some h) := by rw [hh2, slot_get]
    simp only [List.length_cons, set_flag_loop, hget] at hl
    by_cases hcond : cond h = true
    · rw [if_pos hcond] at hl
      obtain ⟨k1, k2, k3, k4, k5, k6, k7, k8⟩ := hc.old c h
      obtain ⟨c1, e1, e2, e3, e4⟩ := mutt_set_flag_at env c done h (t.map some ++ rest)
        MsgFlag.MUTT_OLD true w hh2 k6
      rw [e1] at hl
      dsimp only at hl
      rw [snoc_slots] at e2
      have hlen : done.length + 1 = (done ++ [(env.mutt_set_flag c h MsgFlag.MUTT_OLD true).1]).length := by
        simp
      rw [hlen] at hl
      obtain ⟨todo2, a1, a2, a3, a4⟩ := ih _ c1 _ c2 w2 e2 hl
      refine ⟨(env.mutt_set_flag c h MsgFlag.MUTT_OLD true).1 :: todo2, ?_, ?_, ?_, ?_⟩
      · rw [a1]; simp
      · rw [a2, e3, k7]
      · rw [a3, e4, k8]
      · exact List.Forall₂.cons ⟨k5, k1, k2, k3, k4⟩ a4
    · rw [if_neg hcond] at hl
      have e2 : c.hdrs = (done ++ [h]).map some ++ (t.map some ++ rest) := by
        rw [hh2, snoc_slots]
      have hlen : done.length + 1 = (done ++ [h]).length := by simp
      rw [hlen] at hl
      obtain ⟨todo2, a1, a2, a3, a4⟩ := ih _ c _ c2 w2 e2 hl
      refine ⟨h :: todo2, ?_, a2, a3, ?_⟩
      · rw [a1]; simp
      · exact List.Forall₂.cons ⟨rfl, rfl, rfl, rfl, rfl⟩ a4

theorem move_test (opts : Options) (h : Header) :
    (h.read && !h.deleted && !(h.flagged && opts.OPTKEEPFLAGGED)) = is_read_msg opts h := by
  unfold is_read_msg
  cases h.read <;> cases h.deleted <;> rfl

theorem move_copy_loop_marks (env : Env) (opts : Options) (hc : FlagContract env)
    (rest : List (Option Header)) :
    ∀ (todo done : List Header) (c f : Context) (w : World) (ok : Bool) (c2 f2 : Context)
      (w2 : World),
      c.hdrs = done.map some ++ (todo.map some ++ rest) →
      move_copy_loop env opts todo.length done.length c f w = some (ok, c2, f2, w2) →
      ok = true →
      ∃ todo2, c2.hdrs = done.map some ++ (todo2.map some ++ rest) ∧
        c2.msgcount = c.msgcount ∧ c2.magic = c.magic ∧
        List.Forall₂ (relocated opts) todo todo2 := by
  intro todo
  induction todo with
  | nil =>
    intro done c f w ok c2 f2 w2 hh h _
    simp only [List.length_nil, move_copy_loop, Option.some.injEq, Prod.mk.injEq] at h
    obtain ⟨_, h1, _⟩ := h
    subst h1
    exact ⟨[], hh, rfl, rfl, List.Forall₂.nil⟩
  | cons h t ih =>
    intro done c f w ok c2 f2 w2 hh hl hok
    have hh2 : c.hdrs = done.map some ++ some h :: (t.map some ++ rest) := by
      rw [hh]; simp
    have hget : c.hdrs.get? done.length = some (some h) := by rw [hh2, slot_get]
    simp only [List.length_cons, move_copy_loop, hget, move_test] at hl
    by_cases hcond : is_read_msg opts h = true
    · rw [if_pos hcond] at hl
      by_cases hcopy : ((env.mutt_append_message w.trace f c h).1 == 0) = true
      · rw [if_pos hcopy] at hl
        obtain ⟨k1, k2, k3, k4, k5, k6⟩ := hc.del c h
        obtain ⟨c1, e1, e2, e3, e4⟩ := mutt_set_flag_at env c done h (t.map some ++ rest)
          MsgFlag.MUTT_DELETE true (w.log (Event.append_message h.addr 1)) hh2 k4
        rw [e1] at hl
        dsimp only at hl
        obtain ⟨p1, p2, p3, p4, p5, p6⟩ := hc.purge c1
          (env.mutt_set_flag c h MsgFlag.MUTT_DELETE true).1
        obtain ⟨c3, d1, d2, d3, d4⟩ := mutt_set_flag_at env c1 done
          (env.mutt_set_flag c h MsgFlag.MUTT_DELETE true).1 (t.map some ++ rest)
          MsgFlag.MUTT_PURGE true
          ((w.log (Event.append_message h.addr 1)).log
            (Event.set_flag h.addr MsgFlag.MUTT_DELETE true)) e2 p4
        rw [d1] at hl
        dsimp only at hl
        rw [snoc_slots] at d2
        have hlen : done.length + 1 = (done ++ [(env.mutt_set_flag c1
            (env.mutt_set_flag c h MsgFlag.MUTT_DELETE true).1 MsgFlag.MUTT_PURGE true).1]).length := by
          simp
        rw [hlen] at hl
        obtain ⟨todo2, a1, a2, a3, a4⟩ := ih _ c3 _ _ ok c2 f2 w2 d2 hl hok
        refine ⟨(env.mutt_set_flag c1 (env.mutt_set_flag c h MsgFlag.MUTT_DELETE true).1
          MsgFlag.MUTT_PURGE true).1 :: todo2, ?_, ?_, ?_, List.Forall₂.cons ⟨?_, ?_, ?_⟩ a4⟩
        · rw [a1]; simp
        · rw [a2, d3, p5, e3, k5]
        · rw [a3, d4, p6, e4, k6]
        · rw [p3, k3]
        · intro _; exact ⟨by rw [p2, k1], p1⟩
        · intro hf; rw [hcond] at hf; cases hf
      · rw [if_neg hcopy] at hl
        simp only [Option.some.injEq, Prod.mk.injEq] at hl
        rw [← hl.1] at hok
        cases hok
    · rw [if_neg hcond] at hl
      have e2 : c.hdrs = (done ++ [h]).map some ++ (t.map some ++ rest) := by
        rw [hh2, snoc_slots]
      have hlen : done.length + 1 = (done ++ [h]).length := by simp
      rw [hlen] at hl
      obtain ⟨todo2, a1, a2, a3, a4⟩ := ih _ c _ _ ok c2 f2 w2 e2 hl hok
      refine ⟨h :: todo2, ?_, a2, a3, List.Forall₂.cons ⟨rfl, ?_, fun _ => rfl⟩ a4⟩
      · rw [a1]; simp
      · intro ht; exact absurd ht hcond

theorem live_split (c : Context) (rs : List Header) (h : c.live = some rs) :
    c.hdrs = rs.map some ++ ([].map some ++ c.hdrs.drop c.msgcount) ∧ rs.length = c.msgcount := by
  obtain ⟨_, h2, h3⟩ := live_some c rs h
  refine ⟨?_, h3⟩
  rw [List.map_nil, List.nil_append, ← h2, List.take_append_drop]

theorem close_mark_old_keeps (env : Env) (hc : FlagContract env) (g1 : Globals) (c1 : Context)
    (w : World) (c2 : Context) (w2 : World) (recs1 : List Header)
    (hlive : c1.live = some recs1)
    (h : close_mark_old env g1 c1 w = some (c2, w2)) :
    ∃ recs2, c2.live = some recs2 ∧ c2.magic = c1.magic ∧ c2.msgcount = c1.msgcount ∧
      List.Forall₂ same_flags recs1 recs2 := by
  obtain ⟨hh, hlen⟩ := live_split c1 recs1 hlive
  unfold close_mark_old at h
  by_cases ho : g1.opts.OPTMARKOLD = true
  · rw [if_pos ho, ← hlen] at h
    have hh2 : c1.hdrs = ([] : List Header).map some ++
        (recs1.map some ++ c1.hdrs.drop c1.msgcount) := by
      rw [List.map_nil, List.nil_append]
      simpa using hh
    obtain ⟨recs2, a1, a2, a3, a4⟩ := set_flag_loop_old env hc _ (c1.hdrs.drop c1.msgcount)
      recs1 [] c1 w c2 w2 hh2 h
    refine ⟨recs2, ?_, a3, a2, a4⟩
    apply live_of_slots c2 recs2 (c1.hdrs.drop c1.msgcount)
    · simpa using a1
    · rw [a2, ← hlen]
      exact a4.length_eq
  · rw [if_neg ho] at h
    simp only [Option.some.injEq, Prod.mk.injEq] at h
    rw [← h.1]
    refine ⟨recs1, hlive, rfl, rfl, ?_⟩
    clear hh hlen hlive
    induction recs1 with
    | nil => exact List.Forall₂.nil
    | cons a t ih => exact List.Forall₂.cons ⟨rfl, rfl, rfl, rfl, rfl⟩ ih

theorem mx_open_mailbox_append_globals (b : Build) (env : Env) (g : Globals)
    (path : Option String) (pctx : Option Context) (w : World) (o : OpenResult)
    (h : mx_open_mailbox b env g path append_flags pctx w = some o) : o.g = g := by
  unfold mx_open_mailbox at h
  cases path with
  | none =>
    simp only [Option.some.injEq] at h
    rw [← h]
  | some p =>
    dsimp only at h
    by_cases he : p.isEmpty = true
    · rw [if_pos he] at h
      simp only [Option.some.injEq] at h
      rw [← h]
    · rw [if_neg he] at h
      have ha : (append_flags.MUTT_APPEND || append_flags.MUTT_NEWFOLDER) = true := rfl
      rw [if_pos ha] at h
      simp only [append_flags, Bool.false_eq_true, if_false] at h
      split at h
      · split at h
        · cases h
        · simp only [Option.some.injEq] at h
          rw [← h]
      · simp only [Option.some.injEq] at h
        rw [← h]

theorem close_move_append_marks (b : Build) (env : Env) (hc : FlagContract env)
    (close_nested : Globals → Context → World → Option CloseResult)
    (g1 : Globals) (c2 : Context) (w4 : World) (mbox : String) (c3 : Context) (g3 : Globals)
    (w3 : World) (recs2 : List Header)
    (hlive : c2.live = some recs2)
    (h : close_move_append b env close_nested g1 c2 w4 mbox = some (.ok (c3, g3, w3))) :
    ∃ recs3, c3.live = some recs3 ∧ List.Forall₂ (relocated g1.opts) recs2 recs3 := by
  obtain ⟨hh, hlen⟩ := live_split c2 recs2 hlive
  unfold close_move_append at h
  cases h1 : mx_open_mailbox b env g1 (some mbox) append_flags (some Context.zero) w4 with
  | none => rw [h1] at h; cases h
  | some o =>
    have hg := mx_open_mailbox_append_globals b env g1 _ _ _ o h1
    rw [h1] at h
    dsimp only at h
    cases h2 : o.ret with
    | none => rw [h2] at h; simp at h
    | some f =>
      rw [h2] at h
      dsimp only at h
      cases h3 : move_copy_loop env o.g.opts c2.msgcount 0 c2 f o.w with
      | none => rw [h3] at h; cases h
      | some x =>
        obtain ⟨ok, c4, f1, w5⟩ := x
        rw [h3] at h
        dsimp only at h
        cases h4 : close_nested o.g f1 w5 with
        | none => rw [h4] at h; cases h
        | some cr =>
          rw [h4] at h
          dsimp only at h
          cases ok with
          | false => simp at h
          | true =>
            simp only [if_true, Option.some.injEq, Except.ok.injEq, Prod.mk.injEq] at h
            obtain ⟨e1, _, _⟩ := h
            subst e1
            rw [hg, ← hlen] at h3
            have hh2 : c2.hdrs = ([] : List Header).map some ++
                (recs2.map some ++ c2.hdrs.drop c2.msgcount) := by
              rw [List.map_nil, List.nil_append]
              simpa using hh
            obtain ⟨recs3, a1, a2, a3, a4⟩ := move_copy_loop_marks env g1.opts hc
              (c2.hdrs.drop c2.msgcount) recs2 [] c2 f o.w true c4 f1 w5 hh2 h3 rfl
            refine ⟨recs3, ?_, a4⟩
            apply live_of_slots c4 recs3 (c2.hdrs.drop c2.msgcount)
            · simpa using a1
            · rw [a2, ← hlen]
              exact a4.length_eq

theorem close_move_marks (b : Build) (env : Env) (hc : FlagContract env)
    (close_nested : Globals → Context → World → Option CloseResult)
    (g1 : Globals) (c2 : Context) (w2 : World) (mm : Int) (mbox : String) (c3 : Context)
    (g3 : Globals) (w3 : World) (recs2 : List Header)
    (hlive : c2.live = some recs2) (hmm : mm ≠ 0)
    (hmode : (b.USE_IMAP && c2.magic == MUTT_IMAP) = false)
    (h : close_move b env close_nested g1 c2 w2 mm mbox = some (.ok (c3, g3, w3))) :
    ∃ recs3, c3.live = some recs3 ∧ List.Forall₂ (relocated g1.opts) recs2 recs3 := by
  unfold close_move at h
  have h0 : (mm != 0) = true := by simpa using hmm
  rw [if_pos h0] at h
  have himap : ∀ w3 : World, close_move_imap b env g1 c2 w3 mbox = some (1, c2, w3) := by
    intro w3
    unfold close_move_imap
    cases hb : b.USE_IMAP
    · simp
    · rw [hb] at hmode
      simp only [Bool.true_and] at hmode
      simp [hmode]
  rw [himap] at h
  dsimp only at h
  have n0 : ¬ (b.USE_IMAP && (1 : Int) == 0) = true := by simp
  have n1 : ¬ (b.USE_IMAP && (1 : Int) == -1) = true := by simp
  rw [if_neg n0, if_neg n1] at h
  exact close_move_append_marks b env hc close_nested g1 c2 _ mbox c3 g3 w3 recs2 hlive h

theorem close_catchup_skipped (b : Build) (env : Env) (g : Globals) (c0 : Context) (w : World)
    (h : (b.USE_NNTP && c0.magic == MUTT_NNTP) = false) :
    close_catchup b env g c0 w = some (false, c0, g, w) := by
  unfold close_catchup
  have : ¬ (b.USE_NNTP && c0.unread != 0 && c0.magic == MUTT_NNTP) = true := by
    cases hb : b.USE_NNTP
    · simp
    · rw [hb] at h
      simp only [Bool.true_and] at h
      simp [h]
  rw [if_neg this]

theorem is_read_msg_same (opts : Options) (h1 h2 : Header) (h : same_flags h1 h2) :
    is_read_msg opts h2 = is_read_msg opts h1 := by
  obtain ⟨_, a, b, c, _⟩ := h
  unfold is_read_msg
  rw [a, b, c]

theorem relocated_after_old (opts : Options) : ∀ (l1 l2 l3 : List Header),
    List.Forall₂ same_flags l1 l2 → List.Forall₂ (relocated opts) l2 l3 →
    List.Forall₂ (fun h1 h3 => h3.addr = h1.addr ∧
      (is_read_msg opts h1 = true → h3.deleted = true ∧ h3.purge = true) ∧
      (is_read_msg opts h1 = false → h3.deleted = h1.deleted ∧ h3.purge = h1.purge)) l1 l3
  | [], _, _, h12, h23 => by
    cases h12
    cases h23
    exact List.Forall₂.nil
  | a :: t, _, _, h12, h23 => by
    cases h12 with
    | cons ha ht =>
      cases h23 with
      | cons hb ht2 =>
        refine List.Forall₂.cons ⟨?_, ?_, ?_⟩ (relocated_after_old opts t _ _ ht ht2)
        · rw [hb.1, ha.1]
        · intro hr
          exact hb.2.1 (by rw [is_read_msg_same opts _ _ ha]; exact hr)
        · intro hr
          have := hb.2.2 (by rw [is_read_msg_same opts _ _ ha]; exact hr)
          rw [this]
          exact ⟨ha.2.2.1, ha.2.2.2.2⟩

theorem close_move_append_copy_failed (b : Build) (env : Env)
    (close_nested : Globals → Context → World → Option CloseResult)
    (g1 : Globals) (c3 : Context) (w4 : World) (mbox : String) (r : CloseResult)
    (h : close_move_append b env close_nested g1 c3 w4 mbox = some (.error r))
    (he : r.exit = CloseExit.copy_failed) :
    r.rc = -1 ∧ r.ctx.closing = false ∧
      ∃ g2 f1 w5 cr, close_nested g2 f1 w5 = some cr ∧ r.g = cr.g ∧ r.w = cr.w := by
  unfold close_move_append at h
  cases h1 : mx_open_mailbox b env g1 (some mbox) append_flags (some Context.zero) w4 with
  | none => rw [h1] at h; cases h
  | some o =>
    rw [h1] at h
    dsimp only at h
    cases h2 : o.ret with
    | none =>
      rw [h2] at h
      simp only [Option.some.injEq, Except.error.injEq] at h
      subst h
      cases he
    | some f =>
      rw [h2] at h
      dsimp only at h
      cases h3 : move_copy_loop env o.g.opts c3.msgcount 0 c3 f o.w with
      | none => rw [h3] at h; cases h
      | some x =>
        obtain ⟨ok, c4, f1, w5⟩ := x
        rw [h3] at h
        dsimp only at h
        cases h4 : close_nested o.g f1 w5 with
        | none => rw [h4] at h; cases h
        | some cr =>
          rw [h4] at h
          dsimp only at h
          cases ok with
          | true => simp at h
          | false =>
            simp only [Bool.false_eq_true, if_false, Option.some.injEq, Except.error.injEq] at h
            subst h
            exact ⟨rfl, rfl, o.g, f1, w5, cr, h4, rfl, rfl⟩

theorem close_move_copy_failed (b : Build) (env : Env)
    (close_nested : Globals → Context → World → Option CloseResult)
    (g1 : Globals) (c2 : Context) (w2 : World) (mm : Int) (mbox : String) (r : CloseResult)
    (h : close_move b env close_nested g1 c2 w2 mm mbox = some (.error r))
    (he : r.exit = CloseExit.copy_failed) :
    r.rc = -1 ∧ r.ctx.closing = false ∧
      ∃ g2 f1 w5 cr, close_nested g2 f1 w5 = some cr ∧ r.g = cr.g ∧ r.w = cr.w := by
  unfold close_move at h
  by_cases hm : (mm != 0) = true
  · rw [if_pos hm] at h
    cases h1 : close_move_imap b env g1 c2
        (if (!c2.quiet) = true then w2.log (Event.message "Moving read messages to %s..." [])
          else w2) mbox with
    | none => rw [h1] at h; cases h
    | some x =>
      obtain ⟨i, c3, w4⟩ := x
      rw [h1] at h
      dsimp only at h
      by_cases hi0 : (b.USE_IMAP && i == 0) = true
      · rw [if_pos hi0] at h; simp at h
      · rw [if_neg hi0] at h
        by_cases hi1 : (b.USE_IMAP && i == -1) = true
        · rw [if_pos hi1] at h
          simp only [Option.some.injEq, Except.error.injEq] at h
          subst h
          cases he
        · rw [if_neg hi1] at h
          exact close_move_append_copy_failed b env close_nested g1 c3 w4 mbox r h he
  · rw [if_neg hm] at h
    by_cases hu : (!c2.changed && c2.deleted == 0) = true
    · rw [if_pos hu] at h
      split at h
      · cases h
      · simp only [Option.some.injEq, Except.error.injEq] at h
        subst h
        cases he
    · rw [if_neg hu] at h; simp at h

theorem close_until_sync_copy_failed (b : Build) (env : Env) (fuel : Nat) (g : Globals)
    (ctx : Context) (w : World) (r : CloseResult)
    (h : close_until_sync b env fuel g ctx w = some (.error r))
    (he : r.exit = CloseExit.copy_failed) :
    r.rc = -1 ∧ r.ctx.closing = false ∧
      ∃ g2 f1 w5 cr, mx_close_mailbox b env fuel g2 f1 w5 = some cr ∧ r.g = cr.g ∧
        r.w = cr.w := by
  unfold close_until_sync at h
  by_cases hf : (ctx.readonly || ctx.dontwrite || ctx.append) = true
  · rw [if_pos hf] at h
    cases hx : mx_fastclose_mailbox env { ctx with closing := true } w with
    | none => rw [hx] at h; cases h
    | some x =>
      rw [hx] at h
      simp only [Option.some.injEq, Except.error.injEq] at h
      subst h
      cases he
  · rw [if_neg hf] at h
    cases hc : close_catchup b env g { ctx with closing := true } w with
    | none => rw [hc] at h; cases h
    | some x =>
      obtain ⟨ab, c1, g1, w1⟩ := x
      rw [hc] at h
      cases ab with
      | true =>
        simp only [Option.some.injEq, Except.error.injEq] at h
        subst h
        cases he
      | false =>
        dsimp only at h
        cases hl : c1.live with
        | none => rw [hl] at h; cases h
        | some recs =>
          rw [hl] at h
          dsimp only at h
          by_cases hm : ((close_move_prompt env g1 c1
              (recs.filter (is_read_msg g1.opts)).length w1).1 == MUTT_ABORT) = true
          · rw [if_pos hm] at h
            simp only [Option.some.injEq, Except.error.injEq] at h
            subst h
            cases he
          · rw [if_neg hm] at h
            by_cases hpp : ((close_purge_prompt env g1 c1 (close_move_prompt env g1 c1
                (recs.filter (is_read_msg g1.opts)).length w1).2.2).1 == MUTT_ABORT) = true
            · rw [if_pos hpp] at h
              simp only [Option.some.injEq, Except.error.injEq] at h
              subst h
              cases he
            · rw [if_neg hpp] at h
              cases hmo : close_mark_old env g1 c1 (close_purge_prompt env g1 c1
                  (close_move_prompt env g1 c1
                    (recs.filter (is_read_msg g1.opts)).length w1).2.2).2 with
              | none => rw [hmo] at h; cases h
              | some y =>
                obtain ⟨c2, w2⟩ := y
                rw [hmo] at h
                dsimp only at h
                cases hmv : close_move b env (mx_close_mailbox b env fuel) g1 c2 w2
                    (close_move_prompt env g1 c1
                      (recs.filter (is_read_msg g1.opts)).length w1).1
                    (close_move_prompt env g1 c1
                      (recs.filter (is_read_msg g1.opts)).length w1).2.1 with
                | none => rw [hmv] at h; cases h
                | some z =>
                  rw [hmv] at h
                  cases z with
                  | error r2 =>
                    simp only [Option.some.injEq, Except.error.injEq] at h
                    subst h
                    exact close_move_copy_failed b env _ g1 c2 w2 _ _ _ hmv he
                  | ok u =>
                    obtain ⟨c3, g3, w3⟩ := u
                    dsimp only at h
                    cases htr : close_trash b env (mx_close_mailbox b env fuel) g3 c3 w3
                        (close_purge_prompt env g1 c1 (close_move_prompt env g1 c1
                          (recs.filter (is_read_msg g1.opts)).length w1).2.2).1 with
                    | none => rw [htr] at h; cases h
                    | some t =>
                      obtain ⟨tr, g4, w4⟩ := t
                      rw [htr] at h
                      dsimp only at h
                      by_cases ht : (tr != 0) = true
                      · rw [if_pos ht] at h
                        simp only [Option.some.injEq, Except.error.injEq] at h
                        subst h
                        cases he
                      · rw [if_neg ht] at h
                        simp at h

theorem close_from_sync_exit (b : Build) (env : Env) (p : SyncPoint) (r : CloseResult)
    (h : close_from_sync b env p = some r) :
    r.exit = CloseExit.imap_sync_failed ∨ r.exit = CloseExit.sync_failed ∨
      r.exit = CloseExit.closed := by
  unfold close_from_sync at h
  cases hs : close_sync b env p.g p.ctx p.w p.purge with
  | none => rw [hs] at h; cases h
  | some x =>
    rw [hs] at h
    cases x with
    | ok u =>
      obtain ⟨c5, w5⟩ := u
      exact Or.inr (Or.inr (close_finish_closed _ _ _ _ _ _ _ _ _ h).1)
    | error r2 =>
      simp only [Option.some.injEq] at h
      subst h
      unfold close_sync at hs
      by_cases hi : (b.USE_IMAP && p.ctx.magic == MUTT_IMAP) = true
      · rw [if_pos hi] at hs
        by_cases hr : ((env.imap_sync_mailbox p.w.trace p.ctx p.purge).1 != 0) = true
        · rw [if_pos hr] at hs
          simp only [Option.some.injEq, Except.error.injEq] at hs
          subst hs
          exact Or.inl rfl
        · rw [if_neg hr] at hs; simp at hs
      · rw [if_neg hi] at hs
        cases hc : close_clear_deleted p.ctx p.purge with
        | none => rw [hc] at hs; cases hs
        | some c4 =>
          rw [hc] at hs
          dsimp only at hs
          by_cases hn : (c4.changed || c4.deleted != 0) = true
          · rw [if_pos hn] at hs
            by_cases hr : ((sync_mailbox env c4 p.w).1 != 0) = true
            · rw [if_pos hr] at hs
              simp only [Option.some.injEq, Except.error.injEq] at hs
              subst hs
              exact Or.inr (Or.inl rfl)
            · rw [if_neg hr] at hs; simp at hs
          · rw [if_neg hn] at hs; simp at hs

/-- C17: with a `mutt_set_flag` that keeps `FlagContract`, when
`mx_close_mailbox` on a session that is neither a news nor an IMAP session
gets past the move block with the relocation confirmed (`move_messages != 0`,
so the append-copy mode was taken and every copy succeeded), the records that
were counted in `read_msgs` (read, not deleted, not flagged while
`$keep_flagged` is set) have `deleted` and `purge` set, and every other
record has the `deleted` and `purge` flags it had; and whenever the call
returns from the failed-copy return statement, it returns -1 with `closing`
reset, and what it leaves is what the nested close of the target session
left. -/
theorem mx_close_mailbox_moves_read (b : Build) (env : Env) (fuel : Nat) (g : Globals)
    (ctx : Context) (w : World) :
    (∀ (p : SyncPoint) (recs : List Header), FlagContract env →
      close_until_sync b env fuel g ctx w = some (.ok p) →
      p.move_messages ≠ 0 →
      (b.USE_NNTP && ctx.magic == MUTT_NNTP) = false →
      (b.USE_IMAP && ctx.magic == MUTT_IMAP) = false →
      ctx.live = some recs →
      p.read_msgs = (recs.filter (is_read_msg g.opts)).length ∧
      ∃ recs3, p.ctx.live = some recs3 ∧
        List.Forall₂ (fun h1 h3 => h3.addr = h1.addr ∧
          (is_read_msg g.opts h1 = true → h3.deleted = true ∧ h3.purge = true) ∧
          (is_read_msg g.opts h1 = false → h3.deleted = h1.deleted ∧ h3.purge = h1.purge))
          recs recs3) ∧
    (∀ (r : CloseResult), mx_close_mailbox b env (fuel + 1) g ctx w = some r →
      r.exit = CloseExit.copy_failed →
      r.rc = -1 ∧ r.ctx.closing = false ∧
        ∃ g2 f1 w5 cr, mx_close_mailbox b env fuel g2 f1 w5 = some cr ∧ r.g = cr.g ∧
          r.w = cr.w) := by
  constructor
  · intro p recs hc hp hmm hnntp himap hlive
    obtain ⟨c1, g1, w1, recs1, c2, w2, g3, w3, _, hcatch, hl1, hrm, _, _, hmo, hmv, _⟩ :=
      close_until_sync_ok b env fuel g ctx w p hp
    rw [close_catchup_skipped b env g { ctx with closing := true } w hnntp] at hcatch
    simp only [Option.some.injEq, Prod.mk.injEq, true_and] at hcatch
    obtain ⟨e1, e2, e3⟩ := hcatch
    subst e1; subst e2; subst e3
    have hl0 : ({ ctx with closing := true } : Context).live = some recs := hlive
    rw [hl0] at hl1
    simp only [Option.some.injEq] at hl1
    subst hl1
    obtain ⟨recs2, a1, a2, _, a4⟩ := close_mark_old_keeps env hc g _ _ c2 w2 recs hl0 hmo
    have hmode : (b.USE_IMAP && c2.magic == MUTT_IMAP) = false := by
      rw [a2]; exact himap
    obtain ⟨recs3, b1, b2⟩ := close_move_marks b env hc _ g c2 w2 _ _ p.ctx g3 w3 recs2 a1 hmm
      hmode hmv
    exact ⟨hrm, recs3, b1, relocated_after_old g.opts _ _ _ a4 b2⟩
  · intro r hr he
    rw [mx_close_mailbox_eq] at hr
    cases hx : close_until_sync b env fuel g ctx w with
    | none => rw [hx] at hr; cases hr
    | some x =>
      rw [hx] at hr
      cases x with
      | error r2 =>
        simp only [Option.some.injEq] at hr
        subst hr
        exact close_until_sync_copy_failed b env fuel g ctx w _ hx he
      | ok p =>
        dsimp only at hr
        rcases close_from_sync_exit b env p r hr with h1 | h1 | h1 <;>
          · rw [h1] at he; cases he

theorem ex_flag_contract : FlagContract ex_env_move := by
  refine ⟨fun c h => ?_, fun c h => ?_, fun c h => ?_⟩
  · simp only [ex_env_move, ex_env, ex_set_flag]
    cases hd : h.deleted <;> simp [hd]
  · simp only [ex_env_move, ex_env, ex_set_flag]
    cases hd : h.purge <;> simp [hd]
  · simp only [ex_env_move, ex_env, ex_set_flag]
    cases hd : h.old <;> simp [hd]

/-- Witness of C17: the first and the third record of the example session are
moved to `/tmp/archive` and end deleted and purged, the second is left
alone. -/
theorem mx_close_mailbox_moves_read_witness :
    (FlagContract ex_env_move ∧
      close_until_sync ex_build ex_env_move 1 ex_globals ex_move_ctx ex_world =
        some (.ok ex_moved_point) ∧
      ex_moved_point.move_messages ≠ 0 ∧
      (ex_build.USE_NNTP && ex_move_ctx.magic == MUTT_NNTP) = false ∧
      (ex_build.USE_IMAP && ex_move_ctx.magic == MUTT_IMAP) = false ∧
      ex_move_ctx.live = some ex_move_ctx.records ∧
      ex_moved_point.ctx.records.map (fun h => (h.addr, h.deleted, h.purge)) =
        [(1, true, true), (2, false, false), (3, true, true)]) ∧
    (ex_moved_point.read_msgs =
        (ex_move_ctx.records.filter (is_read_msg ex_globals.opts)).length ∧
      ∃ recs3, ex_moved_point.ctx.live = some recs3 ∧
        List.Forall₂ (fun h1 h3 => h3.addr = h1.addr ∧
          (is_read_msg ex_globals.opts h1 = true → h3.deleted = true ∧ h3.purge = true) ∧
          (is_read_msg ex_globals.opts h1 = false →
            h3.deleted = h1.deleted ∧ h3.purge = h1.purge))
          ex_move_ctx.records recs3) :=
  ⟨⟨ex_flag_contract, rfl, by decide, rfl, rfl, rfl, rfl⟩,
    (mx_close_mailbox_moves_read ex_build ex_env_move 1 ex_globals ex_move_ctx ex_world).1
      ex_moved_point ex_move_ctx.records ex_flag_contract rfl (by decide) rfl rfl rfl⟩

theorem renumber_hidden (committing : Bool) :
    ∀ (K : List Header) (j vc : Nat),
      List.Forall₂ (fun r h => same_message r h ∧ (r.virtual = -1 ↔ h.virtual = -1))
        (renumber committing j vc K) K := by
  intro K
  induction K with
  | nil => intro j vc; exact List.Forall₂.nil
  | cons h t ih =>
    intro j vc
    refine List.Forall₂.cons ⟨rfl, ?_⟩ (ih _ _)
    have hv := visible_renumbered committing h j vc
    have e : ∀ x : Int, (x != -1) = true ↔ x ≠ -1 := by intro x; simp
    constructor
    · intro h1
      by_contra h2
      have h3 : (h.virtual != -1) = true := (e _).2 h2
      rw [← hv] at h3
      exact (e _).1 h3 h1
    · intro h1
      by_contra h2
      have h3 := (e _).2 h2
      rw [hv] at h3
      exact (e _).1 h3 h1

theorem renumber_virtual_seq (committing : Bool) :
    ∀ (K : List Header) (j vc : Nat),
      ((renumber committing j vc K).filter Header.visible).map (fun r => r.virtual) =
        (List.range' vc (K.countP Header.visible)).map (fun (n : Nat) => (n : Int)) := by
  intro K
  induction K with
  | nil => intro j vc; rfl
  | cons h t ih =>
    intro j vc
    simp only [renumber]
    have hv := visible_renumbered committing h j vc
    by_cases hvis : (h.virtual != -1) = true
    · have hvis2 : Header.visible h = true := hvis
      rw [List.filter_cons_of_pos (by simpa [Header.visible] using hv.trans hvis),
        List.countP_cons_of_pos _ _ hvis2]
      simp only [hvis, if_true, List.map_cons, List.range'_succ, ih]
    · have hvis2 : ¬ Header.visible h = true := hvis
      rw [List.filter_cons_of_neg (by
          intro hx
          apply hvis
          rw [← hv]
          exact hx),
        List.countP_cons_of_neg _ _ hvis2]
      simp only [hvis, if_false, Bool.false_eq_true, Nat.add_zero, ih]

theorem visible_size_filter : ∀ (L : List Header),
    visible_size L = ((L.filter Header.visible).map (fun r => r.content.span)).sum := by
  intro L
  induction L with
  | nil => rfl
  | cons h t ih =>
    have ih2 : (t.map (fun h => if h.virtual != -1 then h.content.span else 0)).sum =
        ((t.filter Header.visible).map (fun r => r.content.span)).sum := ih
    by_cases hvis : (h.virtual != -1) = true
    · have hvis2 : Header.visible h = true := hvis
      simp only [visible_size, List.map_cons, List.sum_cons, hvis, if_true,
        List.filter_cons_of_pos hvis2, ih2]
    · have hvis2 : ¬ Header.visible h = true := hvis
      simp only [visible_size, List.map_cons, List.sum_cons, hvis, if_false,
        Bool.false_eq_true, List.filter_cons_of_neg hvis2, ih2, zero_add]

theorem visible_size_renumber (committing : Bool) (K : List Header) (j vc : Nat) :
    visible_size (renumber committing j vc K) = visible_size K := by
  simp only [visible_size]
  rw [renumber_map committing (fun h : Header => if h.virtual != -1 then h.content.span else 0)
    (fun h j vc => by
      have := visible_renumbered committing h j vc
      simp only [] at this ⊢
      rw [this])]

/-- C26: after `mx_update_tables` on a well-formed session, the surviving
records are the kept ones; a survivor has `virtual == -1` exactly when it had
before the call; every other survivor has a `virtual` in `[0, vcount)` with
`v2r[virtual]` equal to its storage index, and no two survivors share it; the
visible survivors, in storage order, carry the indices `0, 1, ..., vcount-1`;
and `vsize` is the sum over the visible survivors of
`length + offset - hdr_offset`. -/
theorem mx_update_tables_view_indices (opts : Options) (ctx : Context) (committing : Bool)
    (hwf : ctx.WF) :
    ∃ c, mx_update_tables opts ctx committing = some c ∧
      List.Forall₂ (fun r h => same_message r h ∧ (r.virtual = -1 ↔ h.virtual = -1))
        c.records (ctx.records.filter (update_tables_keep opts ctx.magic committing)) ∧
      (∀ (k : Nat) (r : Header), c.records.get? k = some r → r.virtual ≠ -1 →
        0 ≤ r.virtual ∧ r.virtual < (c.vcount : Int) ∧
          v2r_at c.v2r r.virtual = some (k : Int)) ∧
      (∀ (k1 k2 : Nat) (r1 r2 : Header), c.records.get? k1 = some r1 →
        c.records.get? k2 = some r2 → r1.virtual ≠ -1 → r1.virtual = r2.virtual → k1 = k2) ∧
      (c.records.filter Header.visible).map (fun r => r.virtual) =
        (List.range c.vcount).map (fun (n : Nat) => (n : Int)) ∧
      c.vsize = ((c.records.filter Header.visible).map
        (fun r => r.content.length + r.content.offset - r.content.hdr_offset)).sum := by
  obtain ⟨c, hc, hr⟩ := mx_update_tables_result opts ctx committing hwf
  have hseq : (c.records.filter Header.visible).map (fun r => r.virtual) =
      (List.range c.vcount).map (fun (n : Nat) => (n : Int)) := by
    rw [hr.records, renumber_virtual_seq, hr.vcount, List.range_eq_range']
    rfl
  have hidx : ∀ (k : Nat) (r : Header), c.records.get? k = some r → r.virtual ≠ -1 →
      0 ≤ r.virtual ∧ r.virtual < (c.vcount : Int) ∧
        v2r_at c.v2r r.virtual = some (k : Int) := by
    intro k r hk hvis
    have hmem : r.virtual ∈ (c.records.filter Header.visible).map (fun r => r.virtual) := by
      apply List.mem_map.mpr
      refine ⟨r, List.mem_filter.mpr ⟨List.get?_mem hk, ?_⟩, rfl⟩
      simpa [Header.visible] using hvis
    rw [hseq] at hmem
    obtain ⟨n, hn, hnv⟩ := List.mem_map.mp hmem
    have hn2 : n < c.vcount := List.mem_range.mp hn
    have hmsg : r.msgno = (k : Int) := by
      have h1 : (renumber committing 0 0 (ctx.kept opts committing)).get? k = some r := by
        rw [← hr.records]; exact hk
      have := renumber_msgno committing _ 0 0 k r h1
      simpa using this
    have hv2r : v2r_at c.v2r r.virtual = some r.msgno := by
      rw [hr.v2r]
      have hkl := kept_le_msgcount opts ctx committing hwf
      have hcount := List.countP_le_length (fun h : Header => h.virtual != -1)
        (l := ctx.kept opts committing)
      have h1 : r ∈ renumber committing 0 0 (ctx.kept opts committing) := by
        rw [← hr.records]; exact List.get?_mem hk
      exact renumber_v2r committing _ ctx.v2r 0 0 (by have := hwf.2.2; omega) r h1 hvis
    refine ⟨?_, ?_, ?_⟩
    · rw [← hnv]; exact Int.natCast_nonneg n
    · rw [← hnv]; exact_mod_cast hn2
    · rw [hv2r, hmsg]
  refine ⟨c, hc, ?_, hidx, ?_, hseq, ?_⟩
  · rw [hr.records]
    exact renumber_hidden committing _ 0 0
  · intro k1 k2 r1 r2 h1 h2 hvis heq
    have a1 := (hidx k1 r1 h1 hvis).2.2
    have a2 := (hidx k2 r2 h2 (by rw [← heq]; exact hvis)).2.2
    rw [heq, a2] at a1
    have : (k2 : Int) = (k1 : Int) := by simpa using a1
    omega
  · rw [hr.vsize, hr.records, ← visible_size_renumber committing _ 0 0, visible_size_filter]
    rfl

/-- Witness of C26 on the three-record example session. -/
theorem mx_update_tables_view_indices_witness :
    ex_ctx.WF ∧ ∃ c, mx_update_tables ex_opts ex_ctx false = some c ∧
      List.Forall₂ (fun r h => same_message r h ∧ (r.virtual = -1 ↔ h.virtual = -1))
        c.records (ex_ctx.records.filter (update_tables_keep ex_opts ex_ctx.magic false)) ∧
      (∀ (k : Nat) (r : Header), c.records.get? k = some r → r.virtual ≠ -1 →
        0 ≤ r.virtual ∧ r.virtual < (c.vcount : Int) ∧
          v2r_at c.v2r r.virtual = some (k : Int)) ∧
      (∀ (k1 k2 : Nat) (r1 r2 : Header), c.records.get? k1 = some r1 →
        c.records.get? k2 = some r2 → r1.virtual ≠ -1 → r1.virtual = r2.virtual → k1 = k2) ∧
      (c.records.filter Header.visible).map (fun r => r.virtual) =
        (List.range c.vcount).map (fun (n : Nat) => (n : Int)) ∧
      c.vsize = ((c.records.filter Header.visible).map
        (fun r => r.content.length + r.content.offset - r.content.hdr_offset)).sum :=
  ⟨by decide, mx_update_tables_view_indices ex_opts ex_ctx false (by decide)⟩

/-! ### The changed flags after a pass -/

theorem renumber_changed (committing : Bool) :
    ∀ (K : List Header) (j vc : Nat),
      (renumber committing j vc K).map (fun r => r.changed) =
        K.map (fun h => if committing then false else h.changed) := by
  intro K
  induction K with
  | nil => intro j vc; rfl
  | cons h t ih => intro j vc; simp only [renumber, List.map_cons, ih]

theorem any_map_changed : ∀ (L : List Header),
    L.any (fun h => h.changed) = (L.map (fun h => h.changed)).any id := by
  intro L
  induction L with
  | nil => rfl
  | cons a t ih => simp only [List.any_cons, List.map_cons, ih, id]

/-- C27: after `mx_update_tables (ctx, 1)` on a well-formed session every
surviving record has `changed == false` and the session's changed flag is
false; after `mx_update_tables (ctx, 0)` every surviving record has the
changed flag it had before the call and the session's changed flag is true if
and only if some surviving record has `changed == true`. -/
theorem mx_update_tables_changed_flags (opts : Options) (ctx : Context) (hwf : ctx.WF) :
    (∃ c, mx_update_tables opts ctx true = some c ∧
      (∀ r ∈ c.records, r.changed = false) ∧ c.changed = false) ∧
    (∃ c, mx_update_tables opts ctx false = some c ∧
      c.records.map (fun r => r.changed) =
        (ctx.records.filter (update_tables_keep opts ctx.magic false)).map (fun h => h.changed) ∧
      (c.changed = true ↔ ∃ r ∈ c.records, r.changed = true)) := by
  constructor
  · obtain ⟨c, hc, hr⟩ := mx_update_tables_result opts ctx true hwf
    refine ⟨c, hc, ?_, ?_⟩
    · intro r hmem
      have h1 : r.changed ∈ c.records.map (fun r => r.changed) :=
        List.mem_map.mpr ⟨r, hmem, rfl⟩
      rw [hr.records, renumber_changed] at h1
      obtain ⟨_, _, hx⟩ := List.mem_map.mp h1
      rw [← hx]; rfl
    · rw [hr.changed]; rfl
  · obtain ⟨c, hc, hr⟩ := mx_update_tables_result opts ctx false hwf
    have hmap : c.records.map (fun r => r.changed) =
        (ctx.kept opts false).map (fun h => h.changed) := by
      rw [hr.records, renumber_changed]
      rfl
    refine ⟨c, hc, hmap, ?_⟩
    rw [hr.changed]
    have e1 : (!false && (ctx.kept opts false).any (fun h => h.changed)) =
        c.records.any (fun h => h.changed) := by
      rw [any_map_changed c.records, hmap, ← any_map_changed]
      rfl
    rw [e1, List.any_eq_true]

/-- Witness of C27 on the three-record example session, whose first record is
changed. -/
theorem mx_update_tables_changed_flags_witness :
    ex_ctx.WF ∧
    (∃ c, mx_update_tables ex_opts ex_ctx true = some c ∧
      (∀ r ∈ c.records, r.changed = false) ∧ c.changed = false) ∧
    (∃ c, mx_update_tables ex_opts ex_ctx false = some c ∧
      c.records.map (fun r => r.changed) =
        (ex_ctx.records.filter (update_tables_keep ex_opts ex_ctx.magic false)).map
          (fun h => h.changed) ∧
      (c.changed = true ↔ ∃ r ∈ c.records, r.changed = true)) :=
  ⟨by decide, mx_update_tables_changed_flags ex_opts ex_ctx (by decide)⟩

/-! ### The fast teardown -/

/-- What `mx_fastclose_mailbox (ctx)` does to the outside, in order: the
restoring of the file times, the notification of the mailbox list, and the
backend `close`. -/
theorem mx_fastclose_mailbox_trace (env : Env) (ctx : Context) (w : World) (c : Context)
    (w1 : World) (h : mx_fastclose_mailbox env ctx w = some (c, w1)) :
    c = Context.zero ∧
    w1.trace = w.trace ++
      ((match ctx.path with
        | some p =>
          if ctx.peekonly && decide (ctx.mtime > ctx.atime) then
            [Event.utime p ctx.atime ctx.mtime]
          else []
        | none => []) ++
       (if !ctx.peekonly then [Event.buffy_setnotified ctx.path] else []) ++
       (match ctx.mx_ops with
        | some t => [Event.ops_close t]
        | none => [])) := by
  unfold mx_fastclose_mailbox at h
  dsimp only at h
  cases hp : ctx.path with
  | none =>
    rw [hp] at h
    dsimp only at h
    cases hk : ctx.peekonly <;> rw [hk] at h <;>
      cases ho : ctx.mx_ops with
      | none =>
        rw [ho] at h
        simp only [Option.some.injEq, Prod.mk.injEq] at h
        obtain ⟨h1, h2⟩ := h
        subst h1; subst h2
        simp [World.log]
      | some t =>
        rw [ho] at h
        dsimp only at h
        cases hc : (env.ops t).close with
        | none => rw [hc] at h; cases h
        | some f =>
          rw [hc] at h
          simp only [Option.some.injEq, Prod.mk.injEq] at h
          obtain ⟨h1, h2⟩ := h
          subst h1; subst h2
          simp [World.log]
  | some p =>
    rw [hp] at h
    dsimp only at h
    cases hk : ctx.peekonly <;> rw [hk] at h <;>
      by_cases hm : ctx.mtime > ctx.atime <;>
      cases ho : ctx.mx_ops with
      | none =>
        rw [ho] at h
        simp only [Option.some.injEq, Prod.mk.injEq] at h
        obtain ⟨h1, h2⟩ := h
        subst h1; subst h2
        simp [World.log, hm]
      | some t =>
        rw [ho] at h
        dsimp only at h
        cases hc : (env.ops t).close with
        | none => rw [hc] at h; cases h
        | some f =>
          rw [hc] at h
          simp only [Option.some.injEq, Prod.mk.injEq] at h
          obtain ⟨h1, h2⟩ := h
          subst h1; subst h2
          simp [World.log, hm]

/-- C25 as stated fails: for a peek-only session whose recorded access time is
later than its recorded modification time, `mx_fastclose_mailbox` does not
call `utime`; with the two times exchanged it does. -/
theorem fastclose_restores_when_modified_later :
    ex_peek_ctx.peekonly = true ∧ ex_peek_ctx.path = some "/tmp/mbox" ∧
    ex_peek_ctx.atime > ex_peek_ctx.mtime ∧
    (mx_fastclose_mailbox ex_env ex_peek_ctx ex_world).map (fun r => r.2.trace) =
      some [Event.ops_close MUTT_MBOX] ∧
    (mx_fastclose_mailbox ex_env { ex_peek_ctx with atime := 5, mtime := 10 } ex_world).map
        (fun r => r.2.trace) =
      some [Event.utime "/tmp/mbox" 5 10, Event.ops_close MUTT_MBOX] :=
  ⟨rfl, rfl, by decide, rfl, rfl⟩

/-- C25, amended: for a session whose backend (if any) has a `close`
operation, `mx_fastclose_mailbox` returns; it calls `utime` exactly when the
session is peek-only, has a path, and its recorded modification time is later
than its recorded access time, and then with the recorded times on that path;
it calls `mutt_buffy_setnotified` exactly when the session is not peek-only;
and afterwards the session is zeroed: no records, no hash indices, no path,
`msgcount` 0. -/
theorem mx_fastclose_mailbox_effects (env : Env) (ctx : Context) (w : World)
    (hclose : ∀ t, ctx.mx_ops = some t → ((env.ops t).close).isSome = true) :
    ∃ w1 evs, mx_fastclose_mailbox env ctx w = some (Context.zero, w1) ∧
      w1.trace = w.trace ++ evs ∧
      ((∃ p a m, Event.utime p a m ∈ evs) ↔
        (ctx.peekonly = true ∧ ctx.path.isSome = true ∧ ctx.mtime > ctx.atime)) ∧
      (∀ p a m, Event.utime p a m ∈ evs →
        ctx.path = some p ∧ a = ctx.atime ∧ m = ctx.mtime) ∧
      ((∃ p, Event.buffy_setnotified p ∈ evs) ↔ ctx.peekonly = false) ∧
      Context.zero.msgcount = 0 ∧ Context.zero.hdrs = [] ∧ Context.zero.v2r = [] ∧
      Context.zero.subj_hash = none ∧ Context.zero.id_hash = none ∧
      Context.zero.label_hash = none ∧ Context.zero.path = none ∧
      Context.zero.realpath = none ∧ Context.zero.mx_ops = none := by
  obtain ⟨w1, hw1⟩ := mx_fastclose_mailbox_some env ctx w hclose
  obtain ⟨_, htr⟩ := mx_fastclose_mailbox_trace env ctx w _ w1 hw1
  refine ⟨w1, _, hw1, htr, ?_, ?_, ?_, rfl, rfl, rfl, rfl, rfl, rfl, rfl, rfl, rfl⟩
  · cases hp : ctx.path with
    | none => cases hk : ctx.peekonly <;> cases ho : ctx.mx_ops <;> simp
    | some p =>
      cases hk : ctx.peekonly <;> cases ho : ctx.mx_ops <;>
        by_cases hm : ctx.mtime > ctx.atime <;> simp [hm]
  · intro p a m
    cases hp : ctx.path with
    | none => cases hk : ctx.peekonly <;> cases ho : ctx.mx_ops <;> simp
    | some q =>
      cases hk : ctx.peekonly <;> cases ho : ctx.mx_ops <;>
        by_cases hm : ctx.mtime > ctx.atime <;> simp [hm] <;>
        (intro h1 h2 h3; exact ⟨h1.symm, h2, h3⟩)
  · cases hp : ctx.path with
    | none => cases hk : ctx.peekonly <;> cases ho : ctx.mx_ops <;> simp
    | some p =>
      cases hk : ctx.peekonly <;> cases ho : ctx.mx_ops <;>
        by_cases hm : ctx.mtime > ctx.atime <;> simp [hm]

/-- Witness of the amended C25 on the peek-only example session with the two
times exchanged. -/
theorem mx_fastclose_mailbox_effects_witness :
    (∀ t, ({ ex_peek_ctx with atime := 5, mtime := 10 } : Context).mx_ops = some t →
      ((ex_env.ops t).close).isSome = true) ∧
    ∃ w1 evs, mx_fastclose_mailbox ex_env { ex_peek_ctx with atime := 5, mtime := 10 }
        ex_world = some (Context.zero, w1) ∧
      w1.trace = ex_world.trace ++ evs ∧
      ((∃ p a m, Event.utime p a m ∈ evs) ↔
        (({ ex_peek_ctx with atime := 5, mtime := 10 } : Context).peekonly = true ∧
          ({ ex_peek_ctx with atime := 5, mtime := 10 } : Context).path.isSome = true ∧
          ({ ex_peek_ctx with atime := 5, mtime := 10 } : Context).mtime >
            ({ ex_peek_ctx with atime := 5, mtime := 10 } : Context).atime)) ∧
      (∀ p a m, Event.utime p a m ∈ evs →
        ({ ex_peek_ctx with atime := 5, mtime := 10 } : Context).path = some p ∧
          a = ({ ex_peek_ctx with atime := 5, mtime := 10 } : Context).atime ∧
          m = ({ ex_peek_ctx with atime := 5, mtime := 10 } : Context).mtime) ∧
      ((∃ p, Event.buffy_setnotified p ∈ evs) ↔
        ({ ex_peek_ctx with atime := 5, mtime := 10 } : Context).peekonly = false) ∧
      Context.zero.msgcount = 0 ∧ Context.zero.hdrs = [] ∧ Context.zero.v2r = [] ∧
      Context.zero.subj_hash = none ∧ Context.zero.id_hash = none ∧
      Context.zero.label_hash = none ∧ Context.zero.path = none ∧
      Context.zero.realpath = none ∧ Context.zero.mx_ops = none :=
  ⟨fun _ _ => rfl,
    mx_fastclose_mailbox_effects ex_env { ex_peek_ctx with atime := 5, mtime := 10 } ex_world
      (fun _ _ => rfl)⟩

theorem set_flag_loop_adds (env : Env) (cond : Header → Bool) (flag : MsgFlag)
    (P : Event → Bool) (hP : ∀ a f bf, P (Event.set_flag a f bf) = true) :
    ∀ (n i : Nat) (ctx : Context) (w : World) (c : Context) (w1 : World),
      set_flag_loop env cond flag n i ctx w = some (c, w1) → World.adds P w w1 := by
  intro n
  induction n with
  | zero =>
    intro i ctx w c w1 h
    simp only [set_flag_loop, Option.some.injEq, Prod.mk.injEq] at h
    rw [← h.2]
    exact adds_refl P w
  | succ n ih =>
    intro i ctx w c w1 h
    cases hg : ctx.hdrs.get? i with
    | none => simp only [set_flag_loop, hg] at h; cases h
    | some s =>
      cases s with
      | none => simp only [set_flag_loop, hg] at h; cases h
      | some hd =>
        simp only [set_flag_loop, hg] at h
        by_cases hc : cond hd = true
        · rw [if_pos hc] at h
          simp only [mutt_set_flag, hg] at h
          exact adds_trans P _ _ _ (adds_log P w w (Event.set_flag hd.addr flag true)
            (adds_refl P w) (hP _ _ _)) (ih _ _ _ _ _ h)
        · rw [if_neg hc] at h
          exact ih _ _ _ _ _ h

theorem mutt_newsgroup_catchup_adds (env : Env) (g : Globals) (ctx : Context) (nserv : Bool)
    (group : Option String) (w : World) (c : Context) (g1 : Globals) (w1 : World)
    (P : Event → Bool) (hP : ∀ a f bf, P (Event.set_flag a f bf) = true)
    (h : mutt_newsgroup_catchup env g ctx nserv group w = some (c, g1, w1)) :
    World.adds P w w1 := by
  unfold mutt_newsgroup_catchup at h
  cases group with
  | none =>
    simp only [Option.some.injEq, Prod.mk.injEq] at h
    rw [← h.2.2]; exact adds_refl P w
  | some grp =>
    dsimp only at h
    split at h
    · simp only [Option.some.injEq, Prod.mk.injEq] at h
      rw [← h.2.2]; exact adds_refl P w
    · cases hf : find_group g.news grp with
      | none =>
        rw [hf] at h
        simp only [Option.some.injEq, Prod.mk.injEq] at h
        rw [← h.2.2]; exact adds_refl P w
      | some nd =>
        rw [hf] at h
        dsimp only at h
        cases hcx : g.Context with
        | null =>
          rw [hcx] at h
          simp only [Option.some.injEq, Prod.mk.injEq] at h
          rw [← h.2.2]; exact adds_refl P w
        | this =>
          rw [hcx] at h
          dsimp only at h
          split at h
          · cases hl : set_flag_loop env (fun _ => true) MsgFlag.MUTT_READ ctx.msgcount 0 ctx w with
            | none => rw [hl] at h; cases h
            | some r =>
              obtain ⟨c1, w2⟩ := r
              rw [hl] at h
              simp only [Option.some.injEq, Prod.mk.injEq] at h
              rw [← h.2.2]
              exact set_flag_loop_adds env _ _ P hP _ _ _ _ _ _ hl
          · simp only [Option.some.injEq, Prod.mk.injEq] at h
            rw [← h.2.2]; exact adds_refl P w
        | other c0 =>
          rw [hcx] at h
          dsimp only at h
          split at h
          · cases hl : set_flag_loop env (fun _ => true) MsgFlag.MUTT_READ c0.msgcount 0 c0 w with
            | none => rw [hl] at h; cases h
            | some r =>
              obtain ⟨c1, w2⟩ := r
              rw [hl] at h
              simp only [Option.some.injEq, Prod.mk.injEq] at h
              rw [← h.2.2]
              exact set_flag_loop_adds env _ _ P hP _ _ _ _ _ _ hl
          · simp only [Option.some.injEq, Prod.mk.injEq] at h
            rw [← h.2.2]; exact adds_refl P w

theorem close_catchup_adds (b : Build) (env : Env) (g : Globals) (c0 : Context) (w : World)
    (ab : Bool) (c1 : Context) (g1 : Globals) (w1 : World)
    (h : close_catchup b env g c0 w = some (ab, c1, g1, w1)) :
    World.adds Event.is_quiet_close w w1 := by
  unfold close_catchup at h
  split at h
  · cases hd : find_data g.news c0.data with
    | none =>
      rw [hd] at h
      simp only [Option.some.injEq, Prod.mk.injEq] at h
      rw [← h.2.2.2]; exact adds_refl _ w
    | some nd =>
      rw [hd] at h
      dsimp only at h
      cases hg : nd.group with
      | none =>
        rw [hg] at h
        simp only [Option.some.injEq, Prod.mk.injEq] at h
        rw [← h.2.2.2]; exact adds_refl _ w
      | some grp =>
        rw [hg] at h
        dsimp only at h
        have s1 : World.adds Event.is_quiet_close w
            (w.log (Event.query_quadoption QuadOpt.OPT_CATCHUP "Mark all articles read?")) :=
          adds_log _ w w (Event.query_quadoption QuadOpt.OPT_CATCHUP "Mark all articles read?")
            (adds_refl _ w) rfl
        split at h
        · split at h
          · simp only [Option.some.injEq, Prod.mk.injEq] at h
            rw [← h.2.2.2]; exact s1
          · split at h
            · have s2 := adds_log _ w _ (Event.newsgroup_catchup grp) s1
                (rfl : Event.is_quiet_close (Event.newsgroup_catchup grp) = true)
              cases hm : mutt_newsgroup_catchup env g c0 nd.nserv (some grp)
                  ((w.log (Event.query_quadoption QuadOpt.OPT_CATCHUP
                    "Mark all articles read?")).log (Event.newsgroup_catchup grp)) with
              | none => rw [hm] at h; cases h
              | some r =>
                obtain ⟨c2, g2, w2⟩ := r
                rw [hm] at h
                simp only [Option.some.injEq, Prod.mk.injEq] at h
                rw [← h.2.2.2]
                exact adds_trans _ _ _ _ s2
                  (mutt_newsgroup_catchup_adds env g c0 nd.nserv (some grp) _ c2 g2 w2
                    Event.is_quiet_close (fun _ _ _ => rfl) hm)
            · simp only [Option.some.injEq, Prod.mk.injEq] at h
              rw [← h.2.2.2]; exact s1
        · simp only [Option.some.injEq, Prod.mk.injEq] at h
          rw [← h.2.2.2]; exact adds_refl _ w
  · simp only [Option.some.injEq, Prod.mk.injEq] at h
    rw [← h.2.2.2]; exact adds_refl _ w

theorem close_move_prompt_adds (env : Env) (g : Globals) (ctx : Context) (n : Nat) (w : World) :
    World.adds Event.is_quiet_close w (close_move_prompt env g ctx n w).2.2 := by
  unfold close_move_prompt
  split
  · dsimp only
    split
    · exact adds_log _ w w (Event.query_quadoption QuadOpt.OPT_MOVE "Move read messages to %s?")
        (adds_refl _ w) rfl
    · exact adds_refl _ w
  · exact adds_refl _ w

theorem close_purge_prompt_adds (env : Env) (g : Globals) (ctx : Context) (w : World) :
    World.adds Event.is_quiet_close w (close_purge_prompt env g ctx w).2 := by
  unfold close_purge_prompt
  split
  · exact adds_log _ w w (Event.query_quadoption QuadOpt.OPT_DELETE
      (if ctx.deleted == 1 then "Purge %d deleted message?" else "Purge %d deleted messages?"))
      (adds_refl _ w) rfl
  · exact adds_refl _ w

theorem close_mark_old_adds (env : Env) (g : Globals) (ctx : Context) (w : World)
    (c : Context) (w1 : World) (h : close_mark_old env g ctx w = some (c, w1)) :
    World.adds Event.is_quiet_close w w1 := by
  unfold close_mark_old at h
  split at h
  · exact set_flag_loop_adds env _ _ Event.is_quiet_close (fun _ _ _ => rfl) _ _ _ _ _ _ h
  · simp only [Option.some.injEq, Prod.mk.injEq] at h
    rw [← h.2]; exact adds_refl _ w

theorem teardown_quiet_close (e : Event) (h : Event.is_teardown e = true) :
    Event.is_quiet_close e = true := by
  cases e <;> simp_all [Event.is_teardown, Event.is_quiet_close]

/-- C24: `mx_close_mailbox` on a session that is not readonly, not marked
dont-write and not in append mode, when control reaches the test at line 927
with no relocation confirmed (`move_messages == 0`), the changed flag false
and the deleted counter 0 (the backend, if any, having a `close` operation),
returns 0 from the "unchanged" return with the session torn down, and from
entry to return it did nothing to the outside but ask its questions, set
flags, print messages, reset the access time and run the fast teardown: no
backend `sync`, no copy, no `unlink`.  `mx_sync_mailbox` on a session that is
not marked dont-write, not readonly, with the changed flag false and the
deleted counter 0 returns 0 with the session and the globals as they were,
having printed at most the message "Mailbox is unchanged.". -/
theorem close_and_sync_unchanged (b : Build) (env : Env) (fuel : Nat) (g : Globals)
    (ctx : Context) (w : World) :
    (∀ (c1 : Context) (g1 : Globals) (w1 : World) (recs : List Header) (c2 : Context)
        (w2 : World),
      (ctx.readonly || ctx.dontwrite || ctx.append) = false →
      close_catchup b env g { ctx with closing := true } w = some (false, c1, g1, w1) →
      c1.live = some recs →
      (close_move_prompt env g1 c1 (recs.filter (is_read_msg g1.opts)).length w1).1 = 0 →
      (close_purge_prompt env g1 c1 (close_move_prompt env g1 c1
        (recs.filter (is_read_msg g1.opts)).length w1).2.2).1 ≠ MUTT_ABORT →
      close_mark_old env g1 c1 (close_purge_prompt env g1 c1 (close_move_prompt env g1 c1
        (recs.filter (is_read_msg g1.opts)).length w1).2.2).2 = some (c2, w2) →
      c2.changed = false → c2.deleted = 0 →
      (∀ t, c2.mx_ops = some t → ((env.ops t).close).isSome = true) →
      ∃ w5, mx_close_mailbox b env (fuel + 1) g ctx w =
          some { rc := 0, exit := CloseExit.unchanged, ctx := Context.zero, g := g1, w := w5 } ∧
        World.adds Event.is_quiet_close w w5 ∧
        (∀ e ∈ w5.trace, e ∉ w.trace →
          (∀ t, e ≠ Event.ops_sync t) ∧ (∀ x, e ≠ Event.imap_sync_mailbox x) ∧
          (∀ a f, e ≠ Event.append_message a f) ∧ (∀ p, e ≠ Event.unlink p))) ∧
    (ctx.dontwrite = false → ctx.readonly = false → ctx.changed = false → ctx.deleted = 0 →
      mx_sync_mailbox b env fuel g ctx w =
        some { rc := 0, exit := SyncExit.unchanged, ctx := ctx, g := g,
               w := if !ctx.quiet then w.log (Event.message "Mailbox is unchanged." [])
                    else w }) := by
  constructor
  · intro c1 g1 w1 recs c2 w2 hw hcat hlive hmv hpg hold hch hdel hclose
    have hmv2 : ((close_move_prompt env g1 c1
        (recs.filter (is_read_msg g1.opts)).length w1).1 == MUTT_ABORT) = false := by
      rw [hmv]; rfl
    have hpg2 : ((close_purge_prompt env g1 c1 (close_move_prompt env g1 c1
        (recs.filter (is_read_msg g1.opts)).length w1).2.2).1 == MUTT_ABORT) = false := by
      simpa using hpg
    obtain ⟨w5, hw5⟩ := mx_fastclose_mailbox_some env c2
      (if c2.magic == MUTT_MBOX || c2.magic == MUTT_MMDF then
          (if !c2.quiet then w2.log (Event.message "Mailbox is unchanged." []) else w2).log
            Event.mbox_reset_atime
         else (if !c2.quiet then w2.log (Event.message "Mailbox is unchanged." []) else w2))
      hclose
    have hmove : close_move b env (mx_close_mailbox b env fuel) g1 c2 w2 0
        (close_move_prompt env g1 c1 (recs.filter (is_read_msg g1.opts)).length w1).2.1 =
        some (.error { rc := 0, exit := CloseExit.unchanged, ctx := Context.zero, g := g1,
                       w := w5 }) := by
      unfold close_move
      rw [if_neg (by decide), if_pos (by simp [hch, hdel]), hw5]
    have hres : mx_close_mailbox b env (fuel + 1) g ctx w =
        some { rc := 0, exit := CloseExit.unchanged, ctx := Context.zero, g := g1, w := w5 } := by
      rw [mx_close_mailbox_eq]
      unfold close_until_sync
      rw [if_neg (by simp [hw]), hcat]
      dsimp only
      rw [hlive]
      dsimp only
      rw [if_neg (by simp [hmv2]), if_neg (by simp [hpg2]), hold]
      dsimp only
      rw [hmv, hmove]
    have a1 := close_catchup_adds b env g { ctx with closing := true } w false c1 g1 w1 hcat
    have a2 := close_move_prompt_adds env g1 c1 (recs.filter (is_read_msg g1.opts)).length w1
    have a3 := close_purge_prompt_adds env g1 c1 (close_move_prompt env g1 c1
      (recs.filter (is_read_msg g1.opts)).length w1).2.2
    have a4 := close_mark_old_adds env g1 c1 _ c2 w2 hold
    have a5 : World.adds Event.is_quiet_close w2
        (if c2.magic == MUTT_MBOX || c2.magic == MUTT_MMDF then
          (if !c2.quiet then w2.log (Event.message "Mailbox is unchanged." []) else w2).log
            Event.mbox_reset_atime
         else (if !c2.quiet then w2.log (Event.message "Mailbox is unchanged." []) else w2)) := by
      have m : World.adds Event.is_quiet_close w2
          (if !c2.quiet then w2.log (Event.message "Mailbox is unchanged." []) else w2) := by
        split
        · exact adds_log _ w2 w2 (Event.message "Mailbox is unchanged." []) (adds_refl _ w2) rfl
        · exact adds_refl _ w2
      split
      · exact adds_log _ w2 _ Event.mbox_reset_atime m rfl
      · exact m
    have a6 := adds_mono _ _ _ _ teardown_quiet_close
      (mx_fastclose_mailbox_adds env c2 _ _ w5 hw5).2
    have hall : World.adds Event.is_quiet_close w w5 :=
      adds_trans _ _ _ _ a1 (adds_trans _ _ _ _ a2 (adds_trans _ _ _ _ a3
        (adds_trans _ _ _ _ a4 (adds_trans _ _ _ _ a5 a6))))
    refine ⟨w5, hres, hall, ?_⟩
    obtain ⟨evs, he1, he2⟩ := hall
    intro e hmem hnot
    rw [he1] at hmem
    rcases List.mem_append.1 hmem with hm | hm
    · exact absurd hm hnot
    · have hq := he2 e hm
      refine ⟨?_, ?_, ?_, ?_⟩
      · intro t ht; rw [ht] at hq; cases hq
      · intro t ht; rw [ht] at hq; cases hq
      · intro a f ht; rw [ht] at hq; cases hq
      · intro p ht; rw [ht] at hq; cases hq
  · intro hdw hro hch hdel
    unfold mx_sync_mailbox sync_until_backend
    rw [if_neg (by simp [hdw]), if_neg (by simp [hro]), if_pos (by simp [hch, hdel])]

/-- Witness of C24 on the unchanged example session. -/
theorem close_and_sync_unchanged_witness :
    (∃ w5, mx_close_mailbox ex_build ex_env 1 ex_globals ex_unchanged_ctx ex_world =
        some { rc := 0, exit := CloseExit.unchanged, ctx := Context.zero, g := ex_globals,
               w := w5 } ∧
      World.adds Event.is_quiet_close ex_world w5 ∧
      (∀ e ∈ w5.trace, e ∉ ex_world.trace →
        (∀ t, e ≠ Event.ops_sync t) ∧ (∀ x, e ≠ Event.imap_sync_mailbox x) ∧
        (∀ a f, e ≠ Event.append_message a f) ∧ (∀ p, e ≠ Event.unlink p))) ∧
    mx_close_mailbox ex_build ex_env 1 ex_globals ex_unchanged_ctx ex_world =
      some { rc := 0, exit := CloseExit.unchanged, ctx := Context.zero, g := ex_globals,
             w := ex_unchanged_world } ∧
    mx_sync_mailbox ex_build ex_env 0 ex_globals ex_unchanged_ctx ex_world =
      some { rc := 0, exit := SyncExit.unchanged, ctx := ex_unchanged_ctx, g := ex_globals,
             w := if !ex_unchanged_ctx.quiet then
                    ex_world.log (Event.message "Mailbox is unchanged." [])
                  else ex_world } :=
  ⟨(close_and_sync_unchanged ex_build ex_env 0 ex_globals ex_unchanged_ctx ex_world).1
      { ex_unchanged_ctx with closing := true } ex_globals ex_world ex_unchanged_ctx.records
      { ex_unchanged_ctx with closing := true } ex_world rfl rfl rfl rfl (by decide) rfl rfl rfl
      (fun _ _ => rfl),
    rfl,
    (close_and_sync_unchanged ex_build ex_env 0 ex_globals ex_unchanged_ctx ex_world).2
      rfl rfl rfl rfl⟩

/-- C21 as stated fails.  `mx_close_message` on a backend without `close_msg`
does not fail: it returns 0 and goes on to remove the temporary file of the
handle.  `mx_check_mailbox` tests only that the session has an operations
table: with a table that has no `check`, the call goes through the `NULL`
pointer instead of returning -1. -/
theorem dispatch_presence_checks_differ :
    (ex_env.ops MUTT_MBOX).close_msg.isNone = true ∧
    mx_close_message ex_env (some ex_ctx) (some ex_msg) ex_world =
      (0, ex_world.log (Event.unlink "/tmp/msg.tmp")) ∧
    (ex_env_no_check.ops MUTT_MBOX).check.isNone = true ∧
    ex_ctx.mx_ops = some MUTT_MBOX ∧
    mx_check_mailbox ex_env_no_check (some ex_ctx) ex_world = none :=
  ⟨rfl, rfl, rfl, rfl, rfl⟩

theorem mx_open_mailbox_append_call (b : Build) (env : Env) (g : Globals) (ctx : Context)
    (flags : OpenFlags) (w : World) :
    ((mx_open_mailbox_append b env g ctx flags w).1 = -1 ∧
      World.adds Event.not_backend_op w (mx_open_mailbox_append b env g ctx flags w).2.2) ∨
    (∃ t f w3, (env.ops t).open_append = some f ∧ World.adds Event.not_backend_op w w3 ∧
      (mx_open_mailbox_append b env g ctx flags w).2.2 = w3.log (Event.ops_open_append t)) := by
  have hq := mx_get_magic_no_backend b env g.opts g.DefaultMagic (ctx.path.getD "") w
  have tail : ∀ (c3 : Context) (fl : OpenFlags) (w3 : World),
      World.adds Event.not_backend_op w w3 →
      ∀ r : Int × Context × World,
        r = (match mx_get_ops b c3.magic with
          | none => ((-1 : Int), ({ c3 with mx_ops := mx_get_ops b c3.magic } : Context), w3)
          | some t =>
            match (env.ops t).open_append with
            | none => (-1, { c3 with mx_ops := mx_get_ops b c3.magic }, w3)
            | some f =>
              ((f w3.trace { c3 with mx_ops := mx_get_ops b c3.magic } fl).1,
               (f w3.trace { c3 with mx_ops := mx_get_ops b c3.magic } fl).2,
               w3.log (Event.ops_open_append t))) →
        (r.1 = -1 ∧ World.adds Event.not_backend_op w r.2.2) ∨
        (∃ t f w3', (env.ops t).open_append = some f ∧
          World.adds Event.not_backend_op w w3' ∧ r.2.2 = w3'.log (Event.ops_open_append t)) := by
    intro c3 fl w3 hw3 r hr
    cases ho : mx_get_ops b c3.magic with
    | none => rw [ho] at hr; subst hr; exact Or.inl ⟨rfl, hw3⟩
    | some t =>
      rw [ho] at hr
      dsimp only at hr
      cases hf : (env.ops t).open_append with
      | none => rw [hf] at hr; subst hr; exact Or.inl ⟨rfl, hw3⟩
      | some f => rw [hf] at hr; subst hr; exact Or.inr ⟨t, f, w3, hf, hw3, rfl⟩
  unfold mx_open_mailbox_append
  dsimp only
  by_cases h0 : ((mx_get_magic b env g.opts g.DefaultMagic (ctx.path.getD "") w).1 == 0) = true
  · rw [if_pos h0]
    exact Or.inl ⟨rfl, adds_log _ _ _ (Event.error "%s is not a mailbox.") hq rfl⟩
  · rw [if_neg h0]
    by_cases hneg : (decide ((mx_get_magic b env g.opts g.DefaultMagic (ctx.path.getD "") w).1
        < 0)) = true
    · rw [if_pos hneg]
      have hs1 := adds_log _ _ _ (Event.stat (ctx.path.getD "")) hq
        (rfl : Event.not_backend_op (Event.stat (ctx.path.getD "")) = true)
      cases hs : env.stat (mx_get_magic b env g.opts g.DefaultMagic (ctx.path.getD "") w).2.trace
          (ctx.path.getD "") with
      | ok st => exact Or.inl ⟨rfl, hs1⟩
      | error e =>
        dsimp only
        by_cases he : (e == env.errnos.ENOENT) = true
        · rw [if_pos he]
          dsimp only
          refine tail _ _ _ ?_ _ rfl
          split
          · exact adds_log _ _ _ (Event.comp_can_append (ctx.path.getD "")) hs1 rfl
          · exact hs1
        · rw [if_neg he]
          exact Or.inl ⟨rfl, adds_log _ _ _ (Event.error "perror") hs1 rfl⟩
    · rw [if_neg hneg]
      dsimp only
      exact tail { ctx with append := true,
                            magic := (mx_get_magic b env g.opts g.DefaultMagic
                              (ctx.path.getD "") w).1 } flags _ hq _ rfl

theorem mx_open_mailbox_eq (b : Build) (env : Env) (g : Globals) (p : String)
    (flags : OpenFlags) (pctx : Option Context) (w : World) :
    mx_open_mailbox b env g (some p) flags pctx w =
      if p.isEmpty then some { ret := none, pctx := pctx, g := g, w := w }
      else if flags.MUTT_APPEND || flags.MUTT_NEWFOLDER then
        open_for_append b env g flags pctx (open_setup b env p flags w)
          (w.log (Event.realpath p))
      else
        open_for_read b env g p flags pctx (open_setup b env p flags w)
          (w.log (Event.realpath p)) := rfl

theorem mx_fastclose_mailbox_no_table (env : Env) (ctx : Context) (w : World)
    (h : ctx.mx_ops = none) :
    ∃ w1, mx_fastclose_mailbox env ctx w = some (Context.zero, w1) ∧
      World.adds Event.not_backend_op w w1 := by
  obtain ⟨w1, hw1⟩ := mx_fastclose_mailbox_some env ctx w
    (fun t ht => by rw [h] at ht; cases ht)
  refine ⟨w1, hw1, ?_⟩
  obtain ⟨_, htr⟩ := mx_fastclose_mailbox_trace env ctx w _ w1 hw1
  refine ⟨_, htr, ?_⟩
  intro e he
  rw [h] at he
  simp only [List.append_nil, List.mem_append] at he
  rcases he with he | he
  · cases hp : ctx.path with
    | none => rw [hp] at he; simp at he
    | some p =>
      rw [hp] at he
      dsimp only at he
      split at he
      · simp only [List.mem_singleton] at he
        rw [he]; rfl
      · simp at he
  · split at he
    · simp only [List.mem_singleton] at he
      rw [he]; rfl
    · simp at he

theorem open_for_read_no_table (b : Build) (env : Env) (g : Globals) (p : String)
    (flags : OpenFlags) (pctx : Option Context) (c6 : Context) (w w1 : World)
    (hw : World.adds Event.not_backend_op w w1)
    (hno : mx_get_ops b (mx_get_magic b env g.opts g.DefaultMagic p w1).1 = none) :
    ∃ r, open_for_read b env g p flags pctx c6 w1 = some r ∧ r.ret = none ∧
      World.adds Event.not_backend_op w r.w := by
  have hq := mx_get_magic_no_backend b env g.opts g.DefaultMagic p w1
  have h1 := adds_trans _ _ _ _ hw hq
  unfold open_for_read
  dsimp only
  rw [hno]
  rw [if_pos (by simp)]
  have h2 : World.adds Event.not_backend_op w
      (if ((mx_get_magic b env g.opts g.DefaultMagic p w1).1 == -1) = true then
        (mx_get_magic b env g.opts g.DefaultMagic p w1).2.log (Event.error "perror")
      else if ((mx_get_magic b env g.opts g.DefaultMagic p w1).1 == 0 ||
          (none : Option Int).isNone) = true then
        (mx_get_magic b env g.opts g.DefaultMagic p w1).2.log
          (Event.error "%s is not a mailbox.")
      else (mx_get_magic b env g.opts g.DefaultMagic p w1).2) := by
    split
    · exact adds_log _ _ _ (Event.error "perror") h1 rfl
    · split
      · exact adds_log _ _ _ (Event.error "%s is not a mailbox.") h1 rfl
      · exact h1
  obtain ⟨w3, hw3, ha3⟩ := mx_fastclose_mailbox_no_table env
    { c6 with magic := (mx_get_magic b env g.opts g.DefaultMagic p w1).1, mx_ops := none }
    _ rfl
  rw [hw3]
  exact ⟨_, rfl, rfl, adds_trans _ _ _ _ h2 ha3⟩

theorem mx_open_mailbox_no_table (b : Build) (env : Env) (g : Globals) (p : String)
    (flags : OpenFlags) (pctx : Option Context) (w : World)
    (hp : p.isEmpty = false)
    (hfl : (flags.MUTT_APPEND || flags.MUTT_NEWFOLDER) = false)
    (hno : mx_get_ops b (mx_get_magic b env g.opts g.DefaultMagic p
      (w.log (Event.realpath p))).1 = none) :
    ∃ r, mx_open_mailbox b env g (some p) flags pctx w = some r ∧ r.ret = none ∧
      World.adds Event.not_backend_op w r.w := by
  rw [mx_open_mailbox_eq, hp, hfl]
  exact open_for_read_no_table b env g p flags pctx _ w _
    (adds_log _ w w (Event.realpath p) (adds_refl _ w) rfl) hno

/-- C21, amended: the operations that test both the table and the member fail
without a backend call when either is absent: `mx_open_mailbox_append` returns
-1 unless it calls an `open_append` that is present, `sync_mailbox` returns -1,
`mx_open_message` and `mx_open_new_message` return `NULL`, `mx_commit_message`
returns -1.  `mx_close_message` skips the backend call when `close_msg` is
absent and returns 0, removing at most the temporary file of the handle.
`mx_open_mailbox` (for reading), `mx_check_mailbox` and `mx_fastclose_mailbox`
test that the session has an operations table: without one the first returns
`NULL`, the second -1, the third tears the session down, none with a backend
call. -/
theorem dispatch_checks_presence (b : Build) (env : Env) (g : Globals) (ctx : Context)
    (w : World) :
    (∀ flags,
      ((mx_open_mailbox_append b env g ctx flags w).1 = -1 ∧
        World.adds Event.not_backend_op w (mx_open_mailbox_append b env g ctx flags w).2.2) ∨
      (∃ t f w3, (env.ops t).open_append = some f ∧ World.adds Event.not_backend_op w w3 ∧
        (mx_open_mailbox_append b env g ctx flags w).2.2 =
          w3.log (Event.ops_open_append t))) ∧
    ((ctx.mx_ops = none ∨ ∃ t, ctx.mx_ops = some t ∧ (env.ops t).sync = none) →
      sync_mailbox env ctx w = (-1, ctx, w)) ∧
    ((ctx.mx_ops = none ∨ ∃ t, ctx.mx_ops = some t ∧ (env.ops t).open_msg = none) →
      ∀ msgno, mx_open_message env ctx msgno w = (none, w)) ∧
    ((ctx.mx_ops = none ∨ ∃ t, ctx.mx_ops = some t ∧ (env.ops t).open_new_msg = none) →
      ∀ now hdr flags, mx_open_new_message env now ctx hdr flags w = (none, w)) ∧
    ((ctx.mx_ops = none ∨ ∃ t, ctx.mx_ops = some t ∧ (env.ops t).commit_msg = none) →
      ∀ msg, mx_commit_message env msg ctx w = (-1, w)) ∧
    ((ctx.mx_ops = none ∨ ∃ t, ctx.mx_ops = some t ∧ (env.ops t).close_msg = none) →
      ∀ msg, (mx_close_message env (some ctx) (some msg) w).1 = 0 ∧
        (mx_close_message env (some ctx) (some msg) w).2 =
          (match msg.path with
           | some p => w.log (Event.unlink p)
           | none => w)) ∧
    (ctx.mx_ops = none → mx_check_mailbox env (some ctx) w = some (-1, some ctx, w)) ∧
    (ctx.mx_ops = none →
      ∃ w1, mx_fastclose_mailbox env ctx w = some (Context.zero, w1) ∧
        World.adds Event.not_backend_op w w1) ∧
    (∀ p flags pctx, p.isEmpty = false →
      (flags.MUTT_APPEND || flags.MUTT_NEWFOLDER) = false →
      mx_get_ops b (mx_get_magic b env g.opts g.DefaultMagic p
        (w.log (Event.realpath p))).1 = none →
      ∃ r, mx_open_mailbox b env g (some p) flags pctx w = some r ∧ r.ret = none ∧
        World.adds Event.not_backend_op w r.w) := by
  refine ⟨fun flags => mx_open_mailbox_append_call b env g ctx flags w, ?_, ?_, ?_, ?_, ?_, ?_,
    fun h => mx_fastclose_mailbox_no_table env ctx w h,
    fun p flags pctx hp hfl hno => mx_open_mailbox_no_table b env g p flags pctx w hp hfl hno⟩
  · rintro (h | ⟨t, h1, h2⟩)
    · simp only [sync_mailbox, h]
    · simp only [sync_mailbox, h1, h2]
  · rintro (h | ⟨t, h1, h2⟩) msgno
    · simp only [mx_open_message, h]
    · simp only [mx_open_message, h1, h2]
  · rintro (h | ⟨t, h1, h2⟩) now hdr flags
    · simp only [mx_open_new_message, h]
    · simp only [mx_open_new_message, h1, h2]
  · rintro (h | ⟨t, h1, h2⟩) msg
    · simp only [mx_commit_message, h]
    · simp only [mx_commit_message, h1, h2]
  · rintro (h | ⟨t, h1, h2⟩) msg
    · cases hp : msg.path <;> simp [mx_close_message, h, hp]
    · cases hp : msg.path <;> simp [mx_close_message, h1, h2, hp]
  · intro h
    simp only [mx_check_mailbox, h]

/-- Witness of the amended C21 on the example session, whose backend has no
message operations. -/
theorem dispatch_checks_presence_witness :
    (ex_ctx.mx_ops = none ∨ ∃ t, ex_ctx.mx_ops = some t ∧ (ex_env.ops t).commit_msg = none) ∧
    mx_commit_message ex_env { Message.zero with write := true }
      { ex_ctx with append := true } ex_world = (-1, ex_world) ∧
    mx_open_message ex_env ex_ctx 0 ex_world = (none, ex_world) :=
  ⟨Or.inr ⟨MUTT_MBOX, rfl, rfl⟩,
    (dispatch_checks_presence ex_build ex_env ex_globals { ex_ctx with append := true }
      ex_world).2.2.2.2.1 (Or.inr ⟨MUTT_MBOX, rfl, rfl⟩) { Message.zero with write := true },
    (dispatch_checks_presence ex_build ex_env ex_globals ex_ctx ex_world).2.2.1
      (Or.inr ⟨MUTT_MBOX, rfl, rfl⟩) 0⟩

/-- C22: `mx_commit_message` calls the backend `commit_msg` if and only if the
session has an operations table with that member, the handle was opened for
writing and the session is in append mode; then it returns the result of the
backend unchanged, having made that one call; in every other case it returns
-1 and does nothing. -/
theorem mx_commit_message_guard (env : Env) (msg : Message) (ctx : Context) (w : World) :
    ((∃ t, Event.ops_commit_msg t ∈ (mx_commit_message env msg ctx w).2.trace ∧
        Event.ops_commit_msg t ∉ w.trace) →
      ∃ t f, ctx.mx_ops = some t ∧ (env.ops t).commit_msg = some f ∧ msg.write = true ∧
        ctx.append = true) ∧
    (∀ t f, ctx.mx_ops = some t → (env.ops t).commit_msg = some f → msg.write = true →
      ctx.append = true →
      mx_commit_message env msg ctx w = (f w.trace ctx msg, w.log (Event.ops_commit_msg t))) ∧
    (¬ (∃ t f, ctx.mx_ops = some t ∧ (env.ops t).commit_msg = some f ∧ msg.write = true ∧
        ctx.append = true) →
      mx_commit_message env msg ctx w = (-1, w)) := by
  have hyes : ∀ t f, ctx.mx_ops = some t → (env.ops t).commit_msg = some f →
      msg.write = true → ctx.append = true →
      mx_commit_message env msg ctx w =
        (f w.trace ctx msg, w.log (Event.ops_commit_msg t)) := by
    intro t f h1 h2 h3 h4
    simp [mx_commit_message, h1, h2, h3, h4]
  have hno : ¬ (∃ t f, ctx.mx_ops = some t ∧ (env.ops t).commit_msg = some f ∧
      msg.write = true ∧ ctx.append = true) → mx_commit_message env msg ctx w = (-1, w) := by
    intro hn
    unfold mx_commit_message
    cases h1 : ctx.mx_ops with
    | none => rfl
    | some t =>
      dsimp only
      cases h2 : (env.ops t).commit_msg with
      | none => rfl
      | some f =>
        dsimp only
        by_cases h3 : (msg.write && ctx.append) = true
        · exfalso
          apply hn
          simp only [Bool.and_eq_true] at h3
          exact ⟨t, f, h1, h2, h3.1, h3.2⟩
        · have h4 : (!(msg.write && ctx.append)) = true := by
            cases hb : (msg.write && ctx.append)
            · rfl
            · exact absurd hb h3
          rw [if_pos h4]
  refine ⟨?_, hyes, hno⟩
  rintro ⟨t, hin, hout⟩
  by_contra hn
  rw [hno hn] at hin
  exact hout hin

/-- Witness of C22: on an append session whose backend has `commit_msg`, a
handle opened for writing is committed and the answer of the backend, 7, is
returned; a handle not opened for writing gives -1 with no call. -/
theorem mx_commit_message_guard_witness :
    mx_commit_message ex_env_msg_ops { Message.zero with write := true }
        { ex_ctx with append := true } ex_world =
      (7, ex_world.log (Event.ops_commit_msg MUTT_MBOX)) ∧
    mx_commit_message ex_env_msg_ops Message.zero { ex_ctx with append := true } ex_world =
      (-1, ex_world) :=
  ⟨(mx_commit_message_guard ex_env_msg_ops { Message.zero with write := true }
      { ex_ctx with append := true } ex_world).2.1 MUTT_MBOX (fun _ _ _ => 7) rfl rfl rfl rfl,
    (mx_commit_message_guard ex_env_msg_ops Message.zero { ex_ctx with append := true }
      ex_world).2.2 (by
        rintro ⟨t, f, _, _, h3, _⟩
        exact absurd h3 (by decide))⟩

/-! ### Growth is checked -/

theorem realloc_slots_length {α : Type} (old : List α) (n : Nat) (junk : Nat → α) :
    (realloc_slots old n junk).length = n := by
  simp [realloc_slots]

theorem realloc_slots_get {α : Type} (old : List α) (n : Nat) (junk : Nat → α) (k : Nat)
    (hk : k < n) (hold : k < old.length) :
    (realloc_slots old n junk)[k]? = old[k]? := by
  simp only [realloc_slots, List.getElem?_map, List.getElem?_range hk, Option.map_some',
    List.get?_eq_getElem?]
  rw [List.getElem?_eq_getElem hold]
  rfl

theorem alloc_fill_spec : ∀ (n i : Nat) (hdrs : List (Option Header)) (v2r : List Int),
    i + n ≤ hdrs.length → i + n ≤ v2r.length →
    (alloc_fill n i hdrs v2r).1.length = hdrs.length ∧
    (alloc_fill n i hdrs v2r).2.length = v2r.length ∧
    (∀ k, k < i → (alloc_fill n i hdrs v2r).1[k]? = hdrs[k]? ∧
      (alloc_fill n i hdrs v2r).2[k]? = v2r[k]?) ∧
    (∀ k, i ≤ k → k < i + n → (alloc_fill n i hdrs v2r).1[k]? = some none ∧
      (alloc_fill n i hdrs v2r).2[k]? = some (-1)) := by
  intro n
  induction n with
  | zero =>
    intro i hdrs v2r _ _
    refine ⟨rfl, rfl, fun k _ => ⟨rfl, rfl⟩, ?_⟩
    intro k h1 h2
    omega
  | succ n ih =>
    intro i hdrs v2r h1 h2
    have := ih (i + 1) (hdrs.set i none) (v2r.set i (-1))
      (by rw [List.length_set]; omega) (by rw [List.length_set]; omega)
    obtain ⟨a1, a2, a3, a4⟩ := this
    simp only [alloc_fill]
    rw [List.length_set] at a1 a2
    refine ⟨a1, a2, ?_, ?_⟩
    · intro k hk
      obtain ⟨b1, b2⟩ := a3 k (by omega)
      rw [b1, b2, List.getElem?_set_ne (by omega), List.getElem?_set_ne (by omega)]
      exact ⟨rfl, rfl⟩
    · intro k hk1 hk2
      by_cases hki : k = i
      · subst hki
        obtain ⟨b1, b2⟩ := a3 k (by omega)
        rw [b1, b2, List.getElem?_set_self (by omega), List.getElem?_set_self (by omega)]
        exact ⟨rfl, rfl⟩
      · exact a4 k (by omega) (by omega)

theorem growth_test (abi : Abi) (hdrmax : Nat)
    (hfit : hdrmax * abi.slot < 2 ^ abi.size_bits)
    (hstep : 25 * abi.slot < 2 ^ abi.size_bits) :
    abi.mul (hdrmax + 25) abi.slot < abi.mul hdrmax abi.slot ↔
      2 ^ abi.size_bits ≤ (hdrmax + 25) * abi.slot := by
  simp only [Abi.mul]
  rw [Nat.mod_eq_of_lt hfit]
  have hB : (hdrmax + 25) * abi.slot = hdrmax * abi.slot + 25 * abi.slot := by ring
  constructor
  · intro h
    by_contra hlt
    rw [Nat.mod_eq_of_lt (by omega)] at h
    omega
  · intro h
    have h2 : (hdrmax + 25) * abi.slot =
        ((hdrmax + 25) * abi.slot - 2 ^ abi.size_bits) + 2 ^ abi.size_bits := by omega
    rw [h2, Nat.add_mod_right, Nat.mod_eq_of_lt (by omega)]
    omega

theorem wf_msgcount_le (ctx : Context) (hwf : ctx.WF) :
    ctx.msgcount ≤ ctx.hdrs.length ∧ ctx.msgcount ≤ ctx.v2r.length := by
  obtain ⟨h1, h2, h3⟩ := hwf
  refine ⟨?_, h3⟩
  have := congrArg List.length h1
  rw [List.length_take, List.length_map, h2] at this
  omega

/-- C23: for a well-formed session with `msgcount <= hdrmax` whose present
capacity fits in `size_t` (`hdrmax * s < 2 ^ w`, as it does when the arrays
exist) on a platform where
one step of growth fits (`25 * s < 2 ^ w`): whenever `(hdrmax + 25) * s` would
wrap, `mx_alloc_memory` reports the integer overflow and stops the process
without allocating; whenever it returns, the capacity is `hdrmax + 25`, the
requested sizes did not wrap, both arrays have that capacity, the slots
`[0, msgcount)` of `hdrs` and `v2r` are unchanged, every slot in
`[msgcount, hdrmax + 25)` holds no record and `v2r` value -1, and the world is
untouched; and it does return when the size does not wrap and the allocator
provides the memory. -/
theorem mx_alloc_memory_checked (abi : Abi) (alloc_ok : Nat → Bool)
    (junk_hdrs : Nat → Option Header) (junk_v2r : Nat → Int) (ctx : Context) (w : World)
    (hwf : ctx.WF) (hcap : ctx.msgcount ≤ ctx.hdrmax)
    (hfit : ctx.hdrmax * abi.slot < 2 ^ abi.size_bits)
    (hstep : 25 * abi.slot < 2 ^ abi.size_bits) :
    (2 ^ abi.size_bits ≤ (ctx.hdrmax + 25) * abi.slot →
      mx_alloc_memory abi alloc_ok junk_hdrs junk_v2r ctx w =
        AllocResult.exited 1
          ((w.log (Event.error "Integer overflow -- can't allocate memory.")).log
            (Event.sleep 1))) ∧
    (∀ c w1, mx_alloc_memory abi alloc_ok junk_hdrs junk_v2r ctx w =
        AllocResult.returned c w1 →
      c.hdrmax = ctx.hdrmax + 25 ∧
      (ctx.hdrmax + 25) * abi.slot < 2 ^ abi.size_bits ∧
      (ctx.hdrmax + 25) * abi.sizeof_ptr < 2 ^ abi.size_bits ∧
      (ctx.hdrmax + 25) * abi.sizeof_int < 2 ^ abi.size_bits ∧
      c.hdrs.length = ctx.hdrmax + 25 ∧ c.v2r.length = ctx.hdrmax + 25 ∧
      (∀ i, i < ctx.msgcount → c.hdrs.get? i = ctx.hdrs.get? i ∧
        c.v2r.get? i = ctx.v2r.get? i) ∧
      (∀ i, ctx.msgcount ≤ i → i < ctx.hdrmax + 25 →
        c.hdrs.get? i = some none ∧ c.v2r.get? i = some (-1)) ∧
      c.msgcount = ctx.msgcount ∧ w1 = w ∧
      c = { ctx with hdrmax := c.hdrmax, hdrs := c.hdrs, v2r := c.v2r }) ∧
    ((ctx.hdrmax + 25) * abi.slot < 2 ^ abi.size_bits →
      alloc_ok (abi.mul abi.sizeof_ptr (ctx.hdrmax + 25)) = true →
      alloc_ok (abi.mul abi.sizeof_int (ctx.hdrmax + 25)) = true →
      ∃ c, mx_alloc_memory abi alloc_ok junk_hdrs junk_v2r ctx w =
        AllocResult.returned c w) := by
  have htest := growth_test abi ctx.hdrmax hfit hstep
  obtain ⟨hm1, hm2⟩ := wf_msgcount_le ctx hwf
  refine ⟨?_, ?_, ?_⟩
  · intro hwrap
    unfold mx_alloc_memory
    rw [if_pos (htest.2 hwrap)]
  · intro c w1 hret
    unfold mx_alloc_memory at hret
    by_cases ht : abi.mul (ctx.hdrmax + 25) abi.slot < abi.mul ctx.hdrmax abi.slot
    · rw [if_pos ht] at hret
      cases hret
    · rw [if_neg ht] at hret
      have hnowrap : (ctx.hdrmax + 25) * abi.slot < 2 ^ abi.size_bits := by
        by_contra hx
        exact ht (htest.2 (by omega))
      dsimp only at hret
      split at hret
      · cases hret
      · simp only [AllocResult.returned.injEq] at hret
        obtain ⟨hc, hw⟩ := hret
        have hp : (ctx.hdrmax + 25) * abi.sizeof_ptr ≤ (ctx.hdrmax + 25) * abi.slot :=
          Nat.mul_le_mul_left _ (le_max_left _ _)
        have hi : (ctx.hdrmax + 25) * abi.sizeof_int ≤ (ctx.hdrmax + 25) * abi.slot :=
          Nat.mul_le_mul_left _ (le_max_right _ _)
        have harr : ∀ (A : List (Option Header)) (V : List Int),
            A.length = ctx.hdrmax + 25 → V.length = ctx.hdrmax + 25 →
            (∀ i, i < ctx.msgcount → A[i]? = ctx.hdrs[i]? ∧ V[i]? = ctx.v2r[i]?) →
            c = { ctx with hdrmax := ctx.hdrmax + 25,
                           hdrs := (alloc_fill (ctx.hdrmax + 25 - ctx.msgcount) ctx.msgcount
                             A V).1,
                           v2r := (alloc_fill (ctx.hdrmax + 25 - ctx.msgcount) ctx.msgcount
                             A V).2 } →
            c.hdrmax = ctx.hdrmax + 25 ∧
            (ctx.hdrmax + 25) * abi.slot < 2 ^ abi.size_bits ∧
            (ctx.hdrmax + 25) * abi.sizeof_ptr < 2 ^ abi.size_bits ∧
            (ctx.hdrmax + 25) * abi.sizeof_int < 2 ^ abi.size_bits ∧
            c.hdrs.length = ctx.hdrmax + 25 ∧ c.v2r.length = ctx.hdrmax + 25 ∧
            (∀ i, i < ctx.msgcount → c.hdrs.get? i = ctx.hdrs.get? i ∧
              c.v2r.get? i = ctx.v2r.get? i) ∧
            (∀ i, ctx.msgcount ≤ i → i < ctx.hdrmax + 25 →
              c.hdrs.get? i = some none ∧ c.v2r.get? i = some (-1)) ∧
            c.msgcount = ctx.msgcount ∧ w1 = w ∧
            c = { ctx with hdrmax := c.hdrmax, hdrs := c.hdrs, v2r := c.v2r } := by
          intro A V hA hV hkeep hceq
          have hspec : ctx.msgcount + (ctx.hdrmax + 25 - ctx.msgcount) ≤ A.length ∨
              ctx.hdrmax + 25 - ctx.msgcount = 0 := by omega
          subst hceq
          rcases hspec with hs | hs
          · obtain ⟨a1, a2, a3, a4⟩ := alloc_fill_spec (ctx.hdrmax + 25 - ctx.msgcount)
              ctx.msgcount A V hs (by omega)
            refine ⟨rfl, hnowrap, by omega, by omega, a1.trans hA, a2.trans hV, ?_, ?_, rfl, hw.symm, rfl⟩
            · intro i hi2
              simp only [List.get?_eq_getElem?]
              rw [(a3 i hi2).1, (a3 i hi2).2]
              exact hkeep i hi2
            · intro i hi1 hi2
              simp only [List.get?_eq_getElem?]
              exact a4 i hi1 (by omega)
          · rw [hs]
            refine ⟨rfl, hnowrap, by omega, by omega, hA, hV, ?_, ?_, rfl, hw.symm, rfl⟩
            · intro i hi2
              simp only [List.get?_eq_getElem?, alloc_fill]
              exact hkeep i hi2
            · intro i hi1 hi2
              omega
        by_cases he : ctx.hdrs.isEmpty = true
        · have hnil : ctx.hdrs = [] := by simpa using he
          have hm0 : ctx.msgcount = 0 := by rw [hnil] at hm1; simpa using hm1
          refine harr (List.replicate (ctx.hdrmax + 25) none)
            (List.replicate (ctx.hdrmax + 25) 0) (by simp) (by simp)
            (fun i hi2 => by omega) ?_
          rw [← hc]
          simp [he]
        · have hne : (!ctx.hdrs.isEmpty) = true := by simpa using he
          refine harr (realloc_slots ctx.hdrs (ctx.hdrmax + 25) junk_hdrs)
            (realloc_slots ctx.v2r (ctx.hdrmax + 25) junk_v2r)
            (realloc_slots_length _ _ _) (realloc_slots_length _ _ _) ?_ ?_
          · intro i hi2
            exact ⟨realloc_slots_get _ _ _ i (by omega) (by omega),
              realloc_slots_get _ _ _ i (by omega) (by omega)⟩
          · rw [← hc]
            simp [hne]
  · intro hnowrap ha1 ha2
    unfold mx_alloc_memory
    have ht : ¬ abi.mul (ctx.hdrmax + 25) abi.slot < abi.mul ctx.hdrmax abi.slot := by
      intro h
      have := htest.1 h
      omega
    rw [if_neg ht]
    dsimp only
    rw [if_neg (by simp [ha1, ha2])]
    exact ⟨_, rfl⟩

/-- Witness of C23: on the 64-bit platform the three-record example session
grows from 4 to 29 slots; on the 32-bit platform the session with 1073741800
slots cannot grow and the process is stopped. -/
theorem mx_alloc_memory_checked_witness :
    (ex_ctx.WF ∧ ex_ctx.msgcount ≤ ex_ctx.hdrmax ∧
      ex_ctx.hdrmax * ex_abi64.slot < 2 ^ ex_abi64.size_bits ∧
      25 * ex_abi64.slot < 2 ^ ex_abi64.size_bits) ∧
    (∃ c, mx_alloc_memory ex_abi64 (fun _ => true) (fun _ => some ex_hdr) (fun _ => 7)
        ex_ctx ex_world = AllocResult.returned c ex_world) ∧
    (ex_full_ctx.WF ∧ ex_full_ctx.msgcount ≤ ex_full_ctx.hdrmax ∧
      ex_full_ctx.hdrmax * ex_abi32.slot < 2 ^ ex_abi32.size_bits ∧
      25 * ex_abi32.slot < 2 ^ ex_abi32.size_bits ∧
      2 ^ ex_abi32.size_bits ≤ (ex_full_ctx.hdrmax + 25) * ex_abi32.slot) ∧
    mx_alloc_memory ex_abi32 (fun _ => true) (fun _ => some ex_hdr) (fun _ => 7)
        ex_full_ctx ex_world =
      AllocResult.exited 1
        ((ex_world.log (Event.error "Integer overflow -- can't allocate memory.")).log
          (Event.sleep 1)) :=
  ⟨⟨by decide, by decide, by decide, by decide⟩,
    (mx_alloc_memory_checked ex_abi64 (fun _ => true) (fun _ => some ex_hdr) (fun _ => 7)
      ex_ctx ex_world (by decide) (by decide) (by decide) (by decide)).2.2
      (by decide) rfl rfl,
    ⟨by decide, by decide, by decide, by decide, by decide⟩,
    (mx_alloc_memory_checked ex_abi32 (fun _ => true) (fun _ => some ex_hdr) (fun _ => 7)
      ex_full_ctx ex_world (by decide) (by decide) (by decide) (by decide)).1 (by decide)⟩

/-! ### The unread count -/

theorem uncovered_snoc (fM lM : Nat) (done : List NewsrcEntry) (x : NewsrcEntry) :
    uncovered fM lM (done ++ [x]) =
      uncovered fM lM done \ Finset.Icc (max x.first fM) (min x.last lM) := by
  ext a
  simp only [uncovered, Finset.mem_filter, Finset.mem_Icc, Finset.mem_sdiff, List.mem_append,
    List.mem_singleton, NewsrcEntry.covers]
  constructor
  · rintro ⟨⟨h1, h2⟩, h3⟩
    refine ⟨⟨⟨h1, h2⟩, fun e he => h3 e (Or.inl he)⟩, ?_⟩
    intro h4
    exact h3 x (Or.inr rfl) ⟨by omega, by omega⟩
  · rintro ⟨⟨⟨h1, h2⟩, h3⟩, h4⟩
    refine ⟨⟨h1, h2⟩, ?_⟩
    rintro e (he | he)
    · exact h3 e he
    · subst he
      intro h5
      apply h4
      omega

theorem clipped_subset (fM lM : Nat) (done : List NewsrcEntry) (x : NewsrcEntry)
    (hd : ∀ e ∈ done, NewsrcEntry.disjoint e x) :
    Finset.Icc (max x.first fM) (min x.last lM) ⊆ uncovered fM lM done := by
  intro a ha
  simp only [Finset.mem_Icc] at ha
  simp only [uncovered, Finset.mem_filter, Finset.mem_Icc]
  refine ⟨⟨by omega, by omega⟩, ?_⟩
  intro e he hc
  exact hd e he a ⟨hc, by unfold NewsrcEntry.covers; omega⟩

theorem unread_stat_loop_counts (bits fM lM : Nat) (hfit : lM - fM + 1 < 2 ^ bits)
    (hle : fM ≤ lM) :
    ∀ (rest done : List NewsrcEntry) (unread : Nat),
      (done ++ rest).Pairwise NewsrcEntry.disjoint →
      unread = (uncovered fM lM done).card →
      unread_stat_loop bits fM lM rest unread = (uncovered fM lM (done ++ rest)).card := by
  intro rest
  induction rest with
  | nil =>
    intro done unread _ hu
    simp only [unread_stat_loop, List.append_nil, hu]
  | cons x rest ih =>
    intro done unread hpw hu
    have hpw2 : (done ++ [x] ++ rest).Pairwise NewsrcEntry.disjoint := by
      simpa using hpw
    have hdx : ∀ e ∈ done, NewsrcEntry.disjoint e x := by
      intro e he
      have := List.pairwise_append.mp hpw
      exact this.2.2 e he x (List.mem_cons_self _ _)
    have hsub := clipped_subset fM lM done x hdx
    have hcard_le : (uncovered fM lM done).card ≤ lM - fM + 1 := by
      have h1 : (uncovered fM lM done).card ≤ (Finset.Icc fM lM).card :=
        Finset.card_le_card (Finset.filter_subset _ _)
      rw [Nat.card_Icc] at h1
      omega
    have hstep : (if (if x.first < fM then fM else x.first) ≤
          (if x.last > lM then lM else x.last) then
        (unread + 2 ^ bits - ((if x.last > lM then lM else x.last) -
          (if x.first < fM then fM else x.first) + 1) % 2 ^ bits) % 2 ^ bits
       else unread) = (uncovered fM lM (done ++ [x])).card := by
      rw [uncovered_snoc, Finset.card_sdiff hsub, ← hu]
      have hI : (Finset.Icc (max x.first fM) (min x.last lM)).card =
          min x.last lM + 1 - max x.first fM := Nat.card_Icc _ _
      have hIle := Finset.card_le_card hsub
      rw [hI, ← hu] at hIle
      rw [hI]
      have e1 : (if x.first < fM then fM else x.first) = max x.first fM := by
        split <;> omega
      have e2 : (if x.last > lM then lM else x.last) = min x.last lM := by
        split <;> omega
      rw [e1, e2]
      rw [← hu] at hcard_le
      split
      · rename_i hfl
        have hsz : min x.last lM - max x.first fM + 1 < 2 ^ bits := by omega
        rw [Nat.mod_eq_of_lt hsz]
        have : unread + 2 ^ bits - (min x.last lM - max x.first fM + 1) =
            (unread - (min x.last lM + 1 - max x.first fM)) + 2 ^ bits := by omega
        rw [this, Nat.add_mod_right, Nat.mod_eq_of_lt (by omega)]
      · omega
    simp only [unread_stat_loop]
    rw [hstep]
    have := ih (done ++ [x]) _ hpw2 rfl
    rw [this]
    simp

/-- C28: `nntp_group_unread_stat` sets `unread` to 0 when `lastMessage` is 0 or
`firstMessage > lastMessage`; otherwise, for pairwise disjoint entries and a
range whose size `lastMessage - firstMessage + 1` is a value of `anum_t`, it
sets `unread` to the number of article numbers in
`[firstMessage, lastMessage]` that lie in no entry `[first, last]`. -/
theorem nntp_group_unread_stat_counts (bits : Nat) (d : NntpData) :
    ((d.lastMessage = 0 ∨ d.firstMessage > d.lastMessage) →
      nntp_group_unread_stat bits d = some { d with unread := 0 }) ∧
    (∀ ents, d.lastMessage ≠ 0 → d.firstMessage ≤ d.lastMessage →
      d.entries = some ents → ents.Pairwise NewsrcEntry.disjoint →
      d.lastMessage - d.firstMessage + 1 < 2 ^ bits →
      nntp_group_unread_stat bits d =
        some { d with unread := (uncovered d.firstMessage d.lastMessage ents).card }) := by
  constructor
  · intro h
    unfold nntp_group_unread_stat
    rw [if_pos (by
      rcases h with h | h
      · simp [h]
      · simp [h])]
  · intro ents h0 hle hents hpw hfit
    unfold nntp_group_unread_stat
    rw [if_neg (by simp [h0]; omega), hents]
    dsimp only
    rw [Nat.mod_eq_of_lt hfit]
    have hstart : d.lastMessage - d.firstMessage + 1 =
        (uncovered d.firstMessage d.lastMessage []).card := by
      simp only [uncovered, List.not_mem_nil, false_imp_iff, implies_true, Finset.filter_True,
        Nat.card_Icc]
      omega
    have := unread_stat_loop_counts bits d.firstMessage d.lastMessage hfit hle ents [] _
      (by simpa using hpw) hstart
    rw [this]
    simp

/-- Witness of C28 with 32-bit article numbers: of the articles 2 to 10, the
four articles 4, 5, 6 and 7 lie in no entry. -/
theorem nntp_group_unread_stat_counts_witness :
    nntp_group_unread_stat 32 ex_unread_group =
      some { ex_unread_group with
             unread := (uncovered 2 10 [{ first := 1, last := 3 }, { first := 5, last := 4 },
                                        { first := 8, last := 20 }]).card } ∧
    (uncovered 2 10 [{ first := 1, last := 3 }, { first := 5, last := 4 },
                     { first := 8, last := 20 }]).card = 4 :=
  ⟨(nntp_group_unread_stat_counts 32 ex_unread_group).2 _ (by decide) (by decide) rfl
      (by
        simp only [List.pairwise_cons, List.mem_cons, List.mem_singleton, List.not_mem_nil,
          false_imp_iff, implies_true, List.Pairwise.nil, and_true, forall_eq_or_imp,
          forall_eq, NewsrcEntry.disjoint, NewsrcEntry.covers]
        refine ⟨⟨?_, ?_⟩, ?_⟩ <;> intro a <;> omega)
      (by decide),
    by decide⟩

/-- C30 as stated fails: in a group whose first article has number 0, a read
article 0 lies in no generated entry: the entries start at article 1. -/
theorem gen_entries_skip_article_zero :
    (ex_article0_ctx.records.map (fun h => (h.article_num, h.read))) = [(0, true)] ∧
    (find_data ex_globals0.news ex_article0_ctx.data).map
        (fun d => (d.firstMessage, d.lastLoaded)) = some (0, 5) ∧
    (nntp_newsrc_gen_entries ex_env 32 true ex_globals0 ex_article0_ctx ex_world).map
        (fun r => (find_data r.2.1.news (some 100)).map (fun d => (d.newsrc_ent, d.newsrc_len))) =
      some (some (some [{ first := 1, last := 5 }], 1)) ∧
    ¬ (({ first := 1, last := 5 } : NewsrcEntry).covers 0) :=
  ⟨rfl, rfl, rfl, by decide⟩

theorem gen_entries_step_inv (bits fM : Nat) (pre : List Header) (s : GenState) (h : Header)
    (hinv : GenInv pre s) (hlast : s.last < h.article_num) (hfm : fM ≤ h.article_num)
    (hbits : h.article_num < 2 ^ bits) :
    GenInv (pre ++ [h]) (gen_entries_step bits fM s h) ∧
      (gen_entries_step bits fM s h).last = h.article_num := by
  obtain ⟨hbelow, hapart, hnear, hseen, hmarks⟩ := hinv
  have hpred : (h.article_num + 2 ^ bits - 1) % 2 ^ bits = h.article_num - 1 := by
    have : h.article_num + 2 ^ bits - 1 = (h.article_num - 1) + 2 ^ bits := by omega
    rw [this, Nat.add_mod_right, Nat.mod_eq_of_lt (by omega)]
  have hsucc : (s.last + 1) % 2 ^ bits = s.last + 1 := Nat.mod_eq_of_lt (by omega)
  unfold gen_entries_step
  by_cases hser : s.series = true
  · rw [if_pos hser]
    by_cases hun : (decide (h.article_num ≥ fM) && !h.deleted && !h.read) = true
    · rw [if_pos hun]
      have hd : h.deleted = false := by
        cases hx : h.deleted
        · rfl
        · rw [hx] at hun; simp at hun
      have hr : h.read = false := by
        cases hx : h.read
        · rfl
        · rw [hx] at hun; simp at hun
      refine ⟨⟨?_, ?_, ?_, ?_, ?_⟩, rfl⟩
      · intro e he b hb
        simp only [GenState.emit, List.mem_append, List.mem_singleton] at he
        rcases he with he | he
        · have := hbelow e he b hb
          show b ≤ h.article_num
          omega
        · subst he
          simp only [NewsrcEntry.covers, hpred] at hb
          show b ≤ h.article_num
          omega
      · intro hx; cases hx
      · intro hx; cases hx
      · intro x hx
        simp only [List.mem_append, List.mem_singleton] at hx
        show x.article_num ≤ h.article_num
        rcases hx with hx | hx
        · have := hseen x hx
          omega
        · rw [hx]
      · intro x hx
        simp only [List.mem_append, List.mem_singleton] at hx
        simp only [GenState.emit, List.mem_append, List.mem_singleton, Bool.false_eq_true,
          false_and, or_false]
        rcases hx with hx | hx
        · rw [← hmarks x hx]
          have hxl := hseen x hx
          constructor
          · rintro ⟨e, he | he, hc⟩
            · exact Or.inl ⟨e, he, hc⟩
            · subst he
              simp only [NewsrcEntry.covers, hpred] at hc
              exact Or.inr ⟨hser, hc.1⟩
          · rintro (⟨e, he, hc⟩ | ⟨_, hf⟩)
            · exact ⟨e, Or.inl he, hc⟩
            · refine ⟨_, Or.inr rfl, ?_⟩
              simp only [NewsrcEntry.covers, hpred]
              omega
        · subst hx
          rw [hr, hd]
          simp only [Bool.false_eq_true, or_self, iff_false, not_exists, not_and]
          rintro e (he | he) hc
          · have := hbelow e he _ hc
            omega
          · subst he
            simp only [NewsrcEntry.covers, hpred] at hc
            omega
    · rw [if_neg hun]
      have hrd : h.read = true ∨ h.deleted = true := by
        have hge : decide (h.article_num ≥ fM) = true := by simpa using hfm
        rw [hge] at hun
        cases hx : h.deleted <;> cases hy : h.read <;> simp [hx, hy] at hun ⊢
      refine ⟨⟨?_, ?_, ?_, ?_, ?_⟩, rfl⟩
      · intro e he b hb
        have := hbelow e he b hb
        show b ≤ h.article_num
        omega
      · intro _ e he b hb
        exact hapart hser e he b hb
      · intro _
        have := hnear hser
        show s.first ≤ h.article_num + 1
        omega
      · intro x hx
        simp only [List.mem_append, List.mem_singleton] at hx
        show x.article_num ≤ h.article_num
        rcases hx with hx | hx
        · have := hseen x hx
          omega
        · rw [hx]
      · intro x hx
        simp only [List.mem_append, List.mem_singleton] at hx
        rcases hx with hx | hx
        · exact hmarks x hx
        · subst hx
          have := hnear hser
          constructor
          · intro _; exact hrd
          · intro _
            refine Or.inr ⟨hser, ?_⟩
            show s.first ≤ _
            omega
  · rw [if_neg hser]
    have hser2 : s.series = false := by simpa using hser
    by_cases hrd : (h.deleted || h.read) = true
    · rw [if_pos hrd]
      have hrd2 : h.read = true ∨ h.deleted = true := by
        cases hx : h.deleted <;> cases hy : h.read <;> simp [hx, hy] at hrd ⊢
      refine ⟨⟨?_, ?_, ?_, ?_, ?_⟩, rfl⟩
      · intro e he b hb
        have := hbelow e he b hb
        show b ≤ h.article_num
        omega
      · intro _ e he b hb
        have := hbelow e he b hb
        show b < (s.last + 1) % 2 ^ bits
        rw [hsucc]
        omega
      · intro _
        show (s.last + 1) % 2 ^ bits ≤ h.article_num + 1
        rw [hsucc]
        omega
      · intro x hx
        simp only [List.mem_append, List.mem_singleton] at hx
        show x.article_num ≤ h.article_num
        rcases hx with hx | hx
        · have := hseen x hx
          omega
        · rw [hx]
      · intro x hx
        simp only [List.mem_append, List.mem_singleton] at hx
        show ((∃ e ∈ s.out, e.covers x.article_num) ∨
          (true = true ∧ (s.last + 1) % 2 ^ bits ≤ x.article_num)) ↔ _
        rw [hsucc]
        rcases hx with hx | hx
        · rw [← hmarks x hx]
          have hxl := hseen x hx
          rw [hser2]
          constructor
          · rintro (hc | ⟨_, hf⟩)
            · exact Or.inl hc
            · omega
          · rintro (hc | ⟨hf, _⟩)
            · exact Or.inl hc
            · cases hf
        · subst hx
          constructor
          · intro _; exact hrd2
          · intro _; exact Or.inr ⟨rfl, by omega⟩
    · rw [if_neg hrd]
      have hd : h.deleted = false := by
        cases hx : h.deleted
        · rfl
        · rw [hx] at hrd; simp at hrd
      have hr : h.read = false := by
        cases hx : h.read
        · rfl
        · rw [hx] at hrd; simp at hrd
      refine ⟨⟨?_, ?_, ?_, ?_, ?_⟩, rfl⟩
      · intro e he b hb
        have := hbelow e he b hb
        show b ≤ h.article_num
        omega
      · intro hx
        exact absurd hx hser
      · intro hx
        exact absurd hx hser
      · intro x hx
        simp only [List.mem_append, List.mem_singleton] at hx
        show x.article_num ≤ h.article_num
        rcases hx with hx | hx
        · have := hseen x hx
          omega
        · rw [hx]
      · intro x hx
        simp only [List.mem_append, List.mem_singleton] at hx
        show ((∃ e ∈ s.out, e.covers x.article_num) ∨
          (s.series = true ∧ s.first ≤ x.article_num)) ↔ _
        rcases hx with hx | hx
        · exact hmarks x hx
        · subst hx
          rw [hr, hd, hser2]
          simp only [Bool.false_eq_true, false_and, or_false, or_self, iff_false, not_exists,
            not_and]
          intro e he hc
          have := hbelow e he _ hc
          omega

theorem gen_entries_fold_inv (bits fM : Nat) :
    ∀ (post pre : List Header) (s : GenState), GenInv pre s →
      post.Pairwise (fun a b => a.article_num < b.article_num) →
      (∀ h ∈ post, s.last < h.article_num ∧ fM ≤ h.article_num ∧ h.article_num < 2 ^ bits) →
      GenInv (pre ++ post) (post.foldl (gen_entries_step bits fM) s) := by
  intro post
  induction post with
  | nil => intro pre s hinv _ _; simpa using hinv
  | cons h t ih =>
    intro pre s hinv hpw hb
    obtain ⟨h1, h2, h3⟩ := hb h (List.mem_cons_self _ _)
    obtain ⟨hstep, hl⟩ := gen_entries_step_inv bits fM pre s h hinv h1 h2 h3
    rw [List.pairwise_cons] at hpw
    have := ih (pre ++ [h]) _ hstep hpw.2 (by
      intro x hx
      obtain ⟨_, x2, x3⟩ := hb x (List.mem_cons_of_mem _ hx)
      rw [hl]
      exact ⟨hpw.1 x hx, x2, x3⟩)
    simpa using this

theorem gen_entries_close_marks (lastLoaded : Nat) (recs : List Header) (s : GenState)
    (hinv : GenInv recs s) (hll : ∀ h ∈ recs, h.article_num ≤ lastLoaded) :
    ∀ h ∈ recs, (∃ e ∈ (gen_entries_close lastLoaded s).out, e.covers h.article_num) ↔
      (h.read = true ∨ h.deleted = true) := by
  intro h hmem
  rw [← hinv.marks h hmem]
  have hl := hll h hmem
  unfold gen_entries_close
  by_cases hc : (s.series && decide (s.first ≤ lastLoaded)) = true
  · rw [if_pos hc]
    simp only [Bool.and_eq_true, decide_eq_true_eq] at hc
    simp only [GenState.emit, List.mem_append, List.mem_singleton]
    constructor
    · rintro ⟨e, he | he, hcov⟩
      · exact Or.inl ⟨e, he, hcov⟩
      · subst he
        exact Or.inr ⟨hc.1, hcov.1⟩
    · rintro (⟨e, he, hcov⟩ | ⟨_, hf⟩)
      · exact ⟨e, Or.inl he, hcov⟩
      · exact ⟨_, Or.inr rfl, ⟨hf, hl⟩⟩
  · rw [if_neg hc]
    constructor
    · intro hx; exact Or.inl hx
    · rintro (hx | ⟨hs, hf⟩)
      · exact hx
      · exfalso
        apply hc
        simp only [Bool.and_eq_true, decide_eq_true_eq]
        exact ⟨hs, by omega⟩

theorem gen_entries_marks (bits : Nat) (d : NntpData) (recs : List Header)
    (hpw : recs.Pairwise (fun a b => a.article_num < b.article_num))
    (hb : ∀ h ∈ recs, 1 ≤ h.article_num ∧ d.firstMessage ≤ h.article_num ∧
      h.article_num ≤ d.lastLoaded)
    (hbits : d.lastLoaded < 2 ^ bits) :
    ∀ h ∈ recs, (∃ e ∈ (gen_entries bits d recs).out, e.covers h.article_num) ↔
      (h.read = true ∨ h.deleted = true) := by
  have h0 : GenInv []
      { out := [], entries := if d.newsrc_len == 0 then 5 else d.newsrc_len, first := 1,
        last := 0, series := true } := by
    refine ⟨?_, ?_, ?_, ?_, ?_⟩
    · intro e he; cases he
    · intro _ e he; cases he
    · intro _; exact Nat.le_refl _
    · intro h hh; cases hh
    · intro h hh; cases hh
  have := gen_entries_fold_inv bits d.firstMessage recs [] _ h0 hpw (by
    intro h hh
    obtain ⟨a1, a2, a3⟩ := hb h hh
    exact ⟨a1, a2, by omega⟩)
  rw [List.nil_append] at this
  exact gen_entries_close_marks d.lastLoaded recs _ this (fun h hh => (hb h hh).2.2)

theorem find_put_data (news : NntpServer) (a : Option Nat) (d d1 : NntpData)
    (hf : find_data news a = some d) (haddr : d1.addr = d.addr) :
    find_data (put_data news d1) a = some d1 := by
  unfold find_data at hf ⊢
  unfold put_data
  cases hg : news.groups_hash with
  | none => rw [hg] at hf; cases hf
  | some l =>
    rw [hg] at hf
    cases a with
    | none => cases hf
    | some x =>
      dsimp only at hf ⊢
      simp only [Option.map_some']
      have hx : d.addr = x := by
        have := List.find?_some hf
        simpa using this
      clear hg
      induction l with
      | nil => cases hf
      | cons y t ih =>
        simp only [List.find?_cons] at hf
        simp only [List.map_cons, List.find?_cons]
        by_cases hy : (y.addr == x) = true
        · have hyd : (y.addr == d1.addr) = true := by
            rw [haddr, hx]; exact hy
          rw [if_pos hyd]
          have : (d1.addr == x) = true := by rw [haddr, hx]; simp
          rw [this]
        · have hy2 : (y.addr == x) = false := by simpa using hy
          rw [hy2] at hf
          have hyd : ¬ (y.addr == d1.addr) = true := by
            rw [haddr, hx]; exact hy
          rw [if_neg hyd, hy2]
          exact ih hf

theorem entries_of_out (d : NntpData) (out : List NewsrcEntry) :
    ({ d with newsrc_ent := if out.isEmpty then none else some out,
              newsrc_len := out.length } : NntpData).entries = some out := by
  unfold NntpData.entries
  cases out with
  | nil => rfl
  | cons x t => simp

theorem nntp_article_status_read (g : Globals) (ctx : Context) (hdr : Header) (anum : Nat)
    (d : NntpData) (ents : List NewsrcEntry)
    (hd : find_data g.news ctx.data = some d) (he : d.entries = some ents) :
    ∃ hdr1, nntp_article_status g ctx hdr none anum = some hdr1 ∧
      (hdr1.read = true ↔ (hdr.read = true ∨ ∃ e ∈ ents, e.covers anum)) := by
  unfold nntp_article_status
  dsimp only
  rw [hd]
  dsimp only
  rw [he]
  dsimp only
  by_cases hany : (ents.any (fun e => decide (anum ≥ e.first) && decide (anum ≤ e.last))) = true
  · rw [if_pos hany]
    refine ⟨_, rfl, ?_⟩
    simp only [true_iff]
    right
    simp only [List.any_eq_true, Bool.and_eq_true, decide_eq_true_eq] at hany
    obtain ⟨e, hmem, h1, h2⟩ := hany
    exact ⟨e, hmem, h1, h2⟩
  · rw [if_neg hany]
    have hnone : ¬ ∃ e ∈ ents, e.covers anum := by
      rintro ⟨e, hmem, h1, h2⟩
      apply hany
      simp only [List.any_eq_true, Bool.and_eq_true, decide_eq_true_eq]
      exact ⟨e, hmem, h1, h2⟩
    split
    · exact ⟨_, rfl, by simp [hnone]⟩
    · split
      · exact ⟨_, rfl, by simp [hnone]⟩
      · exact ⟨_, rfl, by simp [hnone]⟩

/-- C30, amended: for a news session whose records (in mailbox order) have
strictly increasing article numbers, all at least 1 and in
`[firstMessage, lastLoaded]`, `nntp_newsrc_gen_entries` returns, and in the
entries it leaves in the group data the article number of a record lies
inside some entry `[first, last]` if and only if that record is read or
deleted; so `nntp_article_status`, run against these entries for the article
of a record on a header not yet marked read, marks it read exactly when the
record was read or deleted. -/
theorem nntp_newsrc_gen_entries_marks (env : Env) (bits : Nat) (sort_order : Bool)
    (g : Globals) (ctx : Context) (w : World) (d : NntpData) (recs : List Header)
    (hd : find_data g.news ctx.data = some d)
    (hlive : (if !sort_order then env.mutt_sort_headers w.trace ctx else ctx).live = some recs)
    (hpw : recs.Pairwise (fun a b => a.article_num < b.article_num))
    (hb : ∀ h ∈ recs, 1 ≤ h.article_num ∧ d.firstMessage ≤ h.article_num ∧
      h.article_num ≤ d.lastLoaded)
    (hbits : d.lastLoaded < 2 ^ bits) :
    ∃ c g1 w1 d1 ents,
      nntp_newsrc_gen_entries env bits sort_order g ctx w = some (c, g1, w1) ∧
      find_data g1.news ctx.data = some d1 ∧ d1.entries = some ents ∧
      (∀ h ∈ recs, (∃ e ∈ ents, e.covers h.article_num) ↔
        (h.read = true ∨ h.deleted = true)) ∧
      (∀ h ∈ recs, ∀ hdr : Header, hdr.read = false →
        ∃ hdr1, nntp_article_status g1 ctx hdr none h.article_num = some hdr1 ∧
          (hdr1.read = true ↔ (h.read = true ∨ h.deleted = true))) := by
  have hmarks := gen_entries_marks bits d recs hpw hb hbits
  have hlive2 : (if (!sort_order) = true then
      (env.mutt_sort_headers w.trace ctx, w.log Event.sort_headers)
      else (ctx, w)).1.live = some recs := by
    cases sort_order
    · exact hlive
    · exact hlive
  have hfind := find_put_data g.news ctx.data d (gen_entries_data bits d recs) hd rfl
  have hents : (gen_entries_data bits d recs).entries = some (gen_entries bits d recs).out :=
    entries_of_out d (gen_entries bits d recs).out
  have hres : ∃ c w1, nntp_newsrc_gen_entries env bits sort_order g ctx w =
      some (c, { g with news := put_data g.news (gen_entries_data bits d recs) }, w1) := by
    unfold nntp_newsrc_gen_entries
    rw [hd]
    dsimp only
    rw [hlive2]
    exact ⟨_, _, rfl⟩
  obtain ⟨c, w1, hres⟩ := hres
  refine ⟨c, { g with news := put_data g.news (gen_entries_data bits d recs) }, w1,
    gen_entries_data bits d recs, (gen_entries bits d recs).out, hres, hfind, hents, hmarks, ?_⟩
  · intro h hmem hdr hread
    obtain ⟨hdr1, h1, h2⟩ := nntp_article_status_read
      { g with news := put_data g.news (gen_entries_data bits d recs) }
      ctx hdr h.article_num _ _ hfind hents
    refine ⟨hdr1, h1, ?_⟩
    rw [h2, hread, hmarks h hmem]
    simp

/-- Witness of the amended C30 on the four-article session in the example
group (articles 1 to 10): the entries generated are 1-3, 5-8 and none after
article 9. -/
theorem nntp_newsrc_gen_entries_marks_witness :
    (∃ c g1 w1 d1 ents,
      nntp_newsrc_gen_entries ex_env 32 true ex_globals ex_articles_ctx ex_world =
        some (c, g1, w1) ∧
      find_data g1.news ex_articles_ctx.data = some d1 ∧ d1.entries = some ents ∧
      (∀ h ∈ ex_articles_ctx.records, (∃ e ∈ ents, e.covers h.article_num) ↔
        (h.read = true ∨ h.deleted = true)) ∧
      (∀ h ∈ ex_articles_ctx.records, ∀ hdr : Header, hdr.read = false →
        ∃ hdr1, nntp_article_status g1 ex_articles_ctx hdr none h.article_num = some hdr1 ∧
          (hdr1.read = true ↔ (h.read = true ∨ h.deleted = true)))) ∧
    (nntp_newsrc_gen_entries ex_env 32 true ex_globals ex_articles_ctx ex_world).map
        (fun r => (find_data r.2.1.news (some 100)).map (fun d => d.newsrc_ent)) =
      some (some (some [{ first := 1, last := 3 }, { first := 5, last := 8 }])) :=
  ⟨nntp_newsrc_gen_entries_marks ex_env 32 true ex_globals ex_articles_ctx ex_world ex_group
      ex_articles_ctx.records rfl rfl (by decide) (by decide) (by decide),
    rfl⟩

theorem core_of_sup_free (a b : Header) (h : a.sup_free = b.sup_free) : a.core = b.core := by
  have : a.core = { a.sup_free with msgno := 0, virtual := 0 } := rfl
  rw [this, h]
  rfl

theorem update_at_sup_free (ctx : Context) (a : Nat) :
    (ctx.update_at a (fun x => { x with superseded := true })).hdrs.map
        (Option.map Header.sup_free) =
      ctx.hdrs.map (Option.map Header.sup_free) := by
  simp only [Context.update_at, List.map_map]
  apply List.map_congr_left
  intro s _
  cases s with
  | none => rfl
  | some h =>
    simp only [Function.comp, Option.map_some', Option.some.injEq]
    split <;> rfl

theorem update_context_supersedes_frame (opts : Options)
    (score : Context → Header → Bool → Header × Context) (h : Header) (ctx : Context)
    (hs : opts.OPTSCORE = false) :
    (update_context_supersedes opts score h ctx).hdrs.map (Option.map Header.sup_free) =
        ctx.hdrs.map (Option.map Header.sup_free) ∧
      update_context_supersedes opts score h ctx =
        { ctx with hdrs := (update_context_supersedes opts score h ctx).hdrs,
                   id_hash := (update_context_supersedes opts score h ctx).id_hash } := by
  unfold update_context_supersedes
  cases h.env.supersedes with
  | none => exact ⟨rfl, rfl⟩
  | some sup =>
    dsimp only
    rw [hs]
    simp only [Bool.false_eq_true, if_false]
    by_cases hid : ctx.id_hash.isNone = true
    · simp only [hid, if_true]
      cases hash_find ((some (mutt_make_id_hash ctx)).getD []) sup with
      | none => exact ⟨rfl, rfl⟩
      | some a => exact ⟨update_at_sup_free _ a, rfl⟩
    · simp only [hid, if_false, Bool.false_eq_true]
      cases hash_find (ctx.id_hash.getD []) sup with
      | none => exact ⟨rfl, rfl⟩
      | some a => exact ⟨update_at_sup_free _ a, rfl⟩

theorem update_context_hashes_frame (h : Header) (ctx : Context) :
    update_context_hashes h ctx =
      { ctx with id_hash := (update_context_hashes h ctx).id_hash,
                 subj_hash := (update_context_hashes h ctx).subj_hash,
                 label_hash := (update_context_hashes h ctx).label_hash } := by
  simp only [update_context_hashes]
  split <;> split <;> rfl

theorem update_context_count_eq (h : Header) (ctx : Context) :
    update_context_count h ctx =
      { ctx with
        changed := ctx.changed || h.changed,
        flagged := ctx.flagged + (if h.flagged then 1 else 0),
        deleted := ctx.deleted + (if h.deleted then 1 else 0),
        unread := ctx.unread + (if !h.read then 1 else 0),
        new := ctx.new + (if !h.read && !h.old then 1 else 0) } := by
  rcases h with ⟨a, m, v, hd, hr, ho, hf, hrep, ht, hp, hc, hact, hq, hs, rc, an, b, e⟩
  cases hd <;> cases hf <;> cases hr <;> cases ho <;> cases hc <;>
  simp [update_context_count]

theorem slot_of_map {f : Header → Header} (A B : List (Option Header)) (j : Nat)
    (h : A.map (Option.map f) = B.map (Option.map f)) (x : Header)
    (hx : A.get? j = some (some x)) :
    ∃ y, B.get? j = some (some y) ∧ f x = f y := by
  rw [List.get?_eq_getElem?] at hx
  have h1 : (A.map (Option.map f))[j]? = some (some (f x)) := by
    rw [List.getElem?_map, hx]; rfl
  rw [h, List.getElem?_map] at h1
  rw [List.get?_eq_getElem?]
  cases hb : B[j]? with
  | none => rw [hb] at h1; cases h1
  | some s =>
    rw [hb] at h1
    cases s with
    | none => simp at h1
    | some y =>
      refine ⟨y, rfl, ?_⟩
      simp only [Option.map_some', Option.some.injEq] at h1
      exact h1.symm

theorem take_succ_countP (p : Header → Bool) (R : List Header) (i : Nat) (h : Header)
    (hi : R[i]? = some h) :
    (((R.take (i + 1)).countP p : Nat) : Int) =
      ((R.take i).countP p : Nat) + (if p h then 1 else 0) := by
  rw [List.take_succ, hi]
  simp only [Option.toList_some, List.countP_append, List.countP_singleton]
  split <;> simp

theorem wf_slot (ctx : Context) (hwf : ctx.WF) (i : Nat) (hi : i < ctx.msgcount) :
    ∃ h, ctx.hdrs.get? i = some (some h) ∧ ctx.records[i]? = some h := by
  obtain ⟨h1, h2, _⟩ := hwf
  have hlt : i < ctx.records.length := by omega
  refine ⟨ctx.records[i], ?_, List.getElem?_eq_getElem hlt⟩
  have : (ctx.hdrs.take ctx.msgcount)[i]? = some (some ctx.records[i]) := by
    rw [h1, List.getElem?_map, List.getElem?_eq_getElem hlt]
    rfl
  rw [List.getElem?_take_of_lt hi] at this
  rw [List.get?_eq_getElem?]
  exact this

theorem core_flags (a b : Header) (h : a.core = b.core) :
    a.flagged = b.flagged ∧ a.deleted = b.deleted ∧ a.read = b.read ∧ a.old = b.old ∧
      a.active = b.active ∧ a.quasi_deleted = b.quasi_deleted := by
  have h1 := congrArg Header.flagged h
  have h2 := congrArg Header.deleted h
  have h3 := congrArg Header.read h
  have h4 := congrArg Header.old h
  have h5 := congrArg Header.active h
  have h6 := congrArg Header.quasi_deleted h
  exact ⟨h1, h2, h3, h4, h5, h6⟩

theorem sup_free_index (a b : Header) (h : a.sup_free = b.sup_free) :
    a.msgno = b.msgno ∧ a.virtual = b.virtual := by
  have h1 := congrArg Header.msgno h
  have h2 := congrArg Header.virtual h
  exact ⟨h1, h2⟩

theorem core_map_of_sup_free (A B : List (Option Header))
    (h : A.map (Option.map Header.sup_free) = B.map (Option.map Header.sup_free)) :
    A.map (Option.map Header.core) = B.map (Option.map Header.core) := by
  have e : ∀ L : List (Option Header), L.map (Option.map Header.core) =
      (L.map (Option.map Header.sup_free)).map
        (Option.map (fun x : Header => { x with msgno := 0, virtual := 0 })) := by
    intro L
    rw [List.map_map]
    apply List.map_congr_left
    intro s _
    cases s <;> rfl
  rw [e A, e B, h]

theorem update_context_step_inv (opts : Options)
    (score : Context → Header → Bool → Header × Context) (ctx0 : Context) (i : Nat)
    (c : Context) (hwf : ctx0.WF) (hs : opts.OPTSCORE = false)
    (hinv : CountInv ctx0 ctx0.records i c) (hi : i < ctx0.msgcount) :
    ∃ c1, update_context_step opts score i c = some c1 ∧
      CountInv ctx0 ctx0.records (i + 1) c1 := by
  obtain ⟨h0, hslot0, hrec0⟩ := wf_slot ctx0 hwf i hi
  obtain ⟨h, hget, hcore⟩ := slot_of_map ctx0.hdrs c.hdrs i hinv.slots.symm h0 hslot0
  have hroom : ¬ (c.pattern.isNone && decide (c.v2r.length ≤ c.vcount)) = true := by
    have := hwf.2.2
    rw [hinv.v2r_len, hinv.vcount]
    simp
    intro _
    omega
  have hilen : i < c.hdrs.length := by
    rw [List.get?_eq_getElem?] at hget
    exact (List.getElem?_eq_some_iff.mp hget).1
  -- the view
  have hview : update_context_view i h c =
      ({ h with virtual := (i : Int), msgno := (i : Int) },
       { c with v2r := c.v2r.set i (i : Int), vcount := i + 1 }) := by
    unfold update_context_view
    rw [hinv.pattern, hinv.vcount]
    rfl
  -- the supersedes block
  obtain ⟨c2, hc2⟩ : ∃ c2, c2 = update_context_supersedes opts score
      { h with virtual := (i : Int), msgno := (i : Int) }
      { c with v2r := c.v2r.set i (i : Int), vcount := i + 1,
               hdrs := c.hdrs.set i (some { h with virtual := (i : Int), msgno := (i : Int) }) } :=
    ⟨_, rfl⟩
  obtain ⟨hf1, hf2⟩ := update_context_supersedes_frame opts score
      { h with virtual := (i : Int), msgno := (i : Int) }
      { c with v2r := c.v2r.set i (i : Int), vcount := i + 1,
               hdrs := c.hdrs.set i (some { h with virtual := (i : Int), msgno := (i : Int) }) } hs
  rw [← hc2] at hf1 hf2
  dsimp only at hf1
  have hset : (c.hdrs.set i (some { h with virtual := (i : Int), msgno := (i : Int) })).get? i =
      some (some { h with virtual := (i : Int), msgno := (i : Int) }) := by
    rw [List.get?_eq_getElem?, List.getElem?_set_self hilen]
  obtain ⟨h3, hget3, hsf3⟩ := slot_of_map _ c2.hdrs i hf1.symm _ hset
  -- the hash tables and the counters
  have hstep : update_context_step opts score i c =
      some (update_context_count h3 (update_context_hashes h3 c2)) := by
    unfold update_context_step
    rw [hget]
    dsimp only
    rw [if_neg hroom, hview]
    dsimp only
    rw [← hc2, hget3]
    dsimp only
    rw [hs]
    simp only [Bool.false_eq_true, if_false]
    have : (update_context_hashes h3 c2).hdrs.get? i = some (some h3) := by
      rw [update_context_hashes_frame]
      exact hget3
    rw [this]
  refine ⟨_, hstep, ?_⟩
  rw [update_context_count_eq, update_context_hashes_frame, hf2]
  have hflags : h3.flagged = h0.flagged ∧ h3.deleted = h0.deleted ∧ h3.read = h0.read ∧
      h3.old = h0.old := by
    have e1 := core_of_sup_free _ _ hsf3
    have e2 : h3.core = h0.core := by
      rw [← e1, hcore]
      rfl
    obtain ⟨a1, a2, a3, a4, _, _⟩ := core_flags _ _ e2
    exact ⟨a1, a2, a3, a4⟩
  obtain ⟨hfl, hdl, hrd, hol⟩ := hflags
  refine ⟨?_, ?_, hinv.msgcount, hinv.magic, hinv.pattern, ?_, ?_, ?_, ?_, ?_, ?_, ?_⟩
  · show c2.hdrs.map (Option.map Header.core) = _
    rw [core_map_of_sup_free _ _ hf1, ← hinv.slots, List.map_set]
    apply set_same
    intro _
    rw [List.getElem?_map]
    rw [List.get?_eq_getElem?] at hget
    rw [hget]
    rfl
  · intro j hj x hx
    have hx2 : c2.hdrs.get? j = some (some x) := hx
    obtain ⟨y, hy, hxy⟩ := slot_of_map c2.hdrs _ j hf1 x hx2
    obtain ⟨hm, hv⟩ := sup_free_index x y hxy
    by_cases hji : j = i
    · subst hji
      rw [hset] at hy
      simp only [Option.some.injEq] at hy
      rw [hm, hv, ← hy]
      exact ⟨rfl, rfl⟩
    · rw [List.get?_eq_getElem?, List.getElem?_set_ne (by omega)] at hy
      rw [hm, hv]
      exact hinv.numbered j (by omega) y (by rw [List.get?_eq_getElem?]; exact hy)
  · rfl
  · show (c.v2r.set i (i : Int)).length = _
    rw [List.length_set, hinv.v2r_len]
  · intro j hj
    show (c.v2r.set i (i : Int))[j]? = _
    by_cases hji : j = i
    · subst hji
      rw [List.getElem?_set_self (by rw [hinv.v2r_len]; have := hwf.2.2; omega)]
    · rw [List.getElem?_set_ne (by omega)]
      exact hinv.v2r j (by omega)
  · show c.flagged + (if h3.flagged = true then 1 else 0) = _
    rw [take_succ_countP _ _ _ _ hrec0, hinv.flagged, hfl]
  · show c.deleted + (if h3.deleted = true then 1 else 0) = _
    rw [take_succ_countP _ _ _ _ hrec0, hinv.deleted, hdl]
  · show c.unread + (if (!h3.read) = true then 1 else 0) = _
    rw [take_succ_countP _ _ _ _ hrec0, hinv.unread, hrd]
  · show c.new + (if (!h3.read && !h3.old) = true then 1 else 0) = _
    rw [take_succ_countP _ _ _ _ hrec0, hinv.new, hrd, hol]

theorem update_context_loop_inv (opts : Options)
    (score : Context → Header → Bool → Header × Context) (ctx0 : Context) (hwf : ctx0.WF)
    (hs : opts.OPTSCORE = false) :
    ∀ (n i : Nat) (c : Context), CountInv ctx0 ctx0.records i c → i + n ≤ ctx0.msgcount →
      ∃ c1, update_context_loop opts score n i c = some c1 ∧
        CountInv ctx0 ctx0.records (i + n) c1 := by
  intro n
  induction n with
  | zero => intro i c hinv _; exact ⟨c, rfl, hinv⟩
  | succ n ih =>
    intro i c hinv hle
    obtain ⟨c1, h1, hinv1⟩ := update_context_step_inv opts score ctx0 i c hwf hs hinv (by omega)
    obtain ⟨c2, h2, hinv2⟩ := ih (i + 1) c1 hinv1 (by omega)
    refine ⟨c2, ?_, ?_⟩
    · simp only [update_context_loop, h1, h2]
    · have e : i + (n + 1) = i + 1 + n := by omega
      rw [e]; exact hinv2

theorem all_some_of_map {f : Header → Header} : ∀ (L : List (Option Header)) (K : List Header),
    L.map (Option.map f) = K.map some →
      L = (L.filterMap id).map some ∧ (L.filterMap id).map f = K := by
  intro L
  induction L with
  | nil =>
    intro K h
    cases K with
    | nil => exact ⟨rfl, rfl⟩
    | cons k t => simp at h
  | cons x t ih =>
    intro K h
    cases K with
    | nil => simp at h
    | cons k K =>
      simp only [List.map_cons, List.cons.injEq] at h
      obtain ⟨hx, ht⟩ := h
      obtain ⟨i1, i2⟩ := ih K ht
      cases x with
      | none => simp at hx
      | some y =>
        simp only [Option.map_some', Option.some.injEq] at hx
        simp only [List.filterMap_cons_some (rfl : id (some y) = some y), List.map_cons,
          List.cons.injEq, true_and]
        exact ⟨i1, hx, i2⟩

theorem renumber_fixed : ∀ (K : List Header) (j vc : Nat),
    (∀ k h, K[k]? = some h → h.msgno = ((j + k : Nat) : Int) ∧
      h.virtual = ((vc + k : Nat) : Int)) →
    renumber false j vc K = K := by
  intro K
  induction K with
  | nil => intro j vc _; rfl
  | cons a t ih =>
    intro j vc hk
    obtain ⟨hm, hv⟩ := hk 0 a (by simp)
    simp only [Nat.add_zero] at hm hv
    have hvis : (a.virtual != -1) = true := by
      rw [hv]
      simp
    simp only [renumber, hvis, if_true, Bool.false_eq_true, if_false]
    rw [ih (j + 1) (vc + 1) (by
      intro k h hkh
      have := hk (k + 1) h (by simpa using hkh)
      have e1 : j + (k + 1) = j + 1 + k := by omega
      have e2 : vc + (k + 1) = vc + 1 + k := by omega
      rw [e1, e2] at this
      exact this)]
    congr 1
    rw [← hm, ← hv]

theorem v2r_fill_fixed : ∀ (K : List Header) (v : List Int) (j vc : Nat),
    (∀ h ∈ K, (h.virtual != -1) = true) →
    (∀ k, k < K.length → v[vc + k]? = some ((j + k : Nat) : Int)) →
    v2r_fill v j vc K = v := by
  intro K
  induction K with
  | nil => intro v j vc _ _; rfl
  | cons a t ih =>
    intro v j vc hvis hv
    simp only [v2r_fill, hvis a (List.mem_cons_self _ _), if_true]
    have h0 := hv 0 (by simp)
    simp only [Nat.add_zero] at h0
    have hset : v.set vc (j : Int) = v := set_same v vc (j : Int) (fun _ => h0)
    rw [hset]
    apply ih v (j + 1) (vc + 1) (fun h hh => hvis h (List.mem_cons_of_mem _ hh))
    intro k hk
    have := hv (k + 1) (by simp; omega)
    have e1 : j + (k + 1) = j + 1 + k := by omega
    have e2 : vc + (k + 1) = vc + 1 + k := by omega
    rw [e1, e2] at this
    exact this

theorem countP_core (p : Header → Bool) (hp : ∀ h, p h.core = p h) (A B : List Header)
    (h : A.map Header.core = B.map Header.core) : A.countP p = B.countP p := by
  have e : ∀ L : List Header, L.countP p = (L.map Header.core).countP p := by
    intro L
    rw [List.countP_map]
    apply List.countP_congr
    intro x _
    simp only [Function.comp, hp]
  rw [e A, e B, h]

/-- C29: for a well-formed session with no limit pattern, an empty view and
the flagged, deleted, unread and new counters at zero, with scoring off and
every record active and none quasi-deleted, `mx_update_context` over all of
its records returns, and an immediately following `mx_update_tables (ctx, 0)`
returns and leaves `msgcount`, `vcount`, every record (so its `msgno` and
`virtual`), `v2r` and the flagged, deleted, unread and new counters as
`mx_update_context` left them; and these counters are the numbers of flagged,
deleted, unread and new records. -/
theorem update_context_agrees_with_recount (opts : Options)
    (score : Context → Header → Bool → Header × Context) (ctx : Context)
    (hwf : ctx.WF) (hs : opts.OPTSCORE = false) (hpat : ctx.pattern = none)
    (hzero : ctx.vcount = 0 ∧ ctx.flagged = 0 ∧ ctx.deleted = 0 ∧ ctx.unread = 0 ∧ ctx.new = 0)
    (hact : ∀ h ∈ ctx.records, h.active = true ∧ h.quasi_deleted = false) :
    ∃ c1 c2, mx_update_context opts score ctx ctx.msgcount = some c1 ∧
      mx_update_tables opts c1 false = some c2 ∧
      c2.msgcount = c1.msgcount ∧ c2.vcount = c1.vcount ∧
      c2.records = c1.records ∧
      c2.records.map (fun h => (h.msgno, h.virtual)) =
        (List.range c1.msgcount).map (fun (k : Nat) => ((k : Int), (k : Int))) ∧
      c2.v2r = c1.v2r ∧ c2.v2r.take c2.vcount = c1.v2r.take c1.vcount ∧
      c2.flagged = c1.flagged ∧ c2.deleted = c1.deleted ∧ c2.unread = c1.unread ∧
      c2.new = c1.new ∧
      c1.flagged = ((c1.records.countP (fun h => h.flagged) : Nat) : Int) ∧
      c1.deleted = ((c1.records.countP (fun h => h.deleted) : Nat) : Int) ∧
      c1.unread = ((c1.records.countP (fun h => !h.read) : Nat) : Int) ∧
      c1.new = ((c1.records.countP (fun h => !h.read && !h.old) : Nat) : Int) := by
  obtain ⟨hz1, hz2, hz3, hz4, hz5⟩ := hzero
  have h0 : CountInv ctx ctx.records 0 ctx := by
    refine ⟨rfl, ?_, rfl, rfl, hpat, hz1, rfl, ?_, ?_, ?_, ?_, ?_⟩
    · intro j hj; omega
    · intro j hj; omega
    · rw [hz2]; simp
    · rw [hz3]; simp
    · rw [hz4]; simp
    · rw [hz5]; simp
  obtain ⟨c1, hloop, hinv⟩ := update_context_loop_inv opts score ctx hwf hs ctx.msgcount 0 ctx
    h0 (by omega)
  rw [Nat.zero_add] at hinv
  have hc1 : mx_update_context opts score ctx ctx.msgcount = some c1 := by
    unfold mx_update_context
    rw [if_pos (Nat.le_refl _), Nat.sub_self]
    exact hloop
  -- the records of the counted session
  have htake : (c1.hdrs.take ctx.msgcount).map (Option.map Header.core) =
      (ctx.records.map Header.core).map some := by
    rw [List.map_take, hinv.slots, ← List.map_take, hwf.1, List.map_map, List.map_map]
    rfl
  obtain ⟨hall, hcore⟩ := all_some_of_map _ _ htake
  have hrec1 : c1.records = (c1.hdrs.take ctx.msgcount).filterMap id := by
    unfold Context.records
    rw [hinv.msgcount]
  rw [← hrec1] at hall hcore
  have hlen1 : c1.records.length = ctx.msgcount := by
    have := congrArg List.length hcore
    rw [List.length_map, List.length_map, hwf.2.1] at this
    exact this
  have hwf1 : c1.WF := by
    refine ⟨?_, ?_, ?_⟩
    · rw [hinv.msgcount]; exact hall
    · rw [hinv.msgcount]; exact hlen1
    · rw [hinv.msgcount, hinv.v2r_len]; exact hwf.2.2
  have hnum : ∀ k h, c1.records[k]? = some h →
      h.msgno = ((0 + k : Nat) : Int) ∧ h.virtual = ((0 + k : Nat) : Int) := by
    intro k h hk
    have hklt : k < ctx.msgcount := by
      rw [← hlen1]
      exact (List.getElem?_eq_some_iff.mp hk).1
    have hslot : c1.hdrs.get? k = some (some h) := by
      have : (c1.hdrs.take ctx.msgcount)[k]? = some (some h) := by
        rw [hall, List.getElem?_map, hk]
        rfl
      rw [List.getElem?_take_of_lt hklt] at this
      rw [List.get?_eq_getElem?]
      exact this
    rw [Nat.zero_add]
    exact hinv.numbered k hklt h hslot
  have hflags : ∀ h ∈ c1.records, h.active = true ∧ h.quasi_deleted = false := by
    intro h hmem
    have : h.core ∈ ctx.records.map Header.core := by
      rw [← hcore]
      exact List.mem_map_of_mem _ hmem
    obtain ⟨x, hx, hxc⟩ := List.mem_map.mp this
    obtain ⟨_, _, _, _, a5, a6⟩ := core_flags h x hxc.symm
    rw [a5, a6]
    exact hact x hx
  have hkept : c1.kept opts false = c1.records := by
    unfold Context.kept
    apply List.filter_eq_self.mpr
    intro h hmem
    obtain ⟨a5, a6⟩ := hflags h hmem
    simp [update_tables_keep, a5, a6]
  have hvis : ∀ h ∈ c1.records, (h.virtual != -1) = true := by
    intro h hmem
    obtain ⟨k, hk⟩ := List.getElem?_of_mem hmem
    rw [(hnum k h hk).2]
    simp
  obtain ⟨c2, hc2, hr⟩ := mx_update_tables_result opts c1 false hwf1
  have hrecs : c2.records = c1.records := by
    rw [hr.records, hkept]
    exact renumber_fixed _ 0 0 hnum
  have hv2r : c2.v2r = c1.v2r := by
    rw [hr.v2r, hkept]
    apply v2r_fill_fixed _ _ 0 0 hvis
    intro k hk
    rw [hlen1] at hk
    simp only [Nat.zero_add]
    exact hinv.v2r k hk
  have hvc : c2.vcount = c1.vcount := by
    rw [hr.vcount, hkept, hinv.vcount, ← hlen1]
    exact List.countP_eq_length.mpr hvis
  have htk : ctx.records.take ctx.msgcount = ctx.records := by
    apply List.take_of_length_le
    rw [hwf.2.1]
  have cnt : ∀ (p : Header → Bool), (∀ h, p h.core = p h) →
      c1.records.countP p = (ctx.records.take ctx.msgcount).countP p := by
    intro p hp
    rw [htk]
    exact countP_core p hp _ _ hcore
  have hfl := cnt (fun h => h.flagged) (fun _ => rfl)
  have hdl := cnt (fun h => h.deleted) (fun _ => rfl)
  have hun := cnt (fun h => !h.read) (fun _ => rfl)
  have hnw := cnt (fun h => !h.read && !h.old) (fun _ => rfl)
  refine ⟨c1, c2, hc1, hc2, ?_, hvc, hrecs, ?_, hv2r, ?_, ?_, ?_, ?_, ?_, ?_, ?_, ?_, ?_⟩
  · rw [hr.msgcount, hkept, hlen1, hinv.msgcount]
  · rw [hrecs, hinv.msgcount]
    apply List.ext_getElem?
    intro k
    rw [List.getElem?_map, List.getElem?_map]
    by_cases hk : k < ctx.msgcount
    · rw [List.getElem?_range hk]
      have hk2 : k < c1.records.length := by rw [hlen1]; exact hk
      rw [List.getElem?_eq_getElem hk2]
      obtain ⟨a1, a2⟩ := hnum k _ (List.getElem?_eq_getElem hk2)
      simp only [Option.map_some', Nat.zero_add] at a1 a2 ⊢
      rw [a1, a2]
    · rw [List.getElem?_eq_none (by rw [hlen1]; omega),
        List.getElem?_eq_none (by rw [List.length_range]; omega)]
      rfl
  · rw [hv2r, hvc]
  · rw [hr.flagged, hkept, hinv.flagged, hfl]
  · rw [hr.deleted, hkept, hinv.deleted, ← hdl]
    simp
  · rw [hr.unread, hkept, hinv.unread, hun]
  · rw [hr.new, hkept, hinv.new, hnw]
  · rw [hinv.flagged, hfl]
  · rw [hinv.deleted, hdl]
  · rw [hinv.unread, hun]
  · rw [hinv.new, hnw]

/-- Witness of C29 on the three-record session a backend has just parsed. -/
theorem update_context_agrees_with_recount_witness :
    (ex_parsed_ctx.WF ∧ ex_opts.OPTSCORE = false ∧ ex_parsed_ctx.pattern = none ∧
      (∀ h ∈ ex_parsed_ctx.records, h.active = true ∧ h.quasi_deleted = false)) ∧
    ∃ c1 c2, mx_update_context ex_opts (fun c h _ => (h, c)) ex_parsed_ctx
        ex_parsed_ctx.msgcount = some c1 ∧
      mx_update_tables ex_opts c1 false = some c2 ∧
      c2.msgcount = c1.msgcount ∧ c2.vcount = c1.vcount ∧
      c2.records = c1.records ∧
      c2.records.map (fun h => (h.msgno, h.virtual)) =
        (List.range c1.msgcount).map (fun (k : Nat) => ((k : Int), (k : Int))) ∧
      c2.v2r = c1.v2r ∧ c2.v2r.take c2.vcount = c1.v2r.take c1.vcount ∧
      c2.flagged = c1.flagged ∧ c2.deleted = c1.deleted ∧ c2.unread = c1.unread ∧
      c2.new = c1.new ∧
      c1.flagged = ((c1.records.countP (fun h => h.flagged) : Nat) : Int) ∧
      c1.deleted = ((c1.records.countP (fun h => h.deleted) : Nat) : Int) ∧
      c1.unread = ((c1.records.countP (fun h => !h.read) : Nat) : Int) ∧
      c1.new = ((c1.records.countP (fun h => !h.read && !h.old) : Nat) : Int) :=
  ⟨⟨by decide, rfl, rfl, by decide⟩,
    update_context_agrees_with_recount ex_opts (fun c h _ => (h, c)) ex_parsed_ctx (by decide)
      rfl rfl ⟨rfl, rfl, rfl, rfl, rfl⟩ (by decide)⟩

end Neomutt
